import Mathlib

/-!
Procedural 3D level generator: verification development.

Shallow embedding of the graph connector (`KruskalMSTLibrary.cpp`), the room
placer and the corridor router (`LevelGenerationLibrary.cpp`).

Conventions of the embedding:

* `TArray<T>` is `List T` in array order; `TArray::Add` appends at the end and
  `RemoveAt(0)` drops the head.
* `TSet<T>` and `TMap<K, V>` are kept as the list of their elements in insertion
  order (the order in which `Array()`, `GetKeys` and `GenerateKeyArray` deliver
  them); `Add` on a key that is present replaces the value in place.
* `int32` values are `Int`.  `float` values that only get compared and copied are
  exact rationals (every finite float is a rational number).
* A run that reads outside an array (an engine range check failure) is `none`.
-/

namespace LevelGen

/-! ## Data model -/

/-- Engine type `FIntVector`: an integer triple. -/
structure FIntVector where
  X : Int
  Y : Int
  Z : Int
deriving DecidableEq, Repr

/-- The struct `FEdgeInfo` of `DelaunayTriangulationLibrary.h`: a weighted edge
between two room anchors.  `Weight` is the stored `float`, as the rational it
denotes. -/
structure FEdgeInfo where
  Origin : FIntVector
  Destination : FIntVector
  Weight : ℚ
deriving DecidableEq, Repr

/-! ## Graph connector (`KruskalMSTLibrary.cpp`) -/

/-- Engine call `TArray::Find(Item, Index)`: the index of the first element equal
to the item, `none` standing for `INDEX_NONE`. -/
def TArrayFind : List FIntVector → FIntVector → Option Nat
  | [], _ => none
  | p :: rest, item =>
    if p = item then some 0 else (TArrayFind rest item).map (· + 1)

/-- Modelled from the spec: the engine class `FDisjointSet`
(`Runtime/MeshUtilitiesCommon/Public/DisjointSet.h`) is not among the repository
sources.  It is modelled by the union-find contract of section 4.3: every index
carries the representative of its set, `Find` reads it and `Union` merges the two
sets. -/
structure FDisjointSet where
  Parents : List Nat
deriving DecidableEq, Repr

/-- Constructor `FDisjointSet(Size)`: every index is its own set. -/
def FDisjointSet.Init (Size : Nat) : FDisjointSet := ⟨List.range Size⟩

/-- Representative of the set of index `i`, see `FDisjointSet`. -/
def FDisjointSet.Find (S : FDisjointSet) (i : Nat) : Nat := S.Parents.getD i i

/-- Merge of the sets of `x` and `y`, see `FDisjointSet`: every member of the set
of `x` gets the representative of `y`. -/
def FDisjointSet.Union (S : FDisjointSet) (x y : Nat) : FDisjointSet :=
  ⟨S.Parents.map (fun r => if r = S.Find x then S.Find y else r)⟩

/-- The comparison lambda handed to `TArray::Sort` in `GetMinimumSpanningTree`,
`GetMinimumSpanningTreeV2` and `GenerateCorridors3D`: strictly smaller weight. -/
def EdgeWeightLess (EdgeA EdgeB : FEdgeInfo) : Bool :=
  if EdgeA.Weight < EdgeB.Weight then true
  else if EdgeA.Weight > EdgeB.Weight then false
  else false

/-- Contract of the engine call `TArray::Sort(Predicate)` (an unstable sort): the
result is a rearrangement of the array in which no later element is strictly
smaller than an earlier one. -/
structure IsTArraySort (SortFn : List FEdgeInfo → List FEdgeInfo) : Prop where
  perm : ∀ l, (SortFn l).Perm l
  sorted : ∀ l, (SortFn l).Pairwise (fun a b => EdgeWeightLess b a = false)

/-- Insertion of one edge into a weight-sorted list. -/
def SortedInsert (e : FEdgeInfo) : List FEdgeInfo → List FEdgeInfo
  | [] => [e]
  | a :: rest => if EdgeWeightLess a e then a :: SortedInsert e rest else e :: a :: rest

/-- One sort that meets `IsTArraySort`, used to run the functions on concrete
inputs. -/
def TArraySort (l : List FEdgeInfo) : List FEdgeInfo := l.foldr SortedInsert []

/-- The `do { ... } while (true)` loop of `GetMinimumSpanningTree` and
`GetMinimumSpanningTreeV2` (lines 45-73 and 104-132), one iteration per head of
`EdgeArray`.  Returns the tree and the discarded edges, the latter including the
edges left in `EdgeArray` (lines 75-81 and 134-140). -/
def KruskalLoop (PointArray : List FIntVector) (TreeSize : Int) :
    FDisjointSet → List FEdgeInfo → List FEdgeInfo → List FEdgeInfo →
      Option (List FEdgeInfo × List FEdgeInfo)
  | _, _, _, [] => none
  | DisjointSet, MinimumSpanningTree, DiscardedEdgesArray, SmallestEdge :: EdgeArray =>
    match TArrayFind PointArray SmallestEdge.Origin,
        TArrayFind PointArray SmallestEdge.Destination with
    | some Origin, some Destination =>
      if DisjointSet.Find Origin ≠ DisjointSet.Find Destination then
        if ((MinimumSpanningTree ++ [SmallestEdge]).length : Int) = TreeSize then
          some (MinimumSpanningTree ++ [SmallestEdge], DiscardedEdgesArray ++ EdgeArray)
        else
          KruskalLoop PointArray TreeSize (DisjointSet.Union Origin Destination)
            (MinimumSpanningTree ++ [SmallestEdge]) DiscardedEdgesArray EdgeArray
      else
        if (MinimumSpanningTree.length : Int) = TreeSize then
          some (MinimumSpanningTree, (DiscardedEdgesArray ++ [SmallestEdge]) ++ EdgeArray)
        else
          KruskalLoop PointArray TreeSize DisjointSet MinimumSpanningTree
            (DiscardedEdgesArray ++ [SmallestEdge]) EdgeArray
    | _, _ => none

/-- `UKruskalMSTLibrary::GetMinimumSpanningTreeV2`.  The result pairs the returned
tree with the final content of the reference parameter `DiscardedEdgesArray`. -/
def GetMinimumSpanningTreeV2 (SortFn : List FEdgeInfo → List FEdgeInfo)
    (PointArray : List FIntVector) (EdgeArray : List FEdgeInfo)
    (DiscardedEdgesArray : List FEdgeInfo) : Option (List FEdgeInfo × List FEdgeInfo) :=
  let TreeSize : Int := (PointArray.length : Int) - 1
  if EdgeArray.isEmpty then some ([], DiscardedEdgesArray)
  else
    KruskalLoop PointArray TreeSize (FDisjointSet.Init PointArray.length) []
      DiscardedEdgesArray (SortFn EdgeArray)

/-- The conversion loop of `GetMinimumSpanningTree` (lines 14-21).  A quarter edge
enters as the pair of its origin `Data` and its `Destination`, both already cast
to `FIntVector`; `EdgeLength` is the weight the `FEdgeInfo` constructor computes. -/
def ConvertQuarterEdges (EdgeLength : FIntVector → FIntVector → ℚ)
    (QuarterEdgeArray : List (FIntVector × FIntVector)) : List FEdgeInfo :=
  QuarterEdgeArray.map (fun CurrentEdge =>
    { Origin := CurrentEdge.1, Destination := CurrentEdge.2,
      Weight := EdgeLength CurrentEdge.1 CurrentEdge.2 })

/-- `UKruskalMSTLibrary::GetMinimumSpanningTree`. -/
def GetMinimumSpanningTree (SortFn : List FEdgeInfo → List FEdgeInfo)
    (EdgeLength : FIntVector → FIntVector → ℚ)
    (PointArray : List FIntVector) (QuarterEdgeArray : List (FIntVector × FIntVector))
    (DiscardedEdgesArray : List FEdgeInfo) : Option (List FEdgeInfo × List FEdgeInfo) :=
  let TreeSize : Int := (PointArray.length : Int) - 1
  let ConvertedEdgesArray : List FEdgeInfo := ConvertQuarterEdges EdgeLength QuarterEdgeArray
  if ConvertedEdgesArray.isEmpty then some ([], DiscardedEdgesArray)
  else
    KruskalLoop PointArray TreeSize (FDisjointSet.Init PointArray.length) []
      DiscardedEdgesArray (SortFn ConvertedEdgesArray)

/-! ## Graph notions used to state the claims -/

/-- The edge `e` joins the points `p` and `q` (in either direction). -/
def EdgeJoins (e : FEdgeInfo) (p q : FIntVector) : Prop :=
  (e.Origin = p ∧ e.Destination = q) ∨ (e.Origin = q ∧ e.Destination = p)

/-- Some edge of `T` joins `p` and `q`. -/
def Adjacent (T : List FEdgeInfo) (p q : FIntVector) : Prop :=
  ∃ e ∈ T, EdgeJoins e p q

/-- The points `p` and `q` are connected by a chain of edges of `T`. -/
def Linked (T : List FEdgeInfo) (p q : FIntVector) : Prop :=
  Relation.EqvGen (Adjacent T) p q

/-- Every two points of the list are connected by edges of `T`. -/
def ConnectsAll (PointArray : List FIntVector) (T : List FEdgeInfo) : Prop :=
  ∀ p ∈ PointArray, ∀ q ∈ PointArray, Linked T p q

/-- Every endpoint of every edge occurs in the point list. -/
def EndpointsIn (PointArray : List FIntVector) (T : List FEdgeInfo) : Prop :=
  ∀ e ∈ T, e.Origin ∈ PointArray ∧ e.Destination ∈ PointArray

/-- No edge of the list closes a cycle: the endpoints of each edge are not
connected by the other edges of the list. -/
def Acyclic (T : List FEdgeInfo) : Prop :=
  ∀ A e B, T = A ++ e :: B → ¬ Linked (A ++ B) e.Origin e.Destination

/-- Each edge of the list, in list order, joins two points that the edges before
it do not connect. -/
def NoEdgeJoinsConnected (T : List FEdgeInfo) : Prop :=
  ∀ A e B, T = A ++ e :: B → ¬ Linked A e.Origin e.Destination

/-- The list `T` is a spanning tree of the candidate graph: it uses candidate edges
(each at most as often as it is listed), connects all points and has no cycle. -/
def IsSpanningTree (PointArray : List FIntVector) (EdgeArray T : List FEdgeInfo) : Prop :=
  T.Subperm EdgeArray ∧ ConnectsAll PointArray T ∧ Acyclic T

/-- Sum of the weights of the edges of a list. -/
def TotalWeight (T : List FEdgeInfo) : ℚ := (T.map (·.Weight)).sum

end LevelGen


namespace LevelGen

/-! ## Auxiliary notions for the proofs about the graph connector -/

/-- The equivalence on points generated by the single pair `(a, b)`. -/
def PairS (a b : FIntVector) : Setoid FIntVector :=
  Relation.EqvGen.setoid (fun x y => x = a ∧ y = b)

/-- The relation `Linked T` as an equivalence. -/
def LinkS (T : List FEdgeInfo) : Setoid FIntVector :=
  Relation.EqvGen.setoid (Adjacent T)

/-- Label of a point under a disjoint set: the representative of its index, or
the point itself when it is not in the point list. -/
def PointLabel (PointArray : List FIntVector) (S : FDisjointSet) (p : FIntVector) :
    Nat ⊕ FIntVector :=
  match TArrayFind PointArray p with
  | some i => Sum.inl (S.Find i)
  | none => Sum.inr p

/-- The equivalence on points that a disjoint set over the indices of the point
list stands for. -/
def DsSetoid (PointArray : List FIntVector) (S : FDisjointSet) : Setoid FIntVector :=
  Setoid.ker (PointLabel PointArray S)

/-- The edges the selection loop accepts when it runs through the whole edge list
without the early exit. -/
def KruskalAccepted (PointArray : List FIntVector) :
    FDisjointSet → List FEdgeInfo → List FEdgeInfo
  | _, [] => []
  | S, e :: rest =>
    match TArrayFind PointArray e.Origin, TArrayFind PointArray e.Destination with
    | some o, some d =>
      if S.Find o ≠ S.Find d then e :: KruskalAccepted PointArray (S.Union o d) rest
      else KruskalAccepted PointArray S rest
    | _, _ => KruskalAccepted PointArray S rest

/-- The disjoint set after the loop has run through the whole edge list. -/
def KruskalFinal (PointArray : List FIntVector) :
    FDisjointSet → List FEdgeInfo → FDisjointSet
  | S, [] => S
  | S, e :: rest =>
    match TArrayFind PointArray e.Origin, TArrayFind PointArray e.Destination with
    | some o, some d =>
      if S.Find o ≠ S.Find d then KruskalFinal PointArray (S.Union o d) rest
      else KruskalFinal PointArray S rest
    | _, _ => KruskalFinal PointArray S rest

/-- Acyclicity relative to an equivalence `Q` of already connected points: no
edge of `T` has endpoints connected by `Q` and the other edges of `T`. -/
def ForestMod (Q : Setoid FIntVector) (T : List FEdgeInfo) : Prop :=
  ∀ A e B, T = A ++ e :: B → ¬ (Q ⊔ LinkS (A ++ B)) e.Origin e.Destination

end LevelGen

namespace LevelGen

/-- Number of sets of a disjoint set: the number of distinct representatives. -/
def Classes (S : FDisjointSet) : Nat := S.Parents.toFinset.card

end LevelGen

namespace LevelGen

/-! ## Concrete inputs -/

/-- The four corners of a unit square. -/
def SquarePoints : List FIntVector := [⟨0, 0, 0⟩, ⟨1, 0, 0⟩, ⟨1, 1, 0⟩, ⟨0, 1, 0⟩]

/-- The single-precision value of the square root of two, the weight of a diagonal
of the unit square. -/
def SqrtTwoF : ℚ := 11863283 / 8388608

/-- All six pairwise edges of the unit square, the two diagonals first. -/
def SquareEdges : List FEdgeInfo :=
  [⟨⟨0, 0, 0⟩, ⟨1, 1, 0⟩, SqrtTwoF⟩, ⟨⟨1, 0, 0⟩, ⟨0, 1, 0⟩, SqrtTwoF⟩,
   ⟨⟨0, 0, 0⟩, ⟨1, 0, 0⟩, 1⟩, ⟨⟨1, 0, 0⟩, ⟨1, 1, 0⟩, 1⟩,
   ⟨⟨1, 1, 0⟩, ⟨0, 1, 0⟩, 1⟩, ⟨⟨0, 1, 0⟩, ⟨0, 0, 0⟩, 1⟩]

end LevelGen

namespace LevelGen

/-- A point list that names the point `(1,0,0)` twice. -/
def RepeatedPoints : List FIntVector := [⟨0, 0, 0⟩, ⟨1, 0, 0⟩, ⟨1, 0, 0⟩]

/-- The single edge between `(0,0,0)` and `(1,0,0)`. -/
def UnitEdge : List FEdgeInfo := [⟨⟨0, 0, 0⟩, ⟨1, 0, 0⟩, 1⟩]

/-- A point list that names the point `(0,0,0)` twice, around `(0,1,0)`. -/
def RepeatedAnchor : List FIntVector := [⟨0, 0, 0⟩, ⟨0, 1, 0⟩, ⟨0, 0, 0⟩]

/-- The single edge between `(0,0,0)` and `(0,1,0)`. -/
def UnitEdgeY : List FEdgeInfo := [⟨⟨0, 0, 0⟩, ⟨0, 1, 0⟩, 1⟩]

/-- The tree the selection loop returns for the unit square. -/
def SquareTree : List FEdgeInfo :=
  [⟨⟨0, 0, 0⟩, ⟨1, 0, 0⟩, 1⟩, ⟨⟨1, 0, 0⟩, ⟨1, 1, 0⟩, 1⟩, ⟨⟨1, 1, 0⟩, ⟨0, 1, 0⟩, 1⟩]

/-- The edges the selection loop discards for the unit square. -/
def SquareDiscarded : List FEdgeInfo :=
  [⟨⟨0, 1, 0⟩, ⟨0, 0, 0⟩, 1⟩, ⟨⟨0, 0, 0⟩, ⟨1, 1, 0⟩, SqrtTwoF⟩,
   ⟨⟨1, 0, 0⟩, ⟨0, 1, 0⟩, SqrtTwoF⟩]

end LevelGen

namespace LevelGen

/-! ## Data model of the level generator (`LevelGenerationData.h`) -/

/-- The enum `ETileType`. -/
inductive ETileType where
  | Empty | Room_Basic | Room_Key | Room_Special | Room_Section
  | Corridor | Corridor_Section | Corridor_Special | RoomBuffer | MAX
deriving DecidableEq, Repr

/-- The enum `ECorridorType`. -/
inductive ECorridorType where
  | None | ZeroWay | OneWay | TwoWay | ThreeWay | FourWay | Corner | MAX
deriving DecidableEq, Repr

/-- The enum `EDirections`. -/
inductive EDirections where
  | None | North | East | South | West | Above | Below | MAX
deriving DecidableEq, Repr

/-- The enum `ESpecialPathType`. -/
inductive ESpecialPathType where
  | None | SpecialPathSection | Stairs_1x1x2 | Stairs_1x2x2
  | Elevator_Bottom | Elevator_Middle | Elevator_Top
  | Elevator_S2 | Elevator_S3 | Elevator_S4 | Elevator_S5 | Elevator_S6
  | Elevator_S7 | Elevator_S8 | Elevator_S9 | Elevator_S10 | MAX
deriving DecidableEq, Repr

/-- The `uint8` value of a special path type. -/
def ESpecialPathType.toUInt8 : ESpecialPathType → Nat
  | .None => 0 | .SpecialPathSection => 1 | .Stairs_1x1x2 => 2 | .Stairs_1x2x2 => 3
  | .Elevator_Bottom => 4 | .Elevator_Middle => 5 | .Elevator_Top => 6
  | .Elevator_S2 => 7 | .Elevator_S3 => 8 | .Elevator_S4 => 9 | .Elevator_S5 => 10
  | .Elevator_S6 => 11 | .Elevator_S7 => 12 | .Elevator_S8 => 13 | .Elevator_S9 => 14
  | .Elevator_S10 => 15 | .MAX => 16

/-- The test `(uint8)Type >= (uint8)Elevator_S2 && (uint8)Type < (uint8)MAX` used
for the multi-storey elevators. -/
def ESpecialPathType.IsElevatorStoreys (t : ESpecialPathType) : Bool :=
  decide (ESpecialPathType.Elevator_S2.toUInt8 ≤ t.toUInt8) &&
    decide (t.toUInt8 < ESpecialPathType.MAX.toUInt8)

/-- The test `Type != None && Type != SpecialPathSection`: the node carries a
special structure of its own. -/
def ESpecialPathType.IsStructure (t : ESpecialPathType) : Bool :=
  decide (t ≠ ESpecialPathType.None) && decide (t ≠ ESpecialPathType.SpecialPathSection)

/-- Engine type `FRotator`; the components are the stored floats. -/
structure FRotator where
  Pitch : ℚ
  Yaw : ℚ
  Roll : ℚ
deriving DecidableEq, Repr

/-- `FRotator::ZeroRotator`. -/
def FRotator.ZeroRotator : FRotator := ⟨0, 0, 0⟩

/-- `FRotator::operator+`. -/
def FRotator.add (a b : FRotator) : FRotator :=
  ⟨a.Pitch + b.Pitch, a.Yaw + b.Yaw, a.Roll + b.Roll⟩

/-- `FIntVector::ZeroValue`. -/
def FIntVector.ZeroValue : FIntVector := ⟨0, 0, 0⟩

/-- `FIntVector::operator+`. -/
def FIntVector.add (a b : FIntVector) : FIntVector := ⟨a.X + b.X, a.Y + b.Y, a.Z + b.Z⟩

/-- `FIntVector::operator-`. -/
def FIntVector.sub (a b : FIntVector) : FIntVector := ⟨a.X - b.X, a.Y - b.Y, a.Z - b.Z⟩

/-- `FIntVector::operator*` with a scalar. -/
def FIntVector.scale (a : FIntVector) (k : Int) : FIntVector := ⟨a.X * k, a.Y * k, a.Z * k⟩

/-- `FIntVector::operator/` with a scalar: C++ integer division, truncating towards
zero, on each axis. -/
def FIntVector.divide (a : FIntVector) (k : Int) : FIntVector :=
  ⟨Int.tdiv a.X k, Int.tdiv a.Y k, Int.tdiv a.Z k⟩

instance : Add FIntVector := ⟨FIntVector.add⟩
instance : Sub FIntVector := ⟨FIntVector.sub⟩

/-! ### Containers -/

/-- `TSet::Contains`. -/
def TSetContains {α : Type} [DecidableEq α] (s : List α) (x : α) : Bool := decide (x ∈ s)

/-- `TSet::Add`: an element that is present is not added again. -/
def TSetAdd {α : Type} [DecidableEq α] (s : List α) (x : α) : List α :=
  if x ∈ s then s else s ++ [x]

/-- `TMap::Find`: the value stored under a key, if any.  `Map[Key]` is the same
lookup, `none` being the failed range check. -/
def TMapFind {κ ν : Type} [DecidableEq κ] (m : List (κ × ν)) (k : κ) : Option ν :=
  match m with
  | [] => none
  | (k2, v) :: rest => if k2 = k then some v else TMapFind rest k

/-- `TMap::Contains`. -/
def TMapContains {κ ν : Type} [DecidableEq κ] (m : List (κ × ν)) (k : κ) : Bool :=
  (TMapFind m k).isSome

/-- `TMap::Add`: a new key is appended, the value of a present key is replaced in
place. -/
def TMapAdd {κ ν : Type} [DecidableEq κ] (m : List (κ × ν)) (k : κ) (v : ν) : List (κ × ν) :=
  match m with
  | [] => [(k, v)]
  | (k2, v2) :: rest => if k2 = k then (k, v) :: rest else (k2, v2) :: TMapAdd rest k v

/-- `TMap::Remove`. -/
def TMapRemove {κ ν : Type} [DecidableEq κ] (m : List (κ × ν)) (k : κ) : List (κ × ν) :=
  m.filter (fun p => decide (p.1 ≠ k))

/-- `TMap::GenerateKeyArray` and `GetKeys`. -/
def TMapKeys {κ ν : Type} (m : List (κ × ν)) : List κ := m.map Prod.fst

/-- `TMap::GenerateValueArray`. -/
def TMapValues {κ ν : Type} (m : List (κ × ν)) : List ν := m.map Prod.snd

/-- `TMap::Append`: every pair of the other map is added in turn. -/
def TMapAppend {κ ν : Type} [DecidableEq κ] (m other : List (κ × ν)) : List (κ × ν) :=
  other.foldl (fun acc p => TMapAdd acc p.1 p.2) m

/-- `TMap::FindKey`: the first key that holds the value. -/
def TMapFindKey {κ ν : Type} [DecidableEq ν] (m : List (κ × ν)) (v : ν) : Option κ :=
  match m with
  | [] => none
  | (k, v2) :: rest => if v2 = v then some k else TMapFindKey rest v

/-! ### Tiles -/

/-- A reference to level content owned by the engine (a soft object pointer or a
mesh pointer); `none` is the null reference. -/
abbrev AssetRef := Option Nat

/-- The struct `FTileAccessData`. -/
structure FTileAccessData where
  AccessibleDirections : List EDirections
  DirectionsInUse : List EDirections
deriving DecidableEq, Repr

/-- The struct `FTileData`.  `LevelInstanceRef` is never touched by the generator
and is left out. -/
structure FTileData where
  TileMap : AssetRef
  TileSubMaps : List AssetRef
  TileActorSlotMaps : List (Nat × AssetRef)
  TileType : ETileType
  ParentRoomCoordinate : FIntVector
  TileRotation : FRotator
  TileSize : List FIntVector
  TileAccessPoints : List (FIntVector × FTileAccessData)
  MinimapMesh : AssetRef
deriving DecidableEq, Repr

/-- A default constructed `FTileData`. -/
def FTileData.Default : FTileData :=
  { TileMap := none, TileSubMaps := [], TileActorSlotMaps := [],
    TileType := ETileType.Room_Basic, ParentRoomCoordinate := FIntVector.ZeroValue,
    TileRotation := FRotator.ZeroRotator, TileSize := [], TileAccessPoints := [],
    MinimapMesh := none }

/-- The struct `FSpecialPathInfo`. -/
structure FSpecialPathInfo where
  PathVolume : List FIntVector
  ExitVector : FIntVector
  NodeWeight : ℚ
deriving DecidableEq, Repr

/-- A default constructed `FSpecialPathInfo` (`Init`). -/
def FSpecialPathInfo.Default : FSpecialPathInfo :=
  { PathVolume := [FIntVector.ZeroValue], ExitVector := FIntVector.ZeroValue, NodeWeight := 0 }

/-- The struct `FAdvancedPathNode` (with the fields of its base `FPathNode`).  The
map `PreviousPath` holds pointers to heap copies of nodes that are never written
after their creation; it is kept as the map of the pointed-to nodes. -/
structure FAdvancedPathNode where
  ParentNode : FIntVector
  GCost : ℚ
  HCost : ℚ
  FCost : ℚ
  SpecialPathType : ESpecialPathType
  SpecialPathInfo : FSpecialPathInfo
  SpecialPathOriginVector : FIntVector
  SpecialPathRotation : FRotator
  bIsPathReversed : Bool
  ElevationToEnd : Int
  PreviousPath : List (FIntVector × FAdvancedPathNode)

/-- A default constructed `FAdvancedPathNode`. -/
def FAdvancedPathNode.Default : FAdvancedPathNode :=
  { ParentNode := ⟨-1, -1, -1⟩, GCost := 0, HCost := 0, FCost := 0,
    SpecialPathType := ESpecialPathType.None, SpecialPathInfo := FSpecialPathInfo.Default,
    SpecialPathOriginVector := FIntVector.ZeroValue,
    SpecialPathRotation := FRotator.ZeroRotator, bIsPathReversed := true,
    ElevationToEnd := 0, PreviousPath := [] }

/-- The struct `FCorridorTileData`. -/
structure FCorridorTileData where
  TileType : ETileType
  SpecialPathType : ESpecialPathType
  SpecialPathRotation : FRotator
  SpecialPathTileSize : List FIntVector
  ParentPathNode : FAdvancedPathNode
  AdjacentAccessPoints : List (EDirections × ETileType)
  MinimapMesh : AssetRef

/-- A default constructed `FCorridorTileData`; `TileType` has no initialiser in the
source and is assigned by every user before it is read. -/
def FCorridorTileData.Default : FCorridorTileData :=
  { TileType := ETileType.Empty, SpecialPathType := ESpecialPathType.None,
    SpecialPathRotation := FRotator.ZeroRotator, SpecialPathTileSize := [],
    ParentPathNode := FAdvancedPathNode.Default, AdjacentAccessPoints := [],
    MinimapMesh := none }

/-- The struct `FTileGenerationData`: one row of a room data table. -/
structure FTileGenerationData where
  RandomSelectionChance : ℚ
  bTileHasSetRotation : Bool
  TileSetRotation : FRotator
  bTileHasSetCoordinate : Bool
  TileSetGridCoordinate : FIntVector
  TileData : FTileData
deriving DecidableEq, Repr

/-- The struct `FCorridorLevelData`: one row of a corridor data table. -/
structure FCorridorLevelData where
  RandomSelectionChance : ℚ
  CorridorMap : AssetRef
  CorridorSubMaps : List AssetRef
  CorridorActorSlotMaps : List (Nat × AssetRef)
  CorridorAccessPoints : List (FIntVector × FTileAccessData)
  MinimapMesh : AssetRef
deriving DecidableEq, Repr

/-- A `UDataTable*`: `none` is the null pointer, otherwise the rows in row order. -/
abbrev DataTable (Row : Type) := Option (List Row)

/-- The struct `FKeyTileData`. -/
structure FKeyTileData where
  Quantity : Int
  KeyRoomList : DataTable FTileGenerationData

/-- The struct `FSpecialTileData`. -/
structure FSpecialTileData where
  ChanceToGenerate : ℚ
  SpecialRoomList : DataTable FTileGenerationData

/-- The struct `FLevelGenerationSettings`.  `SpecialPathData` is the map
`SpecialPathSettings` of the data asset, `none` when the asset is not loaded. -/
structure FLevelGenerationSettings where
  bUsePlayerSeed : Bool
  LevelUserSeed : Int
  TileSize : Int
  GridSize : FIntVector
  CorridorLevelDataTableList : List (ECorridorType × DataTable FCorridorLevelData)
  AllowedSpecialPathTypes : List (ESpecialPathType × Bool)
  SpecialPathData : Option (List (ESpecialPathType × FSpecialPathInfo))
  SpecialPathLevelDataTableList : List (ESpecialPathType × DataTable FCorridorLevelData)
  ExtraCorridorChance : ℚ
  TileTypeWeight : List (ETileType × ℚ)
  BasicRoomList : List (DataTable FTileGenerationData × ℚ)
  RoomBufferSize : Int
  BasicRoomsMinimum : Int
  BasicRoomsMaximum : Int
  KeyRooms : List (Nat × FKeyTileData)
  SpecialRooms : List (Nat × FSpecialTileData)
  bGenerateKeyRooms : Bool
  bGenerateSpecialRooms : Bool
  bGenerateBasicRooms : Bool
  bDrawMST : Bool
  bGenerateCorridors : Bool

/-- Engine type `FRandomStream`: the initial and the current seed. -/
structure FRandomStream where
  InitialSeed : Int
  Seed : Int
deriving DecidableEq, Repr

/-- The struct `FGeneratedLevelData`. -/
structure FGeneratedLevelData where
  LevelStream : FRandomStream
  LevelTileData : List (FIntVector × FTileData)
  LevelPathData : List (FIntVector × FCorridorTileData)
  MinimumSpanningTree : List FEdgeInfo

/-- The constant `FLT_MAX`. -/
def FLT_MAX : ℚ := 340282346638528859811704183484516925440

/-- The struct `FPathGenerationData` of `LevelGenerationLibrary.h`.  The pointers
`OriginTile` and `DestinationTile` point at values of `LevelTileData`; they are
kept as the key whose value they point at, `none` being the null pointer. -/
structure FPathGenerationData where
  PathData : FEdgeInfo
  OriginTile : Option FIntVector
  OriginAccessPoint : FIntVector
  OriginAccessPointLocation : FIntVector
  OriginPathDirection : EDirections
  DestinationTile : Option FIntVector
  DestinationAccessPoint : FIntVector
  DestinationAccessPointLocation : FIntVector
  DestinationPathDirection : EDirections
  PathStart : FIntVector
  PathEnd : FIntVector
  PathDistance : ℚ
deriving DecidableEq, Repr

/-- A default constructed `FPathGenerationData`. -/
def FPathGenerationData.Default : FPathGenerationData :=
  { PathData := ⟨FIntVector.ZeroValue, FIntVector.ZeroValue, 0⟩,
    OriginTile := none, OriginAccessPoint := FIntVector.ZeroValue,
    OriginAccessPointLocation := FIntVector.ZeroValue,
    OriginPathDirection := EDirections.None,
    DestinationTile := none, DestinationAccessPoint := FIntVector.ZeroValue,
    DestinationAccessPointLocation := FIntVector.ZeroValue,
    DestinationPathDirection := EDirections.None,
    PathStart := FIntVector.ZeroValue, PathEnd := FIntVector.ZeroValue,
    PathDistance := FLT_MAX }

/-! ### The engine -/

/-- The engine services the generator calls and whose code is not part of the
repository.  Floats are the rationals they denote; the float operations, the
random stream, the sorts and the tetrahedralisation enter as parameters, so that
the theorems hold for whatever the engine computes. -/
structure Engine where
  /-- The `float` value of `FVector(v).Length()`. -/
  Length : FIntVector → ℚ
  /-- Sum of two floats. -/
  FAdd : ℚ → ℚ → ℚ
  /-- Product of two floats. -/
  FMul : ℚ → ℚ → ℚ
  /-- `FRotator::GetInverse`. -/
  GetInverse : FRotator → FRotator
  /-- `FRandomStream::FRand` on a seed: the fraction drawn and the mutated seed. -/
  RandFloat : Int → ℚ × Int
  /-- `FRandomStream::RandRange(Min, Max)` on a seed: the integer drawn and the
  mutated seed. -/
  RandRange : Int → Int → Int → Int × Int
  /-- `TArray::Sort` with the weight comparison of the edge lists. -/
  EdgeSort : List FEdgeInfo → List FEdgeInfo
  /-- `TMap::ValueSort` with a comparison of nodes. -/
  ValueSort : (FAdvancedPathNode → FAdvancedPathNode → Bool) →
    List (FIntVector × FAdvancedPathNode) → List (FIntVector × FAdvancedPathNode)
  /-- `UDelaunayTriangulationLibrary::DelaunayTetrahedralization`, floating point
  geometry that is not embedded here. -/
  Delaunay : FIntVector → List FIntVector → Bool → List FEdgeInfo
  /-- The value found in the local `DirectionToPreviousPath` of
  `GenerateNormalPathData` when it is read without having been assigned: line 1595
  declares it without an initialiser, so the language leaves the value open. -/
  UnassignedDirection : EDirections

/-- `UKismetMathLibrary::RandomFloatInRangeFromStream(Min, Max, Stream)`: the value
drawn and the stream after the draw. -/
def RandomFloatInRangeFromStream (E : Engine) (Min Max : ℚ) (Stream : FRandomStream) :
    ℚ × FRandomStream :=
  let r := E.RandFloat Stream.Seed
  (E.FAdd Min (E.FMul (E.FAdd Max (-Min)) r.1), { Stream with Seed := r.2 })

/-- `UKismetMathLibrary::RandomIntegerInRangeFromStream(Min, Max, Stream)`. -/
def RandomIntegerInRangeFromStream (E : Engine) (Min Max : Int) (Stream : FRandomStream) :
    Int × FRandomStream :=
  let r := E.RandRange Min Max Stream.Seed
  (r.1, { Stream with Seed := r.2 })

/-- Outcome of a run of a function that loops until a condition holds: the value it
returns, a failed range check or null dereference, or a loop that is still running
when the step budget of the embedding is used up. -/
inductive Outcome (α : Type) where
  | returns (value : α)
  | aborts
  | unfinished

/-- A lookup that fails aborts the run. -/
def Outcome.ofOption {α : Type} : Option α → Outcome α
  | some a => Outcome.returns a
  | none => Outcome.aborts

end LevelGen

namespace LevelGen

/-! ## Rotation helpers and the room placer (`LevelGenerationLibrary.cpp`) -/

/-- The static map `DirectionCoordinates` (lines 17-26). -/
def DirectionCoordinates : List (EDirections × FIntVector) :=
  [(EDirections.None, ⟨0, 0, 0⟩), (EDirections.North, ⟨1, 0, 0⟩),
   (EDirections.East, ⟨0, 1, 0⟩), (EDirections.South, ⟨-1, 0, 0⟩),
   (EDirections.West, ⟨0, -1, 0⟩), (EDirections.Above, ⟨0, 0, 1⟩),
   (EDirections.Below, ⟨0, 0, -1⟩)]

/-- The static set `CoordinateChecklist` (lines 29-57), in the order of its
initialiser list. -/
def CoordinateChecklist : List FIntVector :=
  [⟨0, 0, 0⟩, ⟨1, 0, 0⟩, ⟨1, 1, 0⟩, ⟨0, 1, 0⟩, ⟨-1, 1, 0⟩, ⟨-1, 0, 0⟩, ⟨-1, -1, 0⟩,
   ⟨0, -1, 0⟩, ⟨1, -1, 0⟩,
   ⟨1, 0, 1⟩, ⟨1, 1, 1⟩, ⟨0, 1, 1⟩, ⟨-1, 1, 1⟩, ⟨-1, 0, 1⟩, ⟨-1, -1, 1⟩, ⟨0, -1, 1⟩,
   ⟨1, -1, 1⟩,
   ⟨0, 0, -1⟩, ⟨1, 0, -1⟩, ⟨1, 1, -1⟩, ⟨0, 1, -1⟩, ⟨-1, 1, -1⟩, ⟨-1, 0, -1⟩,
   ⟨-1, -1, -1⟩, ⟨0, -1, -1⟩, ⟨1, -1, -1⟩]

/-- Conversion of a float to `int`: truncation towards zero. -/
def TruncToInt (q : ℚ) : Int := Int.tdiv q.num q.den

/-- The value lies in the range of `int32`, from -2^31 to 2^31 - 1. -/
def FitsInt32 (q : ℚ) : Prop := -2147483648 ≤ q ∧ q ≤ 2147483647

instance (q : ℚ) : Decidable (FitsInt32 q) := by
  unfold FitsInt32; infer_instance

/-- Conversion of a float to `int32` with the range of the target: truncation
towards zero for a value whose truncation is an `int32`.  For any other value C++
defines no result; it gets the result of the conversion instruction of x86
(`cvttss2si`), the smallest `int32`. -/
def FloatToInt32 (q : ℚ) : Int :=
  let Truncated := TruncToInt q
  if -2147483648 ≤ Truncated ∧ Truncated ≤ 2147483647 then Truncated else -2147483648

/-- `FMath::RoundToInt`: the floor of the value plus one half. -/
def RoundToInt (q : ℚ) : Int := Rat.floor (q + 1 / 2)

/-- `ULevelGenerationLibrary::RotateIntVectorCoordinatefromOrigin`, with the products
`InCoordinate.X * -1.f` taken exactly.  The source takes them as floats; the float
product is the exact one for every coordinate that a float represents, so for all
of absolute value up to 2^24 (`Binary32.RotateIntVectorCoordinatefromOrigin` is the
function with the products taken as floats, `rotate_binary32_eq_exact` the
comparison). -/
def RotateIntVectorCoordinatefromOrigin (InCoordinate : FIntVector) (TileRotation : FRotator) :
    FIntVector :=
  let TotalRotations : Int := TruncToInt (TileRotation.Yaw / 90)
  if TotalRotations = -1 then ⟨InCoordinate.Y, InCoordinate.X * -1, InCoordinate.Z⟩
  else if TotalRotations = -2 then ⟨InCoordinate.X * -1, InCoordinate.Y * -1, InCoordinate.Z⟩
  else if TotalRotations = -3 then ⟨InCoordinate.Y * -1, InCoordinate.X, InCoordinate.Z⟩
  else if TotalRotations = 1 then ⟨InCoordinate.Y * -1, InCoordinate.X, InCoordinate.Z⟩
  else if TotalRotations = 2 then ⟨InCoordinate.X * -1, InCoordinate.Y * -1, InCoordinate.Z⟩
  else if TotalRotations = 3 then ⟨InCoordinate.Y, InCoordinate.X * -1, InCoordinate.Z⟩
  else InCoordinate

/-- `ULevelGenerationLibrary::RotateDirection`. -/
def RotateDirection (InDirection : EDirections) (InRotation : FRotator) : EDirections :=
  match TMapFind DirectionCoordinates InDirection with
  | none => EDirections.None
  | some v =>
    let RotatedDirectionVector := RotateIntVectorCoordinatefromOrigin v InRotation
    match TMapFindKey DirectionCoordinates RotatedDirectionVector with
    | some d => d
    | none => EDirections.None

/-- `ULevelGenerationLibrary::IsCoordinateInGridSpace`. -/
def IsCoordinateInGridSpace (Coordinate GridSize : FIntVector) : Bool :=
  if (Coordinate.X ≥ 0 ∧ Coordinate.X < GridSize.X) ∧
      (Coordinate.Y ≥ 0 ∧ Coordinate.Y < GridSize.Y) ∧
      (Coordinate.Z ≥ 0 ∧ Coordinate.Z < GridSize.Z) then true
  else false

/-- `ULevelGenerationLibrary::IsRoomBufferEmpty`. -/
def IsRoomBufferEmpty (LevelGenerationSettings : FLevelGenerationSettings)
    (LevelTileData : List (FIntVector × FTileData)) (RoomCoordinate : FIntVector)
    (RoomSectionCoordinate : FIntVector) (RoomRotation : FRotator)
    (TileSize : List FIntVector) : Bool :=
  if LevelGenerationSettings.RoomBufferSize = 0 then true
  else
    (List.range LevelGenerationSettings.RoomBufferSize.toNat).all (fun k =>
      let i : Int := (k : Int) + 1
      CoordinateChecklist.all (fun CurrentCoordinate =>
        let RotatedCoordinate :=
          (RotateIntVectorCoordinatefromOrigin CurrentCoordinate RoomRotation).scale i
        let CoordinateToValidate := RotatedCoordinate + RoomCoordinate
        let SecondCoordinateToValidate := CurrentCoordinate.scale i + RoomSectionCoordinate
        !(TMapContains LevelTileData CoordinateToValidate &&
          !TSetContains TileSize SecondCoordinateToValidate)))

/-- The three checks `RoomPlacementIsValid` makes for one footprint cell (the body
of its loop, lines 731-736). -/
def RoomCellIsValid (LevelGenerationSettings : FLevelGenerationSettings)
    (LevelTileData : List (FIntVector × FTileData)) (PlacementCoordinate : FIntVector)
    (RoomRotation : FRotator) (TileSize : List FIntVector) (CurrentCoordinate : FIntVector) :
    Bool :=
  let RoomSectionCoordinate := RotateIntVectorCoordinatefromOrigin CurrentCoordinate RoomRotation
  let CoordinateToValidate := RoomSectionCoordinate + PlacementCoordinate
  if !IsCoordinateInGridSpace (CoordinateToValidate.divide LevelGenerationSettings.TileSize)
      LevelGenerationSettings.GridSize then false
  else if !IsRoomBufferEmpty LevelGenerationSettings LevelTileData CoordinateToValidate
      RoomSectionCoordinate RoomRotation TileSize then false
  else if TMapContains LevelTileData CoordinateToValidate then false
  else true

/-- `ULevelGenerationLibrary::RoomPlacementIsValid`.  The result is `none` when the
division by `TileSize` divides by zero. -/
def RoomPlacementIsValid (LevelGenerationSettings : FLevelGenerationSettings)
    (GeneratedLevelData : FGeneratedLevelData)
    (TileAccessPoints : List (FIntVector × FTileAccessData)) (PlacementCoordinate : FIntVector)
    (RoomRotation : FRotator) (TileSize : List FIntVector) : Option Bool :=
  if TileAccessPoints.isEmpty || TileSize.isEmpty then some false
  else if LevelGenerationSettings.TileSize = 0 then none
  else
    some (TileSize.all (RoomCellIsValid LevelGenerationSettings GeneratedLevelData.LevelTileData
      PlacementCoordinate RoomRotation TileSize))

/-- The float `0.00000001f`. -/
def LevelResultMinimumStart : ℚ := 11258999 / 1125899906842624

/-- The selection loop of `GetRandomRoomFromRoomList`, `GetRandomCorridorFromCorridorList`
and `GetRandomRoomListFromDataTable`: the first entry whose chance interval holds
the drawn number. -/
def SelectByChance {α : Type} (Chance : α → ℚ) (RandomLevelResult : ℚ) :
    ℚ → List α → Option α
  | _, [] => none
  | LevelResultMinimum, Row :: rest =>
    if RandomLevelResult ≥ LevelResultMinimum ∧
        RandomLevelResult < LevelResultMinimum + Chance Row then some Row
    else SelectByChance Chance RandomLevelResult (LevelResultMinimum + Chance Row) rest

/-- `ULevelGenerationLibrary::GetRandomRoomFromRoomList`: the selected row (`none`
is the null pointer) and the stream after the call. -/
def GetRandomRoomFromRoomList (E : Engine) (RoomDataTable : DataTable FTileGenerationData)
    (LevelStream : FRandomStream) : Option FTileGenerationData × FRandomStream :=
  match RoomDataTable with
  | none => (none, LevelStream)
  | some Rows =>
    let ProbabilityTotal : ℚ := (Rows.map (·.RandomSelectionChance)).sum
    let Draw := RandomFloatInRangeFromStream E 0 ProbabilityTotal LevelStream
    (SelectByChance (·.RandomSelectionChance) Draw.1 LevelResultMinimumStart Rows, Draw.2)

/-- `ULevelGenerationLibrary::GetRandomCorridorFromCorridorList`. -/
def GetRandomCorridorFromCorridorList (E : Engine) (RoomDataTable : DataTable FCorridorLevelData)
    (LevelStream : FRandomStream) : Option FCorridorLevelData × FRandomStream :=
  match RoomDataTable with
  | none => (none, LevelStream)
  | some Rows =>
    let ProbabilityTotal : ℚ := (Rows.map (·.RandomSelectionChance)).sum
    let Draw := RandomFloatInRangeFromStream E 0 ProbabilityTotal LevelStream
    (SelectByChance (·.RandomSelectionChance) Draw.1 LevelResultMinimumStart Rows, Draw.2)

/-- `ULevelGenerationLibrary::GetRandomRoomRotation`. -/
def GetRandomRoomRotation (E : Engine) (LevelStream : FRandomStream) : FRotator × FRandomStream :=
  let Draw := RandomIntegerInRangeFromStream E 0 3 LevelStream
  (⟨0, 90 * (Draw.1 : ℚ), 0⟩, Draw.2)

/-- The coordinates `GetRandomEmptyCoordinate` collects (lines 701-714): every
`(X, Y, Z)` with `X < GridSize.X - 1`, `Y < GridSize.Y - 1`, `Z < GridSize.Z - 1`
that holds no tile, `Z` outermost. -/
def EmptyCoordinates (LevelGenerationSettings : FLevelGenerationSettings)
    (LevelTileData : List (FIntVector × FTileData)) : List FIntVector :=
  (List.range (LevelGenerationSettings.GridSize.Z - 1).toNat).flatMap (fun Z =>
    (List.range (LevelGenerationSettings.GridSize.Y - 1).toNat).flatMap (fun Y =>
      (List.range (LevelGenerationSettings.GridSize.X - 1).toNat).flatMap (fun X =>
        let Coordinate : FIntVector := ⟨(X : Int), (Y : Int), (Z : Int)⟩
        if !TMapContains LevelTileData Coordinate then [Coordinate] else [])))

/-- `ULevelGenerationLibrary::GetRandomEmptyCoordinate`: the coordinate, the flag
`bEmptyCoordinateFound` and the stream after the call; `none` when the drawn index
is outside the array. -/
def GetRandomEmptyCoordinate (E : Engine) (LevelGenerationSettings : FLevelGenerationSettings)
    (LevelStream : FRandomStream) (LevelTileData : List (FIntVector × FTileData)) :
    Option (FIntVector × Bool × FRandomStream) :=
  let Empty := EmptyCoordinates LevelGenerationSettings LevelTileData
  if !Empty.isEmpty then
    let Draw := RandomIntegerInRangeFromStream E 0 ((Empty.length : Int) - 1) LevelStream
    if Draw.1 < 0 then none
    else
      match Empty[Draw.1.toNat]? with
      | some c => some (c, true, Draw.2)
      | none => none
  else some (⟨0, 0, 0⟩, false, LevelStream)

/-- The room section tile that `PlaceRoomInGrid` creates for the footprint cell
`CurrentCoordinate` (lines 566-581). -/
def RoomSectionTile (TileData : FTileData) (RoomRotation : FRotator)
    (TileCoordinate CurrentCoordinate : FIntVector) : FTileData :=
  { FTileData.Default with
    TileType := ETileType.Room_Section
    TileRotation := RoomRotation
    TileSize := TSetAdd [] ⟨0, 0, 0⟩
    ParentRoomCoordinate := TileCoordinate
    TileAccessPoints :=
      match TMapFind TileData.TileAccessPoints CurrentCoordinate with
      | some AccessData => TMapAdd [] ⟨0, 0, 0⟩ AccessData
      | none => [] }

/-- The insertions of `PlaceRoomInGrid` once the placement is accepted (lines
543-584): the anchor tile, then one room section per further footprint cell. -/
def AddRoomToLevel (LevelTileData : List (FIntVector × FTileData))
    (Row : FTileGenerationData) (RoomRotation : FRotator) (TileCoordinate : FIntVector) :
    List (FIntVector × FTileData) :=
  let TileData : FTileData :=
    { FTileData.Default with
      TileMap := Row.TileData.TileMap
      TileSubMaps := Row.TileData.TileSubMaps
      TileActorSlotMaps := Row.TileData.TileActorSlotMaps
      TileType := Row.TileData.TileType
      TileRotation := RoomRotation
      TileSize := Row.TileData.TileSize
      TileAccessPoints := Row.TileData.TileAccessPoints
      MinimapMesh := Row.TileData.MinimapMesh
      ParentRoomCoordinate := TileCoordinate }
  let WithAnchor := TMapAdd LevelTileData TileCoordinate TileData
  if TileData.TileSize.length > 1 then
    TileData.TileSize.foldl (fun Tiles CurrentCoordinate =>
      if CurrentCoordinate = ⟨0, 0, 0⟩ then Tiles
      else
        let RoomSectionCoordinate :=
          RotateIntVectorCoordinatefromOrigin CurrentCoordinate RoomRotation + TileCoordinate
        TMapAdd Tiles RoomSectionCoordinate
          (RoomSectionTile TileData RoomRotation TileCoordinate CurrentCoordinate))
      WithAnchor
  else WithAnchor

/-- The `while (true)` loop of `PlaceRoomInGrid`; `Steps` bounds the number of
iterations of the embedding and `FailCounter` is the local counter. -/
def PlaceRoomLoop (E : Engine) (LevelGenerationSettings : FLevelGenerationSettings)
    (RoomList : DataTable FTileGenerationData) :
    Nat → Int → FGeneratedLevelData → Outcome FGeneratedLevelData
  | 0, _, _ => Outcome.unfinished
  | Steps + 1, FailCounter, GeneratedLevelData =>
    let Selected := GetRandomRoomFromRoomList E RoomList GeneratedLevelData.LevelStream
    match Selected.1 with
    | none =>
      PlaceRoomLoop E LevelGenerationSettings RoomList Steps FailCounter
        { GeneratedLevelData with LevelStream := Selected.2 }
    | some TileGenerationData =>
      let Rotation : FRotator × FRandomStream :=
        if TileGenerationData.bTileHasSetRotation then
          (TileGenerationData.TileSetRotation, Selected.2)
        else GetRandomRoomRotation E Selected.2
      let RoomRotation := Rotation.1
      let Located : Option (FIntVector × Bool × FRandomStream) :=
        if TileGenerationData.bTileHasSetCoordinate &&
            !TMapContains GeneratedLevelData.LevelTileData
              TileGenerationData.TileSetGridCoordinate then
          some (TileGenerationData.TileSetGridCoordinate, false, Rotation.2)
        else
          GetRandomEmptyCoordinate E LevelGenerationSettings Rotation.2
            GeneratedLevelData.LevelTileData
      match Located with
      | none => Outcome.aborts
      | some (TileCoordinate, bEmptyCoordinateFound, Stream) =>
        let Data : FGeneratedLevelData := { GeneratedLevelData with LevelStream := Stream }
        let Valid : Option Bool :=
          if !bEmptyCoordinateFound then some false
          else
            RoomPlacementIsValid LevelGenerationSettings Data
              TileGenerationData.TileData.TileAccessPoints TileCoordinate RoomRotation
              TileGenerationData.TileData.TileSize
        match Valid with
        | none => Outcome.aborts
        | some false =>
          if FailCounter + 1 >
              RoundToInt (((LevelGenerationSettings.GridSize.X * LevelGenerationSettings.GridSize.Y *
                LevelGenerationSettings.GridSize.Z : Int) : ℚ) * (1 / 4)) then
            Outcome.returns Data
          else PlaceRoomLoop E LevelGenerationSettings RoomList Steps (FailCounter + 1) Data
        | some true =>
          Outcome.returns
            { Data with
              LevelTileData :=
                AddRoomToLevel Data.LevelTileData TileGenerationData RoomRotation TileCoordinate }

/-- `ULevelGenerationLibrary::PlaceRoomInGrid`, run for at most `Steps` iterations
of its loop. -/
def PlaceRoomInGrid (E : Engine) (Steps : Nat) (LevelGenerationSettings : FLevelGenerationSettings)
    (GeneratedLevelData : FGeneratedLevelData) (RoomList : DataTable FTileGenerationData) :
    Outcome FGeneratedLevelData :=
  PlaceRoomLoop E LevelGenerationSettings RoomList Steps 0 GeneratedLevelData

end LevelGen

namespace LevelGen

/-! ## Corridor router: the search (`LevelGenerationLibrary.cpp`, lines 773-1024,
1340-1576 and 1770-1831) -/

/-- The array `DirectionEvaluationOrder` of `AdvancedAStarPathfinding`. -/
def DirectionEvaluationOrder : List EDirections :=
  [EDirections.West, EDirections.North, EDirections.East, EDirections.South]

/-- The directions with `uint8` values from 1 up to `MAX`, the range of the
neighbour loop of `AdvancedAStarPathfinding` (line 962). -/
def AllDirections : List EDirections :=
  [EDirections.North, EDirections.East, EDirections.South, EDirections.West,
   EDirections.Above, EDirections.Below]

/-- The map `RotationMap` of `EvaluateSpecialCorridorStructures`. -/
def RotationMap : List (EDirections × FRotator) :=
  [(EDirections.North, ⟨0, 0, 0⟩), (EDirections.East, ⟨0, 90, 0⟩),
   (EDirections.South, ⟨0, 180, 0⟩), (EDirections.West, ⟨0, 270, 0⟩)]

/-- The weight `TileTypeWeight.Contains(Type) ? TileTypeWeight[Type] : 0.f`. -/
def TileTypeWeightOf (LevelGenerationSettings : FLevelGenerationSettings) (t : ETileType) : ℚ :=
  match TMapFind LevelGenerationSettings.TileTypeWeight t with
  | some w => w
  | none => 0

/-- First part of `UpdateAdvancedNode` (lines 1772-1787): the fields copied from
the arguments, and the local `NodeWeight`. -/
def UpdateNodeFields (E : Engine) (AdvancedPathNode : FAdvancedPathNode)
    (LevelGenerationSettings : FLevelGenerationSettings)
    (GeneratedLevelData : FGeneratedLevelData)
    (InSpecialPathOriginVector InCurrentCoordinate InExitLocation : FIntVector)
    (InSpecialPathType : ESpecialPathType) (InSpecialPathInfo : FSpecialPathInfo)
    (InSpecialPathRotation : FRotator)
    (InPreviousPath : List (FIntVector × FAdvancedPathNode)) (EndLocation : FIntVector) :
    FAdvancedPathNode × ℚ :=
  let NodeWeight0 : ℚ := TileTypeWeightOf LevelGenerationSettings ETileType.Empty
  let NodeWeight1 : ℚ :=
    match TMapFind GeneratedLevelData.LevelPathData InCurrentCoordinate with
    | some CorridorData => TileTypeWeightOf LevelGenerationSettings CorridorData.TileType
    | none => NodeWeight0
  let NodeWeight : ℚ :=
    if InSpecialPathType.IsStructure then E.FAdd NodeWeight1 InSpecialPathInfo.NodeWeight
    else NodeWeight1
  ({ AdvancedPathNode with
      SpecialPathType := InSpecialPathType
      SpecialPathInfo := InSpecialPathInfo
      SpecialPathOriginVector := InSpecialPathOriginVector
      SpecialPathRotation := InSpecialPathRotation
      ElevationToEnd := |InExitLocation.Z - EndLocation.Z|
      ParentNode := InCurrentCoordinate
      PreviousPath := InPreviousPath }, NodeWeight)

/-- Last part of `UpdateAdvancedNode` (lines 1819-1830): the costs, measured from
`CostLocation` (the exit of a special structure, else the coordinate itself). -/
def UpdateNodeCosts (E : Engine) (AdvancedPathNode : FAdvancedPathNode) (NodeWeight : ℚ)
    (CostLocation StartLocation EndLocation : FIntVector) : FAdvancedPathNode :=
  let GCost := E.Length (StartLocation - CostLocation)
  let HCost := E.Length (EndLocation - CostLocation)
  let FCost := E.FAdd (E.FAdd GCost HCost) NodeWeight
  { AdvancedPathNode with
    GCost := GCost
    HCost := HCost
    FCost := E.FAdd FCost
      (if AdvancedPathNode.ElevationToEnd = 0 then 0
       else E.FMul (AdvancedPathNode.ElevationToEnd : ℚ) (5 / 2)) }

/-- The recursive call of `UpdateAdvancedNode` for one cell of a structure (lines
1797-1799 and 1811-1813): a fresh node of type `SpecialPathSection`, for which the
function neither recurses again nor takes the early return. -/
def UpdateSectionNode (E : Engine) (LevelGenerationSettings : FLevelGenerationSettings)
    (GeneratedLevelData : FGeneratedLevelData) (Parent : FAdvancedPathNode)
    (VolumeCoordinate InExitLocation : FIntVector)
    (InPreviousPath : List (FIntVector × FAdvancedPathNode))
    (StartLocation EndLocation : FIntVector) : FAdvancedPathNode :=
  let Fields := UpdateNodeFields E
    { FAdvancedPathNode.Default with bIsPathReversed := Parent.bIsPathReversed }
    LevelGenerationSettings GeneratedLevelData Parent.SpecialPathOriginVector VolumeCoordinate
    InExitLocation ESpecialPathType.SpecialPathSection FSpecialPathInfo.Default
    Parent.SpecialPathRotation InPreviousPath EndLocation
  UpdateNodeCosts E Fields.1 Fields.2 VolumeCoordinate StartLocation EndLocation

/-- `ULevelGenerationLibrary::UpdateAdvancedNode`: the node after the update. -/
def UpdateAdvancedNode (E : Engine) (AdvancedPathNode : FAdvancedPathNode)
    (LevelGenerationSettings : FLevelGenerationSettings)
    (GeneratedLevelData : FGeneratedLevelData)
    (InSpecialPathOriginVector InCurrentCoordinate InExitLocation : FIntVector)
    (InSpecialPathType : ESpecialPathType) (InSpecialPathInfo : FSpecialPathInfo)
    (InSpecialPathRotation : FRotator)
    (InPreviousPath : List (FIntVector × FAdvancedPathNode))
    (StartLocation EndLocation : FIntVector) : FAdvancedPathNode :=
  let Fields := UpdateNodeFields E AdvancedPathNode LevelGenerationSettings GeneratedLevelData
    InSpecialPathOriginVector InCurrentCoordinate InExitLocation InSpecialPathType
    InSpecialPathInfo InSpecialPathRotation InPreviousPath EndLocation
  let Node := Fields.1
  if InSpecialPathType.IsStructure then
    let PathVolumeArray : List FIntVector :=
      if Node.bIsPathReversed then Node.SpecialPathInfo.PathVolume
      else Node.SpecialPathInfo.PathVolume.reverse
    let WithVolume : FAdvancedPathNode :=
      PathVolumeArray.foldl (fun (N : FAdvancedPathNode) CurrentVolumeVector =>
        let VolumeCoordinate := N.SpecialPathOriginVector +
          RotateIntVectorCoordinatefromOrigin CurrentVolumeVector N.SpecialPathRotation
        let VolumePathNode := UpdateSectionNode E LevelGenerationSettings GeneratedLevelData N
          VolumeCoordinate InExitLocation InPreviousPath StartLocation EndLocation
        { N with PreviousPath := TMapAdd N.PreviousPath VolumeCoordinate VolumePathNode })
        Node
    UpdateNodeCosts E WithVolume Fields.2 InExitLocation StartLocation EndLocation
  else
    UpdateNodeCosts E Node Fields.2 InCurrentCoordinate StartLocation EndLocation

/-- The set `InaccessibleNodes` of `AdvancedAStarPathfinding` (lines 791-821): the
coordinates that hold a room or a room section. -/
def InaccessibleNodesOf (LevelTileData : List (FIntVector × FTileData)) : List FIntVector :=
  LevelTileData.foldl (fun Nodes Entry =>
    match Entry.2.TileType with
    | ETileType.Room_Basic => TSetAdd Nodes Entry.1
    | ETileType.Room_Key => TSetAdd Nodes Entry.1
    | ETileType.Room_Special => TSetAdd Nodes Entry.1
    | ETileType.Room_Section => TSetAdd Nodes Entry.1
    | _ => Nodes) []

/-- `ULevelGenerationLibrary::IsCoordinateEmpty` (its parameter `OPEN` is never
read and is left out); `none` when `CurrentClosedNode` is no key of `CLOSED`. -/
def IsCoordinateEmpty (Coordinate CurrentClosedNode : FIntVector)
    (CLOSED : List (FIntVector × FAdvancedPathNode))
    (InaccessibleNodes : List FIntVector) (PathGenerationDataArray : List FPathGenerationData)
    (GeneratedLevelData : FGeneratedLevelData) : Option Bool :=
  if TSetContains InaccessibleNodes Coordinate then some false
  else if TMapContains CLOSED Coordinate then some false
  else if TMapContains GeneratedLevelData.LevelTileData Coordinate then some false
  else if TMapContains GeneratedLevelData.LevelPathData Coordinate then some false
  else
    match TMapFind CLOSED CurrentClosedNode with
    | none => none
    | some ClosedNode =>
      if TMapContains ClosedNode.PreviousPath Coordinate then some false
      else
        some (PathGenerationDataArray.all (fun CurrentPathGenData =>
          !(decide (Coordinate = CurrentPathGenData.PathStart) ||
            decide (Coordinate = CurrentPathGenData.PathEnd))))

/-- The loop over `PathVolume` in `EvaluateSpecialCorridorStructures` (lines
1416-1430 and 1510-1524): whether it sets `bInvalidPlacement`.  `Place` maps a
volume offset to its rotated, translated coordinate. -/
def VolumeIsInvalid (Place : FIntVector → FIntVector) (CurrentClosedNode : FIntVector)
    (ClosedNode : FAdvancedPathNode) (CLOSED : List (FIntVector × FAdvancedPathNode))
    (InaccessibleNodes : List FIntVector) (PathGenerationDataArray : List FPathGenerationData)
    (GeneratedLevelData : FGeneratedLevelData) (EndLocation : FIntVector) :
    List FIntVector → Option Bool
  | [] => some false
  | CurrentVector :: rest =>
    let RotatedCoordinate := Place CurrentVector
    match IsCoordinateEmpty RotatedCoordinate CurrentClosedNode CLOSED InaccessibleNodes
        PathGenerationDataArray GeneratedLevelData with
    | none => none
    | some Empty =>
      if !Empty || decide (RotatedCoordinate = EndLocation) then some true
      else if TMapContains ClosedNode.PreviousPath CurrentVector then some true
      else
        VolumeIsInvalid Place CurrentClosedNode ClosedNode CLOSED InaccessibleNodes
          PathGenerationDataArray GeneratedLevelData EndLocation rest

/-- First variation of a special structure in `EvaluateSpecialCorridorStructures`
(`bPathReversed == true`, lines 1379-1455): the map `OPEN` after it. -/
def EvaluateStructureFirst (E : Engine) (OPEN CLOSED : List (FIntVector × FAdvancedPathNode))
    (InaccessibleNodes : List FIntVector) (PathGenerationDataArray : List FPathGenerationData)
    (LevelGenerationSettings : FLevelGenerationSettings)
    (GeneratedLevelData : FGeneratedLevelData) (CurrentClosedNode CurrentCoordinate : FIntVector)
    (PathRotation : FRotator) (CurrentSpecialPathType : ESpecialPathType)
    (SpecialPathInfo : FSpecialPathInfo) (StartLocation EndLocation : FIntVector) :
    Option (List (FIntVector × FAdvancedPathNode)) :=
  let ExitVector := CurrentCoordinate +
    RotateIntVectorCoordinatefromOrigin SpecialPathInfo.ExitVector PathRotation
  if TMapContains OPEN ExitVector then some OPEN
  else
    let bOverrideInvalidPlacement : Bool :=
      match TMapFind GeneratedLevelData.LevelPathData CurrentCoordinate with
      | some Existing =>
        decide (Existing.ParentPathNode.SpecialPathType = CurrentSpecialPathType) &&
          decide (Existing.ParentPathNode.SpecialPathRotation = PathRotation) &&
          decide (Existing.ParentPathNode.SpecialPathOriginVector = CurrentCoordinate)
      | none => false
    match TMapFind CLOSED CurrentClosedNode with
    | none => none
    | some ClosedNode =>
      match VolumeIsInvalid
          (fun v => CurrentCoordinate + RotateIntVectorCoordinatefromOrigin v PathRotation)
          CurrentClosedNode ClosedNode CLOSED InaccessibleNodes PathGenerationDataArray
          GeneratedLevelData EndLocation SpecialPathInfo.PathVolume,
        IsCoordinateEmpty ExitVector CurrentClosedNode CLOSED InaccessibleNodes []
          GeneratedLevelData with
      | some bVolumeInvalid, some bExitEmpty =>
        let bInvalidPlacement : Bool :=
          bVolumeInvalid || !bExitEmpty || TMapContains ClosedNode.PreviousPath ExitVector
        if !bInvalidPlacement || bOverrideInvalidPlacement then
          let PreviousNodePath := TMapAdd ClosedNode.PreviousPath CurrentClosedNode ClosedNode
          let NewNode := UpdateAdvancedNode E FAdvancedPathNode.Default LevelGenerationSettings
            GeneratedLevelData CurrentCoordinate CurrentCoordinate ExitVector
            CurrentSpecialPathType SpecialPathInfo PathRotation PreviousNodePath StartLocation
            EndLocation
          some (TMapAdd OPEN ExitVector NewNode)
        else some OPEN
      | _, _ => none

/-- Second variation of a special structure in `EvaluateSpecialCorridorStructures`
(`bPathReversed == false`, lines 1456-1554): the map `OPEN` after it. -/
def EvaluateStructureSecond (E : Engine) (OPEN CLOSED : List (FIntVector × FAdvancedPathNode))
    (InaccessibleNodes : List FIntVector) (PathGenerationDataArray : List FPathGenerationData)
    (LevelGenerationSettings : FLevelGenerationSettings)
    (GeneratedLevelData : FGeneratedLevelData) (CurrentClosedNode CurrentCoordinate : FIntVector)
    (DirectionVector : FIntVector) (PathRotation ReversedPathRotation : FRotator)
    (CurrentSpecialPathType : ESpecialPathType) (SpecialPathInfo : FSpecialPathInfo)
    (StartLocation EndLocation : FIntVector) :
    Option (List (FIntVector × FAdvancedPathNode)) :=
  let ExitVector := CurrentCoordinate +
    RotateIntVectorCoordinatefromOrigin (SpecialPathInfo.ExitVector.scale (-1))
      ReversedPathRotation
  let XYDifference : Int :=
    |CurrentClosedNode.X - ExitVector.X| + |CurrentClosedNode.Y - ExitVector.Y|
  let OriginVector : FIntVector :=
    if XYDifference > 1 then ExitVector - DirectionVector
    else if XYDifference = 1 then ExitVector
    else CurrentClosedNode +
      RotateIntVectorCoordinatefromOrigin (SpecialPathInfo.ExitVector.scale (-1)) PathRotation
  if TMapContains OPEN ExitVector then some OPEN
  else
    let bOverrideInvalidPlacement : Bool :=
      match TMapFind GeneratedLevelData.LevelPathData CurrentCoordinate with
      | some Existing =>
        if decide (Existing.ParentPathNode.SpecialPathType = CurrentSpecialPathType) &&
            decide (Existing.ParentPathNode.SpecialPathRotation = ReversedPathRotation) &&
            decide (Existing.ParentPathNode.SpecialPathOriginVector = OriginVector) then true
        else
          match TMapFind GeneratedLevelData.LevelPathData
              Existing.ParentPathNode.SpecialPathOriginVector with
          | some ExistingParent =>
            let ExpectedExitVector := ExitVector +
              RotateIntVectorCoordinatefromOrigin SpecialPathInfo.ExitVector PathRotation
            let ExpectedOriginVector := OriginVector
            let bSameExit :=
              decide (ExistingParent.ParentPathNode.SpecialPathOriginVector = ExpectedExitVector)
            let bSameOriginVector :=
              decide (ExistingParent.ParentPathNode.SpecialPathOriginVector = ExpectedOriginVector)
            let bSameRotation :=
              decide (ExistingParent.ParentPathNode.SpecialPathRotation = PathRotation)
            bSameExit && bSameOriginVector && bSameRotation
          | none => false
      | none => false
    match TMapFind CLOSED CurrentClosedNode with
    | none => none
    | some ClosedNode =>
      match VolumeIsInvalid
          (fun v => CurrentCoordinate +
            RotateIntVectorCoordinatefromOrigin (v.scale (-1)) ReversedPathRotation)
          CurrentClosedNode ClosedNode CLOSED InaccessibleNodes PathGenerationDataArray
          GeneratedLevelData EndLocation SpecialPathInfo.PathVolume,
        IsCoordinateEmpty ExitVector CurrentClosedNode CLOSED InaccessibleNodes []
          GeneratedLevelData with
      | some bVolumeInvalid, some bExitEmpty =>
        -- the `break` of line 1534 leaves the loop over the two variations
        if bExitEmpty && TMapContains ClosedNode.PreviousPath ExitVector then some OPEN
        else
          let bInvalidPlacement : Bool := bVolumeInvalid || !bExitEmpty
          if !bInvalidPlacement || bOverrideInvalidPlacement then
            let PreviousNodePath := TMapAdd ClosedNode.PreviousPath CurrentClosedNode ClosedNode
            let NodeRotation := if XYDifference = 0 then PathRotation else ReversedPathRotation
            let NewNode := UpdateAdvancedNode E
              { FAdvancedPathNode.Default with bIsPathReversed := false }
              LevelGenerationSettings GeneratedLevelData OriginVector CurrentCoordinate
              ExitVector CurrentSpecialPathType SpecialPathInfo NodeRotation PreviousNodePath
              StartLocation EndLocation
            some (TMapAdd OPEN ExitVector NewNode)
          else some OPEN
      | _, _ => none

/-- `ULevelGenerationLibrary::EvaluateSpecialCorridorStructures`: the map `OPEN`
after the call (`CLOSED` is only read); `none` when a lookup fails or the special
path data asset is missing while a type is enabled. -/
def EvaluateSpecialCorridorStructures (E : Engine)
    (OPEN CLOSED : List (FIntVector × FAdvancedPathNode))
    (InaccessibleNodes : List FIntVector) (PathGenerationDataArray : List FPathGenerationData)
    (LevelGenerationSettings : FLevelGenerationSettings)
    (GeneratedLevelData : FGeneratedLevelData) (CurrentClosedNode : FIntVector)
    (CurrentDirection : EDirections) (StartLocation EndLocation : FIntVector) :
    Option (List (FIntVector × FAdvancedPathNode)) :=
  match TMapFind DirectionCoordinates CurrentDirection, TMapFind RotationMap CurrentDirection with
  | some DirectionVector, some PathRotation =>
    let CurrentCoordinate := CurrentClosedNode + DirectionVector
    let Reversed0 := PathRotation.add ⟨0, 180, 0⟩
    let ReversedPathRotation : FRotator :=
      { Reversed0 with Yaw := Reversed0.Yaw - (if Reversed0.Yaw ≥ 360 then 360 else 0) }
    if TSetContains InaccessibleNodes CurrentCoordinate || TMapContains CLOSED CurrentCoordinate
    then some OPEN
    else
      (TMapKeys LevelGenerationSettings.AllowedSpecialPathTypes).foldl
        (fun (Acc : Option (List (FIntVector × FAdvancedPathNode))) CurrentSpecialPathType =>
          match Acc with
          | none => none
          | some Open =>
            match TMapFind LevelGenerationSettings.AllowedSpecialPathTypes
                CurrentSpecialPathType with
            | none => none
            | some false => some Open
            | some true =>
              match LevelGenerationSettings.SpecialPathData with
              | none => none
              | some SpecialPathSettings =>
                match TMapFind SpecialPathSettings CurrentSpecialPathType with
                | none => some Open
                | some SpecialPathInfo =>
                  match EvaluateStructureFirst E Open CLOSED InaccessibleNodes
                      PathGenerationDataArray LevelGenerationSettings GeneratedLevelData
                      CurrentClosedNode CurrentCoordinate PathRotation CurrentSpecialPathType
                      SpecialPathInfo StartLocation EndLocation with
                  | none => none
                  | some Open1 =>
                    EvaluateStructureSecond E Open1 CLOSED InaccessibleNodes
                      PathGenerationDataArray LevelGenerationSettings GeneratedLevelData
                      CurrentClosedNode CurrentCoordinate DirectionVector PathRotation
                      ReversedPathRotation CurrentSpecialPathType SpecialPathInfo StartLocation
                      EndLocation)
        (some OPEN)
  | _, _ => none

end LevelGen

namespace LevelGen

/-! ## Corridor router: `AdvancedAStarPathfinding` -/

/-- The comparison lambda handed to `OPEN.ValueSort` (lines 897-911). -/
def OpenNodeLess (NodeA NodeB : FAdvancedPathNode) : Bool :=
  if NodeA.FCost < NodeB.FCost then true
  else if NodeA.FCost > NodeB.FCost then false
  else if NodeA.ElevationToEnd < NodeB.ElevationToEnd then true
  else if NodeA.ElevationToEnd > NodeB.ElevationToEnd then false
  else if NodeA.HCost < NodeB.HCost then true
  else false

/-- Everything a run of `AdvancedAStarPathfinding` reads and never writes. -/
structure SearchContext where
  StartLocation : FIntVector
  EndLocation : FIntVector
  PathGenerationDataArray : List FPathGenerationData
  LevelGenerationSettings : FLevelGenerationSettings
  GeneratedLevelData : FGeneratedLevelData
  InaccessibleNodes : List FIntVector

/-- A plain corridor node for `Coordinate`, reached from the closed node
`ClosedNode` at `ClosedCoordinate` (lines 880-885 and 988-995). -/
def NewPlainNode (E : Engine) (C : SearchContext) (ClosedCoordinate : FIntVector)
    (ClosedNode : FAdvancedPathNode) (Coordinate : FIntVector) : FAdvancedPathNode :=
  let PreviousNodePath := TMapAdd ClosedNode.PreviousPath ClosedCoordinate ClosedNode
  UpdateAdvancedNode E FAdvancedPathNode.Default C.LevelGenerationSettings C.GeneratedLevelData
    Coordinate Coordinate Coordinate ESpecialPathType.None FSpecialPathInfo.Default
    ⟨0, 0, 0⟩ PreviousNodePath C.StartLocation C.EndLocation

/-- Whether `LevelPathData` holds, at the coordinate, a tile with a special path
type (lines 870-875 and 980-983). -/
def IsSpecialPathAt (GeneratedLevelData : FGeneratedLevelData) (Coordinate : FIntVector) : Bool :=
  match TMapFind GeneratedLevelData.LevelPathData Coordinate with
  | some Tile => decide (Tile.SpecialPathType ≠ ESpecialPathType.None)
  | none => false

/-- Body of the loop over `DirectionEvaluationOrder` (lines 862-891) for one closed
node and one direction: the map `OPEN` after it. -/
def ExpandClosedDirection (E : Engine) (C : SearchContext)
    (CLOSED : List (FIntVector × FAdvancedPathNode)) (CurrentClosedNode : FIntVector)
    (OPEN : List (FIntVector × FAdvancedPathNode)) (CurrentDirection : EDirections) :
    Option (List (FIntVector × FAdvancedPathNode)) :=
  if CurrentDirection = EDirections.Above ∨ CurrentDirection = EDirections.Below then some OPEN
  else
    match TMapFind DirectionCoordinates CurrentDirection, TMapFind CLOSED CurrentClosedNode with
    | some DirectionVector, some ClosedNode =>
      let CurrentCoordinate := CurrentClosedNode + DirectionVector
      if TMapContains ClosedNode.PreviousPath CurrentCoordinate then some OPEN
      else
        let bIsThereSpecialPathAtCoordinate := IsSpecialPathAt C.GeneratedLevelData CurrentCoordinate
        let OPEN1 :=
          if !TSetContains C.InaccessibleNodes CurrentCoordinate &&
              !TMapContains OPEN CurrentCoordinate && !TMapContains CLOSED CurrentCoordinate &&
              !bIsThereSpecialPathAtCoordinate then
            TMapAdd OPEN CurrentCoordinate
              (NewPlainNode E C CurrentClosedNode ClosedNode CurrentCoordinate)
          else OPEN
        EvaluateSpecialCorridorStructures E OPEN1 CLOSED C.InaccessibleNodes
          C.PathGenerationDataArray C.LevelGenerationSettings C.GeneratedLevelData
          CurrentClosedNode CurrentDirection C.StartLocation C.EndLocation
    | _, _ => none

/-- Body of the loop over the closed coordinates (lines 854-893) for one closed
node. -/
def ExpandClosedNode (E : Engine) (C : SearchContext)
    (CLOSED : List (FIntVector × FAdvancedPathNode))
    (OPEN : List (FIntVector × FAdvancedPathNode)) (CurrentClosedNode : FIntVector) :
    Option (List (FIntVector × FAdvancedPathNode)) :=
  match TMapFind CLOSED CurrentClosedNode with
  | none => none
  | some ClosedNode =>
    if ClosedNode.SpecialPathType = ESpecialPathType.SpecialPathSection then some OPEN
    else
      DirectionEvaluationOrder.foldl (fun Acc CurrentDirection =>
        match Acc with
        | none => none
        | some Open => ExpandClosedDirection E C CLOSED CurrentClosedNode Open CurrentDirection)
        (some OPEN)

/-- The loop over the closed coordinates (lines 851-893). -/
def ExpandClosed (E : Engine) (C : SearchContext)
    (OPEN CLOSED : List (FIntVector × FAdvancedPathNode)) :
    Option (List (FIntVector × FAdvancedPathNode)) :=
  (TMapKeys CLOSED).foldl (fun Acc CurrentClosedNode =>
    match Acc with
    | none => none
    | some Open => ExpandClosedNode E C CLOSED Open CurrentClosedNode) (some OPEN)

/-- The commit of the cells of a popped special structure (lines 927-940): the
last `PathVolume.Num()` keys of the node's `PreviousPath`, from the last one
backwards, move into `CLOSED` and out of `OPEN`. -/
def CommitStructure (CurrentNode : FAdvancedPathNode) :
    Nat → List (FIntVector × FAdvancedPathNode) × List (FIntVector × FAdvancedPathNode) →
      Option (List (FIntVector × FAdvancedPathNode) × List (FIntVector × FAdvancedPathNode))
  | 0, State => some State
  | Count + 1, State =>
    match CommitStructure CurrentNode Count State with
    | none => none
    | some (OPEN, CLOSED) =>
      -- `PreviousPathKeyArray.Last(Count)`
      match (TMapKeys CurrentNode.PreviousPath).reverse[Count]? with
      | none => none
      | some PathVolumeCoordinate =>
        match TMapFind CurrentNode.PreviousPath PathVolumeCoordinate with
        | none => none
        | some SectionNode =>
          some (TMapRemove OPEN PathVolumeCoordinate,
            TMapAdd CLOSED PathVolumeCoordinate SectionNode)

/-- Body of the loop over the neighbours of the popped node (lines 962-1001) for
one direction: the map `OPEN` after it. -/
def RelaxNeighbour (E : Engine) (C : SearchContext)
    (CLOSED : List (FIntVector × FAdvancedPathNode)) (CurrentNodeCoordinate : FIntVector)
    (CurrentNode : FAdvancedPathNode) (OPEN : List (FIntVector × FAdvancedPathNode))
    (CurrentDirection : EDirections) : Option (List (FIntVector × FAdvancedPathNode)) :=
  if CurrentDirection = EDirections.Above ∨ CurrentDirection = EDirections.Below then some OPEN
  else
    match TMapFind DirectionCoordinates CurrentDirection with
    | none => none
    | some DirectionVector =>
      let NeighbourCoordinate := CurrentNodeCoordinate + DirectionVector
      if (match TMapFind CLOSED NeighbourCoordinate with
          | some Settled => decide (Settled.SpecialPathType = ESpecialPathType.SpecialPathSection)
          | none => false) then some OPEN
      else if TSetContains C.InaccessibleNodes NeighbourCoordinate ||
          TMapContains CLOSED NeighbourCoordinate then some OPEN
      else if TMapContains CurrentNode.PreviousPath NeighbourCoordinate then some OPEN
      else if IsSpecialPathAt C.GeneratedLevelData NeighbourCoordinate then some OPEN
      else if E.FAdd CurrentNode.GCost (E.Length (CurrentNodeCoordinate - NeighbourCoordinate)) <
            E.Length (C.StartLocation - NeighbourCoordinate) ∨
          ¬ TMapContains OPEN NeighbourCoordinate then
        match TMapFind CLOSED CurrentNodeCoordinate with
        | none => none
        | some ClosedNode =>
          some (TMapAdd OPEN NeighbourCoordinate
            (NewPlainNode E C CurrentNodeCoordinate ClosedNode NeighbourCoordinate))
      else some OPEN

/-- The assembly of `PathData` after the loop (lines 1006-1021): the entries of
the chosen path from the last one backwards, up to and including the start. -/
def AssemblePathData (StartLocation : FIntVector) :
    List (FIntVector × FAdvancedPathNode) → List (FIntVector × FAdvancedPathNode) →
      List (FIntVector × FAdvancedPathNode)
  | PathData, [] => PathData
  | PathData, (PreviousPathCoordinate, PreviousPathNode) :: rest =>
    let PathData1 := TMapAdd PathData PreviousPathCoordinate PreviousPathNode
    if PreviousPathCoordinate = StartLocation then PathData1
    else AssemblePathData StartLocation PathData1 rest

/-- The `do { ... } while (true)` loop of `AdvancedAStarPathfinding` (lines
848-1002) followed by the assembly of `PathData`; `Steps` bounds the number of
iterations of the embedding. -/
def SearchLoop (E : Engine) (C : SearchContext) (PathData : List (FIntVector × FAdvancedPathNode)) :
    Nat → List (FIntVector × FAdvancedPathNode) → List (FIntVector × FAdvancedPathNode) →
      Outcome (Bool × List (FIntVector × FAdvancedPathNode))
  | 0, _, _ => Outcome.unfinished
  | Steps + 1, OPEN, CLOSED =>
    match ExpandClosed E C OPEN CLOSED with
    | none => Outcome.aborts
    | some Expanded =>
      match E.ValueSort OpenNodeLess Expanded with
      | [] => Outcome.returns (false, PathData)
      | (CurrentNodeCoordinate, CurrentNode) :: SortedRest =>
        let Sorted := (CurrentNodeCoordinate, CurrentNode) :: SortedRest
        match
          (if CurrentNode.SpecialPathType.IsStructure then
            CommitStructure CurrentNode CurrentNode.SpecialPathInfo.PathVolume.length
              (Sorted, CLOSED)
          else some (Sorted, CLOSED)) with
        | none => Outcome.aborts
        | some (OPEN1, CLOSED1) =>
          let CLOSED2 := TMapAdd CLOSED1 CurrentNodeCoordinate CurrentNode
          let OPEN2 := TMapRemove OPEN1 CurrentNodeCoordinate
          if CurrentNodeCoordinate = C.EndLocation then
            let PreviousNodePath :=
              TMapAdd CurrentNode.PreviousPath CurrentNodeCoordinate CurrentNode
            -- the chosen path is `CLOSED[EndLocation].PreviousPath` after the update
            Outcome.returns (true, AssemblePathData C.StartLocation PathData PreviousNodePath.reverse)
          else
            match AllDirections.foldl (fun Acc CurrentDirection =>
                match Acc with
                | none => none
                | some Open =>
                  RelaxNeighbour E C CLOSED2 CurrentNodeCoordinate CurrentNode Open
                    CurrentDirection) (some OPEN2) with
            | none => Outcome.aborts
            | some OPEN3 => SearchLoop E C PathData Steps OPEN3 CLOSED2

/-- `ULevelGenerationLibrary::AdvancedAStarPathfinding`: the returned flag and the
content of the reference parameter `PathData`, for at most `Steps` iterations of
the search loop. -/
def AdvancedAStarPathfinding (E : Engine) (Steps : Nat) (StartLocation EndLocation : FIntVector)
    (PathData : List (FIntVector × FAdvancedPathNode))
    (PathGenerationDataArray : List FPathGenerationData)
    (LevelGenerationSettings : FLevelGenerationSettings)
    (GeneratedLevelData : FGeneratedLevelData) :
    Outcome (Bool × List (FIntVector × FAdvancedPathNode)) :=
  let InaccessibleNodes := InaccessibleNodesOf GeneratedLevelData.LevelTileData
  if TSetContains InaccessibleNodes StartLocation || TSetContains InaccessibleNodes EndLocation
  then
    let StartingNode : FAdvancedPathNode :=
      { FAdvancedPathNode.Default with ParentNode := StartLocation }
    let EndingNode : FAdvancedPathNode :=
      { FAdvancedPathNode.Default with ParentNode := EndLocation }
    Outcome.returns (true, TMapAdd (TMapAdd PathData StartLocation StartingNode) EndLocation EndingNode)
  else
    let C : SearchContext :=
      { StartLocation := StartLocation, EndLocation := EndLocation,
        PathGenerationDataArray := PathGenerationDataArray,
        LevelGenerationSettings := LevelGenerationSettings,
        GeneratedLevelData := GeneratedLevelData, InaccessibleNodes := InaccessibleNodes }
    let Updated := UpdateAdvancedNode E FAdvancedPathNode.Default LevelGenerationSettings
      GeneratedLevelData StartLocation StartLocation StartLocation ESpecialPathType.None
      FSpecialPathInfo.Default ⟨0, 0, 0⟩ [] StartLocation EndLocation
    let HCost := E.Length (EndLocation - StartLocation)
    let StartingNode : FAdvancedPathNode :=
      { Updated with
        ParentNode := StartLocation
        GCost := 0
        HCost := HCost
        FCost := E.FAdd (E.FAdd 0 HCost) (if Updated.ElevationToEnd = 0 then 0 else 5 / 2) }
    SearchLoop E C PathData Steps [] (TMapAdd [] StartLocation StartingNode)

end LevelGen

namespace LevelGen

/-! ## Corridor router: `GenerateCorridors3D` and its helpers -/

/-- `UKismetMathLibrary::Clamp` on integers. -/
def ClampInt (Value Min Max : Int) : Int :=
  if Value < Min then Min else if Value > Max then Max else Value

/-- `ULevelGenerationLibrary::GetDirectionForIntVectors`. -/
def GetDirectionForIntVectors (StartVector TargetVector : FIntVector) : EDirections :=
  let Difference := TargetVector - StartVector
  let DirectionVector : FIntVector :=
    ⟨ClampInt Difference.X (-1) 1, ClampInt Difference.Y (-1) 1, ClampInt Difference.Z (-1) 1⟩
  if |DirectionVector.Z| > 0 then
    if DirectionVector.Z > 0 then EDirections.Above else EDirections.Below
  else if |DirectionVector.X| > |DirectionVector.Y| then
    if DirectionVector.X > 0 then EDirections.North else EDirections.South
  else if |DirectionVector.Y| > |DirectionVector.X| then
    if DirectionVector.Y > 0 then EDirections.East else EDirections.West
  else EDirections.None

/-- `UKruskalMSTLibrary::RandomlyAddEdgesToMST`: the tree after the call and the
final state of the parameter `Stream`, which the function receives by value. -/
def RandomlyAddEdgesToMST (E : Engine) (MinimumSpanningTree DiscardedEdgesArray : List FEdgeInfo)
    (Stream : FRandomStream) (AddToMSTChance : ℚ) : List FEdgeInfo × FRandomStream :=
  DiscardedEdgesArray.foldl (fun (Acc : List FEdgeInfo × FRandomStream) CurrentEdge =>
    let Draw := RandomFloatInRangeFromStream E 0 1 Acc.2
    if Draw.1 ≤ AddToMSTChance then (Acc.1 ++ [CurrentEdge], Draw.2) else (Acc.1, Draw.2))
    (MinimumSpanningTree, Stream)

/-- The two inner loops of the access point scan (lines 331-364 and 1898-1933):
every access point and accessible direction of the origin tile against one
candidate end cell. -/
def ScanOriginAccessPoints (E : Engine) (GeneratedLevelData : FGeneratedLevelData)
    (Edge : FEdgeInfo) (OriginTile DestinationTile : FTileData)
    (ExcludedOriginAPs : List FIntVector) (CurrentDestinationAP : FIntVector)
    (DestinationDirection : EDirections) (PotentialPathEnd : FIntVector)
    (Best : FPathGenerationData) : Option FPathGenerationData :=
  OriginTile.TileAccessPoints.foldl (fun Acc OriginEntry =>
    OriginEntry.2.AccessibleDirections.foldl (fun Acc2 OriginDirection =>
      match Acc2 with
      | none => none
      | some (Current : FPathGenerationData) =>
        match TMapFind DirectionCoordinates OriginDirection with
        | none => none
        | some DirectionVector =>
          let CurrentOriginAP := OriginEntry.1
          let PotentialPathStart := Edge.Origin +
            RotateIntVectorCoordinatefromOrigin (CurrentOriginAP + DirectionVector)
              OriginTile.TileRotation
          if decide (PotentialPathStart ∈ ExcludedOriginAPs) then some Current
          else if TMapContains GeneratedLevelData.LevelTileData PotentialPathEnd then some Current
          else
            let PotentialShortestDistance := E.Length (PotentialPathEnd - PotentialPathStart)
            if PotentialShortestDistance < Current.PathDistance then
              some { Current with
                OriginAccessPoint := CurrentOriginAP
                OriginAccessPointLocation := Edge.Origin +
                  RotateIntVectorCoordinatefromOrigin CurrentOriginAP OriginTile.TileRotation
                OriginPathDirection := OriginDirection
                DestinationAccessPoint := CurrentDestinationAP
                DestinationAccessPointLocation := Edge.Destination +
                  RotateIntVectorCoordinatefromOrigin CurrentDestinationAP
                    DestinationTile.TileRotation
                DestinationPathDirection := DestinationDirection
                PathEnd := PotentialPathEnd
                PathStart := PotentialPathStart
                PathDistance := PotentialShortestDistance }
            else some Current) Acc) (some Best)

/-- The access point scan shared by `GenerateCorridors3D` (lines 303-366, which make
no exclusions) and `GetShortestPathToTargetRoom` (lines 1869-1936): `none` when a
direction has no entry in `DirectionCoordinates`. -/
def ScanAccessPoints (E : Engine) (GeneratedLevelData : FGeneratedLevelData) (Edge : FEdgeInfo)
    (OriginTile DestinationTile : FTileData)
    (ExcludedOriginAPs ExcludedDestinationAPs : List FIntVector) : Option FPathGenerationData :=
  let Initial : FPathGenerationData :=
    { FPathGenerationData.Default with
      PathData := Edge
      OriginTile := some Edge.Origin
      DestinationTile := some Edge.Destination }
  DestinationTile.TileAccessPoints.foldl (fun Acc DestinationEntry =>
    DestinationEntry.2.AccessibleDirections.foldl (fun Acc2 DestinationDirection =>
      match Acc2 with
      | none => none
      | some (Current : FPathGenerationData) =>
        match TMapFind DirectionCoordinates DestinationDirection with
        | none => none
        | some DirectionVector =>
          let PotentialPathEnd := Edge.Destination +
            RotateIntVectorCoordinatefromOrigin (DestinationEntry.1 + DirectionVector)
              DestinationTile.TileRotation
          if decide (PotentialPathEnd ∈ ExcludedDestinationAPs) then some Current
          else if TMapContains GeneratedLevelData.LevelTileData PotentialPathEnd then some Current
          else
            ScanOriginAccessPoints E GeneratedLevelData Edge OriginTile DestinationTile
              ExcludedOriginAPs DestinationEntry.1 DestinationDirection PotentialPathEnd Current)
      Acc) (some Initial)

/-- `ULevelGenerationLibrary::GetShortestPathToTargetRoom`. -/
def GetShortestPathToTargetRoom (E : Engine) (GeneratedLevelData : FGeneratedLevelData)
    (InPathData : FEdgeInfo) (ExcludedOriginAPs ExcludedDestinationAPs : List FIntVector) :
    Option FPathGenerationData :=
  match TMapFind GeneratedLevelData.LevelTileData InPathData.Origin,
      TMapFind GeneratedLevelData.LevelTileData InPathData.Destination with
  | some OriginTile, some DestinationTile =>
    ScanAccessPoints E GeneratedLevelData InPathData OriginTile DestinationTile
      ExcludedOriginAPs ExcludedDestinationAPs
  | OriginTile, DestinationTile =>
    some { FPathGenerationData.Default with
      PathData := InPathData
      OriginTile := OriginTile.map (fun _ => InPathData.Origin)
      DestinationTile := DestinationTile.map (fun _ => InPathData.Destination) }

/-- The statement `Tile->TileAccessPoints[AccessPoint].DirectionsInUse.Add(Direction)`
on the tile stored under `TileKey`; `none` when the tile or the access point is
missing. -/
def AddDirectionInUse (LevelTileData : List (FIntVector × FTileData))
    (TileKey : Option FIntVector) (AccessPoint : FIntVector) (Direction : EDirections) :
    Option (List (FIntVector × FTileData)) :=
  match TileKey with
  | none => none
  | some Key =>
    match TMapFind LevelTileData Key with
    | none => none
    | some Tile =>
      match TMapFind Tile.TileAccessPoints AccessPoint with
      | none => none
      | some Access =>
        some (TMapAdd LevelTileData Key
          { Tile with
            TileAccessPoints := TMapAdd Tile.TileAccessPoints AccessPoint
              { Access with DirectionsInUse := TSetAdd Access.DirectionsInUse Direction } })

/-- The read `Tile->TileType` through a tile pointer. -/
def TileTypeAt (LevelTileData : List (FIntVector × FTileData)) (TileKey : Option FIntVector) :
    Option ETileType :=
  match TileKey with
  | none => none
  | some Key => (TMapFind LevelTileData Key).map (·.TileType)

/-- The variables `PreviousPathVector` and `PreviousPathTileType` that the commit of
a path threads through its cells. -/
structure PathCursor where
  PreviousPathVector : FIntVector
  PreviousPathTileType : ETileType

/-- `ULevelGenerationLibrary::GenerateNormalPathData`: the level data and the two
reference parameters after the call.  The local `DirectionToPreviousPath` is
assigned only when the previous path cell is a neighbour of the current one (line
1599) and is read whenever there is a previous path cell (lines 1620 and 1628);
unassigned, it holds `E.UnassignedDirection`. -/
def GenerateNormalPathData (E : Engine) (CurrentPathVector : FIntVector)
    (PathData : List (FIntVector × FAdvancedPathNode)) (CurrentPathGenData : FPathGenerationData)
    (Cursor : PathCursor) (GeneratedLevelData : FGeneratedLevelData) :
    Option (PathCursor × FGeneratedLevelData) :=
  match TMapFind PathData CurrentPathVector with
  | none => none
  | some Node =>
    let ParentNode : FIntVector :=
      if Node.PreviousPath.isEmpty then CurrentPathGenData.OriginAccessPointLocation
      else
        match (TMapKeys Node.PreviousPath).getLast? with
        | some Last => Last
        | none => Node.ParentNode
    let DirectionToParentNode := GetDirectionForIntVectors CurrentPathVector ParentNode
    let bHasPrevious : Bool := decide (Cursor.PreviousPathVector ≠ ⟨-1, -1, -1⟩)
    let DirectionToPreviousPath : EDirections :=
      if bHasPrevious then
        match TMapFindKey DirectionCoordinates (Cursor.PreviousPathVector - CurrentPathVector) with
        | some d => d
        | none => E.UnassignedDirection
      else E.UnassignedDirection
    let Adjacent : Option (List (EDirections × ETileType)) :=
      if CurrentPathVector = CurrentPathGenData.PathEnd then
        match TileTypeAt GeneratedLevelData.LevelTileData CurrentPathGenData.DestinationTile with
        | none => none
        | some DestinationType =>
          let DirectionToDestination := GetDirectionForIntVectors CurrentPathVector
            CurrentPathGenData.DestinationAccessPointLocation
          some (TMapAdd (TMapAdd [] DirectionToDestination DestinationType)
            DirectionToParentNode ETileType.Corridor)
      else if CurrentPathVector = CurrentPathGenData.PathStart then
        let First : List (EDirections × ETileType) :=
          if bHasPrevious then TMapAdd [] DirectionToPreviousPath Cursor.PreviousPathTileType
          else []
        match TileTypeAt GeneratedLevelData.LevelTileData CurrentPathGenData.OriginTile with
        | none => none
        | some OriginType =>
          let DirectionToOrigin := GetDirectionForIntVectors CurrentPathVector
            CurrentPathGenData.OriginAccessPointLocation
          some (TMapAdd First DirectionToOrigin OriginType)
      else
        let First : List (EDirections × ETileType) :=
          if bHasPrevious then TMapAdd [] DirectionToPreviousPath Cursor.PreviousPathTileType
          else []
        some (TMapAdd First DirectionToParentNode ETileType.Corridor)
    match Adjacent with
    | none => none
    | some AdjacentAccessPoints =>
      let CorridorTileData : FCorridorTileData :=
        { FCorridorTileData.Default with
          TileType := ETileType.Corridor
          AdjacentAccessPoints := AdjacentAccessPoints }
      let LevelPathData :=
        match TMapFind GeneratedLevelData.LevelPathData CurrentPathVector with
        | none => TMapAdd GeneratedLevelData.LevelPathData CurrentPathVector CorridorTileData
        | some Existing =>
          TMapAdd GeneratedLevelData.LevelPathData CurrentPathVector
            { Existing with
              AdjacentAccessPoints :=
                TMapAppend Existing.AdjacentAccessPoints AdjacentAccessPoints }
      some ({ PreviousPathVector := CurrentPathVector, PreviousPathTileType := ETileType.Corridor },
        { GeneratedLevelData with LevelPathData := LevelPathData })

/-- `ULevelGenerationLibrary::GetParentNode`: the returned flag and the reference
parameter `ParentNode` after the call (it is left alone when the flag is false
because the target is missing). -/
def GetParentNode (PathData : List (FIntVector × FAdvancedPathNode))
    (TargetCoordinate ParentNode : FIntVector) : Bool × FIntVector :=
  match TMapFind PathData TargetCoordinate with
  | none => (false, ParentNode)
  | some Node =>
    if !Node.PreviousPath.isEmpty then
      match (TMapKeys Node.PreviousPath).getLast? with
      | some Last => (true, Last)
      | none => (true, Node.ParentNode)
    else (false, FIntVector.ZeroValue)

/-- The statement `LevelPathData[Key].AdjacentAccessPoints.Add(Direction, Type)`;
`none` when the key is missing. -/
def AddAdjacentAccessPoint (LevelPathData : List (FIntVector × FCorridorTileData))
    (Key : FIntVector) (Direction : EDirections) (TileType : ETileType) :
    Option (List (FIntVector × FCorridorTileData)) :=
  match TMapFind LevelPathData Key with
  | none => none
  | some Tile =>
    some (TMapAdd LevelPathData Key
      { Tile with AdjacentAccessPoints := TMapAdd Tile.AdjacentAccessPoints Direction TileType })

/-- `ULevelGenerationLibrary::GenerateSpecialPathData`. -/
def GenerateSpecialPathData (E : Engine) (CurrentPathVector : FIntVector)
    (PathData : List (FIntVector × FAdvancedPathNode)) (CurrentPathGenData : FPathGenerationData)
    (Cursor : PathCursor) (GeneratedLevelData : FGeneratedLevelData) :
    Option (PathCursor × FGeneratedLevelData) :=
  match TMapFind PathData CurrentPathVector with
  | none => none
  | some Node =>
    let CorridorTileData : FCorridorTileData :=
      match TMapFind GeneratedLevelData.LevelPathData Node.SpecialPathOriginVector with
      | some Existing => Existing
      | none =>
        { FCorridorTileData.Default with
          TileType := ETileType.Corridor_Special
          SpecialPathType := Node.SpecialPathType
          SpecialPathRotation := Node.SpecialPathRotation
          SpecialPathTileSize := Node.SpecialPathInfo.PathVolume
          ParentPathNode := Node }
    let CorridorSectionTileData : FCorridorTileData :=
      { FCorridorTileData.Default with
        TileType := ETileType.Corridor_Section
        SpecialPathType := ESpecialPathType.SpecialPathSection
        ParentPathNode := Node }
    -- Build Exit Corridor if needed
    match
      (if !TSetContains Node.SpecialPathInfo.PathVolume Node.SpecialPathInfo.ExitVector then
        GenerateNormalPathData E CurrentPathVector PathData CurrentPathGenData Cursor
          GeneratedLevelData
      else some (Cursor, GeneratedLevelData)) with
    | none => none
    | some (Cursor1, Data1) =>
      -- Sections
      let WithSections := Node.SpecialPathInfo.PathVolume.foldl (fun Paths CurrentVector =>
        let RotatedCoordinate := Node.SpecialPathOriginVector +
          RotateIntVectorCoordinatefromOrigin CurrentVector CorridorTileData.SpecialPathRotation
        if !TMapContains Paths RotatedCoordinate then
          TMapAdd Paths RotatedCoordinate CorridorSectionTileData
        else Paths) Data1.LevelPathData
      -- Build Special Path
      let WithStructure := TMapAdd WithSections Node.SpecialPathOriginVector CorridorTileData
      let Stored : Option (List (FIntVector × FCorridorTileData)) :=
        if Node.SpecialPathType.IsElevatorStoreys then
          let ExitVector : FIntVector :=
            if !Node.bIsPathReversed then
              CurrentPathVector + RotateIntVectorCoordinatefromOrigin
                CorridorTileData.ParentPathNode.SpecialPathInfo.ExitVector
                CorridorTileData.SpecialPathRotation
            else Node.SpecialPathOriginVector
          let Found := GetParentNode PathData ExitVector FIntVector.ZeroValue
          let ParentNode : FIntVector :=
            if !Found.1 then CurrentPathGenData.OriginAccessPointLocation else Found.2
          -- Previous node
          match TMapFindKey DirectionCoordinates (Cursor1.PreviousPathVector - CurrentPathVector) with
          | none => none
          | some DirectionToPreviousPath =>
            match AddAdjacentAccessPoint WithStructure CurrentPathVector DirectionToPreviousPath
                Cursor1.PreviousPathTileType with
            | none => none
            | some Paths1 =>
              -- Next node
              let DirectionToParentNode := GetDirectionForIntVectors ExitVector ParentNode
              match TMapFind Node.PreviousPath ParentNode with
              | none => none
              | some ParentPathNode =>
                let ParentNodeTileType : ETileType :=
                  if ParentPathNode.SpecialPathType = ESpecialPathType.None then ETileType.Corridor
                  else ETileType.Corridor_Special
                AddAdjacentAccessPoint Paths1 ExitVector DirectionToParentNode ParentNodeTileType
        else some WithStructure
      match Stored with
      | none => none
      | some LevelPathData =>
        some ({ PreviousPathVector :=
                  if Node.bIsPathReversed then CurrentPathVector
                  else CurrentPathVector + RotateIntVectorCoordinatefromOrigin
                    Node.SpecialPathInfo.ExitVector CorridorTileData.SpecialPathRotation,
                PreviousPathTileType := CorridorTileData.TileType },
          { Data1 with LevelPathData := LevelPathData })

end LevelGen

namespace LevelGen

/-- `ULevelGenerationLibrary::AddUsedAccessPointsToTileData`; `none` when a
direction has no entry in `DirectionCoordinates` or the access point is missing. -/
def AddUsedAccessPointsToTileData (E : Engine) (TileData : FTileData)
    (AccessPointCoordinate : FIntVector) (CorridorTileData : FCorridorTileData) :
    Option FTileData :=
  (TMapKeys CorridorTileData.AdjacentAccessPoints).foldl (fun Acc CurrentDirection =>
    match Acc with
    | none => none
    | some (Tile : FTileData) =>
      match TMapFind DirectionCoordinates CurrentDirection with
      | none => none
      | some DirectionVector =>
        let ActualDirectionVector :=
          RotateIntVectorCoordinatefromOrigin DirectionVector (E.GetInverse Tile.TileRotation)
        let AccessPointDirection : EDirections :=
          match TMapFindKey DirectionCoordinates ActualDirectionVector with
          | some d => d
          | none => EDirections.None
        if AccessPointDirection = EDirections.None then some Tile
        else
          match TMapFind Tile.TileAccessPoints AccessPointCoordinate with
          | none => none
          | some Access =>
            some { Tile with
              TileAccessPoints := TMapAdd Tile.TileAccessPoints AccessPointCoordinate
                { Access with
                  DirectionsInUse := TSetAdd Access.DirectionsInUse AccessPointDirection } })
    (some TileData)

/-- The block repeated in `GetTileDataFromCorridorTileData` for every corridor
kind (for example lines 1051-1058): when the settings list a table for the kind, a
row is drawn and its content copied; `none` when no row is drawn (the source
dereferences the null pointer). -/
def CopyCorridorContent (E : Engine) (LevelGenerationSettings : FLevelGenerationSettings)
    (Kind : ECorridorType) (OutTileData : FTileData) (LevelStream : FRandomStream) :
    Option (FTileData × FRandomStream) :=
  match TMapFind LevelGenerationSettings.CorridorLevelDataTableList Kind with
  | none => some (OutTileData, LevelStream)
  | some Table =>
    let Drawn := GetRandomCorridorFromCorridorList E Table LevelStream
    match Drawn.1 with
    | none => none
    | some CorridorLevelData =>
      some ({ OutTileData with
              TileMap := CorridorLevelData.CorridorMap
              TileSubMaps := CorridorLevelData.CorridorSubMaps
              TileActorSlotMaps := CorridorLevelData.CorridorActorSlotMaps
              MinimapMesh := CorridorLevelData.MinimapMesh }, Drawn.2)

/-- The kind and the rotation `GetTileDataFromCorridorTileData` picks from the
connections of a corridor tile (lines 1031-1199). -/
def CorridorKindAndRotation (CorridorTileData : FCorridorTileData) : ECorridorType × FRotator :=
  let AllConnections : List EDirections :=
    [EDirections.North, EDirections.East, EDirections.South, EDirections.West]
  let CorridorConnections : List EDirections :=
    (TMapKeys CorridorTileData.AdjacentAccessPoints).foldl TSetAdd []
  let MissingConnections := AllConnections.filter (fun d => !TSetContains CorridorConnections d)
  let Has := fun d => TSetContains CorridorConnections d
  let Misses := fun d => TSetContains MissingConnections d
  if MissingConnections.isEmpty then (ECorridorType.FourWay, ⟨0, 0, 0⟩)
  else if MissingConnections.length = 1 then
    (ECorridorType.ThreeWay,
      if Misses EDirections.West then ⟨0, 0, 0⟩
      else if Misses EDirections.North then ⟨0, 90, 0⟩
      else if Misses EDirections.East then ⟨0, 180, 0⟩
      else if Misses EDirections.South then ⟨0, 270, 0⟩
      else FRotator.ZeroRotator)
  else if MissingConnections.length = 2 then
    if (Has EDirections.North && Has EDirections.East) ||
        (Has EDirections.East && Has EDirections.South) ||
        (Has EDirections.South && Has EDirections.West) ||
        (Has EDirections.West && Has EDirections.North) then
      (ECorridorType.Corner,
        if Has EDirections.North && Has EDirections.East then ⟨0, 0, 0⟩
        else if Has EDirections.East && Has EDirections.South then ⟨0, 90, 0⟩
        else if Has EDirections.South && Has EDirections.West then ⟨0, 180, 0⟩
        else if Has EDirections.West && Has EDirections.North then ⟨0, 270, 0⟩
        else FRotator.ZeroRotator)
    else
      (ECorridorType.TwoWay,
        if Has EDirections.North || Has EDirections.South then ⟨0, 0, 0⟩
        else if Has EDirections.East || Has EDirections.West then ⟨0, 90, 0⟩
        else FRotator.ZeroRotator)
  else if MissingConnections.length = 3 then
    (ECorridorType.OneWay,
      if Has EDirections.North then ⟨0, 0, 0⟩
      else if Has EDirections.East then ⟨0, 90, 0⟩
      else if Has EDirections.South then ⟨0, 180, 0⟩
      else if Has EDirections.West then ⟨0, 270, 0⟩
      else ⟨0, 0, 0⟩)
  else (ECorridorType.ZeroWay, ⟨0, 0, 0⟩)

/-- `ULevelGenerationLibrary::GetTileDataFromCorridorTileData`: the tile and the
stream after the call. -/
def GetTileDataFromCorridorTileData (E : Engine) (CorridorTileData : FCorridorTileData)
    (LevelGenerationSettings : FLevelGenerationSettings) (LevelStream : FRandomStream) :
    Option (FTileData × FRandomStream) :=
  let Picked := CorridorKindAndRotation CorridorTileData
  CopyCorridorContent E LevelGenerationSettings Picked.1
    { FTileData.Default with TileType := ETileType.Corridor, TileRotation := Picked.2 }
    LevelStream

/-- The tile `AddTileDataFromSpecialCorridorTileData` builds for one further cell
of a special corridor (lines 1256-1307), and the stream after it. -/
def SpecialCorridorSection (E : Engine) (CorridorTileData : FCorridorTileData)
    (LevelGenerationSettings : FLevelGenerationSettings)
    (LevelPathData : List (FIntVector × FCorridorTileData)) (OutTileData : FTileData)
    (CorridorSectionCoordinate CurrentCoordinate : FIntVector) (LevelStream : FRandomStream) :
    Option (FTileData × FRandomStream) :=
  let Section0 : FTileData :=
    { FTileData.Default with
      TileRotation := OutTileData.TileRotation
      TileSize := TSetAdd [] ⟨0, 0, 0⟩ }
  let Built : Option (FTileData × FRandomStream) :=
    if CorridorTileData.SpecialPathType.IsElevatorStoreys then
      let Section1 : FTileData := { Section0 with TileType := ETileType.Corridor_Special }
      if some CurrentCoordinate = OutTileData.TileSize.getLast? then
        -- Elevator Top
        match TMapFind LevelGenerationSettings.SpecialPathLevelDataTableList
            ESpecialPathType.Elevator_Top with
        | none => some (Section1, LevelStream)
        | some Table =>
          let Drawn := GetRandomCorridorFromCorridorList E Table LevelStream
          match Drawn.1 with
          | none => none
          | some SpecialCorridor =>
            let Section2 : FTileData :=
              { Section1 with
                TileMap := SpecialCorridor.CorridorMap
                TileSubMaps := SpecialCorridor.CorridorSubMaps
                TileActorSlotMaps := SpecialCorridor.CorridorActorSlotMaps
                TileAccessPoints := SpecialCorridor.CorridorAccessPoints
                MinimapMesh := SpecialCorridor.MinimapMesh }
            if TMapContains Section2.TileAccessPoints ⟨0, 0, 0⟩ then
              match TMapFind LevelPathData CorridorSectionCoordinate with
              | some PathTile =>
                (AddUsedAccessPointsToTileData E Section2 ⟨0, 0, 0⟩ PathTile).map
                  (fun t => (t, Drawn.2))
              | none => some (Section2, Drawn.2)
            else some (Section2, Drawn.2)
      else
        -- Elevator Middle
        match TMapFind LevelGenerationSettings.SpecialPathLevelDataTableList
            ESpecialPathType.Elevator_Middle with
        | none => some (Section1, LevelStream)
        | some Table =>
          let Drawn := GetRandomCorridorFromCorridorList E Table LevelStream
          match Drawn.1 with
          | none => none
          | some SpecialCorridor =>
            some ({ Section1 with
                    TileMap := SpecialCorridor.CorridorMap
                    TileSubMaps := SpecialCorridor.CorridorSubMaps
                    TileActorSlotMaps := SpecialCorridor.CorridorActorSlotMaps
                    MinimapMesh := SpecialCorridor.MinimapMesh }, Drawn.2)
    else some ({ Section0 with TileType := ETileType.Corridor_Section }, LevelStream)
  match Built with
  | none => none
  | some (Section, Stream) =>
    match TMapFind OutTileData.TileAccessPoints CurrentCoordinate with
    | some Access =>
      some ({ Section with
              TileAccessPoints := TMapAdd Section.TileAccessPoints ⟨0, 0, 0⟩ Access }, Stream)
    | none => some (Section, Stream)

/-- `ULevelGenerationLibrary::AddTileDataFromSpecialCorridorTileData`. -/
def AddTileDataFromSpecialCorridorTileData (E : Engine) (Coordinate : FIntVector)
    (CorridorTileData : FCorridorTileData) (LevelGenerationSettings : FLevelGenerationSettings)
    (GeneratedLevelData : FGeneratedLevelData) : Option FGeneratedLevelData :=
  let Out0 : FTileData :=
    { FTileData.Default with
      TileType := CorridorTileData.TileType
      TileRotation := CorridorTileData.SpecialPathRotation
      TileSize := CorridorTileData.SpecialPathTileSize }
  let CorridorSpecialPathType : ESpecialPathType :=
    if CorridorTileData.SpecialPathType.IsElevatorStoreys then ESpecialPathType.Elevator_Bottom
    else CorridorTileData.SpecialPathType
  let Built : Option (FTileData × FRandomStream) :=
    match TMapFind LevelGenerationSettings.SpecialPathLevelDataTableList
        CorridorSpecialPathType with
    | none => some (Out0, GeneratedLevelData.LevelStream)
    | some Table =>
      let Drawn := GetRandomCorridorFromCorridorList E Table GeneratedLevelData.LevelStream
      match Drawn.1 with
      | none => none
      | some SpecialCorridor =>
        let Out1 : FTileData :=
          { Out0 with
            TileMap := SpecialCorridor.CorridorMap
            TileSubMaps := SpecialCorridor.CorridorSubMaps
            TileActorSlotMaps := SpecialCorridor.CorridorActorSlotMaps
            TileAccessPoints := SpecialCorridor.CorridorAccessPoints
            MinimapMesh := SpecialCorridor.MinimapMesh }
        if TMapContains Out1.TileAccessPoints ⟨0, 0, 0⟩ then
          (AddUsedAccessPointsToTileData E Out1 ⟨0, 0, 0⟩ CorridorTileData).map
            (fun t => (t, Drawn.2))
        else some (Out1, Drawn.2)
  match Built with
  | none => none
  | some (OutTileData, Stream) =>
    let Data1 : FGeneratedLevelData :=
      { GeneratedLevelData with
        LevelStream := Stream
        LevelTileData := TMapAdd GeneratedLevelData.LevelTileData Coordinate OutTileData }
    if OutTileData.TileSize.length > 1 then
      OutTileData.TileSize.foldl (fun Acc CurrentCoordinate =>
        match Acc with
        | none => none
        | some (Data : FGeneratedLevelData) =>
          if CurrentCoordinate = ⟨0, 0, 0⟩ then some Data
          else
            let CorridorSectionCoordinate :=
              RotateIntVectorCoordinatefromOrigin CurrentCoordinate
                CorridorTileData.SpecialPathRotation + Coordinate
            match SpecialCorridorSection E CorridorTileData LevelGenerationSettings
                Data.LevelPathData OutTileData CorridorSectionCoordinate CurrentCoordinate
                Data.LevelStream with
            | none => none
            | some (Section, Stream2) =>
              some { Data with
                LevelStream := Stream2
                LevelTileData := TMapAdd Data.LevelTileData CorridorSectionCoordinate Section })
        (some Data1)
    else some Data1

/-- The room anchors `GenerateCorridors3D` collects (lines 251-272). -/
def RoomCoordinatesOf (LevelTileData : List (FIntVector × FTileData)) : List FIntVector :=
  (LevelTileData.filter (fun Entry =>
    match Entry.2.TileType with
    | ETileType.Room_Basic => true
    | ETileType.Room_Key => true
    | ETileType.Room_Special => true
    | _ => false)).map Prod.fst

/-- The array `PathGenerationDataArray` of `GenerateCorridors3D` (lines 298-374). -/
def PlanPaths (E : Engine) (GeneratedLevelData : FGeneratedLevelData) :
    Option (List FPathGenerationData) :=
  GeneratedLevelData.MinimumSpanningTree.foldl (fun Acc CurrentPath =>
    match Acc with
    | none => none
    | some Planned =>
      match TMapFind GeneratedLevelData.LevelTileData CurrentPath.Origin,
          TMapFind GeneratedLevelData.LevelTileData CurrentPath.Destination with
      | some OriginTile, some DestinationTile =>
        (ScanAccessPoints E GeneratedLevelData CurrentPath OriginTile DestinationTile [] []).map
          (fun PathGenerationData => Planned ++ [PathGenerationData])
      | _, _ => some Planned) (some [])

/-- The commit of a found path (lines 409-439): the two access points are marked
in use and every cell of `PathData` is written to `LevelPathData`. -/
def CommitPath (E : Engine) (PathData : List (FIntVector × FAdvancedPathNode))
    (PathGenerationData : FPathGenerationData) (GeneratedLevelData : FGeneratedLevelData) :
    Option FGeneratedLevelData :=
  match AddDirectionInUse GeneratedLevelData.LevelTileData PathGenerationData.OriginTile
      PathGenerationData.OriginAccessPoint PathGenerationData.OriginPathDirection with
  | none => none
  | some Tiles1 =>
    match AddDirectionInUse Tiles1 PathGenerationData.DestinationTile
        PathGenerationData.DestinationAccessPoint
        PathGenerationData.DestinationPathDirection with
    | none => none
    | some Tiles2 =>
      let Start : Option (PathCursor × FGeneratedLevelData) :=
        some ({ PreviousPathVector := ⟨-1, -1, -1⟩, PreviousPathTileType := ETileType.Corridor },
          { GeneratedLevelData with LevelTileData := Tiles2 })
      ((TMapKeys PathData).foldl (fun Acc CurrentPathVector =>
        match Acc with
        | none => none
        | some (Cursor, Data) =>
          match TMapFind PathData CurrentPathVector with
          | none => none
          | some Node =>
            match Node.SpecialPathType with
            | ESpecialPathType.None =>
              GenerateNormalPathData E CurrentPathVector PathData PathGenerationData Cursor Data
            | ESpecialPathType.SpecialPathSection =>
              some ({ PreviousPathVector := CurrentPathVector,
                      PreviousPathTileType := ETileType.Corridor_Section }, Data)
            | _ =>
              GenerateSpecialPathData E CurrentPathVector PathData PathGenerationData Cursor
                Data)
        Start).map Prod.snd

/-- The retry loop of `GenerateCorridors3D` (lines 404-460) for one planned path;
`Steps` bounds both the iterations of this loop and those of every search. -/
def ConnectRooms (E : Engine) (Steps : Nat) (LevelGenerationSettings : FLevelGenerationSettings)
    (PathGenerationDataArray : List FPathGenerationData)
    (MaxOriginStartingLocations MaxDestinationEndLocations : Nat) :
    Nat → FPathGenerationData → List FIntVector → List FIntVector → FGeneratedLevelData →
      Outcome FGeneratedLevelData
  | 0, _, _, _, _ => Outcome.unfinished
  | Tries + 1, PathGenerationData, ExcludedOriginAPs, ExcludedDestinationAPs,
      GeneratedLevelData =>
    match AdvancedAStarPathfinding E Steps PathGenerationData.PathStart
        PathGenerationData.PathEnd [] PathGenerationDataArray LevelGenerationSettings
        GeneratedLevelData with
    | Outcome.unfinished => Outcome.unfinished
    | Outcome.aborts => Outcome.aborts
    | Outcome.returns (true, PathData) =>
      Outcome.ofOption (CommitPath E PathData PathGenerationData GeneratedLevelData)
    | Outcome.returns (false, _) =>
      if ExcludedOriginAPs.length < MaxOriginStartingLocations then
        let Excluded := ExcludedOriginAPs ++ [PathGenerationData.PathStart]
        match GetShortestPathToTargetRoom E GeneratedLevelData PathGenerationData.PathData
            Excluded [] with
        | none => Outcome.aborts
        | some Next =>
          ConnectRooms E Steps LevelGenerationSettings PathGenerationDataArray
            MaxOriginStartingLocations MaxDestinationEndLocations Tries Next Excluded
            ExcludedDestinationAPs GeneratedLevelData
      else
        let Excluded := ExcludedDestinationAPs ++ [PathGenerationData.PathEnd]
        if Excluded.length = MaxDestinationEndLocations then Outcome.returns GeneratedLevelData
        else
          match GetShortestPathToTargetRoom E GeneratedLevelData PathGenerationData.PathData
              [] Excluded with
          | none => Outcome.aborts
          | some Next =>
            ConnectRooms E Steps LevelGenerationSettings PathGenerationDataArray
              MaxOriginStartingLocations MaxDestinationEndLocations Tries Next
              ExcludedOriginAPs Excluded GeneratedLevelData

/-- The branch of `GenerateCorridors3D` for a planned path of distance zero (lines
463-481): the cell between the two rooms becomes a corridor. -/
def ConnectAdjacentRooms (E : Engine) (CurrentPathGenData : FPathGenerationData)
    (GeneratedLevelData : FGeneratedLevelData) : Option FGeneratedLevelData :=
  let DirectionToDestination := GetDirectionForIntVectors CurrentPathGenData.PathStart
    CurrentPathGenData.DestinationAccessPointLocation
  let DirectionToOrigin := GetDirectionForIntVectors CurrentPathGenData.PathStart
    CurrentPathGenData.OriginAccessPointLocation
  match TileTypeAt GeneratedLevelData.LevelTileData CurrentPathGenData.DestinationTile,
      TileTypeAt GeneratedLevelData.LevelTileData CurrentPathGenData.OriginTile,
      (CurrentPathGenData.OriginTile.bind (TMapFind GeneratedLevelData.LevelTileData)) with
  | some DestinationType, some OriginType, some OriginTile =>
    let CorridorTileData : FCorridorTileData :=
      { FCorridorTileData.Default with
        TileType := ETileType.Corridor
        AdjacentAccessPoints :=
          TMapAdd (TMapAdd [] DirectionToDestination DestinationType) DirectionToOrigin
            OriginType }
    match AddDirectionInUse GeneratedLevelData.LevelTileData CurrentPathGenData.OriginTile
        CurrentPathGenData.OriginAccessPoint
        (RotateDirection DirectionToDestination (E.GetInverse OriginTile.TileRotation)) with
    | none => none
    | some Tiles1 =>
      match CurrentPathGenData.DestinationTile.bind (TMapFind Tiles1) with
      | none => none
      | some DestinationTile =>
        match AddDirectionInUse Tiles1 CurrentPathGenData.DestinationTile
            CurrentPathGenData.DestinationAccessPoint
            (RotateDirection DirectionToOrigin (E.GetInverse DestinationTile.TileRotation)) with
        | none => none
        | some Tiles2 =>
          some { GeneratedLevelData with
            LevelTileData := Tiles2
            LevelPathData :=
              if !TMapContains GeneratedLevelData.LevelPathData CurrentPathGenData.PathStart then
                TMapAdd GeneratedLevelData.LevelPathData CurrentPathGenData.PathStart
                  CorridorTileData
              else GeneratedLevelData.LevelPathData }
  | _, _, _ => none

/-- The number of start cells of a tile: the sum of the sizes of the accessible
direction sets of its access points (lines 389-402). -/
def CountAccessibleDirections (Tile : FTileData) : Nat :=
  ((TMapValues Tile.TileAccessPoints).map (fun a => a.AccessibleDirections.length)).sum

/-- The loop over the planned paths in `GenerateCorridors3D` (lines 377-482). -/
def ConnectAll (E : Engine) (Steps : Nat) (LevelGenerationSettings : FLevelGenerationSettings)
    (PathGenerationDataArray : List FPathGenerationData) :
    List FPathGenerationData → FGeneratedLevelData → Outcome FGeneratedLevelData
  | [], GeneratedLevelData => Outcome.returns GeneratedLevelData
  | CurrentPathGenData :: rest, GeneratedLevelData =>
    let Connected : Outcome FGeneratedLevelData :=
      if CurrentPathGenData.PathDistance ≠ 0 then
        match CurrentPathGenData.OriginTile.bind (TMapFind GeneratedLevelData.LevelTileData),
            CurrentPathGenData.DestinationTile.bind
              (TMapFind GeneratedLevelData.LevelTileData) with
        | some OriginTile, some DestinationTile =>
          ConnectRooms E Steps LevelGenerationSettings PathGenerationDataArray
            (CountAccessibleDirections OriginTile) (CountAccessibleDirections DestinationTile)
            Steps CurrentPathGenData [] [] GeneratedLevelData
        | _, _ => Outcome.aborts
      else Outcome.ofOption (ConnectAdjacentRooms E CurrentPathGenData GeneratedLevelData)
    match Connected with
    | Outcome.returns Data => ConnectAll E Steps LevelGenerationSettings PathGenerationDataArray rest Data
    | Outcome.aborts => Outcome.aborts
    | Outcome.unfinished => Outcome.unfinished

/-- The last loop of `GenerateCorridors3D` (lines 484-505): every corridor of
`LevelPathData` becomes a tile of `LevelTileData`. -/
def InsertPathData (E : Engine) (LevelGenerationSettings : FLevelGenerationSettings)
    (GeneratedLevelData : FGeneratedLevelData) : Option FGeneratedLevelData :=
  (TMapKeys GeneratedLevelData.LevelPathData).foldl (fun Acc CurrentKey =>
    match Acc with
    | none => none
    | some (Data : FGeneratedLevelData) =>
      match TMapFind Data.LevelPathData CurrentKey with
      | none => none
      | some PathTile =>
        match PathTile.TileType with
        | ETileType.Corridor =>
          match GetTileDataFromCorridorTileData E PathTile LevelGenerationSettings
              Data.LevelStream with
          | none => none
          | some (TileData, Stream) =>
            some { Data with
              LevelStream := Stream
              LevelTileData := TMapAdd Data.LevelTileData CurrentKey TileData }
        | ETileType.Corridor_Special =>
          AddTileDataFromSpecialCorridorTileData E CurrentKey PathTile LevelGenerationSettings Data
        | _ => some Data) (some GeneratedLevelData)

/-- `ULevelGenerationLibrary::GenerateCorridors3D`: the level data after the call,
for at most `Steps` iterations of each of its unbounded loops. -/
def GenerateCorridors3D (E : Engine) (Steps : Nat)
    (LevelGenerationSettings : FLevelGenerationSettings)
    (GeneratedLevelData : FGeneratedLevelData) : Outcome FGeneratedLevelData :=
  let RoomCoordinates := RoomCoordinatesOf GeneratedLevelData.LevelTileData
  let DelaunayArray := E.Delaunay LevelGenerationSettings.GridSize RoomCoordinates true
  match GetMinimumSpanningTreeV2 E.EdgeSort RoomCoordinates DelaunayArray [] with
  | none => Outcome.aborts
  | some (Tree, DiscardedEdgesArray) =>
    let Augmented := (RandomlyAddEdgesToMST E Tree DiscardedEdgesArray
      GeneratedLevelData.LevelStream LevelGenerationSettings.ExtraCorridorChance).1
    if !LevelGenerationSettings.bGenerateCorridors then
      Outcome.returns { GeneratedLevelData with MinimumSpanningTree := Augmented }
    else
      let Data0 : FGeneratedLevelData :=
        { GeneratedLevelData with MinimumSpanningTree := E.EdgeSort Augmented }
      match PlanPaths E Data0 with
      | none => Outcome.aborts
      | some PathGenerationDataArray =>
        match ConnectAll E Steps LevelGenerationSettings PathGenerationDataArray
            PathGenerationDataArray Data0 with
        | Outcome.returns Data1 =>
          Outcome.ofOption (InsertPathData E LevelGenerationSettings Data1)
        | Outcome.aborts => Outcome.aborts
        | Outcome.unfinished => Outcome.unfinished

end LevelGen

namespace LevelGen

/-! ## A concrete engine and the scenarios the theorems are evaluated on -/

/-- Binary search for the integer square root: the largest `r` below
`2 ^ Bits` with `r * r ≤ n`, built bit by bit on top of `Acc`. -/
def SqrtBits (n : Nat) : Nat → Nat → Nat
  | 0, Acc => Acc
  | Bits + 1, Acc =>
    if (Acc + 2 ^ Bits) * (Acc + 2 ^ Bits) ≤ n then SqrtBits n Bits (Acc + 2 ^ Bits)
    else SqrtBits n Bits Acc

/-- Length of an integer vector, the square root rounded down to a multiple of
`2 ^ (-20)`; exact whenever the length is an integer. -/
def VectorLength (v : FIntVector) : ℚ :=
  let n : Nat := (v.X * v.X + v.Y * v.Y + v.Z * v.Z).toNat
  ((SqrtBits (n * 2 ^ 40) 48 0 : Nat) : ℚ) / 2 ^ 20

/-- Insertion of an entry into a sorted map, after every entry that is not greater. -/
def ValueSortedInsert {κ ν : Type} (Less : ν → ν → Bool) (e : κ × ν) :
    List (κ × ν) → List (κ × ν)
  | [] => [e]
  | x :: rest =>
    if Less e.2 x.2 then e :: x :: rest else x :: ValueSortedInsert Less e rest

/-- A stable sort of a map by its values. -/
def StableValueSort {κ ν : Type} (Less : ν → ν → Bool) (Map : List (κ × ν)) : List (κ × ν) :=
  Map.foldl (fun Sorted e => ValueSortedInsert Less e Sorted) []

/-- An engine with exact arithmetic, stable sorts, a random stream that always
draws the fraction one half and the lower bound of an integer range, and a
tetrahedralisation that returns the edges it is given, and the direction None in
a direction that was never assigned: the engine the scenarios below run on.  Its `GetInverse` negates the angles, which is the inverse of a
rotation about one axis. -/
def ScenarioEngine (Edges : List FEdgeInfo) : Engine :=
  { Length := VectorLength
    FAdd := fun a b => a + b
    FMul := fun a b => a * b
    GetInverse := fun r => ⟨-r.Pitch, -r.Yaw, -r.Roll⟩
    RandFloat := fun Seed => (1 / 2, Seed + 1)
    RandRange := fun Min _ Seed => (Min, Seed + 1)
    EdgeSort := TArraySort
    ValueSort := fun Less Map => StableValueSort Less Map
    Delaunay := fun _ _ _ => Edges
    UnassignedDirection := EDirections.None }

/-- A room of one cell whose access point, at its anchor, is open to the given
directions and has none in use. -/
def SingleCellRoom (AccessibleDirections : List EDirections) : FTileData :=
  { FTileData.Default with
    TileType := ETileType.Room_Basic
    TileSize := [⟨0, 0, 0⟩]
    TileAccessPoints := [(⟨0, 0, 0⟩, ⟨AccessibleDirections, []⟩)] }

/-- Settings of a level of the given grid size with corridors switched on, rooms
impassable for the router, and no special structure, no content table and no extra
corridor. -/
def PlainSettings (GridSize : FIntVector) : FLevelGenerationSettings :=
  { bUsePlayerSeed := false, LevelUserSeed := 0, TileSize := 1, GridSize := GridSize,
    CorridorLevelDataTableList := [], AllowedSpecialPathTypes := [],
    SpecialPathData := none, SpecialPathLevelDataTableList := [],
    ExtraCorridorChance := 0, TileTypeWeight := [],
    BasicRoomList := [], RoomBufferSize := 0, BasicRoomsMinimum := 0, BasicRoomsMaximum := 0,
    KeyRooms := [], SpecialRooms := [], bGenerateKeyRooms := false,
    bGenerateSpecialRooms := false, bGenerateBasicRooms := false, bDrawMST := false,
    bGenerateCorridors := true }

/-- The four horizontal directions. -/
def HorizontalDirections : List EDirections :=
  [EDirections.North, EDirections.East, EDirections.South, EDirections.West]

/-- Level data holding the given tiles and nothing else. -/
def LevelOf (Tiles : List (FIntVector × FTileData)) : FGeneratedLevelData :=
  { LevelStream := ⟨0, 0⟩, LevelTileData := Tiles, LevelPathData := [],
    MinimumSpanningTree := [] }

/-- Two rooms on a grid of 5 by 5 by 1, anchored at (0,0,0) and (4,0,0), each with
one access point at its anchor open to the four horizontal directions. -/
def CorridorScenario : FGeneratedLevelData :=
  LevelOf [(⟨0, 0, 0⟩, SingleCellRoom HorizontalDirections),
           (⟨4, 0, 0⟩, SingleCellRoom HorizontalDirections)]

/-- The edge between the two rooms of `CorridorScenario`. -/
def CorridorScenarioEdge : FEdgeInfo := ⟨⟨0, 0, 0⟩, ⟨4, 0, 0⟩, 4⟩

/-- Two rooms anchored at (0,0,0) and (1,1,0): the first is open to the North
only, the second to the West only, so both open onto the cell (1,0,0). -/
def AdjacentScenario : FGeneratedLevelData :=
  LevelOf [(⟨0, 0, 0⟩, SingleCellRoom [EDirections.North]),
           (⟨1, 1, 0⟩, SingleCellRoom [EDirections.West])]

/-- The edge between the two rooms of `AdjacentScenario`. -/
def AdjacentScenarioEdge : FEdgeInfo := ⟨⟨0, 0, 0⟩, ⟨1, 1, 0⟩, 11863283 / 8388608⟩

/-- The corridor cells of a level with the directions of their adjacent access
points, in the order of `LevelPathData`. -/
def CorridorCells (GeneratedLevelData : FGeneratedLevelData) :
    List (FIntVector × List EDirections) :=
  GeneratedLevelData.LevelPathData.map (fun Entry => (Entry.1, TMapKeys Entry.2.AdjacentAccessPoints))

/-- The access points of a level: for every tile its coordinate and access data. -/
def AccessPointsOf (GeneratedLevelData : FGeneratedLevelData) :
    List (FIntVector × List (FIntVector × FTileAccessData)) :=
  GeneratedLevelData.LevelTileData.map (fun Entry => (Entry.1, Entry.2.TileAccessPoints))

/-- The value a run returned, if it returned. -/
def Outcome.value {α : Type} : Outcome α → Option α
  | Outcome.returns v => some v
  | _ => none

/-- The invariant on access points: every direction in use is accessible. -/
def DirectionsInUseAccessible (GeneratedLevelData : FGeneratedLevelData) : Prop :=
  ∀ Entry ∈ GeneratedLevelData.LevelTileData, ∀ Access ∈ Entry.2.TileAccessPoints,
    ∀ d ∈ Access.2.DirectionsInUse, d ∈ Access.2.AccessibleDirections

instance (GeneratedLevelData : FGeneratedLevelData) :
    Decidable (DirectionsInUseAccessible GeneratedLevelData) := by
  unfold DirectionsInUseAccessible; infer_instance

/-- The directions are exactly two, and the vectors `DirectionCoordinates` gives
them are opposite. -/
def HoldsTwoOppositeDirections (Directions : List EDirections) : Bool :=
  match Directions with
  | [a, b] =>
    match TMapFind DirectionCoordinates a, TMapFind DirectionCoordinates b with
    | some va, some vb => decide (va + vb = ⟨0, 0, 0⟩ ∧ va ≠ ⟨0, 0, 0⟩)
    | _, _ => false
  | _ => false

/-- The start and end cell and the distance of every planned path. -/
def PlannedRoutes (Planned : Option (List FPathGenerationData)) :
    Option (List (FIntVector × FIntVector × ℚ)) :=
  Planned.map (List.map (fun p => (p.PathStart, p.PathEnd, p.PathDistance)))

end LevelGen

namespace LevelGen

/-! ## Notions the theorems are stated with -/

/-- The cells a tile stored at an anchor covers: its footprint, rotated and
translated to the anchor. -/
def FootprintOf (Entry : FIntVector × FTileData) : List FIntVector :=
  Entry.2.TileSize.map (fun c =>
    RotateIntVectorCoordinatefromOrigin c Entry.2.TileRotation + Entry.1)

/-- The room a call of `PlaceRoomInGrid` placed: the first entry the call appended
to the tiles it started from, if it appended one. -/
def PlacedRoom (Before After : FGeneratedLevelData) : List (FIntVector × FTileData) :=
  (After.LevelTileData.drop Before.LevelTileData.length).head?.toList

/-- A sequence of calls of `PlaceRoomInGrid`, one for every room list: the level
after the last call, and the rooms the calls placed, in the order of the calls. -/
def PlaceRooms (E : Engine) (Steps : Nat) (LevelGenerationSettings : FLevelGenerationSettings) :
    List (DataTable FTileGenerationData) → FGeneratedLevelData →
      Outcome (FGeneratedLevelData × List (FIntVector × FTileData))
  | [], GeneratedLevelData => Outcome.returns (GeneratedLevelData, [])
  | RoomList :: rest, GeneratedLevelData =>
    match PlaceRoomInGrid E Steps LevelGenerationSettings GeneratedLevelData RoomList with
    | Outcome.returns Placed =>
      match PlaceRooms E Steps LevelGenerationSettings rest Placed with
      | Outcome.returns (Final, Rooms) =>
        Outcome.returns (Final, PlacedRoom GeneratedLevelData Placed ++ Rooms)
      | Outcome.aborts => Outcome.aborts
      | Outcome.unfinished => Outcome.unfinished
    | Outcome.aborts => Outcome.aborts
    | Outcome.unfinished => Outcome.unfinished

/-- The tiles of the level a run returned, if it returned. -/
def TilesAfter (Run : Outcome FGeneratedLevelData) : Option (List (FIntVector × FTileData)) :=
  Run.value.map (fun Data => Data.LevelTileData)

/-- The rooms a sequence of placements placed, if it returned. -/
def RoomsPlaced (Run : Outcome (FGeneratedLevelData × List (FIntVector × FTileData))) :
    Option (List (FIntVector × FTileData)) :=
  Run.value.map Prod.snd

/-- Every row of the room list has a footprint that contains the offset (0,0,0). -/
def FootprintsHoldCentre (RoomList : DataTable FTileGenerationData) : Prop :=
  ∀ Rows, RoomList = some Rows → ∀ Row ∈ Rows, (⟨0, 0, 0⟩ : FIntVector) ∈ Row.TileData.TileSize

/-- Chebyshev distance of two grid coordinates, over the three axes. -/
def ChebyshevDistance (a b : FIntVector) : Int :=
  max (max |a.X - b.X| |a.Y - b.Y|) |a.Z - b.Z|

/-- Two cells are horizontal neighbours: they differ by exactly 1 on exactly one
of X and Y, and agree on Z. -/
def HorizontalNeighbours (a b : FIntVector) : Prop :=
  a.Z = b.Z ∧ ((|a.X - b.X| = 1 ∧ a.Y = b.Y) ∨ (a.X = b.X ∧ |a.Y - b.Y| = 1))

instance (a b : FIntVector) : Decidable (HorizontalNeighbours a b) := by
  unfold HorizontalNeighbours; infer_instance

/-- The tile type is one of the four room types. -/
def ETileType.IsRoom : ETileType → Bool
  | ETileType.Room_Basic => true
  | ETileType.Room_Key => true
  | ETileType.Room_Special => true
  | ETileType.Room_Section => true
  | _ => false

/-- The coordinate holds a room or room section tile. -/
def HoldsRoom (LevelTileData : List (FIntVector × FTileData)) (c : FIntVector) : Prop :=
  ∃ Entry ∈ LevelTileData, Entry.1 = c ∧ Entry.2.TileType.IsRoom = true

instance (LevelTileData : List (FIntVector × FTileData)) (c : FIntVector) :
    Decidable (HoldsRoom LevelTileData c) := by
  unfold HoldsRoom; infer_instance

/-- No special structure is enabled in the settings. -/
def NoSpecialStructure (LevelGenerationSettings : FLevelGenerationSettings) : Prop :=
  ∀ Entry ∈ LevelGenerationSettings.AllowedSpecialPathTypes, Entry.2 = false

/-- The contract of `TMap::ValueSort` used below: the sorted map holds the entries
of the map it was given. -/
def ValueSortPermutes (E : Engine) : Prop :=
  ∀ Less Map, (E.ValueSort Less Map).Perm Map

/-- The parent map of a path: for every coordinate the `ParentNode` of its node. -/
def ParentsOf (PathData : List (FIntVector × FAdvancedPathNode)) :
    List (FIntVector × FIntVector) :=
  PathData.map (fun Entry => (Entry.1, Entry.2.ParentNode))

/-- The coordinate reached from `c` by following the parent map the given number
of times; `none` when a coordinate on the way is no key of the map. -/
def ParentWalk (Parents : List (FIntVector × FIntVector)) : Nat → FIntVector →
    Option FIntVector
  | 0, c => some c
  | k + 1, c =>
    match TMapFind Parents c with
    | some Parent => ParentWalk Parents k Parent
    | none => none

/-- What a run of the search returned: the flag, the coordinates of `PathData` in
the order of the map, and its parent map. -/
def SearchResult (Run : Outcome (Bool × List (FIntVector × FAdvancedPathNode))) :
    Option (Bool × List FIntVector × List (FIntVector × FIntVector)) :=
  Run.value.map (fun r => (r.1, TMapKeys r.2, ParentsOf r.2))

/-- A chain of cells from the start: horizontal neighbours in sequence, no cell
twice, no cell among the inaccessible ones. -/
def IsCorridorChain (Start : FIntVector) (Inaccessible : List FIntVector)
    (Chain : List FIntVector) : Prop :=
  Chain.head? = some Start ∧ Chain.Chain' HorizontalNeighbours ∧ Chain.Nodup ∧
    ∀ c ∈ Chain, c ∉ Inaccessible

/-- The invariant of the search for one entry of `OPEN` or `CLOSED`: a plain node
that is its own parent and whose previous path, followed by its coordinate, is a
chain of cells from the start. -/
def GoodNode (Start : FIntVector) (Inaccessible : List FIntVector)
    (Entry : FIntVector × FAdvancedPathNode) : Prop :=
  Entry.2.SpecialPathType = ESpecialPathType.None ∧ Entry.2.ParentNode = Entry.1 ∧
    IsCorridorChain Start Inaccessible (TMapKeys Entry.2.PreviousPath ++ [Entry.1])

/-- What an accepted placement adds: the anchor, then room sections, all at
coordinates of the footprint that held no tile. -/
def AddsRoom (old new : List (FIntVector × FTileData)) (TS : List FIntVector) : Prop :=
  ∃ (anchor : FIntVector × FTileData) (sections : List (FIntVector × FTileData)),
    new = old ++ anchor :: sections ∧ anchor.2.TileSize = TS ∧
    anchor.1 ∉ TMapKeys old ∧ (∀ k ∈ TMapKeys sections, k ∉ TMapKeys old) ∧
    (∀ x ∈ FootprintOf anchor, x ∉ TMapKeys old) ∧
    ((⟨0, 0, 0⟩ : FIntVector) ∈ TS → ∀ x ∈ FootprintOf anchor, x ∈ TMapKeys (anchor :: sections))

/-- The settings of `PlainSettings` with the default tile size of the header, 1000. -/
def DefaultTileSizeSettings (GridSize : FIntVector) : FLevelGenerationSettings :=
  { PlainSettings GridSize with TileSize := 1000 }

/-- The settings of `PlainSettings` with a room buffer of the given size. -/
def BufferSettings (GridSize : FIntVector) (RoomBufferSize : Int) : FLevelGenerationSettings :=
  { PlainSettings GridSize with RoomBufferSize := RoomBufferSize }

/-- A room list with the single given row. -/
def SingleRowList (Row : FTileGenerationData) : DataTable FTileGenerationData := some [Row]

/-- A row for a room with the given footprint, one access point at its anchor, and
neither a set rotation nor a set coordinate. -/
def RowWithFootprint (TileSize : List FIntVector) : FTileGenerationData :=
  { RandomSelectionChance := 1, bTileHasSetRotation := false,
    TileSetRotation := FRotator.ZeroRotator, bTileHasSetCoordinate := false,
    TileSetGridCoordinate := ⟨0, 0, 0⟩,
    TileData := { SingleCellRoom HorizontalDirections with TileSize := TileSize } }

/-- Two room lists: a room of the two cells (0,0,0) and (1,0,0), then a room of one
cell. -/
def CentredRoomLists : List (DataTable FTileGenerationData) :=
  [SingleRowList (RowWithFootprint [⟨0, 0, 0⟩, ⟨1, 0, 0⟩]),
   SingleRowList (RowWithFootprint [⟨0, 0, 0⟩])]

/-- Two room lists: a room whose only footprint cell is the offset (1,0,0), then a
room of the one cell (0,0,0). -/
def OffCentreRoomLists : List (DataTable FTileGenerationData) :=
  [SingleRowList (RowWithFootprint [⟨1, 0, 0⟩]),
   SingleRowList (RowWithFootprint [⟨0, 0, 0⟩])]

/-- The rooms placed by the calls for `CentredRoomLists` on the empty level of a
grid of 4 by 2 by 2. -/
def CentredRooms : List (FIntVector × FTileData) :=
  (RoomsPlaced (PlaceRooms (ScenarioEngine []) 10 (PlainSettings ⟨4, 2, 2⟩) CentredRoomLists
    (LevelOf []))).getD []

/-- The tiles after one call for the first list of `CentredRoomLists` on the empty
level of a grid of 4 by 2 by 2. -/
def CentredTiles : List (FIntVector × FTileData) :=
  (TilesAfter (PlaceRoomInGrid (ScenarioEngine []) 10 (PlainSettings ⟨4, 2, 2⟩) (LevelOf [])
    (SingleRowList (RowWithFootprint [⟨0, 0, 0⟩, ⟨1, 0, 0⟩])))).getD []

end LevelGen

namespace LevelGen

/-! ## Level generation: `GenerateLevel` and the room phases -/

/-- Sequencing of two runs: the second one starts from what the first returned. -/
def Outcome.andThen {α β : Type} (Run : Outcome α) (Next : α → Outcome β) : Outcome β :=
  match Run with
  | Outcome.returns v => Next v
  | Outcome.aborts => Outcome.aborts
  | Outcome.unfinished => Outcome.unfinished

/-- The number of free cells `GridSize.X * GridSize.Y * GridSize.Z -
LevelTileData.Num()` the room phases compute. -/
def FreeCells (LevelGenerationSettings : FLevelGenerationSettings)
    (GeneratedLevelData : FGeneratedLevelData) : Int :=
  LevelGenerationSettings.GridSize.X * LevelGenerationSettings.GridSize.Y *
    LevelGenerationSettings.GridSize.Z - (GeneratedLevelData.LevelTileData.length : Int)

/-- `ULevelGenerationLibrary::GetRandomRoomListFromDataTable`: the selected table
(`none` is the null pointer, returned as well when no entry is selected) and the
stream after the call. -/
def GetRandomRoomListFromDataTable (E : Engine)
    (DataTableList : List (DataTable FTileGenerationData × ℚ)) (LevelStream : FRandomStream) :
    DataTable FTileGenerationData × FRandomStream :=
  if DataTableList.isEmpty then (none, LevelStream)
  else
    let ProbabilityTotal : ℚ := (DataTableList.map Prod.snd).sum
    let Draw := RandomFloatInRangeFromStream E 0 ProbabilityTotal LevelStream
    match SelectByChance Prod.snd Draw.1 LevelResultMinimumStart DataTableList with
    | some Entry => (Entry.1, Draw.2)
    | none => (none, Draw.2)

/-- The loop `for (int i = 0; i < RoomsToCreate; i++)` of `GenerateKeyRooms`. -/
def PlaceKeyRooms (E : Engine) (Steps : Nat) (LevelGenerationSettings : FLevelGenerationSettings)
    (KeyRoomList : DataTable FTileGenerationData) :
    Nat → FGeneratedLevelData → Outcome FGeneratedLevelData
  | 0, GeneratedLevelData => Outcome.returns GeneratedLevelData
  | RoomsToCreate + 1, GeneratedLevelData =>
    (PlaceRoomInGrid E Steps LevelGenerationSettings GeneratedLevelData KeyRoomList).andThen
      (PlaceKeyRooms E Steps LevelGenerationSettings KeyRoomList RoomsToCreate)

/-- `ULevelGenerationLibrary::GenerateKeyRooms`, each call of `PlaceRoomInGrid` run
for at most `Steps` iterations. -/
def GenerateKeyRooms (E : Engine) (Steps : Nat)
    (LevelGenerationSettings : FLevelGenerationSettings)
    (GeneratedLevelData : FGeneratedLevelData) : Outcome FGeneratedLevelData :=
  (TMapValues LevelGenerationSettings.KeyRooms).foldl (fun Acc KeyTileData =>
    Acc.andThen (fun Data =>
      let RoomsToCreate := ClampInt KeyTileData.Quantity 0 (FreeCells LevelGenerationSettings Data)
      if RoomsToCreate > 0 then
        PlaceKeyRooms E Steps LevelGenerationSettings KeyTileData.KeyRoomList RoomsToCreate.toNat
          Data
      else Outcome.returns Data)) (Outcome.returns GeneratedLevelData)

/-- `ULevelGenerationLibrary::GenerateSpecialRooms`. -/
def GenerateSpecialRooms (E : Engine) (Steps : Nat)
    (LevelGenerationSettings : FLevelGenerationSettings)
    (GeneratedLevelData : FGeneratedLevelData) : Outcome FGeneratedLevelData :=
  (TMapValues LevelGenerationSettings.SpecialRooms).foldl (fun Acc SpecialTileData =>
    Acc.andThen (fun Data =>
      let bIsThereSpaceToSpawnRoom := decide (FreeCells LevelGenerationSettings Data > 0)
      if bIsThereSpaceToSpawnRoom then
        let Draw := RandomFloatInRangeFromStream E 0 1 Data.LevelStream
        let Data1 : FGeneratedLevelData := { Data with LevelStream := Draw.2 }
        if Draw.1 ≤ SpecialTileData.ChanceToGenerate then
          PlaceRoomInGrid E Steps LevelGenerationSettings Data1 SpecialTileData.SpecialRoomList
        else Outcome.returns Data1
      else Outcome.returns Data)) (Outcome.returns GeneratedLevelData)

/-- The number `BasicRoomQuantity` of `GenerateBasicRooms` (lines 230-232) and the
stream after its draw. -/
def DrawBasicRoomQuantity (E : Engine) (LevelGenerationSettings : FLevelGenerationSettings)
    (GeneratedLevelData : FGeneratedLevelData) : Int × FRandomStream :=
  let RoomMaximum := FreeCells LevelGenerationSettings GeneratedLevelData
  let Draw := RandomFloatInRangeFromStream E
    ((ClampInt LevelGenerationSettings.BasicRoomsMinimum 0 RoomMaximum : Int) : ℚ)
    ((ClampInt LevelGenerationSettings.BasicRoomsMaximum 0 RoomMaximum : Int) : ℚ)
    GeneratedLevelData.LevelStream
  (TruncToInt Draw.1, Draw.2)

/-- The loop `while (RoomsGenerated < BasicRoomQuantity)` of `GenerateBasicRooms`
(lines 238-245); the first argument bounds the number of iterations of the
embedding. -/
def BasicRoomLoop (E : Engine) (Steps : Nat) (LevelGenerationSettings : FLevelGenerationSettings)
    (BasicRoomQuantity : Int) : Nat → Int → FGeneratedLevelData → Outcome FGeneratedLevelData
  | 0, _, _ => Outcome.unfinished
  | Rounds + 1, RoomsGenerated, GeneratedLevelData =>
    if RoomsGenerated < BasicRoomQuantity then
      let Selected := GetRandomRoomListFromDataTable E LevelGenerationSettings.BasicRoomList
        GeneratedLevelData.LevelStream
      let Data : FGeneratedLevelData := { GeneratedLevelData with LevelStream := Selected.2 }
      match Selected.1 with
      | some Rows =>
        (PlaceRoomInGrid E Steps LevelGenerationSettings Data (some Rows)).andThen
          (BasicRoomLoop E Steps LevelGenerationSettings BasicRoomQuantity Rounds
            (RoomsGenerated + 1))
      | none =>
        BasicRoomLoop E Steps LevelGenerationSettings BasicRoomQuantity Rounds RoomsGenerated
          Data
    else Outcome.returns GeneratedLevelData

/-- `ULevelGenerationLibrary::GenerateBasicRooms`, each of its loops run for at
most `Steps` iterations. -/
def GenerateBasicRooms (E : Engine) (Steps : Nat)
    (LevelGenerationSettings : FLevelGenerationSettings)
    (GeneratedLevelData : FGeneratedLevelData) : Outcome FGeneratedLevelData :=
  let Quantity := DrawBasicRoomQuantity E LevelGenerationSettings GeneratedLevelData
  let Data : FGeneratedLevelData := { GeneratedLevelData with LevelStream := Quantity.2 }
  if Quantity.1 = 0 then Outcome.returns Data
  else BasicRoomLoop E Steps LevelGenerationSettings Quantity.1 Steps 0 Data

/-- `ULevelGenerationLibrary::GenerateLevel`.  `NewSeed` is the seed
`FRandomStream::GenerateNewSeed` takes from the global generator of the engine; the
settings carry the special path data in the state `LoadSynchronous` leaves it in. -/
def GenerateLevel (E : Engine) (Steps : Nat) (NewSeed : Int)
    (LevelGenerationSettings : FLevelGenerationSettings)
    (GeneratedLevelData : FGeneratedLevelData) : Outcome FGeneratedLevelData :=
  let LevelStream : FRandomStream :=
    if LevelGenerationSettings.bUsePlayerSeed then
      ⟨LevelGenerationSettings.LevelUserSeed, LevelGenerationSettings.LevelUserSeed⟩
    else ⟨NewSeed, NewSeed⟩
  let Data0 : FGeneratedLevelData := { GeneratedLevelData with LevelStream := LevelStream }
  let KeyRooms : Outcome FGeneratedLevelData :=
    if LevelGenerationSettings.bGenerateKeyRooms then
      GenerateKeyRooms E Steps LevelGenerationSettings Data0
    else Outcome.returns Data0
  let SpecialRooms : Outcome FGeneratedLevelData :=
    KeyRooms.andThen (fun Data =>
      if LevelGenerationSettings.bGenerateSpecialRooms then
        GenerateSpecialRooms E Steps LevelGenerationSettings Data
      else Outcome.returns Data)
  let BasicRooms : Outcome FGeneratedLevelData :=
    SpecialRooms.andThen (fun Data =>
      if LevelGenerationSettings.bGenerateBasicRooms then
        GenerateBasicRooms E Steps LevelGenerationSettings Data
      else Outcome.returns Data)
  BasicRooms.andThen (GenerateCorridors3D E Steps LevelGenerationSettings)

/-- The stream after the given number of draws of `FRand`. -/
def AdvanceStream (E : Engine) : Nat → FRandomStream → FRandomStream
  | 0, Stream => Stream
  | k + 1, Stream => AdvanceStream E k { Stream with Seed := (E.RandFloat Stream.Seed).2 }

/-- The values of the given number of successive calls of
`RandomFloatInRangeFromStream(0, 1, Stream)`. -/
def UnitDraws (E : Engine) : Nat → FRandomStream → List ℚ
  | 0, _ => []
  | k + 1, Stream =>
    (RandomFloatInRangeFromStream E 0 1 Stream).1 ::
      UnitDraws E k (RandomFloatInRangeFromStream E 0 1 Stream).2

/-- The edges of a list, each paired in list order with one draw, whose draw is at
most the chance. -/
def AdmittedEdges (Edges : List FEdgeInfo) (Draws : List ℚ) (AddToMSTChance : ℚ) :
    List FEdgeInfo :=
  ((Edges.zip Draws).filter (fun Pair => decide (Pair.2 ≤ AddToMSTChance))).map Prod.fst

end LevelGen

namespace LevelGen

/-! ## Further scenarios -/

/-- Three points of which the third is joined to no other by `UnitEdge`. -/
def ThreePoints : List FIntVector := [⟨0, 0, 0⟩, ⟨1, 0, 0⟩, ⟨5, 0, 0⟩]

/-- Three rooms of one cell at the corners of a triangle. -/
def TriangleScenario : FGeneratedLevelData :=
  LevelOf [(⟨0, 0, 0⟩, SingleCellRoom HorizontalDirections),
           (⟨2, 0, 0⟩, SingleCellRoom HorizontalDirections),
           (⟨0, 2, 0⟩, SingleCellRoom HorizontalDirections)]

/-- The three edges between the rooms of `TriangleScenario`. -/
def TriangleEdges : List FEdgeInfo :=
  [⟨⟨0, 0, 0⟩, ⟨2, 0, 0⟩, 2⟩, ⟨⟨0, 0, 0⟩, ⟨0, 2, 0⟩, 2⟩,
   ⟨⟨2, 0, 0⟩, ⟨0, 2, 0⟩, 11863283 / 4194304⟩]

/-- The settings of `PlainSettings` with corridor generation switched off and every
discarded edge admitted again. -/
def NoCorridorSettings (GridSize : FIntVector) : FLevelGenerationSettings :=
  { PlainSettings GridSize with bGenerateCorridors := false, ExtraCorridorChance := 1 }

/-- A room section tile of the room anchored at (1,1,0). -/
def SectionTile : FTileData :=
  { FTileData.Default with
    TileType := ETileType.Room_Section
    TileSize := [⟨0, 0, 0⟩]
    ParentRoomCoordinate := ⟨1, 1, 0⟩ }

/-- A room of one cell at (0,0,0), open to the North only, and a room of two cells
anchored at (1,1,0), open to the East only, whose room section lies at (1,0,0), the
cell the first room opens onto. -/
def BlockedScenario : FGeneratedLevelData :=
  LevelOf [(⟨0, 0, 0⟩, SingleCellRoom [EDirections.North]),
           (⟨1, 1, 0⟩, { SingleCellRoom [EDirections.East] with
              TileSize := [⟨0, 0, 0⟩, ⟨0, -1, 0⟩], ParentRoomCoordinate := ⟨1, 1, 0⟩ }),
           (⟨1, 0, 0⟩, SectionTile)]

/-- The edge between the two rooms of `BlockedScenario`. -/
def BlockedScenarioEdge : FEdgeInfo := ⟨⟨0, 0, 0⟩, ⟨1, 1, 0⟩, 11863283 / 8388608⟩

/-- The type, rotation and footprint of every tile, with its coordinate. -/
def TileShapes (Tiles : List (FIntVector × FTileData)) :
    List (FIntVector × ETileType × FRotator × List FIntVector) :=
  Tiles.map (fun Entry => (Entry.1, Entry.2.TileType, Entry.2.TileRotation, Entry.2.TileSize))

/-- The level stream a run returned with, if it returned. -/
def StreamAfter (Run : Outcome FGeneratedLevelData) : Option FRandomStream :=
  Run.value.map (fun Data => Data.LevelStream)

/-- The spanning tree list a run returned with, if it returned. -/
def TreeAfter (Run : Outcome FGeneratedLevelData) : Option (List FEdgeInfo) :=
  Run.value.map (fun Data => Data.MinimumSpanningTree)

/-- Settings of an empty grid of 2 by 2 by 2 that ask for exactly one basic room
and list no basic room table. -/
def OneBasicRoomSettings : FLevelGenerationSettings :=
  { PlainSettings ⟨2, 2, 2⟩ with
    BasicRoomsMinimum := 1, BasicRoomsMaximum := 1, bGenerateBasicRooms := true }

/-- The settings of `PlainSettings` with the player seed 42 in use. -/
def SeededSettings (GridSize : FIntVector) : FLevelGenerationSettings :=
  { PlainSettings GridSize with bUsePlayerSeed := true, LevelUserSeed := 42 }

/-- The level of `CorridorScenario` with another state of the level stream. -/
def CorridorScenarioOtherStream : FGeneratedLevelData :=
  { CorridorScenario with LevelStream := ⟨7, 9⟩ }

/-- A rotation by a yaw of 90 degrees. -/
def QuarterTurn : FRotator := ⟨0, 90, 0⟩

end LevelGen

namespace LevelGen

/-! ## Notions for the search on a plane without obstacles -/

/-- An entry of `OPEN` or `CLOSED` on the level of the start: a plain node whose
previous path runs through closed coordinates. -/
def PlaneNode (Start : FIntVector) (CLOSED : List (FIntVector × FAdvancedPathNode))
    (Entry : FIntVector × FAdvancedPathNode) : Prop :=
  Entry.1.Z = Start.Z ∧ Entry.2.SpecialPathType = ESpecialPathType.None ∧
    ∀ k ∈ TMapKeys Entry.2.PreviousPath, k ∈ TMapKeys CLOSED

/-- No cell on the level of the start is inaccessible or holds a special path. -/
def FreePlane (C : SearchContext) : Prop :=
  ∀ c : FIntVector, c.Z = C.StartLocation.Z →
    c ∉ C.InaccessibleNodes ∧ IsSpecialPathAt C.GeneratedLevelData c = false

end LevelGen

namespace LevelGen

/-! ## The entries of a placed room -/

/-- A row for a room of one cell that has the given set coordinate. -/
def RowAtCoordinate (Coordinate : FIntVector) : FTileGenerationData :=
  { RowWithFootprint [⟨0, 0, 0⟩] with
    bTileHasSetCoordinate := true, TileSetGridCoordinate := Coordinate }

/-- A corridor tile, used to occupy a cell. -/
def CorridorTile : FTileData :=
  { FTileData.Default with TileType := ETileType.Corridor, TileSize := [⟨0, 0, 0⟩] }

end LevelGen

namespace LevelGen

/-! ## Candidate cells of the access point scan -/

/-- The cells a room opens onto: for every access point of the tile and every
accessible direction of that access point that has an entry in
`DirectionCoordinates`, the anchor plus the rotated sum of access point and
direction vector. -/
def CandidateCells (Anchor : FIntVector) (Tile : FTileData) : List FIntVector :=
  Tile.TileAccessPoints.flatMap (fun Entry =>
    Entry.2.AccessibleDirections.filterMap (fun Direction =>
      (TMapFind DirectionCoordinates Direction).map (fun DirectionVector =>
        Anchor + RotateIntVectorCoordinatefromOrigin (Entry.1 + DirectionVector)
          Tile.TileRotation)))

/-- The body of the innermost loop of `ScanOriginAccessPoints` (lines 1903-1932),
for one access point of the origin tile. -/
def ScanOriginStep (E : Engine) (GeneratedLevelData : FGeneratedLevelData)
    (Edge : FEdgeInfo) (OriginTile DestinationTile : FTileData)
    (ExcludedOriginAPs : List FIntVector) (CurrentDestinationAP : FIntVector)
    (DestinationDirection : EDirections) (PotentialPathEnd : FIntVector)
    (OriginEntry : FIntVector × FTileAccessData) :
    Option FPathGenerationData → EDirections → Option FPathGenerationData :=
  fun Acc2 OriginDirection =>
    match Acc2 with
    | none => none
    | some (Current : FPathGenerationData) =>
      match TMapFind DirectionCoordinates OriginDirection with
      | none => none
      | some DirectionVector =>
        let CurrentOriginAP := OriginEntry.1
        let PotentialPathStart := Edge.Origin +
          RotateIntVectorCoordinatefromOrigin (CurrentOriginAP + DirectionVector)
            OriginTile.TileRotation
        if decide (PotentialPathStart ∈ ExcludedOriginAPs) then some Current
        else if TMapContains GeneratedLevelData.LevelTileData PotentialPathEnd then some Current
        else
          let PotentialShortestDistance := E.Length (PotentialPathEnd - PotentialPathStart)
          if PotentialShortestDistance < Current.PathDistance then
            some { Current with
              OriginAccessPoint := CurrentOriginAP
              OriginAccessPointLocation := Edge.Origin +
                RotateIntVectorCoordinatefromOrigin CurrentOriginAP OriginTile.TileRotation
              OriginPathDirection := OriginDirection
              DestinationAccessPoint := CurrentDestinationAP
              DestinationAccessPointLocation := Edge.Destination +
                RotateIntVectorCoordinatefromOrigin CurrentDestinationAP
                  DestinationTile.TileRotation
              DestinationPathDirection := DestinationDirection
              PathEnd := PotentialPathEnd
              PathStart := PotentialPathStart
              PathDistance := PotentialShortestDistance }
          else some Current

/-- The body of the loop over the accessible directions of one access point of the
destination tile in `ScanAccessPoints` (lines 1887-1934). -/
def ScanDestinationStep (E : Engine) (GeneratedLevelData : FGeneratedLevelData)
    (Edge : FEdgeInfo) (OriginTile DestinationTile : FTileData)
    (ExcludedOriginAPs ExcludedDestinationAPs : List FIntVector)
    (DestinationEntry : FIntVector × FTileAccessData) :
    Option FPathGenerationData → EDirections → Option FPathGenerationData :=
  fun Acc2 DestinationDirection =>
    match Acc2 with
    | none => none
    | some (Current : FPathGenerationData) =>
      match TMapFind DirectionCoordinates DestinationDirection with
      | none => none
      | some DirectionVector =>
        let PotentialPathEnd := Edge.Destination +
          RotateIntVectorCoordinatefromOrigin (DestinationEntry.1 + DirectionVector)
            DestinationTile.TileRotation
        if decide (PotentialPathEnd ∈ ExcludedDestinationAPs) then some Current
        else if TMapContains GeneratedLevelData.LevelTileData PotentialPathEnd then some Current
        else
          ScanOriginAccessPoints E GeneratedLevelData Edge OriginTile DestinationTile
            ExcludedOriginAPs DestinationEntry.1 DestinationDirection PotentialPathEnd Current

/-- What the specification says of a selected pair of cells: the start is not
excluded, the end is neither excluded nor occupied, both are cells the two rooms
open onto, and the distance is the length of their difference. -/
def RouteIsCandidate (E : Engine) (GeneratedLevelData : FGeneratedLevelData) (Edge : FEdgeInfo)
    (OriginTile DestinationTile : FTileData)
    (ExcludedOriginAPs ExcludedDestinationAPs : List FIntVector)
    (Route : FPathGenerationData) : Prop :=
  Route.PathStart ∉ ExcludedOriginAPs ∧ Route.PathEnd ∉ ExcludedDestinationAPs ∧
    TMapContains GeneratedLevelData.LevelTileData Route.PathEnd = false ∧
    Route.PathStart ∈ CandidateCells Edge.Origin OriginTile ∧
    Route.PathEnd ∈ CandidateCells Edge.Destination DestinationTile ∧
    Route.PathDistance = E.Length (Route.PathEnd - Route.PathStart)

/-- The result of `GetShortestPathToTargetRoom` for the two rooms of
`CorridorScenario`, with the cell (1,0,0) excluded as a start. -/
def CorridorScenarioRoute : FPathGenerationData :=
  (GetShortestPathToTargetRoom (ScenarioEngine []) CorridorScenario CorridorScenarioEdge
    [⟨1, 0, 0⟩] []).getD FPathGenerationData.Default

end LevelGen

namespace LevelGen

/-! ## Special structures: scenarios and the conditions of the specification -/

/-- A staircase template of one cell whose exit lies one cell ahead and one level
up. -/
def StairsInfo : FSpecialPathInfo :=
  { PathVolume := [⟨0, 0, 0⟩], ExitVector := ⟨1, 0, 1⟩, NodeWeight := 0 }

/-- The settings of `PlainSettings` with the template `StairsInfo` enabled for
`Stairs_1x1x2`. -/
def StairsSettings (GridSize : FIntVector) : FLevelGenerationSettings :=
  { PlainSettings GridSize with
    AllowedSpecialPathTypes := [(ESpecialPathType.Stairs_1x1x2, true)]
    SpecialPathData := some [(ESpecialPathType.Stairs_1x1x2, StairsInfo)] }

/-- The context of a search from `StartLocation` to `EndLocation` on the empty level
with the settings `StairsSettings`. -/
def StairsContext (StartLocation EndLocation : FIntVector) : SearchContext :=
  { StartLocation := StartLocation, EndLocation := EndLocation, PathGenerationDataArray := [],
    LevelGenerationSettings := StairsSettings ⟨8, 8, 2⟩, GeneratedLevelData := LevelOf [],
    InaccessibleNodes := [] }

/-- The map `CLOSED` of a search that has settled its start and the cell north of
it: the start node, and the plain node the search creates for the northern
neighbour. -/
def ClosedAfterOneStep (E : Engine) (C : SearchContext) :
    List (FIntVector × FAdvancedPathNode) :=
  let StartingNode : FAdvancedPathNode :=
    { FAdvancedPathNode.Default with ParentNode := C.StartLocation }
  [(C.StartLocation, StartingNode),
   (C.StartLocation + ⟨1, 0, 0⟩,
     NewPlainNode E C C.StartLocation StartingNode (C.StartLocation + ⟨1, 0, 0⟩))]

/-- The conditions the specification lists for a placement of the first orientation
from the closed node `CurrentClosedNode` at the origin `CurrentCoordinate`: every
rotated, translated footprint cell and the exit cell holds no tile and no path, is
accessible, is not in `CLOSED` and not on the predecessor chain of the closed node;
the exit is not in `OPEN`; no footprint cell is the goal or the start or end of a
planned path. -/
def PlacementIsFree (OPEN CLOSED : List (FIntVector × FAdvancedPathNode))
    (InaccessibleNodes : List FIntVector) (PathGenerationDataArray : List FPathGenerationData)
    (GeneratedLevelData : FGeneratedLevelData) (CurrentClosedNode CurrentCoordinate : FIntVector)
    (PathRotation : FRotator) (SpecialPathInfo : FSpecialPathInfo) (EndLocation : FIntVector) :
    Prop :=
  let Cells := SpecialPathInfo.PathVolume.map (fun v =>
    CurrentCoordinate + RotateIntVectorCoordinatefromOrigin v PathRotation)
  let Exit := CurrentCoordinate +
    RotateIntVectorCoordinatefromOrigin SpecialPathInfo.ExitVector PathRotation
  (∀ x ∈ Cells ++ [Exit],
    TMapContains GeneratedLevelData.LevelTileData x = false ∧
    TMapContains GeneratedLevelData.LevelPathData x = false ∧
    x ∉ InaccessibleNodes ∧ TMapContains CLOSED x = false ∧
    (TMapFind CLOSED CurrentClosedNode).map (fun n => TMapContains n.PreviousPath x) =
      some false) ∧
  TMapContains OPEN Exit = false ∧
  ∀ x ∈ Cells, x ≠ EndLocation ∧
    ∀ p ∈ PathGenerationDataArray, x ≠ p.PathStart ∧ x ≠ p.PathEnd

instance (OPEN CLOSED : List (FIntVector × FAdvancedPathNode))
    (InaccessibleNodes : List FIntVector) (PathGenerationDataArray : List FPathGenerationData)
    (GeneratedLevelData : FGeneratedLevelData) (CurrentClosedNode CurrentCoordinate : FIntVector)
    (PathRotation : FRotator) (SpecialPathInfo : FSpecialPathInfo) (EndLocation : FIntVector) :
    Decidable (PlacementIsFree OPEN CLOSED InaccessibleNodes PathGenerationDataArray
      GeneratedLevelData CurrentClosedNode CurrentCoordinate PathRotation SpecialPathInfo
      EndLocation) := by
  unfold PlacementIsFree; infer_instance

/-- The keys of the map `OPEN` after `EvaluateSpecialCorridorStructures` for the
closed node north of the start of the context, in direction North, from an empty
`OPEN`. -/
def StairsProposals (E : Engine) (C : SearchContext) : Option (List FIntVector) :=
  (EvaluateSpecialCorridorStructures E [] (ClosedAfterOneStep E C) C.InaccessibleNodes
    C.PathGenerationDataArray C.LevelGenerationSettings C.GeneratedLevelData
    (C.StartLocation + ⟨1, 0, 0⟩) EDirections.North C.StartLocation C.EndLocation).map TMapKeys

end LevelGen

namespace LevelGen

/-! ## The maps of the search, pass by pass -/

/-- The maps `OPEN` and `CLOSED` of `SearchLoop`, recorded in every pass of its loop:
at the start of the pass, after the expansion of the closed nodes (lines 851-893),
after the pop of the current node (lines 923-946) and after the loop over its
neighbours (lines 962-1001).  Between two records `OPEN` only grows. -/
def SearchStates (E : Engine) (C : SearchContext) :
    Nat → List (FIntVector × FAdvancedPathNode) → List (FIntVector × FAdvancedPathNode) →
      List (List (FIntVector × FAdvancedPathNode) × List (FIntVector × FAdvancedPathNode))
  | 0, _, _ => []
  | Steps + 1, OPEN, CLOSED =>
    (OPEN, CLOSED) ::
    match ExpandClosed E C OPEN CLOSED with
    | none => []
    | some Expanded =>
      (Expanded, CLOSED) ::
      match E.ValueSort OpenNodeLess Expanded with
      | [] => []
      | (CurrentNodeCoordinate, CurrentNode) :: SortedRest =>
        let Sorted := (CurrentNodeCoordinate, CurrentNode) :: SortedRest
        match
          (if CurrentNode.SpecialPathType.IsStructure then
            CommitStructure CurrentNode CurrentNode.SpecialPathInfo.PathVolume.length
              (Sorted, CLOSED)
          else some (Sorted, CLOSED)) with
        | none => []
        | some (OPEN1, CLOSED1) =>
          let CLOSED2 := TMapAdd CLOSED1 CurrentNodeCoordinate CurrentNode
          let OPEN2 := TMapRemove OPEN1 CurrentNodeCoordinate
          (OPEN2, CLOSED2) ::
          if CurrentNodeCoordinate = C.EndLocation then []
          else
            match AllDirections.foldl (fun Acc CurrentDirection =>
                match Acc with
                | none => none
                | some Open =>
                  RelaxNeighbour E C CLOSED2 CurrentNodeCoordinate CurrentNode Open
                    CurrentDirection) (some OPEN2) with
            | none => []
            | some OPEN3 => (OPEN3, CLOSED2) :: SearchStates E C Steps OPEN3 CLOSED2

/-- The nodes `SearchLoop` pops, pass by pass, each with the maps `OPEN` and `CLOSED`
as they are when the pass ends, that is before the next expansion. -/
def SearchPops (E : Engine) (C : SearchContext) :
    Nat → List (FIntVector × FAdvancedPathNode) → List (FIntVector × FAdvancedPathNode) →
      List (FAdvancedPathNode × List (FIntVector × FAdvancedPathNode) ×
        List (FIntVector × FAdvancedPathNode))
  | 0, _, _ => []
  | Steps + 1, OPEN, CLOSED =>
    match ExpandClosed E C OPEN CLOSED with
    | none => []
    | some Expanded =>
      match E.ValueSort OpenNodeLess Expanded with
      | [] => []
      | (CurrentNodeCoordinate, CurrentNode) :: SortedRest =>
        let Sorted := (CurrentNodeCoordinate, CurrentNode) :: SortedRest
        match
          (if CurrentNode.SpecialPathType.IsStructure then
            CommitStructure CurrentNode CurrentNode.SpecialPathInfo.PathVolume.length
              (Sorted, CLOSED)
          else some (Sorted, CLOSED)) with
        | none => []
        | some (OPEN1, CLOSED1) =>
          let CLOSED2 := TMapAdd CLOSED1 CurrentNodeCoordinate CurrentNode
          let OPEN2 := TMapRemove OPEN1 CurrentNodeCoordinate
          if CurrentNodeCoordinate = C.EndLocation then [(CurrentNode, OPEN2, CLOSED2)]
          else
            match AllDirections.foldl (fun Acc CurrentDirection =>
                match Acc with
                | none => none
                | some Open =>
                  RelaxNeighbour E C CLOSED2 CurrentNodeCoordinate CurrentNode Open
                    CurrentDirection) (some OPEN2) with
            | none => []
            | some OPEN3 => (CurrentNode, OPEN3, CLOSED2) :: SearchPops E C Steps OPEN3 CLOSED2

/-- The context `AdvancedAStarPathfinding` searches in (lines 791-821). -/
def SearchContextOf (StartLocation EndLocation : FIntVector)
    (PathGenerationDataArray : List FPathGenerationData)
    (LevelGenerationSettings : FLevelGenerationSettings)
    (GeneratedLevelData : FGeneratedLevelData) : SearchContext :=
  { StartLocation := StartLocation, EndLocation := EndLocation,
    PathGenerationDataArray := PathGenerationDataArray,
    LevelGenerationSettings := LevelGenerationSettings,
    GeneratedLevelData := GeneratedLevelData,
    InaccessibleNodes := InaccessibleNodesOf GeneratedLevelData.LevelTileData }

/-- The map `CLOSED` with which `AdvancedAStarPathfinding` enters its loop: the
starting node alone (lines 836-845). -/
def InitialClosed (E : Engine) (StartLocation EndLocation : FIntVector)
    (LevelGenerationSettings : FLevelGenerationSettings)
    (GeneratedLevelData : FGeneratedLevelData) : List (FIntVector × FAdvancedPathNode) :=
  let Updated := UpdateAdvancedNode E FAdvancedPathNode.Default LevelGenerationSettings
    GeneratedLevelData StartLocation StartLocation StartLocation ESpecialPathType.None
    FSpecialPathInfo.Default ⟨0, 0, 0⟩ [] StartLocation EndLocation
  let HCost := E.Length (EndLocation - StartLocation)
  let StartingNode : FAdvancedPathNode :=
    { Updated with
      ParentNode := StartLocation
      GCost := 0
      HCost := HCost
      FCost := E.FAdd (E.FAdd 0 HCost) (if Updated.ElevationToEnd = 0 then 0 else 5 / 2) }
  TMapAdd [] StartLocation StartingNode

/-- The records of `SearchStates` for a call of `AdvancedAStarPathfinding`; none
when the call returns before its loop because start or goal is a room cell. -/
def AdvancedAStarStates (E : Engine) (Steps : Nat) (StartLocation EndLocation : FIntVector)
    (PathGenerationDataArray : List FPathGenerationData)
    (LevelGenerationSettings : FLevelGenerationSettings)
    (GeneratedLevelData : FGeneratedLevelData) :
    List (List (FIntVector × FAdvancedPathNode) × List (FIntVector × FAdvancedPathNode)) :=
  let InaccessibleNodes := InaccessibleNodesOf GeneratedLevelData.LevelTileData
  if TSetContains InaccessibleNodes StartLocation || TSetContains InaccessibleNodes EndLocation
  then []
  else
    SearchStates E
      (SearchContextOf StartLocation EndLocation PathGenerationDataArray
        LevelGenerationSettings GeneratedLevelData)
      Steps [] (InitialClosed E StartLocation EndLocation LevelGenerationSettings
        GeneratedLevelData)

/-- The records of `SearchPops` for a call of `AdvancedAStarPathfinding`. -/
def AdvancedAStarPops (E : Engine) (Steps : Nat) (StartLocation EndLocation : FIntVector)
    (PathGenerationDataArray : List FPathGenerationData)
    (LevelGenerationSettings : FLevelGenerationSettings)
    (GeneratedLevelData : FGeneratedLevelData) :
    List (FAdvancedPathNode × List (FIntVector × FAdvancedPathNode) ×
      List (FIntVector × FAdvancedPathNode)) :=
  let InaccessibleNodes := InaccessibleNodesOf GeneratedLevelData.LevelTileData
  if TSetContains InaccessibleNodes StartLocation || TSetContains InaccessibleNodes EndLocation
  then []
  else
    SearchPops E
      (SearchContextOf StartLocation EndLocation PathGenerationDataArray
        LevelGenerationSettings GeneratedLevelData)
      Steps [] (InitialClosed E StartLocation EndLocation LevelGenerationSettings
        GeneratedLevelData)

/-- The coordinates of the records of a search: per record the keys of `OPEN` and
the keys of `CLOSED`. -/
def StateKeys
    (States : List (List (FIntVector × FAdvancedPathNode) ×
      List (FIntVector × FAdvancedPathNode))) : List (List FIntVector × List FIntVector) :=
  States.map (fun State => (TMapKeys State.1, TMapKeys State.2))

end LevelGen

namespace LevelGen

/-! ## The footprint of a node that carries a special structure -/

/-- The footprint of the structure a node carries: the structure origin plus each
rotated volume offset. -/
def StructureCells (Node : FAdvancedPathNode) : List FIntVector :=
  Node.SpecialPathInfo.PathVolume.map (fun v =>
    Node.SpecialPathOriginVector +
      RotateIntVectorCoordinatefromOrigin v Node.SpecialPathRotation)

/-- The number of cells the pop of a node commits (lines 927-940): the size of the
volume of its structure, none for a node without one. -/
def VolumeCount (Node : FAdvancedPathNode) : Nat :=
  if Node.SpecialPathType.IsStructure then Node.SpecialPathInfo.PathVolume.length else 0

/-- The body of the loops over the volume in `UpdateAdvancedNode` (lines 1792-1800
and 1807-1814): the cell of one volume offset is added to the previous path of the
node. -/
def AddVolumeCell (E : Engine) (LevelGenerationSettings : FLevelGenerationSettings)
    (GeneratedLevelData : FGeneratedLevelData) (InExitLocation : FIntVector)
    (InPreviousPath : List (FIntVector × FAdvancedPathNode))
    (StartLocation EndLocation : FIntVector) (N : FAdvancedPathNode)
    (CurrentVolumeVector : FIntVector) : FAdvancedPathNode :=
  let VolumeCoordinate := N.SpecialPathOriginVector +
    RotateIntVectorCoordinatefromOrigin CurrentVolumeVector N.SpecialPathRotation
  let VolumePathNode := UpdateSectionNode E LevelGenerationSettings GeneratedLevelData N
    VolumeCoordinate InExitLocation InPreviousPath StartLocation EndLocation
  { N with PreviousPath := TMapAdd N.PreviousPath VolumeCoordinate VolumePathNode }

/-- The previous path of a node and the previous paths of the nodes stored in it,
down to the given depth, name only coordinates of `K`. -/
def DeepOK (K : List FIntVector) : Nat → FAdvancedPathNode → Prop
  | 0, _ => True
  | d + 1, Node =>
    (∀ x ∈ TMapKeys Node.PreviousPath, x ∈ K) ∧ ∀ e ∈ Node.PreviousPath, DeepOK K d e.2

/-- The invariant of the search for an entry of `CLOSED`, `K` being the keys of
`CLOSED`: at every depth, its previous paths name only closed coordinates. -/
def ClosedEntryOK (K : List FIntVector) (Entry : FIntVector × FAdvancedPathNode) : Prop :=
  ∀ d, DeepOK K d Entry.2

/-- The invariant of the search for an entry of `OPEN`, `K` being the keys of
`CLOSED`: its coordinate is not closed; the nodes stored in its previous path name
only closed coordinates; the coordinates of its previous path, but for the last
`VolumeCount` ones, are closed; and the footprint of its structure, if it carries
one, is part of its previous path. -/
def OpenEntryOK (K : List FIntVector) (Entry : FIntVector × FAdvancedPathNode) : Prop :=
  Entry.1 ∉ K ∧ (∀ d, ∀ v ∈ Entry.2.PreviousPath, DeepOK K d v.2) ∧
    (∀ x ∈ (TMapKeys Entry.2.PreviousPath).reverse.drop (VolumeCount Entry.2), x ∈ K) ∧
    (Entry.2.SpecialPathType.IsStructure = true →
      ∀ x ∈ StructureCells Entry.2, x ∈ TMapKeys Entry.2.PreviousPath)

/-- What `SearchPops` recorded, reduced to coordinates: per pop the type of the
node, the footprint of its structure, the keys of `OPEN` and the keys of `CLOSED`. -/
def PopKeys
    (Pops : List (FAdvancedPathNode × List (FIntVector × FAdvancedPathNode) ×
      List (FIntVector × FAdvancedPathNode))) :
    List (ESpecialPathType × List FIntVector × List FIntVector × List FIntVector) :=
  Pops.map (fun Pop =>
    (Pop.1.SpecialPathType, StructureCells Pop.1, TMapKeys Pop.2.1, TMapKeys Pop.2.2))

/-- A template of one cell whose exit is the cell behind the origin, with a weight
that keeps its nodes at the end of `OPEN`. -/
def BackwardInfo : FSpecialPathInfo :=
  { PathVolume := [⟨0, 0, 0⟩], ExitVector := ⟨-1, 0, 0⟩, NodeWeight := 1000 }

/-- A template of the origin and the cell two cells behind it, whose exit is the
cell ahead of the origin. -/
def GapInfo : FSpecialPathInfo :=
  { PathVolume := [⟨0, 0, 0⟩, ⟨-2, 0, 0⟩], ExitVector := ⟨1, 0, 0⟩, NodeWeight := 0 }

/-- The settings of `PlainSettings` with `BackwardInfo` enabled for `Stairs_1x1x2`
and `GapInfo` for `Stairs_1x2x2`. -/
def ReuseSettings (GridSize : FIntVector) : FLevelGenerationSettings :=
  { PlainSettings GridSize with
    AllowedSpecialPathTypes :=
      [(ESpecialPathType.Stairs_1x1x2, true), (ESpecialPathType.Stairs_1x2x2, true)]
    SpecialPathData := some [(ESpecialPathType.Stairs_1x1x2, BackwardInfo),
      (ESpecialPathType.Stairs_1x2x2, GapInfo)] }

/-- A tile of an existing path that holds a structure of the given type, rotation
and origin. -/
def ExistingStructure (SpecialPathType : ESpecialPathType) (Rotation : FRotator)
    (Origin : FIntVector) : FCorridorTileData :=
  { FCorridorTileData.Default with
    TileType := ETileType.Corridor_Special
    SpecialPathType := SpecialPathType
    SpecialPathRotation := Rotation
    ParentPathNode :=
      { FAdvancedPathNode.Default with
        SpecialPathType := SpecialPathType
        SpecialPathRotation := Rotation
        SpecialPathOriginVector := Origin } }

/-- A level without tiles whose `LevelPathData` holds a structure of `BackwardInfo`
at (1,0,0), facing North, and a structure of `GapInfo` at (0,2,0), facing East. -/
def ReuseScenario : FGeneratedLevelData :=
  { LevelOf [] with
    LevelPathData :=
      [(⟨1, 0, 0⟩, ExistingStructure ESpecialPathType.Stairs_1x1x2 ⟨0, 0, 0⟩ ⟨1, 0, 0⟩),
       (⟨0, 2, 0⟩, ExistingStructure ESpecialPathType.Stairs_1x2x2 ⟨0, 90, 0⟩ ⟨0, 2, 0⟩)] }

end LevelGen

namespace LevelGen

/-! ## Tetrahedralisation (`DelaunayTriangulationLibrary.cpp`, lines 398-517 and
1094-1284)

Coordinates of type `double` and `float` are the rationals they denote and the
arithmetic on them is exact. -/

/-- The engine struct `FVector`. -/
structure FVector where
  X : ℚ
  Y : ℚ
  Z : ℚ
deriving DecidableEq, Repr

/-- The conversion `(FVector)IntVector`. -/
def FIntVector.toFVector (v : FIntVector) : FVector := ⟨(v.X : ℚ), (v.Y : ℚ), (v.Z : ℚ)⟩

/-- The conversion `(FIntVector)Vector`: every component is truncated. -/
def FVector.toFIntVector (v : FVector) : FIntVector :=
  ⟨TruncToInt v.X, TruncToInt v.Y, TruncToInt v.Z⟩

/-- The struct `FTriangle` of `DelaunayTriangulationLibrary.h`. -/
structure FTriangle where
  A : FVector
  B : FVector
  C : FVector
deriving DecidableEq, Repr

/-- The struct `FTetrahedron` of `DelaunayTriangulationLibrary.h`. -/
structure FTetrahedron where
  A : FVector
  B : FVector
  C : FVector
  D : FVector
deriving DecidableEq, Repr

/-- The set `TSet<FVector>{ A, B, C, D }` of the vertices of a tetrahedron. -/
def FTetrahedron.Vertices (t : FTetrahedron) : List FVector :=
  TSetAdd (TSetAdd (TSetAdd (TSetAdd [] t.A) t.B) t.C) t.D

/-- The set `TSet<FVector>{ A, B, C }` of the vertices of a triangle. -/
def FTriangle.Vertices (t : FTriangle) : List FVector :=
  TSetAdd (TSetAdd (TSetAdd [] t.A) t.B) t.C

/-- `TSet::Includes`: every element of the other set is in the set. -/
def TSetIncludes {α : Type} [DecidableEq α] (s other : List α) : Bool :=
  other.all (fun x => decide (x ∈ s))

/-- `TSet::Intersect`; only the number of elements of the result is read. -/
def TSetIntersect {α : Type} [DecidableEq α] (s other : List α) : List α :=
  s.filter (fun x => decide (x ∈ other))

/-- `TSet::Difference`: the elements of the set that are not in the other set. -/
def TSetDifference {α : Type} [DecidableEq α] (s other : List α) : List α :=
  s.filter (fun x => decide (x ∉ other))

/-- `UDelaunayTriangulationLibrary::Neighbour`: the first tetrahedron of the array
that is not made of vertices of `InTetrahedron` only and holds the shared
vertices. -/
def Neighbour (TetrahedraArray : List FTetrahedron) (InTetrahedron : List FVector)
    (SharedTriangleVertices : List FVector) : Option FTetrahedron :=
  TetrahedraArray.find? (fun CurrentTetrahedron =>
    let CurrentTetraVertices := CurrentTetrahedron.Vertices
    let DifferentVertices := TSetDifference SharedTriangleVertices CurrentTetraVertices
    if TSetIncludes InTetrahedron CurrentTetraVertices then false
    else if TSetIncludes CurrentTetraVertices SharedTriangleVertices then true
    else if DifferentVertices.length = 0 then true
    else false)

/-- `UDelaunayTriangulationLibrary::GetDeterminant`: the expansion along the first
row, with the base case at size 2; a matrix is the function from its two indices to
the entry. -/
def GetDeterminant (Matrix : Nat → Nat → ℚ) : Nat → ℚ
  | 0 => 0
  | 1 => Matrix 0 0 * 0
  | 2 => Matrix 0 0 * Matrix 1 1 - Matrix 1 0 * Matrix 0 1
  | MatrixSize + 1 =>
    (List.range (MatrixSize + 1)).foldl (fun Determinant x =>
      let SubMatrix : Nat → Nat → ℚ := fun subi subj =>
        Matrix (subi + 1) (if subj < x then subj else subj + 1)
      Determinant + (-1) ^ x * Matrix 0 x * GetDeterminant SubMatrix MatrixSize) 0

/-- `UDelaunayTriangulationLibrary::InSphere`: the determinant of the five rows
`(X, Y, Z, X² + Y² + Z², 1)`, converted to `int`.  The determinant is the one of
`GetDeterminant`, in exact arithmetic; the conversion has the range of `int32`. -/
def InSphere (A B C D P : FVector) : Int :=
  let MatrixVectors : List FVector := [A, B, C, D, P]
  let Matrix : Nat → Nat → ℚ := fun i j =>
    match MatrixVectors[i]? with
    | none => 0
    | some v =>
      if j = 0 then v.X else if j = 1 then v.Y else if j = 2 then v.Z
      else if j = 3 then v.X * v.X + v.Y * v.Y + v.Z * v.Z
      else if j = 4 then 1 else 0
  FloatToInt32 (GetDeterminant Matrix 5)

/-- `UDelaunayTriangulationLibrary::IsTetrahedronAlreadyInArray`, for a tetrahedron
that is no element of the array: whether the vertices of some tetrahedron of the
array are all vertices of the given one. -/
def IsTetrahedronAlreadyInArray (TetrahedraArray : List FTetrahedron)
    (InTetrahedron : FTetrahedron) : Bool :=
  TetrahedraArray.any (fun CurrentTetra =>
    TSetIncludes InTetrahedron.Vertices CurrentTetra.Vertices)

/-- `UDelaunayTriangulationLibrary::RemoveTetrahedronFromArray`: every tetrahedron
that shares four vertices with the given one is removed. -/
def RemoveTetrahedronFromArray (TetrahedraArray : List FTetrahedron)
    (InTetrahedron : FTetrahedron) : List FTetrahedron :=
  TetrahedraArray.filter (fun CurrentTetra =>
    !decide ((TSetIntersect CurrentTetra.Vertices InTetrahedron.Vertices).length = 4))

/-- The four faces `BowyerWatson3D` takes of a tetrahedron of the cavity (lines
1196-1200). -/
def CavityFaces (t : FTetrahedron) : List FTriangle :=
  [⟨t.B, t.A, t.C⟩, ⟨t.C, t.A, t.D⟩, ⟨t.D, t.A, t.B⟩, ⟨t.D, t.B, t.C⟩]

/-- The body of the loop of `BowyerWatson3D` for one point (lines 1174-1234). -/
def InsertPoint (TetrahedraArray : List FTetrahedron) (Point : FVector) : List FTetrahedron :=
  let CavityList := TetrahedraArray.filter (fun Tetrahedron =>
    decide (InSphere Tetrahedron.A Tetrahedron.B Tetrahedron.C Tetrahedron.D Point > 0))
  let BoundaryFaces := CavityList.flatMap (fun CavityTetrahedron =>
    (CavityFaces CavityTetrahedron).filter (fun CurrentFace =>
      (Neighbour CavityList CavityTetrahedron.Vertices CurrentFace.Vertices).isNone))
  let Remaining := CavityList.foldl RemoveTetrahedronFromArray TetrahedraArray
  BoundaryFaces.foldl (fun Array CurrentFace =>
    let NewTetrahedron : FTetrahedron := ⟨Point, CurrentFace.A, CurrentFace.B, CurrentFace.C⟩
    if !IsTetrahedronAlreadyInArray Array NewTetrahedron then Array ++ [NewTetrahedron]
    else Array) Remaining

/-- `UDelaunayTriangulationLibrary::BowyerWatson3D`: the array after the call. -/
def BowyerWatson3D (TetrahedraArray : List FTetrahedron) (PointArray : List FVector) :
    List FTetrahedron :=
  if PointArray.isEmpty then TetrahedraArray
  else PointArray.foldl InsertPoint TetrahedraArray

/-- The constructor `FEdgeInfo(InA, InB)`: the weight is the length of the
difference. -/
def FEdgeInfo.Make (E : Engine) (InA InB : FIntVector) : FEdgeInfo :=
  ⟨InA, InB, E.Length (InA - InB)⟩

/-- Both edges have the same origin and the same destination. -/
def SameDirection (a b : FEdgeInfo) : Prop :=
  a.Origin = b.Origin ∧ a.Destination = b.Destination

instance (a b : FEdgeInfo) : Decidable (SameDirection a b) := by
  unfold SameDirection; infer_instance

/-- One edge is the other in the opposite direction. -/
def OppositeDirection (a b : FEdgeInfo) : Prop :=
  a.Origin = b.Destination ∧ a.Destination = b.Origin

instance (a b : FEdgeInfo) : Decidable (OppositeDirection a b) := by
  unfold OppositeDirection; infer_instance

/-! ### The set `TSet<FEdgeInfo>`

`operator==` of `FEdgeInfo` holds for an edge and its reverse, while `GetTypeHash`
combines origin and destination in order.  A lookup of a key therefore always finds
a stored edge of the same direction, and finds the stored reverse only when both
fall into one bucket of the hash.  Whether they do is the engine parameter
`Collides`, asked with the elements the set holds and the key. -/

/-- The elements are kept in the order of `TSet::Array`. -/
def EdgeSetReplace (Test : FEdgeInfo → Bool) (New : FEdgeInfo) : List FEdgeInfo → List FEdgeInfo
  | [] => []
  | x :: rest => if Test x then New :: rest else x :: EdgeSetReplace Test New rest

/-- `TSet<FEdgeInfo>::Add`: a stored edge that the lookup finds is replaced in
place, otherwise the edge is appended. -/
def EdgeSetAdd (Collides : List FEdgeInfo → FEdgeInfo → Bool) (s : List FEdgeInfo)
    (e : FEdgeInfo) : List FEdgeInfo :=
  if s.any (fun x => decide (SameDirection x e)) then
    EdgeSetReplace (fun x => decide (SameDirection x e)) e s
  else if s.any (fun x => decide (OppositeDirection x e)) && Collides s e then
    EdgeSetReplace (fun x => decide (OppositeDirection x e)) e s
  else s ++ [e]

/-- `TSet<FEdgeInfo>::Contains`. -/
def EdgeSetContains (Collides : List FEdgeInfo → FEdgeInfo → Bool) (s : List FEdgeInfo)
    (e : FEdgeInfo) : Bool :=
  s.any (fun x => decide (SameDirection x e)) ||
    (s.any (fun x => decide (OppositeDirection x e)) && Collides s e)

/-- The list without its first element that passes the test. -/
def EraseFirst (Test : FEdgeInfo → Bool) : List FEdgeInfo → List FEdgeInfo
  | [] => []
  | x :: rest => if Test x then rest else x :: EraseFirst Test rest

/-- `TSet<FEdgeInfo>::Remove`: the stored edge that the lookup finds is removed. -/
def EdgeSetRemove (Collides : List FEdgeInfo → FEdgeInfo → Bool) (s : List FEdgeInfo)
    (e : FEdgeInfo) : List FEdgeInfo :=
  if s.any (fun x => decide (SameDirection x e)) then
    EraseFirst (fun x => decide (SameDirection x e)) s
  else if s.any (fun x => decide (OppositeDirection x e)) && Collides s e then
    EraseFirst (fun x => decide (OppositeDirection x e)) s
  else s

/-- The six edges `DelaunayTetrahedralization` adds for a tetrahedron (lines
475-480). -/
def TetrahedronEdges (E : Engine) (t : FTetrahedron) : List FEdgeInfo :=
  [FEdgeInfo.Make E t.A.toFIntVector t.B.toFIntVector,
   FEdgeInfo.Make E t.B.toFIntVector t.C.toFIntVector,
   FEdgeInfo.Make E t.C.toFIntVector t.A.toFIntVector,
   FEdgeInfo.Make E t.A.toFIntVector t.D.toFIntVector,
   FEdgeInfo.Make E t.B.toFIntVector t.D.toFIntVector,
   FEdgeInfo.Make E t.C.toFIntVector t.D.toFIntVector]

/-- The loop that fills `EdgeSet` (lines 473-481). -/
def CollectEdges (E : Engine) (Collides : List FEdgeInfo → FEdgeInfo → Bool)
    (TetrahedraArray : List FTetrahedron) : List FEdgeInfo :=
  TetrahedraArray.foldl (fun EdgeSet CurrentTetrahedron =>
    (TetrahedronEdges E CurrentTetrahedron).foldl (EdgeSetAdd Collides) EdgeSet) []

/-- The loop that removes the edges connected to the boundary vertices (lines
483-491); it runs over the elements the set holds when it starts. -/
def RemoveBoundaryEdges (Collides : List FEdgeInfo → FEdgeInfo → Bool)
    (BoundaryTetrahedronVertices : List FIntVector) (EdgeSet : List FEdgeInfo) :
    List FEdgeInfo :=
  EdgeSet.foldl (fun Set CurrentEdge =>
    if TSetContains BoundaryTetrahedronVertices CurrentEdge.Origin ||
        TSetContains BoundaryTetrahedronVertices CurrentEdge.Destination then
      EdgeSetRemove Collides Set CurrentEdge
    else Set) EdgeSet

/-- The inner loop of the removal of duplicate edges (lines 502-510) for the edge
`CurrentEdge`, over the array `EdgeArray`. -/
def RemoveReverses (Collides : List FEdgeInfo → FEdgeInfo → Bool) (CurrentEdge : FEdgeInfo)
    (EdgeArray EdgeSet : List FEdgeInfo) : List FEdgeInfo :=
  EdgeArray.foldl (fun Set ComparisonEdge =>
    if CurrentEdge.Origin = ComparisonEdge.Origin ∧
        CurrentEdge.Destination = ComparisonEdge.Destination then Set
    else if ComparisonEdge.Origin = CurrentEdge.Destination ∧
        ComparisonEdge.Destination = CurrentEdge.Origin then
      EdgeSetRemove Collides Set ComparisonEdge
    else Set) EdgeSet

/-- The removal of duplicate edges (lines 493-514): the loop runs over the elements
the set holds when it starts; the state is the set, of which `EdgeArray` is a copy
whenever a pass of the loop starts. -/
def RemoveDuplicateEdges (Collides : List FEdgeInfo → FEdgeInfo → Bool)
    (EdgeSet : List FEdgeInfo) : List FEdgeInfo :=
  EdgeSet.foldl (fun Set CurrentEdge =>
    if !EdgeSetContains Collides Set CurrentEdge then Set
    else RemoveReverses Collides CurrentEdge Set Set) EdgeSet

/-- The float literals of the boundary tetrahedron (line 424-427), as the rationals
the nearest `float` denotes. -/
def Float4_1 : ℚ := 8598323 / 2097152

/-- The float `2.1f`. -/
def Float2_1 : ℚ := 4404019 / 2097152

/-- The float `1.1f`. -/
def Float1_1 : ℚ := 9227469 / 8388608

/-- The float `3.1f`. -/
def Float3_1 : ℚ := 6501171 / 2097152

/-- The boundary tetrahedron of `DelaunayTetrahedralization` (lines 420-428). -/
def BoundaryTetrahedronOf (E : Engine) (GridSize : FIntVector) : FTetrahedron :=
  let GridWidth : ℚ := if GridSize.X > GridSize.Y then (GridSize.X : ℚ) else (GridSize.Y : ℚ)
  { A := ⟨E.FMul GridWidth (1 / 2), E.FMul GridWidth (1 / 2), E.FMul (GridSize.Z : ℚ) Float4_1⟩
    B := ⟨E.FMul GridWidth (-(5 / 4)), E.FMul GridWidth (-Float2_1),
      E.FMul (GridSize.Z : ℚ) (-Float1_1)⟩
    C := ⟨E.FMul GridWidth 4, E.FMul GridWidth (1 / 2), E.FMul (GridSize.Z : ℚ) (-Float1_1)⟩
    D := ⟨E.FMul GridWidth (-(5 / 4)), E.FMul GridWidth Float3_1,
      E.FMul (GridSize.Z : ℚ) (-Float1_1)⟩ }

/-- The array `TetrahedraToEdgeArray` of `DelaunayTetrahedralization` (lines 431-460):
with `bRemoveBoundaryTetrahedron` the tetrahedra that share no vertex with the
boundary tetrahedron, otherwise all of them.  The function reads it for two
warnings only. -/
def TetrahedraToEdgeArray (BoundaryTetrahedron : FTetrahedron)
    (TetrahedraArray : List FTetrahedron) (bRemoveBoundaryTetrahedron : Bool) :
    List FTetrahedron :=
  if bRemoveBoundaryTetrahedron then
    TetrahedraArray.foldl (fun EvaluatedTetrahedraArray CurrentTetrahedron =>
      if (TSetIntersect BoundaryTetrahedron.Vertices CurrentTetrahedron.Vertices).isEmpty &&
          !IsTetrahedronAlreadyInArray EvaluatedTetrahedraArray CurrentTetrahedron then
        EvaluatedTetrahedraArray ++ [CurrentTetrahedron]
      else EvaluatedTetrahedraArray) []
  else TetrahedraArray

/-- The tetrahedra of `DelaunayTetrahedralization` after its call of
`BowyerWatson3D` (line 432). -/
def FinalTetrahedra (E : Engine) (GridSize : FIntVector) (PointArray : List FIntVector) :
    List FTetrahedron :=
  BowyerWatson3D [BoundaryTetrahedronOf E GridSize] (PointArray.map FIntVector.toFVector)

/-- The set `BoundaryTetrahedronVertices` (line 472). -/
def BoundaryIntVertices (BoundaryTetrahedron : FTetrahedron) : List FIntVector :=
  TSetAdd (TSetAdd (TSetAdd (TSetAdd [] BoundaryTetrahedron.A.toFIntVector)
    BoundaryTetrahedron.B.toFIntVector) BoundaryTetrahedron.C.toFIntVector)
    BoundaryTetrahedron.D.toFIntVector

/-- `UDelaunayTriangulationLibrary::DelaunayTetrahedralization`.  The two checks
that only log a warning (lines 462-470) are left out; the flag
`bRemoveBoundaryTetrahedron` is read for `TetrahedraToEdgeArray` only, which those
checks alone use. -/
def DelaunayTetrahedralization (E : Engine) (Collides : List FEdgeInfo → FEdgeInfo → Bool)
    (GridSize : FIntVector) (PointArray : List FIntVector)
    (_bRemoveBoundaryTetrahedron : Bool) : List FEdgeInfo :=
  if GridSize = ⟨0, 0, 0⟩ then []
  else
    let BoundaryTetrahedron := BoundaryTetrahedronOf E GridSize
    let TetrahedraArray := FinalTetrahedra E GridSize PointArray
    let EdgeSet := CollectEdges E Collides TetrahedraArray
    let WithoutBoundary :=
      RemoveBoundaryEdges Collides (BoundaryIntVertices BoundaryTetrahedron) EdgeSet
    RemoveDuplicateEdges Collides WithoutBoundary

end LevelGen

namespace LevelGen

/-! ## Notions for the returned edge list -/

/-- No two entries of the list have the same origin and the same destination. -/
def NoTwice (s : List FEdgeInfo) : Prop := s.Pairwise (fun a b => ¬ SameDirection a b)

/-- The coordinates of the entries of an edge list. -/
def EdgeEnds (L : List FEdgeInfo) : List (FIntVector × FIntVector) :=
  L.map (fun e => (e.Origin, e.Destination))

/-- Two input points on a grid of 4 by 4 by 2. -/
def TwoPoints : List FIntVector := [⟨1, 1, 0⟩, ⟨2, 1, 0⟩]

/-- The property the removal of duplicate edges establishes for an edge `c` it has
visited: when the set holds the direction of `c`, every stored reverse of `c` has
the direction of `c` itself. -/
def ReversesGone (c : FEdgeInfo) (s : List FEdgeInfo) : Prop :=
  (∃ a ∈ s, SameDirection a c) → ∀ b ∈ s, OppositeDirection b c → SameDirection c b

/-- The second of the tetrahedra that `BowyerWatson3D` leaves for `TwoPoints` on the
grid of 4 by 4 by 2: its vertices `B` and `D` are vertices of the boundary
tetrahedron, its vertices `C` and `A` are the two input points. -/
def SharedTetrahedron : FTetrahedron :=
  { A := ⟨2, 1, 0⟩
    B := ⟨-5, -(4404019 / 524288), -(9227469 / 4194304)⟩
    C := ⟨1, 1, 0⟩
    D := ⟨2, 2, 8598323 / 1048576⟩ }

end LevelGen

namespace LevelGen

/-! ## Notions for the in-sphere test -/

/-- The square of the distance between two points. -/
def FVector.DistSquared (a b : FVector) : ℚ :=
  (a.X - b.X) ^ 2 + (a.Y - b.Y) ^ 2 + (a.Z - b.Z) ^ 2

/-- The matrix `InSphere` fills (lines 1123-1132): one row `(X, Y, Z, X² + Y² + Z², 1)`
for each of `A`, `B`, `C`, `D`, `P`. -/
def InSphereMatrix (A B C D P : FVector) : Nat → Nat → ℚ := fun i j =>
  match [A, B, C, D, P][i]? with
  | none => 0
  | some v =>
    if j = 0 then v.X else if j = 1 then v.Y else if j = 2 then v.Z
    else if j = 3 then v.X * v.X + v.Y * v.Y + v.Z * v.Z
    else if j = 4 then 1 else 0

/-- The value `InSphere` converts to `int`: `GetDeterminant(Matrix, 5)`. -/
def InSphereDeterminant (A B C D P : FVector) : ℚ :=
  GetDeterminant (InSphereMatrix A B C D P) 5

/-- The matrix with one row `(X, Y, Z, 1)` for each of four points. -/
def OrientationMatrix (A B C D : FVector) : Nat → Nat → ℚ := fun i j =>
  match [A, B, C, D][i]? with
  | none => 0
  | some v =>
    if j = 0 then v.X else if j = 1 then v.Y else if j = 2 then v.Z
    else if j = 3 then 1 else 0

/-- The orientation of four points: the determinant of their rows `(X, Y, Z, 1)`.
It changes sign when two of the points are exchanged and is zero exactly when the
four points lie in one plane. -/
def Orientation (A B C D : FVector) : ℚ := GetDeterminant (OrientationMatrix A B C D) 4

/-- All three coordinates are integers. -/
def FVector.IsIntegral (v : FVector) : Prop := v.X.den = 1 ∧ v.Y.den = 1 ∧ v.Z.den = 1

instance (v : FVector) : Decidable v.IsIntegral := by
  unfold FVector.IsIntegral; infer_instance

/-- The sphere with centre `O` and squared radius `R2` passes through the four
points. -/
def IsCircumsphere (A B C D O : FVector) (R2 : ℚ) : Prop :=
  A.DistSquared O = R2 ∧ B.DistSquared O = R2 ∧ C.DistSquared O = R2 ∧ D.DistSquared O = R2

instance (A B C D O : FVector) (R2 : ℚ) : Decidable (IsCircumsphere A B C D O R2) := by
  unfold IsCircumsphere; infer_instance

end LevelGen

namespace LevelGen

/-! ## The intersection checks of the tetrahedralisation
(`DelaunayTriangulationLibrary.cpp`, lines 1286-1429) -/

/-- The geometric functions the intersection checks call and the sources do not
hold: two functions of the engine and `tri_tri_overlap_test_3d`, which
`GuidueDevillersLibrary.h` declares. -/
structure GeomTools where
  /-- `UGuidueDevillersLibrary::tri_tri_overlap_test_3d`. -/
  tri_tri_overlap_test_3d : FVector → FVector → FVector → FVector → FVector → FVector → Int
  /-- `FMath::SegmentTriangleIntersection`: the returned flag. -/
  SegmentTriangleIntersection : FVector → FVector → FVector → FVector → FVector → Bool
  /-- `FMath::PointsAreCoplanar` with its default tolerance. -/
  PointsAreCoplanar : List FVector → Bool

/-- `TSet::Intersect` with the order of `Array()`: the elements of the smaller set
(of `this` when both have the same number) that the other set contains. -/
def TSetIntersectArray {α : Type} [DecidableEq α] (s other : List α) : List α :=
  if s.length > other.length then other.filter (fun x => decide (x ∈ s))
  else s.filter (fun x => decide (x ∈ other))

/-- `UDelaunayTriangulationLibrary::GetVertexByIndex`. -/
def GetVertexByIndex (Tetrahedron : FTetrahedron) (Index : Int) : FVector :=
  if Index = 0 then Tetrahedron.A
  else if Index = 1 then Tetrahedron.B
  else if Index = 2 then Tetrahedron.C
  else if Index = 3 then Tetrahedron.D
  else ⟨0, 0, 0⟩

/-- `UDelaunayTriangulationLibrary::GetTetrahedronFaces`: the faces for the index
triples of `FaceIndices`. -/
def GetTetrahedronFaces (Tetrahedron : FTetrahedron) : List FTriangle :=
  [(0, 1, 2), (0, 2, 3), (0, 3, 1), (1, 3, 2)].map (fun (Indices : Int × Int × Int) =>
    { A := GetVertexByIndex Tetrahedron Indices.1
      B := GetVertexByIndex Tetrahedron Indices.2.1
      C := GetVertexByIndex Tetrahedron Indices.2.2 })

/-- `UDelaunayTriangulationLibrary::TriTriIntersect3D`; `none` is a read past the end
of `UniqueAVertices` or `UniqueBVertices`. -/
def TriTriIntersect3D (G : GeomTools) (TriangleA TriangleB : FTriangle) : Option Bool :=
  let TriangleAVertices := TriangleA.Vertices
  let TriangleBVertices := TriangleB.Vertices
  if TSetIncludes TriangleAVertices TriangleBVertices then some false
  else
    let SharedVertices := TSetIntersectArray TriangleAVertices TriangleBVertices
    if SharedVertices.isEmpty &&
        decide (G.tri_tri_overlap_test_3d TriangleA.A TriangleA.B TriangleA.C
          TriangleB.A TriangleB.B TriangleB.C ≠ 0) then some true
    else if SharedVertices.length = 1 then
      let UniqueAVertices := TSetDifference TriangleAVertices SharedVertices
      match UniqueAVertices[0]?, UniqueAVertices[1]? with
      | some SegmentStart, some SegmentEnd =>
        if G.SegmentTriangleIntersection SegmentStart SegmentEnd
            TriangleB.A TriangleB.B TriangleB.C then some true
        else
          let UniqueBVertices := TSetDifference TriangleBVertices SharedVertices
          match UniqueBVertices[0]?, UniqueBVertices[1]? with
          | some SegmentStartB, some SegmentEndB =>
            if G.SegmentTriangleIntersection SegmentStartB SegmentEndB
                TriangleB.A TriangleB.B TriangleB.C then some true
            else some false
          | _, _ => none
      | _, _ => none
    else if SharedVertices.length = 2 then
      let Points := SharedVertices ++ TSetDifference TriangleAVertices SharedVertices
        ++ TSetDifference TriangleBVertices SharedVertices
      if G.PointsAreCoplanar Points then some true else some false
    else some false

/-- `UDelaunayTriangulationLibrary::DoTetrahedraIntersect`: both lists of faces are
taken from `TetrahedronA` (lines 1316-1317); the first pair of faces that intersects
ends the loops. -/
def DoTetrahedraIntersect (G : GeomTools) (TetrahedronA _TetrahedronB : FTetrahedron) :
    Option Bool :=
  let TetrahedronAFaces := GetTetrahedronFaces TetrahedronA
  let TetrahedronBFaces := GetTetrahedronFaces TetrahedronA
  (TetrahedronAFaces.flatMap (fun CurrentTriangleFromA =>
    TetrahedronBFaces.map (fun CurrentTriangleFromB =>
      (CurrentTriangleFromA, CurrentTriangleFromB)))).foldl
    (fun (Result : Option Bool) Pair =>
      match Result with
      | some false => TriTriIntersect3D G Pair.1 Pair.2
      | Other => Other) (some false)

/-- The componentwise difference of two points. -/
def FVector.sub (a b : FVector) : FVector := ⟨a.X - b.X, a.Y - b.Y, a.Z - b.Z⟩

/-- The cross product. -/
def FVector.cross (a b : FVector) : FVector :=
  ⟨a.Y * b.Z - a.Z * b.Y, a.Z * b.X - a.X * b.Z, a.X * b.Y - a.Y * b.X⟩

/-- The dot product. -/
def FVector.dot (a b : FVector) : ℚ := a.X * b.X + a.Y * b.Y + a.Z * b.Z

/-- `FMath::PointsAreCoplanar` in exact arithmetic with the default tolerance 0.1:
every point from the fourth on is at most 0.1 away from the plane through the first
three; the distance is compared by its square. -/
def ExactPointsAreCoplanar (Points : List FVector) : Bool :=
  match Points with
  | P0 :: P1 :: P2 :: Rest =>
    let Normal := (P2.sub P0).cross (P1.sub P0)
    Rest.all (fun V =>
      decide (((V.sub P0).dot Normal) ^ 2 ≤ (1 / 100 : ℚ) * Normal.dot Normal))
  | _ => true

/-- Exact geometry for the scenario below, which reaches `PointsAreCoplanar` only; the
two other functions report an intersection. -/
def ScenarioGeomTools : GeomTools :=
  { tri_tri_overlap_test_3d := fun _ _ _ _ _ _ => 1
    SegmentTriangleIntersection := fun _ _ _ _ _ => true
    PointsAreCoplanar := ExactPointsAreCoplanar }

/-- A tetrahedron with the corners (0,0,0), (4,0,0), (0,4,0), (0,0,4). -/
def CornerTetrahedron : FTetrahedron := ⟨⟨0, 0, 0⟩, ⟨4, 0, 0⟩, ⟨0, 4, 0⟩, ⟨0, 0, 4⟩⟩

/-- The tetrahedron `CornerTetrahedron` shifted by (1,1,1); its corner (1,1,1) lies
inside `CornerTetrahedron`. -/
def ShiftedTetrahedron : FTetrahedron := ⟨⟨1, 1, 1⟩, ⟨5, 1, 1⟩, ⟨1, 5, 1⟩, ⟨1, 1, 5⟩⟩

end LevelGen

namespace LevelGen

/-! ## Notions for the corridor kinds -/

/-- The horizontal directions that the keys of `AdjacentAccessPoints` hold, in the
order North, East, South, West. -/
def InUseDirections (CorridorTileData : FCorridorTileData) : List EDirections :=
  [EDirections.North, EDirections.East, EDirections.South, EDirections.West].filter
    (fun d => TMapContains CorridorTileData.AdjacentAccessPoints d)

/-- The openings of a corridor kind at yaw 0: four-way NESW, three-way NES, corner
NE, straight two-way NS, one-way N, zero-way none. -/
def CanonicalOpenings : ECorridorType → List EDirections
  | .FourWay => [EDirections.North, EDirections.East, EDirections.South, EDirections.West]
  | .ThreeWay => [EDirections.North, EDirections.East, EDirections.South]
  | .Corner => [EDirections.North, EDirections.East]
  | .TwoWay => [EDirections.North, EDirections.South]
  | .OneWay => [EDirections.North]
  | _ => []

/-- The corridor kind for a set of horizontal directions, listed in the order
North, East, South, West: by their number, and for two of them by whether they are
opposite or adjacent. -/
def KindOfOpenings (S : List EDirections) : ECorridorType :=
  if S.length = 4 then ECorridorType.FourWay
  else if S.length = 3 then ECorridorType.ThreeWay
  else if S.length = 2 then
    if S = [EDirections.North, EDirections.South] ∨ S = [EDirections.East, EDirections.West]
    then ECorridorType.TwoWay
    else ECorridorType.Corner
  else if S.length = 1 then ECorridorType.OneWay
  else ECorridorType.ZeroWay

end LevelGen

namespace LevelGen

/-! ## Plain nodes of the search -/

/-- The keys of the entries of a map whose node is plain, that is of type `None`. -/
def PlainKeys (Map : List (FIntVector × FAdvancedPathNode)) : List FIntVector :=
  (Map.filter (fun Entry => decide (Entry.2.SpecialPathType = ESpecialPathType.None))).map
    Prod.fst

/-- The coordinates of the plain nodes of the records of a search: per record those
of `OPEN` and those of `CLOSED`. -/
def StatePlainKeys
    (States : List (List (FIntVector × FAdvancedPathNode) ×
      List (FIntVector × FAdvancedPathNode))) : List (List FIntVector × List FIntVector) :=
  States.map (fun State => (PlainKeys State.1, PlainKeys State.2))

/-- A cell a plain node may stand on: no inaccessible node and no tile of a special
structure in `LevelPathData`. -/
def GoodPlainCell (C : SearchContext) (c : FIntVector) : Prop :=
  TSetContains C.InaccessibleNodes c = false ∧ IsSpecialPathAt C.GeneratedLevelData c = false

/-- The entry, if its node is plain, stands on a cell for plain nodes. -/
def PlainOK (C : SearchContext) (Entry : FIntVector × FAdvancedPathNode) : Prop :=
  Entry.2.SpecialPathType = ESpecialPathType.None → GoodPlainCell C Entry.1

/-- The entries of the previous path of a node, and of the previous paths of the
nodes stored in it, down to the given depth, satisfy `PlainOK`. -/
def PlainDeep (C : SearchContext) : Nat → FAdvancedPathNode → Prop
  | 0, _ => True
  | d + 1, Node => ∀ e ∈ Node.PreviousPath, PlainOK C e ∧ PlainDeep C d e.2

/-- The invariant of the search for an entry of `OPEN` or `CLOSED`. -/
def PlainEntryOK (C : SearchContext) (Entry : FIntVector × FAdvancedPathNode) : Prop :=
  PlainOK C Entry ∧ ∀ d, PlainDeep C d Entry.2

/-- A template without cells whose exit is the cell ahead of its origin. -/
def StepInfo : FSpecialPathInfo :=
  { PathVolume := [], ExitVector := ⟨1, 0, 0⟩, NodeWeight := 0 }

/-- The settings of `PlainSettings` with the type `None` enabled as a special
structure with the template `StepInfo`. -/
def NoneEnabledSettings (GridSize : FIntVector) : FLevelGenerationSettings :=
  { PlainSettings GridSize with
    AllowedSpecialPathTypes := [(ESpecialPathType.None, true)]
    SpecialPathData := some [(ESpecialPathType.None, StepInfo)] }

/-- A tile of an existing plain corridor at the given coordinate, with the node the
search stored for it. -/
def ExistingCorridor (Coordinate : FIntVector) : FCorridorTileData :=
  { FCorridorTileData.Default with
    TileType := ETileType.Corridor
    ParentPathNode :=
      { FAdvancedPathNode.Default with
        ParentNode := Coordinate
        SpecialPathOriginVector := Coordinate } }

/-- A level with a room at (2,0,0) and an existing plain corridor at (1,0,0). -/
def RoomBehindCorridor : FGeneratedLevelData :=
  { LevelOf [(⟨2, 0, 0⟩, SingleCellRoom HorizontalDirections)] with
    LevelPathData := [(⟨1, 0, 0⟩, ExistingCorridor ⟨1, 0, 0⟩)] }

end LevelGen

namespace LevelGen

/-! ## Quad-edge meshes

The quarter edges of `DelaunayTriangulationLibrary` live on the heap and point to one
another.  The heap is embedded as the list of all quarter edges allocated so far, in
the order of allocation; a pointer is the position of its target in this list.
`MakeQuadEdge` sets every pointer of the four objects it allocates before it
returns, and nothing is ever freed, so no null pointer and no dangling pointer is
read; a read at a position that holds nothing gives the zeroed object. -/

/-- The struct `FQuarterEdge`. -/
structure FQuarterEdge where
  Data : FVector
  Next : Nat
  Rot : Nat
deriving DecidableEq, Repr

/-- The object a pointer points to. -/
def QuarterEdgeAt (Heap : List FQuarterEdge) (Edge : Nat) : FQuarterEdge :=
  Heap.getD Edge ⟨⟨0, 0, 0⟩, 0, 0⟩

/-- The read `Edge->Next`. -/
def NextOf (Heap : List FQuarterEdge) (Edge : Nat) : Nat := (QuarterEdgeAt Heap Edge).Next

/-- The read `Edge->Rot`. -/
def RotOf (Heap : List FQuarterEdge) (Edge : Nat) : Nat := (QuarterEdgeAt Heap Edge).Rot

/-- The read `Edge->Data`. -/
def DataOf (Heap : List FQuarterEdge) (Edge : Nat) : FVector := (QuarterEdgeAt Heap Edge).Data

/-- The write `Edge->Next = Value`. -/
def SetNext (Heap : List FQuarterEdge) (Edge Value : Nat) : List FQuarterEdge :=
  Heap.set Edge { QuarterEdgeAt Heap Edge with Next := Value }

/-- The write `Edge->Data = Value`. -/
def SetData (Heap : List FQuarterEdge) (Edge : Nat) (Value : FVector) : List FQuarterEdge :=
  Heap.set Edge { QuarterEdgeAt Heap Edge with Data := Value }

/-- `UDelaunayTriangulationLibrary::Rotate`. -/
def Rotate (Heap : List FQuarterEdge) (Edge : Nat) : Nat := RotOf Heap Edge

/-- `UDelaunayTriangulationLibrary::SymmetricEdge`: `Edge->Rot->Rot`. -/
def SymmetricEdge (Heap : List FQuarterEdge) (Edge : Nat) : Nat := RotOf Heap (RotOf Heap Edge)

/-- `UDelaunayTriangulationLibrary::ReverseRotate`: `Edge->Rot->Rot->Rot`. -/
def ReverseRotate (Heap : List FQuarterEdge) (Edge : Nat) : Nat :=
  RotOf Heap (RotOf Heap (RotOf Heap Edge))

/-- `UDelaunayTriangulationLibrary::Previous`: `Edge->Rot->Next->Rot`. -/
def Previous (Heap : List FQuarterEdge) (Edge : Nat) : Nat :=
  RotOf Heap (NextOf Heap (RotOf Heap Edge))

/-- `UDelaunayTriangulationLibrary::LNext`: `ReverseRotate(Edge)->Next->Rot`. -/
def LNext (Heap : List FQuarterEdge) (Edge : Nat) : Nat :=
  RotOf Heap (NextOf Heap (ReverseRotate Heap Edge))

/-- `UDelaunayTriangulationLibrary::RNext`: `SymmetricEdge(Edge)->Next`. -/
def RNext (Heap : List FQuarterEdge) (Edge : Nat) : Nat := NextOf Heap (SymmetricEdge Heap Edge)

/-- `UDelaunayTriangulationLibrary::Destination`: `SymmetricEdge(Edge)->Data`. -/
def Destination (Heap : List FQuarterEdge) (Edge : Nat) : FVector :=
  DataOf Heap (SymmetricEdge Heap Edge)

/-- `UDelaunayTriangulationLibrary::MakeQuadEdge`: the heap after the call and the
returned pointer `StartEnd`.  The four objects are allocated in the order
`StartEnd`, `LeftRight`, `EndStart`, `RightLeft`; `new FQuarterEdge()` zeroes the
`Data` of the two that get none assigned. -/
def MakeQuadEdge (Heap : List FQuarterEdge) (Start End : FVector) : List FQuarterEdge × Nat :=
  let StartEnd := Heap.length
  let LeftRight := Heap.length + 1
  let EndStart := Heap.length + 2
  let RightLeft := Heap.length + 3
  (Heap ++ [{ Data := Start, Next := StartEnd, Rot := LeftRight },
            { Data := ⟨0, 0, 0⟩, Next := RightLeft, Rot := EndStart },
            { Data := End, Next := EndStart, Rot := RightLeft },
            { Data := ⟨0, 0, 0⟩, Next := LeftRight, Rot := StartEnd }], StartEnd)

/-- `UDelaunayTriangulationLibrary::SwapNexts`. -/
def SwapNexts (Heap : List FQuarterEdge) (EdgeA EdgeB : Nat) : List FQuarterEdge :=
  let FirstEdgeNext := NextOf Heap EdgeA
  let Heap1 := SetNext Heap EdgeA (NextOf Heap EdgeB)
  SetNext Heap1 EdgeB FirstEdgeNext

/-- `UDelaunayTriangulationLibrary::Splice`. -/
def Splice (Heap : List FQuarterEdge) (EdgeA EdgeB : Nat) : List FQuarterEdge :=
  let Heap1 := SwapNexts Heap (RotOf Heap (NextOf Heap EdgeA)) (RotOf Heap (NextOf Heap EdgeB))
  SwapNexts Heap1 EdgeA EdgeB

/-- `UDelaunayTriangulationLibrary::MakeTriangle`: the heap after the call and the
returned pointer `ab`. -/
def MakeTriangle (Heap : List FQuarterEdge) (PointA PointB PointC : FVector) :
    List FQuarterEdge × Nat :=
  let (Heap1, ab) := MakeQuadEdge Heap PointA PointB
  let (Heap2, bc) := MakeQuadEdge Heap1 PointB PointC
  let (Heap3, ca) := MakeQuadEdge Heap2 PointC PointA
  let Heap4 := Splice Heap3 (SymmetricEdge Heap3 ab) bc
  let Heap5 := Splice Heap4 (SymmetricEdge Heap4 bc) ca
  let Heap6 := Splice Heap5 (SymmetricEdge Heap5 ca) ab
  (Heap6, ab)

/-- `UDelaunayTriangulationLibrary::Sever`. -/
def Sever (Heap : List FQuarterEdge) (Edge : Nat) : List FQuarterEdge :=
  let Heap1 := Splice Heap Edge (Previous Heap Edge)
  Splice Heap1 (SymmetricEdge Heap1 Edge) (Previous Heap1 (SymmetricEdge Heap1 Edge))

/-- `UDelaunayTriangulationLibrary::Flip`. -/
def Flip (Heap : List FQuarterEdge) (Edge : Nat) : List FQuarterEdge :=
  let EdgeA := Previous Heap Edge
  let EdgeB := Previous Heap (SymmetricEdge Heap Edge)
  let Heap1 := Splice Heap Edge EdgeA
  let Heap2 := Splice Heap1 (SymmetricEdge Heap1 Edge) EdgeB
  let Heap3 := Splice Heap2 Edge (LNext Heap2 EdgeA)
  let Heap4 := Splice Heap3 (SymmetricEdge Heap3 Edge) (LNext Heap3 EdgeB)
  let Heap5 := SetData Heap4 Edge (Destination Heap4 EdgeA)
  SetData Heap5 (SymmetricEdge Heap5 Edge) (Destination Heap5 EdgeB)

/-- A primal quarter edge of the heap: one of the objects `StartEnd` and `EndStart`
of a call of `MakeQuadEdge`, which are allocated at the even positions. -/
def IsPrimal (Heap : List FQuarterEdge) (Edge : Nat) : Prop :=
  Edge < Heap.length ∧ Edge % 2 = 0

instance (Heap : List FQuarterEdge) (Edge : Nat) : Decidable (IsPrimal Heap Edge) := by
  unfold IsPrimal; infer_instance

/-- The heaps built with `MakeQuadEdge` and with `Splice` on quarter edges of the
heap, from the heap that holds nothing. -/
inductive IsQuadEdgeMesh : List FQuarterEdge → Prop
  | empty : IsQuadEdgeMesh []
  | make (Heap : List FQuarterEdge) (Start End : FVector) :
      IsQuadEdgeMesh Heap → IsQuadEdgeMesh (MakeQuadEdge Heap Start End).1
  | splice (Heap : List FQuarterEdge) (EdgeA EdgeB : Nat) :
      IsQuadEdgeMesh Heap → EdgeA < Heap.length → EdgeB < Heap.length →
      IsQuadEdgeMesh (Splice Heap EdgeA EdgeB)

/-- The part of the edge algebra that every call of `Splice` keeps: `Rot` and `Next`
stay inside the heap, `Rot` returns after four steps, and `Rot`, `Next`, `Rot`,
`Next` in a row lead back to where they start. -/
def HasEdgeAlgebra (Heap : List FQuarterEdge) : Prop :=
  ∀ Edge, Edge < Heap.length →
    RotOf Heap Edge < Heap.length ∧ NextOf Heap Edge < Heap.length ∧
    RotOf Heap (RotOf Heap (RotOf Heap (RotOf Heap Edge))) = Edge ∧
    NextOf Heap (RotOf Heap (NextOf Heap (RotOf Heap Edge))) = Edge

instance (Heap : List FQuarterEdge) : Decidable (HasEdgeAlgebra Heap) := by
  unfold HasEdgeAlgebra; infer_instance

/-- The edge algebra of a quad-edge mesh: `Rot` and `Next` stay inside the heap, `Rot`
leads from primal to dual quarter edges and back and returns after four steps,
`Next` stays among the primal or among the dual ones, and `Rot`, `Next`, `Rot`,
`Next` in a row lead back to where they start. -/
def WellFormed (Heap : List FQuarterEdge) : Prop :=
  ∀ Edge, Edge < Heap.length →
    RotOf Heap Edge < Heap.length ∧ NextOf Heap Edge < Heap.length ∧
    RotOf Heap Edge % 2 = (Edge + 1) % 2 ∧ NextOf Heap Edge % 2 = Edge % 2 ∧
    RotOf Heap (RotOf Heap (RotOf Heap (RotOf Heap Edge))) = Edge ∧
    NextOf Heap (RotOf Heap (NextOf Heap (RotOf Heap Edge))) = Edge

instance (Heap : List FQuarterEdge) : Decidable (WellFormed Heap) := by
  unfold WellFormed; infer_instance

/-- The quarter edges around the face left of an edge whose faces are triangles: the
edge and its two successors by `LNext`, then its symmetric edge and the two
successors of that. -/
def FaceEdges (Heap : List FQuarterEdge) (Edge : Nat) : List Nat :=
  [Edge, LNext Heap Edge, LNext Heap (LNext Heap Edge),
   SymmetricEdge Heap Edge, LNext Heap (SymmetricEdge Heap Edge),
   LNext Heap (LNext Heap (SymmetricEdge Heap Edge))]

/-- The two faces next to an edge are triangles: three steps of `LNext` lead around
each of them, and the six quarter edges on the way are all different. -/
def FacesAreTriangles (Heap : List FQuarterEdge) (Edge : Nat) : Prop :=
  LNext Heap (LNext Heap (LNext Heap Edge)) = Edge ∧
  LNext Heap (LNext Heap (LNext Heap (SymmetricEdge Heap Edge))) = SymmetricEdge Heap Edge ∧
  (FaceEdges Heap Edge).Nodup

instance (Heap : List FQuarterEdge) (Edge : Nat) : Decidable (FacesAreTriangles Heap Edge) := by
  unfold FacesAreTriangles; infer_instance

/-- The primal quarter edges around a vertex carry the same `Data`, the vertex. -/
def VerticesAgree (Heap : List FQuarterEdge) : Prop :=
  ∀ Edge, Edge < Heap.length → Edge % 2 = 0 →
    DataOf Heap (NextOf Heap Edge) = DataOf Heap Edge

instance (Heap : List FQuarterEdge) : Decidable (VerticesAgree Heap) := by
  unfold VerticesAgree; infer_instance

/-- The triangle with the corners (0,0,0), (4,0,0) and (0,4,0), made on the heap that
holds nothing. -/
def SingleTriangle : List FQuarterEdge :=
  (MakeTriangle [] ⟨0, 0, 0⟩ ⟨4, 0, 0⟩ ⟨0, 4, 0⟩).1

/-- The triangles with the corners (0,0,0), (4,0,0), (0,4,0) and (4,0,0), (0,0,0),
(4,-4,0) on the two sides of the edge from (0,0,0) to (4,0,0), which is the quarter
edge at position 0: the triangle of `MakeTriangle` and two more edges, spliced in
around the corners (4,0,0), (4,-4,0) and (0,0,0). -/
def TwoTriangles : List FQuarterEdge :=
  let (Heap1, ab) := MakeTriangle [] ⟨0, 0, 0⟩ ⟨4, 0, 0⟩ ⟨0, 4, 0⟩
  let (Heap2, bd) := MakeQuadEdge Heap1 ⟨4, 0, 0⟩ ⟨4, -4, 0⟩
  let (Heap3, da) := MakeQuadEdge Heap2 ⟨4, -4, 0⟩ ⟨0, 0, 0⟩
  let Heap4 := Splice Heap3 bd (SymmetricEdge Heap3 ab)
  let Heap5 := Splice Heap4 (SymmetricEdge Heap4 bd) da
  Splice Heap5 (SymmetricEdge Heap5 da) (Previous Heap5 ab)

end LevelGen

namespace LevelGen

/-! ## The triangulation of Guibas and Stolfi
(`DelaunayTriangulationLibrary.cpp`, lines 11-396 and 594-1093)

Coordinates are rationals.  The code computes with `float` and `double`; on the
grid points and the corners of the boundary triangle, which are integers and
halves of integers, its sums, differences and products are exact as long as the
values stay small.  What it takes from the engine and from
`GuidueDevillersLibrary.cpp`, which the sources do not hold, is a parameter. -/

/-- The engine struct `FPlane`, a row of an `FMatrix`. -/
structure FPlane where
  X : ℚ
  Y : ℚ
  Z : ℚ
  W : ℚ

/-- The functions of the plane `GuibasStolfi` calls and the sources do not hold. -/
structure PlaneTools where
  /-- `FGeomTools::VectorsOnSameSide(Vec, A, B, 0.f)`. -/
  VectorsOnSameSide : FVector → FVector → FVector → Bool
  /-- `FMath::SegmentIntersection2D`: the returned flag. -/
  SegmentIntersection2D : FVector → FVector → FVector → FVector → Bool
  /-- `FMatrix::Determinant` of the matrix with the four rows. -/
  Determinant : FPlane → FPlane → FPlane → FPlane → ℚ
  /-- `UGuidueDevillersLibrary::tri_tri_overlap_test_2d`, on the first two
  coordinates of its six arguments. -/
  tri_tri_overlap_test_2d : FVector → FVector → FVector → FVector → FVector → FVector → Int
  /-- Whether two vectors, after `Normalize()`, are equal up to the tolerance of
  `IsPointOnEdge`: `EdgeDirection.Equals(PointDirection, 0.000000000000001f)`. -/
  DirectionsEqual : FVector → FVector → Bool
  /-- Whether the length of the first vector is the sum of the lengths of the other
  two up to the tolerance of `IsPointOnEdge`:
  `FMath::IsNearlyEqual(EdgeLength, PointLengthA + PointLengthB, .000001f)`. -/
  LengthsAddUp : FVector → FVector → FVector → Bool

/-- `UDelaunayTriangulationLibrary::IsLocallyDelaunay`. -/
def IsLocallyDelaunay (G : PlaneTools) (Heap : List FQuarterEdge) (InTriangle : Nat)
    (Point : FVector) : Bool :=
  let AB := SymmetricEdge Heap InTriangle
  let BC := LNext Heap AB
  let CA := LNext Heap BC
  let PointA := DataOf Heap BC
  let PointB := DataOf Heap AB
  let PointC := DataOf Heap CA
  let Determinant := G.Determinant
    ⟨PointA.X, PointB.X, PointC.X, Point.X⟩
    ⟨PointA.Y, PointB.Y, PointC.Y, Point.Y⟩
    ⟨PointA.X * PointA.X + PointA.Y * PointA.Y, PointB.X * PointB.X + PointB.Y * PointB.Y,
      PointC.X * PointC.X + PointC.Y * PointC.Y, Point.X * Point.X + Point.Y * Point.Y⟩
    ⟨1, 1, 1, 1⟩
  decide (Determinant ≤ 0)

/-- `UDelaunayTriangulationLibrary::IsPointInTriangle`: `none` is the null pointer. -/
def IsPointInTriangle (G : PlaneTools) (Heap : List FQuarterEdge) (Point : FVector)
    (InTriangle : Nat) : Option Nat :=
  let PointA := DataOf Heap InTriangle
  let PointB := DataOf Heap (LNext Heap InTriangle)
  let PointC := DataOf Heap (LNext Heap (LNext Heap InTriangle))
  if G.VectorsOnSameSide (PointB.sub PointA) (Point.sub PointA) (PointC.sub PointA) then
    if G.VectorsOnSameSide (PointC.sub PointB) (Point.sub PointB) (PointA.sub PointB) then
      if G.VectorsOnSameSide (PointA.sub PointC) (Point.sub PointC) (PointB.sub PointC) then
        none
      else some (LNext Heap (LNext Heap InTriangle))
    else some (LNext Heap InTriangle)
  else some InTriangle

/-- `UDelaunayTriangulationLibrary::ContainsBoundaryPoint`. -/
def ContainsBoundaryPoint (Heap : List FQuarterEdge) (BoundaryTriangle Triangle : Nat) : Bool :=
  let First := DataOf Heap BoundaryTriangle
  let Second := DataOf Heap (NextOf Heap (SymmetricEdge Heap BoundaryTriangle))
  let Third := DataOf Heap
    (NextOf Heap (SymmetricEdge Heap (NextOf Heap (SymmetricEdge Heap BoundaryTriangle))))
  decide (DataOf Heap Triangle = First) || decide (DataOf Heap Triangle = Second) ||
    decide (DataOf Heap Triangle = Third) || decide (Destination Heap Triangle = First) ||
    decide (Destination Heap Triangle = Second) || decide (Destination Heap Triangle = Third)

/-- The loop of `IsPointConnectedToBoundary`; `none` when the fuel runs out. -/
def ConnectedLoop (Heap : List FQuarterEdge) (BoundaryPoints : List FVector)
    (StartingEdge : Nat) : Nat → Nat → Nat → Option Bool
  | 0, _, _ => none
  | Fuel + 1, CurrentEdge, PreviousEdge =>
    if CurrentEdge = StartingEdge ∧ PreviousEdge = NextOf Heap CurrentEdge then some false
    else if BoundaryPoints.contains (Destination Heap CurrentEdge) then some true
    else ConnectedLoop Heap BoundaryPoints StartingEdge Fuel (Previous Heap CurrentEdge)
      CurrentEdge

/-- `UDelaunayTriangulationLibrary::IsPointConnectedToBoundary`. -/
def IsPointConnectedToBoundary (Fuel : Nat) (Heap : List FQuarterEdge)
    (BoundaryTriangle InCurrentEdge : Nat) : Option Bool :=
  let BoundaryPoints := [DataOf Heap BoundaryTriangle, DataOf Heap (RNext Heap BoundaryTriangle),
    DataOf Heap (RNext Heap (RNext Heap BoundaryTriangle))]
  ConnectedLoop Heap BoundaryPoints InCurrentEdge Fuel InCurrentEdge InCurrentEdge

/-- `UDelaunayTriangulationLibrary::IsEdgeABoundaryEdge`. -/
def IsEdgeABoundaryEdge (Heap : List FQuarterEdge) (BoundaryTriangle InEdge : Nat) : Bool :=
  let BC := RNext Heap BoundaryTriangle
  let CA := RNext Heap (RNext Heap BoundaryTriangle)
  [BoundaryTriangle, BC, CA, SymmetricEdge Heap BoundaryTriangle, SymmetricEdge Heap BC,
    SymmetricEdge Heap CA].any (fun Edge =>
      decide (DataOf Heap InEdge = DataOf Heap Edge) &&
        decide (Destination Heap InEdge = Destination Heap Edge))

/-- `UDelaunayTriangulationLibrary::ContainsEdgeInTriangle`. -/
def ContainsEdgeInTriangle (Heap : List FQuarterEdge) (InTriangle InEdge : Nat) : Bool :=
  let BC := RNext Heap InTriangle
  let CA := RNext Heap (RNext Heap InTriangle)
  [InTriangle, SymmetricEdge Heap InTriangle, BC, SymmetricEdge Heap BC, CA,
    SymmetricEdge Heap CA].contains InEdge

/-- The first element of `TriangleBPoints` that is neither of two points, for
`DifferentPointB`.  When there is none the code reads the vector as it was
declared, without a value; the zero vector stands for it. -/
def FirstOther (Points : List FVector) (P Q : FVector) : FVector :=
  (Points.find? (fun DifferentPoint => decide (DifferentPoint ≠ P) && decide (DifferentPoint ≠ Q))).getD
    ⟨0, 0, 0⟩

/-- The last part of `DoTrianglesIntersect` for two triangles that share one point
(lines 999-1040): the segment tests of the edge of each triangle that lies across
the shared point. -/
def SharedPointTest (G : PlaneTools) (A0 A1 A2 B0 B1 B2 : FVector)
    (TriangleAEdge TriangleBEdge : List FVector) : Bool :=
  let FirstTest : Bool :=
    match TriangleAEdge with
    | E0 :: E1 :: _ =>
      G.SegmentIntersection2D E0 E1 B0 B1 || G.SegmentIntersection2D E0 E1 B1 B2 ||
        G.SegmentIntersection2D E0 E1 B2 B0
    | _ => false
  if FirstTest then true
  else
    match TriangleBEdge with
    | E0 :: E1 :: _ =>
      G.SegmentIntersection2D E0 E1 A0 A1 || G.SegmentIntersection2D E0 E1 A1 A2 ||
        G.SegmentIntersection2D E0 E1 A2 A0
    | _ =>
      -- neither branch of the second chain returns; the function ends with
      -- `return TestResult > 0.f`, which holds here
      true

/-- `UDelaunayTriangulationLibrary::DoTrianglesIntersect`. -/
def DoTrianglesIntersect (G : PlaneTools) (Heap : List FQuarterEdge) (TriangleA : Nat)
    (TriangleB : FTriangle) : Bool :=
  let A0 := DataOf Heap TriangleA
  let A1 := DataOf Heap (RNext Heap TriangleA)
  let A2 := DataOf Heap (RNext Heap (RNext Heap TriangleA))
  let B0 := TriangleB.A
  let B1 := TriangleB.B
  let B2 := TriangleB.C
  let TriangleBPoints := [B0, B1, B2]
  let In0 := TriangleBPoints.contains A0
  let In1 := TriangleBPoints.contains A1
  let In2 := TriangleBPoints.contains A2
  if In0 && In1 && In2 then false
  else
    let DeterminantA := G.Determinant ⟨B0.X, B1.X, B2.X, A0.X⟩ ⟨B0.Y, B1.Y, B2.Y, A0.Y⟩
      ⟨B0.Z, B1.Z, B2.Z, A0.Z⟩ ⟨1, 1, 1, 1⟩
    let DeterminantB := G.Determinant ⟨B0.X, B1.X, B2.X, A1.X⟩ ⟨B0.Y, B1.Y, B2.Y, A1.Y⟩
      ⟨B0.Z, B1.Z, B2.Z, A1.Z⟩ ⟨1, 1, 1, 1⟩
    let DeterminantC := G.Determinant ⟨B0.X, B1.X, B2.X, A2.X⟩ ⟨B0.Y, B1.Y, B2.Y, A2.Y⟩
      ⟨B0.Z, B1.Z, B2.Z, A2.Z⟩ ⟨1, 1, 1, 1⟩
    if DeterminantA = DeterminantB ∧ DeterminantB = DeterminantC ∧ DeterminantA ≠ 0 then false
    else
      let TestResult : Int :=
        if DeterminantA = DeterminantB ∧ DeterminantB = DeterminantC ∧ DeterminantA = 0 then
          G.tri_tri_overlap_test_2d A0 A1 A2 B0 B1 B2
        else 0
      if TestResult > 0 then
        -- the three blocks `A & B`, `B & C`, `C & A` exclude one another
        if In0 && In1 && !In2 then
          G.VectorsOnSameSide (A1.sub A0) (A2.sub A0) ((FirstOther TriangleBPoints A0 A1).sub A0)
        else if !In0 && In1 && In2 then
          G.VectorsOnSameSide (A2.sub A1) (A0.sub A1) ((FirstOther TriangleBPoints A1 A2).sub A1)
        else if In0 && !In1 && In2 then
          G.VectorsOnSameSide (A2.sub A0) (A1.sub A0) ((FirstOther TriangleBPoints A0 A2).sub A0)
        else if In0 && !In1 && !In2 then
          SharedPointTest G A0 A1 A2 B0 B1 B2 [A1, A2]
            (TriangleBPoints.filter (fun DifferentPoint => decide (DifferentPoint ≠ A0)))
        else if !In0 && In1 && !In2 then
          SharedPointTest G A0 A1 A2 B0 B1 B2 [A0, A2]
            (TriangleBPoints.filter (fun DifferentPoint => decide (DifferentPoint ≠ A1)))
        else if !In0 && !In1 && In2 then
          SharedPointTest G A0 A1 A2 B0 B1 B2 [A0, A1]
            (TriangleBPoints.filter (fun DifferentPoint => decide (DifferentPoint ≠ A2)))
        else true
      else false

/-- `UDelaunayTriangulationLibrary::IsTriangleInsideOut`. -/
def IsTriangleInsideOut (G : PlaneTools) (Heap : List FQuarterEdge)
    (TriangleArray : List FTriangle) (InTriangle : Nat) : Bool :=
  TriangleArray.any (fun CurrentTriangle => DoTrianglesIntersect G Heap InTriangle CurrentTriangle)

/-- `UDelaunayTriangulationLibrary::IsPointOnEdge`. -/
def IsPointOnEdge (G : PlaneTools) (Heap : List FQuarterEdge) (Point : FVector) (Edge : Nat) :
    Bool :=
  let EdgeDirection := (Destination Heap Edge).sub (DataOf Heap Edge)
  let PointDirection := (Destination Heap Edge).sub Point
  if G.DirectionsEqual EdgeDirection PointDirection then
    G.LengthsAddUp ((Destination Heap Edge).sub (DataOf Heap Edge))
      ((Destination Heap Edge).sub Point) (Point.sub (DataOf Heap Edge))
  else false

/-- The two loops of `FlipEdgeOrFlipBack` that count the edges around a point: the
counter when the walk along `Next` is back at its start; `none` when the fuel runs
out. -/
def CountEdgesAround (Heap : List FQuarterEdge) (StartingEdge : Nat) : Nat → Nat → Nat → Option Nat
  | 0, _, _ => none
  | Fuel + 1, CurrentEdge, EdgeCounter =>
    let NextEdge := NextOf Heap CurrentEdge
    if NextEdge ≠ StartingEdge then CountEdgesAround Heap StartingEdge Fuel NextEdge (EdgeCounter + 1)
    else some EdgeCounter

/-- `UDelaunayTriangulationLibrary::FlipEdgeOrFlipBack`: the heap after the call,
in which `CurrentTriangle` is flipped, and the returned flag. -/
def FlipEdgeOrFlipBack (G : PlaneTools) (Fuel : Nat) (Heap : List FQuarterEdge)
    (BoundaryTriangle : Nat) (TriangulationArray : List Nat)
    (TriangleVertexArray : List FTriangle) (CurrentEdge CurrentTriangle : Nat) :
    Option (List FQuarterEdge × Bool) :=
  let TestBStartingEdge := NextOf Heap (SymmetricEdge Heap CurrentEdge)
  let Heap1 := Flip Heap CurrentTriangle
  match CountEdgesAround Heap1 CurrentEdge Fuel CurrentEdge 1 with
  | none => none
  | some EdgeCounterA =>
    if EdgeCounterA ≤ 2 then some (Heap1, true)
    else
      match CountEdgesAround Heap1 TestBStartingEdge Fuel TestBStartingEdge 1 with
      | none => none
      | some EdgeCounterB =>
        if EdgeCounterB ≤ 2 then some (Heap1, true)
        else if TriangulationArray.any (fun CurrentEdgeInArray =>
            if CurrentEdgeInArray = CurrentTriangle then false
            else if SymmetricEdge Heap1 CurrentEdgeInArray = CurrentTriangle then false
            else
              (decide (DataOf Heap1 CurrentEdgeInArray = DataOf Heap1 CurrentTriangle) &&
                decide (Destination Heap1 CurrentEdgeInArray =
                  Destination Heap1 CurrentTriangle)) ||
              (decide (DataOf Heap1 CurrentEdgeInArray = Destination Heap1 CurrentTriangle) &&
                decide (Destination Heap1 CurrentEdgeInArray = DataOf Heap1 CurrentTriangle)))
        then some (Heap1, true)
        else if IsTriangleInsideOut G Heap1 TriangleVertexArray CurrentTriangle then
          some (Heap1, true)
        else
          match IsPointConnectedToBoundary Fuel Heap1 BoundaryTriangle CurrentEdge with
          | none => none
          | some bConnected => some (Heap1, !bConnected)

/-- The loop that fills `TriangleVertexArray` (lines 169-206 and 247-284). -/
def CollectTriangleVertices (Heap : List FQuarterEdge) (TriangulationArray : List Nat)
    (BoundaryTriangle CurrentTriangle : Nat) : List FTriangle :=
  TriangulationArray.foldl (fun (TriangleVertexArray : List FTriangle) CurrentEdgeInArray =>
    if CurrentEdgeInArray = BoundaryTriangle then TriangleVertexArray
    else if ContainsEdgeInTriangle Heap CurrentEdgeInArray CurrentTriangle then
      TriangleVertexArray
    else
      let TriangleVertices : FTriangle :=
        { A := DataOf Heap CurrentEdgeInArray
          B := DataOf Heap (RNext Heap CurrentEdgeInArray)
          C := DataOf Heap (RNext Heap (RNext Heap CurrentEdgeInArray)) }
      let bAlreadyInVertexArray := TriangleVertexArray.any (fun CurrentVertices =>
        let CurrentVertexArray := [CurrentVertices.A, CurrentVertices.B, CurrentVertices.C]
        CurrentVertexArray.contains TriangleVertices.A &&
          CurrentVertexArray.contains TriangleVertices.B &&
          CurrentVertexArray.contains TriangleVertices.C)
      if bAlreadyInVertexArray then TriangleVertexArray
      else TriangleVertexArray ++ [TriangleVertices]) []

/-- The three calls of `Flip` that flip an edge back. -/
def FlipBack (Heap : List FQuarterEdge) (CurrentTriangle : Nat) : List FQuarterEdge :=
  Flip (Flip (Flip Heap CurrentTriangle) CurrentTriangle) CurrentTriangle

/-- The inner loop of the loop over the edges around a new point (lines 237-301):
the heap, `CurrentTriangle` and `bNewCurrentTriangleContainsBoundaryPoint` when it
ends; `none` when the fuel runs out. -/
def BoundaryFlipLoop (G : PlaneTools) (Fuel : Nat) (BoundaryTriangle : Nat)
    (TriangulationArray : List Nat) (CurrentEdge : Nat) :
    Nat → List FQuarterEdge → Option (List FQuarterEdge × Nat × Bool)
  | 0, _ => none
  | Rounds + 1, Heap =>
    let CurrentTriangle := RNext Heap CurrentEdge
    if ContainsBoundaryPoint Heap BoundaryTriangle CurrentTriangle then
      if !IsEdgeABoundaryEdge Heap BoundaryTriangle CurrentTriangle then
        let TriangleVertexArray :=
          CollectTriangleVertices Heap TriangulationArray BoundaryTriangle CurrentTriangle
        match FlipEdgeOrFlipBack G Fuel Heap BoundaryTriangle TriangulationArray
            TriangleVertexArray CurrentEdge CurrentTriangle with
        | none => none
        | some (Heap1, bFlipBack) =>
          if bFlipBack then some (FlipBack Heap1 CurrentTriangle, CurrentTriangle, true)
          else BoundaryFlipLoop G Fuel BoundaryTriangle TriangulationArray CurrentEdge Rounds
            Heap1
      else some (Heap, CurrentTriangle, true)
    else some (Heap, CurrentTriangle, false)

/-- The loop over the edges around a new point (lines 163-344): the heap when it
ends; `none` when the fuel runs out. -/
def FlipLoop (G : PlaneTools) (Fuel : Nat) (BoundaryTriangle : Nat)
    (TriangulationArray : List Nat) (AddedPointsArray : List FVector) (StartingEdge : Nat) :
    Nat → List FQuarterEdge → Nat → Nat → Int → Option (List FQuarterEdge)
  | 0, _, _, _, _ => none
  | Rounds + 1, Heap, CurrentEdge, PreviousEdge, GoForwardCount =>
    if CurrentEdge = StartingEdge ∧ PreviousEdge = NextOf Heap CurrentEdge ∧ GoForwardCount > 1
    then some Heap
    else
      let CurrentTriangle := RNext Heap CurrentEdge
      let TriangleVertexArray :=
        CollectTriangleVertices Heap TriangulationArray BoundaryTriangle CurrentTriangle
      let GoForward (Heap1 : List FQuarterEdge) : Option (List FQuarterEdge) :=
        FlipLoop G Fuel BoundaryTriangle TriangulationArray AddedPointsArray StartingEdge Rounds
          Heap1 (Previous Heap1 CurrentEdge) CurrentEdge (GoForwardCount + 1)
      let CheckDelaunay (Heap1 : List FQuarterEdge) (CurrentTriangle1 : Nat) :
          Option (List FQuarterEdge) :=
        if AddedPointsArray.all (fun CurrentAddedPoint =>
            IsLocallyDelaunay G Heap1 CurrentTriangle1 CurrentAddedPoint) then
          GoForward Heap1
        else
          let Heap2 := Flip Heap1 CurrentTriangle1
          FlipLoop G Fuel BoundaryTriangle TriangulationArray AddedPointsArray StartingEdge
            Rounds Heap2 (NextOf Heap2 CurrentEdge) CurrentEdge (GoForwardCount - 1)
      if ContainsBoundaryPoint Heap BoundaryTriangle CurrentTriangle then
        let Flipped : Option (List FQuarterEdge) :=
          if !IsEdgeABoundaryEdge Heap BoundaryTriangle CurrentTriangle then
            match FlipEdgeOrFlipBack G Fuel Heap BoundaryTriangle TriangulationArray
                TriangleVertexArray CurrentEdge CurrentTriangle with
            | none => none
            | some (Heap1, bFlipBack) =>
              some (if bFlipBack then FlipBack Heap1 CurrentTriangle else Heap1)
          else some Heap
        match Flipped with
        | none => none
        | some Heap1 =>
          if CurrentTriangle = RNext Heap1 CurrentEdge then GoForward Heap1
          else
            match BoundaryFlipLoop G Fuel BoundaryTriangle TriangulationArray CurrentEdge Fuel
                Heap1 with
            | none => none
            | some (Heap2, CurrentTriangle2, bNewCurrentTriangleContainsBoundaryPoint) =>
              if bNewCurrentTriangleContainsBoundaryPoint then GoForward Heap2
              else CheckDelaunay Heap2 CurrentTriangle2
      else CheckDelaunay Heap CurrentTriangle

/-- The loop that finds the triangle containing the point (lines 39-55); `none`
when the fuel runs out. -/
def LocateLoop (G : PlaneTools) (Heap : List FQuarterEdge) (CurrentPoint : FVector) :
    Nat → Nat → Option Nat
  | 0, _ => none
  | Fuel + 1, TriangleToCheckAB =>
    match IsPointInTriangle G Heap CurrentPoint TriangleToCheckAB with
    | none => some TriangleToCheckAB
    | some ClockwiseEdge => LocateLoop G Heap CurrentPoint Fuel (Previous Heap ClockwiseEdge)

/-- `TArray::Remove`: every element equal to the item goes. -/
def TArrayRemove {α : Type} [DecidableEq α] (Array : List α) (Item : α) : List α :=
  Array.filter (fun Element => decide (Element ≠ Item))

/-- The body of the loop over the points of `GuibasStolfi` (lines 28-345): the
heap, `TriangulationArray` and `AddedPointsArray` after one point; `none` when the
fuel runs out or `TriangulationArray` is empty. -/
def InsertTriangulationPoint (G : PlaneTools) (Fuel : Nat) (BoundaryTriangle : Nat)
    (State : List FQuarterEdge × List Nat × List FVector) (ForPoint : FIntVector) :
    Option (List FQuarterEdge × List Nat × List FVector) :=
  let Heap := State.1
  let TriangulationArray := State.2.1
  let CurrentPoint := ForPoint.toFVector
  let AddedPointsArray := State.2.2 ++ [CurrentPoint]
  match TriangulationArray.getLast? with
  | none => none
  | some Last =>
    match LocateLoop G Heap CurrentPoint Fuel Last with
    | none => none
    | some TriangleContainingPoint =>
      let TriangleContainingPointBC := LNext Heap TriangleContainingPoint
      let TriangleContainingPointCA := LNext Heap TriangleContainingPointBC
      let IntersectedEdge : Option Nat :=
        if IsPointOnEdge G Heap CurrentPoint TriangleContainingPoint then
          some TriangleContainingPoint
        else if IsPointOnEdge G Heap CurrentPoint TriangleContainingPointBC then
          some TriangleContainingPointBC
        else if IsPointOnEdge G Heap CurrentPoint TriangleContainingPointCA then
          some TriangleContainingPointCA
        else none
      let Split : List FQuarterEdge × List Nat × Nat :=
        match IntersectedEdge with
        | some Intersected =>
          let BC := RNext Heap Intersected
          let CA := RNext Heap BC
          let BD := LNext Heap Intersected
          let DA := LNext Heap BD
          let Heap1 := Sever Heap Intersected
          let Array1 := TArrayRemove (TArrayRemove TriangulationArray Intersected)
            (SymmetricEdge Heap1 Intersected)
          let (Heap2, AP) := MakeQuadEdge Heap1 (Destination Heap1 CA) CurrentPoint
          let (Heap3, CP) := MakeQuadEdge Heap2 (Destination Heap2 BC) CurrentPoint
          let (Heap4, BP) := MakeQuadEdge Heap3 (DataOf Heap3 BD) CurrentPoint
          let (Heap5, DP) := MakeQuadEdge Heap4 (DataOf Heap4 DA) CurrentPoint
          let Heap6 := Splice Heap5 AP (LNext Heap5 DA)
          let Heap7 := Splice Heap6 (SymmetricEdge Heap6 AP) (SymmetricEdge Heap6 DP)
          let Heap8 := Splice Heap7 CP (LNext Heap7 (SymmetricEdge Heap7 CA))
          let Heap9 := Splice Heap8 (SymmetricEdge Heap8 CP) (SymmetricEdge Heap8 AP)
          let Heap10 := Splice Heap9 BP (LNext Heap9 (SymmetricEdge Heap9 BC))
          let Heap11 := Splice Heap10 (SymmetricEdge Heap10 BP) (SymmetricEdge Heap10 CP)
          let Heap12 := Splice Heap11 DP (LNext Heap11 BD)
          let Heap13 := Splice Heap12 (SymmetricEdge Heap12 DP) (SymmetricEdge Heap12 CP)
          let Heap14 := Splice Heap13 (SymmetricEdge Heap13 CP) (SymmetricEdge Heap13 DP)
          (Heap14, Array1 ++ [SymmetricEdge Heap14 AP, SymmetricEdge Heap14 BP,
            SymmetricEdge Heap14 CP, SymmetricEdge Heap14 DP], AP)
        | none =>
          let (Heap1, AP) := MakeQuadEdge Heap (Destination Heap TriangleContainingPointCA)
            CurrentPoint
          let (Heap2, BP) := MakeQuadEdge Heap1 (Destination Heap1 TriangleContainingPoint)
            CurrentPoint
          let (Heap3, CP) := MakeQuadEdge Heap2 (Destination Heap2 TriangleContainingPointBC)
            CurrentPoint
          let Heap4 := Splice Heap3 AP (LNext Heap3 TriangleContainingPointCA)
          let Heap5 := Splice Heap4 (SymmetricEdge Heap4 AP) (SymmetricEdge Heap4 CP)
          let Heap6 := Splice Heap5 BP (LNext Heap5 TriangleContainingPoint)
          let Heap7 := Splice Heap6 (SymmetricEdge Heap6 BP) (SymmetricEdge Heap6 AP)
          let Heap8 := Splice Heap7 CP (LNext Heap7 TriangleContainingPointBC)
          let Heap9 := Splice Heap8 (SymmetricEdge Heap8 CP) (SymmetricEdge Heap8 BP)
          let Heap10 := Splice Heap9 (SymmetricEdge Heap9 BP) (SymmetricEdge Heap9 CP)
          (Heap10, TriangulationArray ++ [SymmetricEdge Heap10 AP, SymmetricEdge Heap10 BP,
            SymmetricEdge Heap10 CP], AP)
      let StartingEdge := SymmetricEdge Split.1 Split.2.2
      match FlipLoop G Fuel BoundaryTriangle Split.2.1 AddedPointsArray StartingEdge Fuel Split.1
          StartingEdge StartingEdge 0 with
      | none => none
      | some Heap1 => some (Heap1, Split.2.1, AddedPointsArray)

/-- The loop that fills `OutTriangulationArray` when the boundary triangle is
removed (lines 353-379), for one entry of `TriangulationArray`: the heap, the
output and `EvaluatedEdgeArray` after it. -/
def OutputTriangle (BoundaryTriangle : Nat)
    (State : List FQuarterEdge × List FQuarterEdge × List Nat) (CurrentTriangle : Nat) :
    List FQuarterEdge × List FQuarterEdge × List Nat :=
  let TriangeEdgeArray := [CurrentTriangle, RNext State.1 CurrentTriangle,
    RNext State.1 (RNext State.1 CurrentTriangle)]
  TriangeEdgeArray.foldl (fun (Acc : List FQuarterEdge × List FQuarterEdge × List Nat)
      CurrentEdge =>
    if ContainsBoundaryPoint Acc.1 BoundaryTriangle CurrentEdge then
      (Sever Acc.1 CurrentTriangle, Acc.2.1, Acc.2.2 ++ [CurrentEdge])
    else if !Acc.2.2.contains CurrentEdge &&
        !Acc.2.2.contains (SymmetricEdge Acc.1 CurrentEdge) then
      (Acc.1, Acc.2.1 ++ [QuarterEdgeAt Acc.1 CurrentEdge], Acc.2.2 ++ [CurrentEdge])
    else Acc) State

/-- `UDelaunayTriangulationLibrary::GuibasStolfi`: the returned array, and the heap
its pointers `Next` and `Rot` point into; `none` when a loop runs out of fuel. -/
def GuibasStolfi (G : PlaneTools) (Fuel : Nat) (GridSize : FIntVector)
    (PointArray : List FIntVector) (bRemoveBoundaryTriangle : Bool) :
    Option (List FQuarterEdge × List FQuarterEdge) :=
  if GridSize = ⟨0, 0, 0⟩ then some ([], [])
  else
    let BoundaryVertexLeft : FVector := ⟨-(1 / 2) * (GridSize.X : ℚ), -(GridSize.Y : ℚ), 0⟩
    let BoundaryVertexRight : FVector := ⟨-(1 / 2) * (GridSize.X : ℚ), 2 * (GridSize.Y : ℚ), 0⟩
    let BoundaryVertexTop : FVector :=
      ⟨(5 / 2) * (GridSize.X : ℚ), (1 / 2) * (GridSize.Y : ℚ), 0⟩
    let (Heap0, BoundaryTriangle) :=
      MakeTriangle [] BoundaryVertexLeft BoundaryVertexRight BoundaryVertexTop
    match PointArray.foldl (fun (Acc : Option (List FQuarterEdge × List Nat × List FVector))
        ForPoint =>
        match Acc with
        | none => none
        | some State => InsertTriangulationPoint G Fuel BoundaryTriangle State ForPoint)
        (some (Heap0, [BoundaryTriangle], [])) with
    | none => none
    | some (Heap, TriangulationArray, _) =>
      if bRemoveBoundaryTriangle then
        let Result := (TriangulationArray.drop 1).foldl (OutputTriangle BoundaryTriangle)
          (Heap, [], [])
        some (Result.2.1, Result.1)
      else
        let Result := TriangulationArray.foldl
          (fun (Acc : List FQuarterEdge × List Nat) CurrentTriangle =>
            if !Acc.2.contains CurrentTriangle &&
                !Acc.2.contains (SymmetricEdge Heap CurrentTriangle) then
              (Acc.1 ++ [QuarterEdgeAt Heap CurrentTriangle], Acc.2 ++ [CurrentTriangle])
            else Acc) ([], [])
        some (Result.1, Heap)

/-- The two ends of a returned quarter edge: its `Data`, and the `Data` of its
symmetric edge, which `Destination` reads over the pointer `Rot`. -/
def QuarterEdgeEnds (Heap : List FQuarterEdge) (Edge : FQuarterEdge) : FVector × FVector :=
  (Edge.Data, DataOf Heap (RotOf Heap Edge.Rot))

/-- The ends of the quarter edges `GuibasStolfi` returns. -/
def TriangulationEdges (G : PlaneTools) (Fuel : Nat) (GridSize : FIntVector)
    (PointArray : List FIntVector) (bRemoveBoundaryTriangle : Bool) :
    Option (List (FVector × FVector)) :=
  (GuibasStolfi G Fuel GridSize PointArray bRemoveBoundaryTriangle).map
    (fun Result => Result.1.map (QuarterEdgeEnds Result.2))

/-- The sign of the area of the triangle of three points of the plane: positive
when they turn anti-clockwise. -/
def Orient2D (A B C : FVector) : ℚ := (A.X - C.X) * (B.Y - C.Y) - (A.Y - C.Y) * (B.X - C.X)

/-- Whether two closed segments of the plane meet. -/
def SegmentsMeet (A B C D : FVector) : Bool :=
  let OnSegment (P Q R : FVector) : Bool :=
    decide (min P.X Q.X ≤ R.X) && decide (R.X ≤ max P.X Q.X) &&
      decide (min P.Y Q.Y ≤ R.Y) && decide (R.Y ≤ max P.Y Q.Y)
  let O1 := Orient2D A B C
  let O2 := Orient2D A B D
  let O3 := Orient2D C D A
  let O4 := Orient2D C D B
  (decide (SignType.sign O1 ≠ SignType.sign O2) && decide (SignType.sign O3 ≠ SignType.sign O4)) ||
    (decide (O1 = 0) && OnSegment A B C) || (decide (O2 = 0) && OnSegment A B D) ||
    (decide (O3 = 0) && OnSegment C D A) || (decide (O4 = 0) && OnSegment C D B)

/-- Whether a point lies in a closed triangle of the plane. -/
def InClosedTriangle (P A B C : FVector) : Bool :=
  (decide (0 ≤ Orient2D A B P) && decide (0 ≤ Orient2D B C P) && decide (0 ≤ Orient2D C A P)) ||
    (decide (Orient2D A B P ≤ 0) && decide (Orient2D B C P ≤ 0) && decide (Orient2D C A P ≤ 0))

/-- Modelled from the spec: `tri_tri_overlap_test_2d`, whose body is in
`GuidueDevillersLibrary.cpp`; the header says that it returns 1 if the triangles
(including their boundary) intersect, otherwise 0.  Two closed triangles meet when
two of their sides meet or a corner of one lies in the other. -/
def ExactTriTriOverlap2D (P1 Q1 R1 P2 Q2 R2 : FVector) : Int :=
  if ([(P1, Q1), (Q1, R1), (R1, P1)].any (fun SideA =>
        [(P2, Q2), (Q2, R2), (R2, P2)].any (fun SideB =>
          SegmentsMeet SideA.1 SideA.2 SideB.1 SideB.2))) ||
      InClosedTriangle P1 P2 Q2 R2 || InClosedTriangle P2 P1 Q1 R1 then 1
  else 0

/-- The determinant of the matrix with the four rows, by the formula of
`FMatrix::Determinant`. -/
def ExactDeterminant (M0 M1 M2 M3 : FPlane) : ℚ :=
  M0.X * (M1.Y * (M2.Z * M3.W - M2.W * M3.Z) - M2.Y * (M1.Z * M3.W - M1.W * M3.Z) +
      M3.Y * (M1.Z * M2.W - M1.W * M2.Z)) -
    M1.X * (M0.Y * (M2.Z * M3.W - M2.W * M3.Z) - M2.Y * (M0.Z * M3.W - M0.W * M3.Z) +
      M3.Y * (M0.Z * M2.W - M0.W * M2.Z)) +
    M2.X * (M0.Y * (M1.Z * M3.W - M1.W * M3.Z) - M1.Y * (M0.Z * M3.W - M0.W * M3.Z) +
      M3.Y * (M0.Z * M1.W - M0.W * M1.Z)) -
    M3.X * (M0.Y * (M1.Z * M2.W - M1.W * M2.Z) - M1.Y * (M0.Z * M2.W - M0.W * M2.Z) +
      M2.Y * (M0.Z * M1.W - M0.W * M1.Z))

/-- The functions of the plane in exact arithmetic.  `VectorsOnSameSide` is the sign
test of the engine and `SegmentIntersection2D` its two quotients, which parallel
segments do not have; two directions are equal when the vectors are parallel and
point the same way, and the lengths add up when the point lies between the ends.
Where the outcome of the code hangs on rounding or on the sign of a zero, which is
for the products of `VectorsOnSameSide` that are zero and for the vectors of
`IsPointOnEdge` that are parallel, the flag `bTies` is the answer. -/
def ExactPlaneTools (bTies : Bool) : PlaneTools :=
  { VectorsOnSameSide := fun Vec A B =>
      if (Vec.cross A).dot (Vec.cross B) = 0 then bTies
      else decide (0 < (Vec.cross A).dot (Vec.cross B))
    SegmentIntersection2D := fun StartA EndA StartB EndB =>
      let VectorA := EndA.sub StartA
      let VectorB := EndB.sub StartB
      let DenominatorS := VectorA.Y * VectorB.X - VectorA.X * VectorB.Y
      let DenominatorT := VectorB.Y * VectorA.X - VectorB.X * VectorA.Y
      if DenominatorS = 0 ∨ DenominatorT = 0 then false
      else
        let S := (VectorA.X * (StartB.Y - StartA.Y) - VectorA.Y * (StartB.X - StartA.X)) /
          DenominatorS
        let T := (VectorB.X * (StartA.Y - StartB.Y) - VectorB.Y * (StartA.X - StartB.X)) /
          DenominatorT
        decide (0 ≤ S) && decide (S ≤ 1) && decide (0 ≤ T) && decide (T ≤ 1)
    Determinant := ExactDeterminant
    tri_tri_overlap_test_2d := ExactTriTriOverlap2D
    DirectionsEqual := fun A B =>
      decide (A.cross B = ⟨0, 0, 0⟩) && decide (0 < A.dot B) && bTies
    LengthsAddUp := fun Edge A _ => decide (A.dot A ≤ Edge.dot Edge) }

/-- Whether the point `P` lies strictly inside the circle through `A`, `B` and `C`,
which are not on one line. -/
def StrictlyInCircumcircle (A B C P : FVector) : Prop :=
  0 < ((A.X - P.X) ^ 2 + (A.Y - P.Y) ^ 2) *
        ((B.X - P.X) * (C.Y - P.Y) - (C.X - P.X) * (B.Y - P.Y)) * Orient2D A B C -
      ((B.X - P.X) ^ 2 + (B.Y - P.Y) ^ 2) *
        ((A.X - P.X) * (C.Y - P.Y) - (C.X - P.X) * (A.Y - P.Y)) * Orient2D A B C +
      ((C.X - P.X) ^ 2 + (C.Y - P.Y) ^ 2) *
        ((A.X - P.X) * (B.Y - P.Y) - (B.X - P.X) * (A.Y - P.Y)) * Orient2D A B C

instance (A B C P : FVector) : Decidable (StrictlyInCircumcircle A B C P) := by
  unfold StrictlyInCircumcircle; infer_instance

/-- Whether a list of edges joins two points, in either direction. -/
def JoinsPoints (Edges : List (FVector × FVector)) (A B : FVector) : Bool :=
  Edges.contains (A, B) || Edges.contains (B, A)

/-- Six points of a grid of 10 by 10, no three of them on a line. -/
def SixGridPoints : List FIntVector :=
  [⟨8, 8, 0⟩, ⟨0, 2, 0⟩, ⟨7, 4, 0⟩, ⟨1, 3, 0⟩, ⟨2, 3, 0⟩, ⟨2, 8, 0⟩]

end LevelGen

namespace LevelGen

/-! ## The walk along the parents of a returned path -/

end LevelGen

namespace LevelGen

/-! ## The level stream across `GenerateCorridors3D` -/

/-- The engine of `ScenarioEngine` with a stream whose draws alternate between 1/4
and 3/4, the seed counting the draws. -/
def AlternatingEngine (Edges : List FEdgeInfo) : Engine :=
  { ScenarioEngine Edges with
    RandFloat := fun Seed => (if Seed % 2 = 0 then 1 / 4 else 3 / 4, Seed + 1) }

/-- A corridor table of two rows of equal chance, with the maps 1 and 2. -/
def TwoRowTable : DataTable FCorridorLevelData :=
  some [{ RandomSelectionChance := 1 / 2, CorridorMap := some 1, CorridorSubMaps := [],
          CorridorActorSlotMaps := [], CorridorAccessPoints := [], MinimapMesh := none },
        { RandomSelectionChance := 1 / 2, CorridorMap := some 2, CorridorSubMaps := [],
          CorridorActorSlotMaps := [], CorridorAccessPoints := [], MinimapMesh := none }]

/-- The settings of `PlainSettings` with a chance of 1/2 for every discarded edge
and the table `TwoRowTable` for every kind of corridor. -/
def ContentSettings (GridSize : FIntVector) : FLevelGenerationSettings :=
  { PlainSettings GridSize with
    ExtraCorridorChance := 1 / 2
    CorridorLevelDataTableList :=
      [(ECorridorType.ZeroWay, TwoRowTable), (ECorridorType.OneWay, TwoRowTable),
       (ECorridorType.TwoWay, TwoRowTable), (ECorridorType.ThreeWay, TwoRowTable),
       (ECorridorType.FourWay, TwoRowTable), (ECorridorType.Corner, TwoRowTable)] }

/-- The corridor tiles of the level a run returned, each with the map that was
drawn for it, in the order of `LevelTileData`. -/
def CorridorContent (Run : Outcome FGeneratedLevelData) : Option (List (FIntVector × AssetRef)) :=
  Run.value.map (fun Data =>
    (Data.LevelTileData.filter (fun Entry => decide (Entry.2.TileType = ETileType.Corridor))).map
      (fun Entry => (Entry.1, Entry.2.TileMap)))

end LevelGen

namespace LevelGen

/-! ## Integers as floats -/

/-- The distance between neighbouring floats at an integer of the given absolute
value, for absolute values below 2^32: a float has 24 significant bits, so the
distance is 1 below 2^24 and doubles with every further power of two. -/
def Binary32Spacing (a : Nat) : Nat :=
  if a < 16777216 then 1
  else if a < 33554432 then 2
  else if a < 67108864 then 4
  else if a < 134217728 then 8
  else if a < 268435456 then 16
  else if a < 536870912 then 32
  else if a < 1073741824 then 64
  else if a < 2147483648 then 128
  else 256

/-- The multiple of `Spacing` nearest to `a`; of two that are equally near, the even
multiple. -/
def RoundToSpacing (a Spacing : Nat) : Nat :=
  let Low := a / Spacing
  let Rest := a % Spacing
  if 2 * Rest < Spacing then Low * Spacing
  else if 2 * Rest > Spacing then (Low + 1) * Spacing
  else if Low % 2 = 0 then Low * Spacing
  else (Low + 1) * Spacing

/-- Conversion of an `int32` to `float`: the nearest float, ties to the even
mantissa. -/
def Int32ToFloat (x : Int) : ℚ :=
  let Rounded : Nat := RoundToSpacing x.natAbs (Binary32Spacing x.natAbs)
  if x < 0 then -(Rounded : ℚ) else (Rounded : ℚ)

/-- The expression `InCoordinate.X * -1.f` as an argument of the constructor of
`FIntVector`: the `int32` becomes a float, the product with `-1.f` is exact, and the
float becomes an `int32` again. -/
def NegateAsFloat (x : Int) : Int := FloatToInt32 (Int32ToFloat x * -1)

/-- `ULevelGenerationLibrary::RotateIntVectorCoordinatefromOrigin` with the products
`* -1.f` taken as the source takes them, as floats. -/
def Binary32.RotateIntVectorCoordinatefromOrigin (InCoordinate : FIntVector)
    (TileRotation : FRotator) : FIntVector :=
  let TotalRotations : Int := TruncToInt (TileRotation.Yaw / 90)
  if TotalRotations = -1 then
    ⟨InCoordinate.Y, NegateAsFloat InCoordinate.X, InCoordinate.Z⟩
  else if TotalRotations = -2 then
    ⟨NegateAsFloat InCoordinate.X, NegateAsFloat InCoordinate.Y, InCoordinate.Z⟩
  else if TotalRotations = -3 then
    ⟨NegateAsFloat InCoordinate.Y, InCoordinate.X, InCoordinate.Z⟩
  else if TotalRotations = 1 then
    ⟨NegateAsFloat InCoordinate.Y, InCoordinate.X, InCoordinate.Z⟩
  else if TotalRotations = 2 then
    ⟨NegateAsFloat InCoordinate.X, NegateAsFloat InCoordinate.Y, InCoordinate.Z⟩
  else if TotalRotations = 3 then
    ⟨InCoordinate.Y, NegateAsFloat InCoordinate.X, InCoordinate.Z⟩
  else InCoordinate

/-- An `int32` that a float represents: the conversion to `float` keeps it. -/
def IsFloatInt32 (x : Int) : Prop :=
  (-2147483648 ≤ x ∧ x ≤ 2147483647) ∧ Int32ToFloat x = (x : ℚ)

instance (x : Int) : Decidable (IsFloatInt32 x) := by
  unfold IsFloatInt32; infer_instance

end LevelGen

namespace LevelGen

/-! ## A seeded run that reads the unassigned direction -/

/-- The engine of `ScenarioEngine` with the tetrahedralisation of
`DelaunayTetrahedralization` in exact arithmetic, and with the given direction in a
direction that was never assigned. -/
def EngineWithUnassigned (Direction : EDirections) : Engine :=
  { ScenarioEngine [] with
    Delaunay := fun GridSize PointArray bRemoveBoundaryTetrahedron =>
      DelaunayTetrahedralization (ScenarioEngine []) (fun _ _ => false) GridSize PointArray
        bRemoveBoundaryTetrahedron
    UnassignedDirection := Direction }

/-- The settings of `StairsSettings` with the player seed 42 in use. -/
def SeededStairsSettings (GridSize : FIntVector) : FLevelGenerationSettings :=
  { StairsSettings GridSize with bUsePlayerSeed := true, LevelUserSeed := 42 }

/-- Two rooms on a grid of 5 by 5 by 2, anchored at (0,0,1) on the upper level and
at (4,0,0) on the lower one, each with one access point at its anchor open to the
four horizontal directions. -/
def TwoStoreyScenario : FGeneratedLevelData :=
  LevelOf [(⟨0, 0, 1⟩, SingleCellRoom HorizontalDirections),
           (⟨4, 0, 0⟩, SingleCellRoom HorizontalDirections)]

/-- The seeded run of `GenerateLevel` on `TwoStoreyScenario` in which the given
direction is found in the unassigned local. -/
def TwoStoreyRun (Direction : EDirections) : Outcome FGeneratedLevelData :=
  GenerateLevel (EngineWithUnassigned Direction) 40 0 (SeededStairsSettings ⟨5, 5, 2⟩)
    TwoStoreyScenario

/-- The coordinate, type and yaw of every tile of the level a run returned, in the
order of `LevelTileData`. -/
def TileYaws (Run : Outcome FGeneratedLevelData) : Option (List (FIntVector × ETileType × ℚ)) :=
  (TilesAfter Run).map (List.map (fun Entry =>
    (Entry.1, Entry.2.TileType, Entry.2.TileRotation.Yaw)))

end LevelGen

namespace LevelGen

/-! ## Equivalences generated by edge lists -/

theorem linked_iff (T : List FEdgeInfo) (p q : FIntVector) :
    Linked T p q ↔ (LinkS T) p q := Iff.rfl

theorem pairS_rel (a b : FIntVector) : (PairS a b) a b :=
  Relation.EqvGen.rel _ _ ⟨rfl, rfl⟩

theorem pairS_le {a b : FIntVector} {Q : Setoid FIntVector} (h : Q a b) : PairS a b ≤ Q := by
  apply Setoid.eqvGen_le
  rintro x y ⟨rfl, rfl⟩
  exact h

theorem linkS_nil : LinkS [] = ⊥ := by
  apply le_antisymm _ bot_le
  apply Setoid.eqvGen_le
  rintro x y ⟨e, he, _⟩
  simp at he

theorem linkS_mono {A B : List FEdgeInfo} (h : ∀ e ∈ A, e ∈ B) : LinkS A ≤ LinkS B := by
  apply Setoid.eqvGen_mono
  rintro x y ⟨e, he, hj⟩
  exact ⟨e, h e he, hj⟩

theorem edge_linkS {T : List FEdgeInfo} {e : FEdgeInfo} (he : e ∈ T) :
    (LinkS T) e.Origin e.Destination :=
  Relation.EqvGen.rel _ _ ⟨e, he, Or.inl ⟨rfl, rfl⟩⟩

theorem linkS_le {T : List FEdgeInfo} {Q : Setoid FIntVector}
    (h : ∀ e ∈ T, Q e.Origin e.Destination) : LinkS T ≤ Q := by
  apply Setoid.eqvGen_le
  rintro x y ⟨e, he, hj⟩
  rcases hj with ⟨rfl, rfl⟩ | ⟨rfl, rfl⟩
  · exact h e he
  · exact Q.symm' (h e he)

theorem linkS_append (A B : List FEdgeInfo) : LinkS (A ++ B) = LinkS A ⊔ LinkS B := by
  apply le_antisymm
  · apply linkS_le
    intro e he
    rcases List.mem_append.1 he with h | h
    · exact (le_sup_left : LinkS A ≤ LinkS A ⊔ LinkS B) (edge_linkS h)
    · exact (le_sup_right : LinkS B ≤ LinkS A ⊔ LinkS B) (edge_linkS h)
  · exact sup_le (linkS_mono fun e he => List.mem_append.2 (Or.inl he))
      (linkS_mono fun e he => List.mem_append.2 (Or.inr he))

theorem linkS_singleton (e : FEdgeInfo) : LinkS [e] = PairS e.Origin e.Destination := by
  apply le_antisymm
  · apply linkS_le
    intro f hf
    rw [List.mem_singleton.1 hf]
    exact pairS_rel _ _
  · exact pairS_le (edge_linkS (List.mem_singleton.2 rfl))

theorem linkS_cons (e : FEdgeInfo) (T : List FEdgeInfo) :
    LinkS (e :: T) = PairS e.Origin e.Destination ⊔ LinkS T := by
  have h := linkS_append [e] T
  rw [linkS_singleton] at h
  simpa using h

theorem linkS_perm {A B : List FEdgeInfo} (h : A.Perm B) : LinkS A = LinkS B :=
  le_antisymm (linkS_mono fun _ he => h.subset he) (linkS_mono fun _ he => h.symm.subset he)

/-- Joining one pair to an equivalence, spelled out. -/
theorem sup_pairS_rel (Q : Setoid FIntVector) (a b x y : FIntVector) :
    (Q ⊔ PairS a b) x y ↔ Q x y ∨ (Q x a ∧ Q b y) ∨ (Q x b ∧ Q a y) := by
  constructor
  · intro h
    let R : Setoid FIntVector :=
      { r := fun x y => Q x y ∨ (Q x a ∧ Q b y) ∨ (Q x b ∧ Q a y)
        iseqv := by
          refine ⟨fun x => Or.inl (Q.refl' x), ?_, ?_⟩
          · rintro x y (h | ⟨h1, h2⟩ | ⟨h1, h2⟩)
            · exact Or.inl (Q.symm' h)
            · exact Or.inr (Or.inr ⟨Q.symm' h2, Q.symm' h1⟩)
            · exact Or.inr (Or.inl ⟨Q.symm' h2, Q.symm' h1⟩)
          · rintro x y z (h | ⟨h1, h2⟩ | ⟨h1, h2⟩) (k | ⟨k1, k2⟩ | ⟨k1, k2⟩)
            · exact Or.inl (Q.trans' h k)
            · exact Or.inr (Or.inl ⟨Q.trans' h k1, k2⟩)
            · exact Or.inr (Or.inr ⟨Q.trans' h k1, k2⟩)
            · exact Or.inr (Or.inl ⟨h1, Q.trans' h2 k⟩)
            · exact Or.inr (Or.inl ⟨h1, k2⟩)
            · exact Or.inl (Q.trans' h1 k2)
            · exact Or.inr (Or.inr ⟨h1, Q.trans' h2 k⟩)
            · exact Or.inl (Q.trans' h1 k2)
            · exact Or.inr (Or.inr ⟨h1, k2⟩) }
    have hle : Q ⊔ PairS a b ≤ R := by
      apply sup_le
      · intro x y hxy
        exact Or.inl hxy
      · apply pairS_le
        exact Or.inr (Or.inl ⟨Q.refl' a, Q.refl' b⟩)
    exact hle h
  · have hQ : Q ≤ Q ⊔ PairS a b := le_sup_left
    have hab : (Q ⊔ PairS a b) a b := (le_sup_right : PairS a b ≤ Q ⊔ PairS a b) (pairS_rel a b)
    rintro (h | ⟨h1, h2⟩ | ⟨h1, h2⟩)
    · exact hQ h
    · exact Setoid.trans' _ (hQ h1) (Setoid.trans' _ hab (hQ h2))
    · exact Setoid.trans' _ (hQ h1) (Setoid.trans' _ (Setoid.symm' _ hab) (hQ h2))

/-- An edge whose insertion connects `u` and `v` can be replaced by the pair
`(u, v)` itself. -/
theorem sup_pairS_swap {Q : Setoid FIntVector} {a b u v : FIntVector}
    (hn : ¬ Q u v) (h : (Q ⊔ PairS a b) u v) : Q ⊔ PairS a b = Q ⊔ PairS u v := by
  apply le_antisymm
  · apply sup_le le_sup_left
    apply pairS_le
    rw [sup_pairS_rel]
    rcases (sup_pairS_rel Q a b u v).1 h with h0 | ⟨h1, h2⟩ | ⟨h1, h2⟩
    · exact absurd h0 hn
    · exact Or.inr (Or.inl ⟨Q.symm' h1, Q.symm' h2⟩)
    · exact Or.inr (Or.inr ⟨h2, h1⟩)
  · exact sup_le le_sup_left (pairS_le h)

/-- The first edge of `T`, in list order, whose insertion connects `u` and `v`. -/
theorem first_connecting_edge (T : List FEdgeInfo) :
    ∀ (Q : Setoid FIntVector) (u v : FIntVector), ¬ Q u v → (Q ⊔ LinkS T) u v →
      ∃ A f B, T = A ++ f :: B ∧ ¬ (Q ⊔ LinkS A) u v ∧
        (Q ⊔ LinkS A ⊔ PairS f.Origin f.Destination) u v := by
  induction T with
  | nil =>
    intro Q u v hn h
    rw [linkS_nil, sup_bot_eq] at h
    exact absurd h hn
  | cons f T ih =>
    intro Q u v hn h
    by_cases hf : (Q ⊔ PairS f.Origin f.Destination) u v
    · refine ⟨[], f, T, rfl, ?_, ?_⟩
      · rwa [linkS_nil, sup_bot_eq]
      · rwa [linkS_nil, sup_bot_eq]
    · rw [linkS_cons, ← sup_assoc] at h
      obtain ⟨A, g, B, hT, h1, h2⟩ := ih _ u v hf h
      refine ⟨f :: A, g, B, by rw [hT]; rfl, ?_, ?_⟩
      · rwa [linkS_cons, ← sup_assoc]
      · rwa [linkS_cons, ← sup_assoc]

end LevelGen

namespace LevelGen

/-! ## Index lookup and the disjoint set -/

theorem tarrayFind_lt : ∀ (l : List FIntVector) (p : FIntVector) (i : Nat),
    TArrayFind l p = some i → i < l.length := by
  intro l
  induction l with
  | nil => intro p i h; simp [TArrayFind] at h
  | cons a l ih =>
    intro p i h
    unfold TArrayFind at h
    split_ifs at h with hap
    · cases h; simp
    · cases hr : TArrayFind l p with
      | none => rw [hr] at h; simp at h
      | some k =>
        rw [hr] at h
        simp at h
        have := ih p k hr
        subst h
        simp
        omega

theorem tarrayFind_getElem : ∀ (l : List FIntVector) (p : FIntVector) (i : Nat),
    TArrayFind l p = some i → l[i]? = some p := by
  intro l
  induction l with
  | nil => intro p i h; simp [TArrayFind] at h
  | cons a l ih =>
    intro p i h
    unfold TArrayFind at h
    split_ifs at h with hap
    · cases h; simp [hap]
    · cases hr : TArrayFind l p with
      | none => rw [hr] at h; simp at h
      | some k =>
        rw [hr] at h
        simp at h
        subst h
        simpa using ih p k hr

theorem tarrayFind_inj {l : List FIntVector} {p q : FIntVector} {i : Nat}
    (hp : TArrayFind l p = some i) (hq : TArrayFind l q = some i) : p = q := by
  have h1 := tarrayFind_getElem l p i hp
  have h2 := tarrayFind_getElem l q i hq
  rw [h1] at h2
  exact Option.some.inj h2

theorem tarrayFind_of_mem : ∀ (l : List FIntVector) (p : FIntVector),
    p ∈ l → ∃ i, TArrayFind l p = some i := by
  intro l
  induction l with
  | nil => intro p h; simp at h
  | cons a l ih =>
    intro p h
    unfold TArrayFind
    split_ifs with hap
    · exact ⟨0, rfl⟩
    · have hm : p ∈ l := by
        rcases List.mem_cons.1 h with h | h
        · exact absurd h.symm hap
        · exact h
      obtain ⟨i, hi⟩ := ih p hm
      exact ⟨i + 1, by rw [hi]; rfl⟩

theorem tarrayFind_mem {l : List FIntVector} {p : FIntVector} {i : Nat}
    (h : TArrayFind l p = some i) : p ∈ l := by
  have := tarrayFind_getElem l p i h
  exact List.getElem?_mem this

theorem tarrayFind_nodup : ∀ (l : List FIntVector), l.Nodup → ∀ (i : Nat) (p : FIntVector),
    l[i]? = some p → TArrayFind l p = some i := by
  intro l
  induction l with
  | nil => intro _ i p h; simp at h
  | cons a l ih =>
    intro hnd i p h
    rw [List.nodup_cons] at hnd
    unfold TArrayFind
    cases i with
    | zero =>
      simp at h
      simp [h]
    | succ k =>
      simp at h
      have hm : p ∈ l := List.getElem?_mem h
      have hne : ¬ a = p := by
        rintro rfl
        exact hnd.1 hm
      rw [if_neg hne, ih hnd.2 k p h]
      rfl

theorem find_eq_getElem (S : FDisjointSet) (i : Nat) (h : i < S.Parents.length) :
    S.Find i = S.Parents[i] := by
  unfold FDisjointSet.Find
  simp [List.getD_eq_getElem?_getD, List.getElem?_eq_getElem h]

theorem find_init (n i : Nat) : (FDisjointSet.Init n).Find i = i := by
  unfold FDisjointSet.Find FDisjointSet.Init
  by_cases h : i < n
  · simp [List.getD_eq_getElem?_getD, List.getElem?_range h]
  · simp [List.getD_eq_getElem?_getD, List.getElem?_eq_none (l := List.range n) (by simpa using h)]

theorem union_length (S : FDisjointSet) (x y : Nat) :
    (S.Union x y).Parents.length = S.Parents.length := by
  simp [FDisjointSet.Union]

theorem find_union (S : FDisjointSet) (x y i : Nat) (h : i < S.Parents.length) :
    (S.Union x y).Find i = if S.Find i = S.Find x then S.Find y else S.Find i := by
  rw [find_eq_getElem _ _ (by rw [union_length]; exact h), find_eq_getElem S i h]
  simp [FDisjointSet.Union]

theorem dsSetoid_rel_iff {PointArray : List FIntVector} {S : FDisjointSet}
    {p q : FIntVector} {i j : Nat} (hp : TArrayFind PointArray p = some i)
    (hq : TArrayFind PointArray q = some j) :
    (DsSetoid PointArray S) p q ↔ S.Find i = S.Find j := by
  show PointLabel PointArray S p = PointLabel PointArray S q ↔ _
  simp [PointLabel, hp, hq]

theorem dsSetoid_init (PointArray : List FIntVector) :
    DsSetoid PointArray (FDisjointSet.Init PointArray.length) = ⊥ := by
  apply le_antisymm _ bot_le
  intro p q h
  show p = q
  have h2 : PointLabel PointArray (FDisjointSet.Init PointArray.length) p =
      PointLabel PointArray (FDisjointSet.Init PointArray.length) q := h
  unfold PointLabel at h2
  cases hp : TArrayFind PointArray p with
  | none =>
    cases hq : TArrayFind PointArray q with
    | none => rw [hp, hq] at h2; simpa using h2
    | some j => rw [hp, hq] at h2; simp at h2
  | some i =>
    cases hq : TArrayFind PointArray q with
    | none => rw [hp, hq] at h2; simp at h2
    | some j =>
      rw [hp, hq] at h2
      simp [find_init] at h2
      subst h2
      exact tarrayFind_inj hp hq

theorem dsSetoid_union {PointArray : List FIntVector} {S : FDisjointSet}
    (hwf : S.Parents.length = PointArray.length) {p q : FIntVector} {o d : Nat}
    (hp : TArrayFind PointArray p = some o) (hq : TArrayFind PointArray q = some d) :
    DsSetoid PointArray (S.Union o d) = DsSetoid PointArray S ⊔ PairS p q := by
  apply Setoid.ext
  intro x y
  show (DsSetoid PointArray (S.Union o d)) x y ↔ (DsSetoid PointArray S ⊔ PairS p q) x y
  rw [sup_pairS_rel]
  cases hx : TArrayFind PointArray x with
  | none =>
    have hxp : ¬ (DsSetoid PointArray S) x p := by
      show ¬ PointLabel PointArray S x = PointLabel PointArray S p
      simp [PointLabel, hx, hp]
    have hxq : ¬ (DsSetoid PointArray S) x q := by
      show ¬ PointLabel PointArray S x = PointLabel PointArray S q
      simp [PointLabel, hx, hq]
    have : (DsSetoid PointArray (S.Union o d)) x y ↔ (DsSetoid PointArray S) x y := by
      show PointLabel PointArray _ x = PointLabel PointArray _ y ↔
        PointLabel PointArray _ x = PointLabel PointArray _ y
      cases hy : TArrayFind PointArray y <;> simp [PointLabel, hx, hy]
    rw [this]
    tauto
  | some i =>
    have hi : i < S.Parents.length := hwf ▸ tarrayFind_lt _ _ _ hx
    cases hy : TArrayFind PointArray y with
    | none =>
      have hyp : ¬ (DsSetoid PointArray S) p y := by
        show ¬ PointLabel PointArray S p = PointLabel PointArray S y
        simp [PointLabel, hy, hp]
      have hyq : ¬ (DsSetoid PointArray S) q y := by
        show ¬ PointLabel PointArray S q = PointLabel PointArray S y
        simp [PointLabel, hy, hq]
      have : (DsSetoid PointArray (S.Union o d)) x y ↔ (DsSetoid PointArray S) x y := by
        show PointLabel PointArray _ x = PointLabel PointArray _ y ↔
          PointLabel PointArray _ x = PointLabel PointArray _ y
        simp [PointLabel, hx, hy]
      rw [this]
      tauto
    | some j =>
      have hj : j < S.Parents.length := hwf ▸ tarrayFind_lt _ _ _ hy
      rw [dsSetoid_rel_iff hx hy, dsSetoid_rel_iff hx hy, dsSetoid_rel_iff hx hp,
        dsSetoid_rel_iff hq hy, dsSetoid_rel_iff hx hq, dsSetoid_rel_iff hp hy,
        find_union S o d i hi, find_union S o d j hj]
      split_ifs <;> omega

end LevelGen

namespace LevelGen

/-! ## Forests relative to an equivalence -/

theorem forestMod_nil (Q : Setoid FIntVector) : ForestMod Q [] := by
  intro A e B h
  simp at h

theorem forestMod_head {Q : Setoid FIntVector} {e : FEdgeInfo} {T : List FEdgeInfo}
    (h : ForestMod Q (e :: T)) : ¬ Q e.Origin e.Destination := by
  intro hq
  exact h [] e T rfl ((le_sup_left : Q ≤ Q ⊔ LinkS ([] ++ T)) hq)

theorem forestMod_tail {Q : Setoid FIntVector} {e : FEdgeInfo} {T : List FEdgeInfo}
    (h : ForestMod Q (e :: T)) : ForestMod (Q ⊔ PairS e.Origin e.Destination) T := by
  intro A f B hT hrel
  apply h (e :: A) f B (by rw [hT]; rfl)
  rw [List.cons_append, linkS_cons, ← sup_assoc]
  exact hrel

theorem forestMod_cons {Q : Setoid FIntVector} {e : FEdgeInfo} {G : List FEdgeInfo}
    (hn : ¬ Q e.Origin e.Destination)
    (hG : ForestMod (Q ⊔ PairS e.Origin e.Destination) G) : ForestMod Q (e :: G) := by
  intro A f B hdec hrel
  cases A with
  | nil =>
    simp only [List.nil_append, List.cons.injEq] at hdec
    obtain ⟨rfl, rfl⟩ := hdec
    simp only [List.nil_append] at hrel
    obtain ⟨A1, g, B1, hB, h1, h2⟩ := first_connecting_edge G Q _ _ hn hrel
    have hsw := sup_pairS_swap h1 h2
    have hg : (Q ⊔ LinkS A1 ⊔ PairS e.Origin e.Destination) g.Origin g.Destination := by
      rw [← hsw]
      exact (le_sup_right : PairS g.Origin g.Destination ≤ _) (pairS_rel _ _)
    apply hG A1 g B1 hB
    have hle : Q ⊔ LinkS A1 ⊔ PairS e.Origin e.Destination ≤
        Q ⊔ PairS e.Origin e.Destination ⊔ LinkS (A1 ++ B1) := by
      rw [linkS_append]
      refine sup_le (sup_le ?_ ?_) ?_
      · exact le_sup_of_le_left le_sup_left
      · exact le_sup_of_le_right le_sup_left
      · exact le_sup_of_le_left le_sup_right
    exact hle hg
  | cons a A2 =>
    simp only [List.cons_append, List.cons.injEq] at hdec
    obtain ⟨rfl, rfl⟩ := hdec
    apply hG A2 f B rfl
    rw [List.cons_append, linkS_cons, ← sup_assoc] at hrel
    exact hrel

/-- Exchange step: an edge of a spanning forest can be traded for the pair
`(u, v)` that the forest connects. -/
theorem forest_exchange {Q : Setoid FIntVector} {T : List FEdgeInfo} {u v : FIntVector}
    (hT : ForestMod Q T) (hn : ¬ Q u v) (h : (Q ⊔ LinkS T) u v) :
    ∃ A f B, T = A ++ f :: B ∧ ForestMod (Q ⊔ PairS u v) (A ++ B) ∧
      Q ⊔ PairS u v ⊔ LinkS (A ++ B) = Q ⊔ LinkS T := by
  obtain ⟨A, f, B, hdec, hA, hf⟩ := first_connecting_edge T Q u v hn h
  have hsw := sup_pairS_swap hA hf
  have hspan : ∀ B2 : List FEdgeInfo,
      Q ⊔ PairS u v ⊔ LinkS (A ++ B2) = Q ⊔ LinkS (A ++ f :: B2) := by
    intro B2
    rw [linkS_append, linkS_append, linkS_cons]
    calc Q ⊔ PairS u v ⊔ (LinkS A ⊔ LinkS B2)
        = (Q ⊔ LinkS A ⊔ PairS u v) ⊔ LinkS B2 := by ac_rfl
      _ = (Q ⊔ LinkS A ⊔ PairS f.Origin f.Destination) ⊔ LinkS B2 := by rw [hsw]
      _ = Q ⊔ (LinkS A ⊔ (PairS f.Origin f.Destination ⊔ LinkS B2)) := by ac_rfl
  refine ⟨A, f, B, hdec, ?_, ?_⟩
  · intro C g D hCD hrel
    rcases List.append_eq_append_iff.1 hCD with ⟨B1, hC, hB⟩ | ⟨A2, hA2, hD⟩
    · -- the edge `g` lies in `B`
      subst hC
      subst hB
      apply hT (A ++ f :: B1) g D (by rw [hdec]; simp)
      have := hspan (B1 ++ D)
      rw [List.append_assoc] at hrel
      rw [this] at hrel
      simpa using hrel
    · cases A2 with
      | nil =>
        simp only [List.nil_append] at hD
        simp only [List.append_nil] at hA2
        subst hA2
        subst hD
        apply hT (A ++ [f]) g D (by rw [hdec]; simp)
        have := hspan D
        rw [this] at hrel
        simpa using hrel
      | cons a A3 =>
        simp only [List.cons_append, List.cons.injEq] at hD
        obtain ⟨rfl, rfl⟩ := hD
        -- the edge `g` lies in `A`
        have hH1 : ¬ (Q ⊔ LinkS (C ++ (A3 ++ f :: B))) g.Origin g.Destination := by
          apply hT C g (A3 ++ f :: B)
          rw [hdec, hA2]; simp
        have hW : Q ⊔ LinkS (C ++ (A3 ++ B)) ≤ Q ⊔ LinkS (C ++ (A3 ++ f :: B)) := by
          apply sup_le_sup_left
          apply linkS_mono
          intro x hx
          simp only [List.mem_append, List.mem_cons] at hx ⊢
          tauto
        have hnW : ¬ (Q ⊔ LinkS (C ++ (A3 ++ B))) g.Origin g.Destination :=
          fun hc => hH1 (hW hc)
        have hrel2 : (Q ⊔ LinkS (C ++ (A3 ++ B)) ⊔ PairS u v) g.Origin g.Destination := by
          have : Q ⊔ LinkS (C ++ (A3 ++ B)) ⊔ PairS u v =
              Q ⊔ PairS u v ⊔ LinkS (C ++ (A3 ++ B)) := by ac_rfl
          rw [this]; exact hrel
        have hsw2 := sup_pairS_swap hnW hrel2
        -- `u` and `v` are connected without `f`
        have huv : (Q ⊔ LinkS (A ++ B)) u v := by
          have h1 : (Q ⊔ LinkS (C ++ (A3 ++ B)) ⊔ PairS g.Origin g.Destination) u v := by
            rw [← hsw2]
            exact (le_sup_right : PairS u v ≤ _) (pairS_rel _ _)
          have h2 : Q ⊔ LinkS (C ++ (A3 ++ B)) ⊔ PairS g.Origin g.Destination ≤
              Q ⊔ LinkS (A ++ B) := by
            refine sup_le (sup_le le_sup_left ?_) ?_
            · apply le_sup_of_le_right
              apply linkS_mono
              intro x hx
              rw [hA2]
              simp only [List.mem_append, List.mem_cons] at hx ⊢
              tauto
            · apply le_sup_of_le_right
              apply pairS_le
              apply edge_linkS
              rw [hA2]
              simp
          exact h2 h1
        have hQA : Q ⊔ LinkS A ≤ Q ⊔ LinkS (A ++ B) :=
          sup_le_sup_left (linkS_mono fun x hx => List.mem_append.2 (Or.inl hx)) _
        apply hT A f B hdec
        rcases (sup_pairS_rel _ _ _ _ _).1 hf with h0 | ⟨h1, h2⟩ | ⟨h1, h2⟩
        · exact absurd h0 hA
        · exact Setoid.trans' _ (Setoid.symm' _ (hQA h1))
            (Setoid.trans' _ huv (Setoid.symm' _ (hQA h2)))
        · exact Setoid.symm' _ (Setoid.trans' _ (Setoid.symm' _ (hQA h1))
            (Setoid.trans' _ huv (Setoid.symm' _ (hQA h2))))
  · rw [hdec]
    exact hspan B

/-! ## Weights -/

theorem totalWeight_cons (e : FEdgeInfo) (T : List FEdgeInfo) :
    TotalWeight (e :: T) = e.Weight + TotalWeight T := by
  simp [TotalWeight]

theorem totalWeight_middle (A B : List FEdgeInfo) (f : FEdgeInfo) :
    TotalWeight (A ++ f :: B) = f.Weight + TotalWeight (A ++ B) := by
  simp [TotalWeight]
  ring

theorem totalWeight_perm {A B : List FEdgeInfo} (h : A.Perm B) :
    TotalWeight A = TotalWeight B := by
  unfold TotalWeight
  exact (h.map _).sum_eq

end LevelGen

namespace LevelGen

/-! ## The accepted edges of a full run -/

theorem kruskalAccepted_accept {PointArray : List FIntVector} {S : FDisjointSet}
    {e : FEdgeInfo} {rest : List FEdgeInfo} {o d : Nat}
    (ho : TArrayFind PointArray e.Origin = some o)
    (hd : TArrayFind PointArray e.Destination = some d) (h : S.Find o ≠ S.Find d) :
    KruskalAccepted PointArray S (e :: rest) =
      e :: KruskalAccepted PointArray (S.Union o d) rest := by
  simp [KruskalAccepted, ho, hd, h]

theorem kruskalAccepted_reject {PointArray : List FIntVector} {S : FDisjointSet}
    {e : FEdgeInfo} {rest : List FEdgeInfo} {o d : Nat}
    (ho : TArrayFind PointArray e.Origin = some o)
    (hd : TArrayFind PointArray e.Destination = some d) (h : S.Find o = S.Find d) :
    KruskalAccepted PointArray S (e :: rest) = KruskalAccepted PointArray S rest := by
  simp [KruskalAccepted, ho, hd, h]

theorem kruskalFinal_accept {PointArray : List FIntVector} {S : FDisjointSet}
    {e : FEdgeInfo} {rest : List FEdgeInfo} {o d : Nat}
    (ho : TArrayFind PointArray e.Origin = some o)
    (hd : TArrayFind PointArray e.Destination = some d) (h : S.Find o ≠ S.Find d) :
    KruskalFinal PointArray S (e :: rest) = KruskalFinal PointArray (S.Union o d) rest := by
  simp [KruskalFinal, ho, hd, h]

theorem kruskalFinal_reject {PointArray : List FIntVector} {S : FDisjointSet}
    {e : FEdgeInfo} {rest : List FEdgeInfo} {o d : Nat}
    (ho : TArrayFind PointArray e.Origin = some o)
    (hd : TArrayFind PointArray e.Destination = some d) (h : S.Find o = S.Find d) :
    KruskalFinal PointArray S (e :: rest) = KruskalFinal PointArray S rest := by
  simp [KruskalFinal, ho, hd, h]

theorem endpointsIn_cons {PointArray : List FIntVector} {e : FEdgeInfo}
    {rest : List FEdgeInfo} (h : EndpointsIn PointArray (e :: rest)) :
    (∃ o, TArrayFind PointArray e.Origin = some o) ∧
    (∃ d, TArrayFind PointArray e.Destination = some d) ∧ EndpointsIn PointArray rest := by
  refine ⟨tarrayFind_of_mem _ _ (h e (List.mem_cons_self _ _)).1,
    tarrayFind_of_mem _ _ (h e (List.mem_cons_self _ _)).2, ?_⟩
  intro f hf
  exact h f (List.mem_cons_of_mem _ hf)

theorem kruskalAccepted_sublist (PointArray : List FIntVector) :
    ∀ (edges : List FEdgeInfo) (S : FDisjointSet),
      (KruskalAccepted PointArray S edges).Sublist edges := by
  intro edges
  induction edges with
  | nil => intro S; simp [KruskalAccepted]
  | cons e rest ih =>
    intro S
    unfold KruskalAccepted
    split
    · split_ifs
      · exact (ih _).cons₂ e
      · exact (ih _).cons e
    · exact (ih _).cons e

theorem kruskalAccepted_forest (PointArray : List FIntVector) :
    ∀ (edges : List FEdgeInfo) (S : FDisjointSet),
      S.Parents.length = PointArray.length →
      ForestMod (DsSetoid PointArray S) (KruskalAccepted PointArray S edges) := by
  intro edges
  induction edges with
  | nil => intro S _; exact forestMod_nil _
  | cons e rest ih =>
    intro S hwf
    unfold KruskalAccepted
    split
    · rename_i o d ho hd
      split_ifs with hacc
      · apply forestMod_cons
        · rw [dsSetoid_rel_iff ho hd]; exact hacc
        · rw [← dsSetoid_union hwf ho hd]
          exact ih _ (by rw [union_length]; exact hwf)
      · exact ih _ hwf
    · exact ih _ hwf

theorem kruskalAccepted_span (PointArray : List FIntVector) :
    ∀ (edges : List FEdgeInfo) (S : FDisjointSet),
      S.Parents.length = PointArray.length → EndpointsIn PointArray edges →
      DsSetoid PointArray S ⊔ LinkS (KruskalAccepted PointArray S edges) =
        DsSetoid PointArray S ⊔ LinkS edges := by
  intro edges
  induction edges with
  | nil => intro S _ _; simp [KruskalAccepted]
  | cons e rest ih =>
    intro S hwf hE
    obtain ⟨⟨o, ho⟩, ⟨d, hd⟩, hE2⟩ := endpointsIn_cons hE
    by_cases hacc : S.Find o = S.Find d
    · rw [kruskalAccepted_reject ho hd hacc, ih S hwf hE2, linkS_cons, ← sup_assoc]
      have : PairS e.Origin e.Destination ≤ DsSetoid PointArray S :=
        pairS_le ((dsSetoid_rel_iff ho hd).2 hacc)
      rw [sup_eq_left.2 this]
    · rw [kruskalAccepted_accept ho hd hacc, linkS_cons, linkS_cons, ← sup_assoc, ← sup_assoc,
        ← dsSetoid_union hwf ho hd]
      exact ih _ (by rw [union_length]; exact hwf) hE2

theorem kruskalFinal_setoid (PointArray : List FIntVector) :
    ∀ (edges : List FEdgeInfo) (S : FDisjointSet),
      S.Parents.length = PointArray.length → EndpointsIn PointArray edges →
      DsSetoid PointArray (KruskalFinal PointArray S edges) =
        DsSetoid PointArray S ⊔ LinkS edges := by
  intro edges
  induction edges with
  | nil => intro S _ _; simp [KruskalFinal, linkS_nil]
  | cons e rest ih =>
    intro S hwf hE
    obtain ⟨⟨o, ho⟩, ⟨d, hd⟩, hE2⟩ := endpointsIn_cons hE
    by_cases hacc : S.Find o = S.Find d
    · rw [kruskalFinal_reject ho hd hacc, ih S hwf hE2, linkS_cons, ← sup_assoc]
      have : PairS e.Origin e.Destination ≤ DsSetoid PointArray S :=
        pairS_le ((dsSetoid_rel_iff ho hd).2 hacc)
      rw [sup_eq_left.2 this]
    · rw [kruskalFinal_accept ho hd hacc, ih _ (by rw [union_length]; exact hwf) hE2,
        dsSetoid_union hwf ho hd, linkS_cons, ← sup_assoc]

/-- Optimality of the full greedy run on a weight-sorted edge list, relative to
the equivalence the disjoint set already stands for. -/
theorem kruskalAccepted_minimal (PointArray : List FIntVector) :
    ∀ (edges : List FEdgeInfo) (S : FDisjointSet),
      S.Parents.length = PointArray.length → EndpointsIn PointArray edges →
      edges.Pairwise (fun a b => EdgeWeightLess b a = false) →
      ∀ T : List FEdgeInfo, T.Sublist edges → ForestMod (DsSetoid PointArray S) T →
        DsSetoid PointArray S ⊔ LinkS edges ≤ DsSetoid PointArray S ⊔ LinkS T →
        TotalWeight (KruskalAccepted PointArray S edges) ≤ TotalWeight T := by
  intro edges
  induction edges with
  | nil =>
    intro S _ _ _ T hsub _ _
    rw [List.sublist_nil.1 hsub]
    simp [KruskalAccepted]
  | cons e rest ih =>
    intro S hwf hE hsorted T hsub hforest hspan
    obtain ⟨⟨o, ho⟩, ⟨d, hd⟩, hE2⟩ := endpointsIn_cons hE
    rw [List.pairwise_cons] at hsorted
    by_cases hacc : S.Find o = S.Find d
    · -- the head edge is discarded
      rw [kruskalAccepted_reject ho hd hacc]
      have hQ : (DsSetoid PointArray S) e.Origin e.Destination :=
        (dsSetoid_rel_iff ho hd).2 hacc
      cases hsub with
      | cons _ h =>
        apply ih S hwf hE2 hsorted.2 T h hforest
        refine le_trans ?_ hspan
        exact sup_le_sup_left (linkS_mono fun x hx => List.mem_cons_of_mem _ hx) _
      | cons₂ _ h =>
        exact absurd hQ (forestMod_head hforest)
    · -- the head edge is accepted
      rw [kruskalAccepted_accept ho hd hacc, totalWeight_cons]
      have hnQ : ¬ (DsSetoid PointArray S) e.Origin e.Destination := by
        rw [dsSetoid_rel_iff ho hd]; exact hacc
      have hwf2 : (S.Union o d).Parents.length = PointArray.length := by
        rw [union_length]; exact hwf
      have hQ2 := dsSetoid_union (S := S) hwf ho hd
      cases hsub with
      | cons₂ _ h =>
        rename_i T2
        rw [totalWeight_cons]
        have := ih (S.Union o d) hwf2 hE2 hsorted.2 T2 h
          (by rw [hQ2]; exact forestMod_tail hforest)
          (by
            rw [hQ2]
            rw [linkS_cons, linkS_cons, ← sup_assoc, ← sup_assoc] at hspan
            exact hspan)
        linarith
      | cons _ h =>
        have huv : (DsSetoid PointArray S ⊔ LinkS T) e.Origin e.Destination := by
          apply hspan
          exact (le_sup_right : LinkS (e :: rest) ≤ _) (edge_linkS (List.mem_cons_self _ _))
        obtain ⟨A, f, B, hdec, hF, hS⟩ := forest_exchange hforest hnQ huv
        have hsubAB : (A ++ B).Sublist rest := by
          refine List.Sublist.trans ?_ h
          rw [hdec]
          exact List.Sublist.append (List.Sublist.refl A) (List.sublist_cons_self f B)
        have := ih (S.Union o d) hwf2 hE2 hsorted.2 (A ++ B) hsubAB
          (by rw [hQ2]; exact hF)
          (by
            rw [hQ2, hS]
            rw [linkS_cons, ← sup_assoc] at hspan
            exact hspan)
        have hfmem : f ∈ rest := h.subset (by rw [hdec]; simp)
        have hw : e.Weight ≤ f.Weight := by
          have := hsorted.1 f hfmem
          unfold EdgeWeightLess at this
          by_contra hc
          push_neg at hc
          simp [hc] at this
        rw [hdec, totalWeight_middle]
        linarith

end LevelGen

namespace LevelGen

/-! ## Counting the sets of the disjoint set -/

theorem classes_init (n : Nat) : Classes (FDisjointSet.Init n) = n := by
  unfold Classes FDisjointSet.Init
  rw [List.toFinset_card_of_nodup (List.nodup_range n), List.length_range]

theorem find_mem_parents (S : FDisjointSet) (i : Nat) (h : i < S.Parents.length) :
    S.Find i ∈ S.Parents.toFinset := by
  rw [find_eq_getElem S i h, List.mem_toFinset]
  exact List.getElem_mem h

theorem classes_union (S : FDisjointSet) (o d : Nat) (ho : o < S.Parents.length)
    (hd : d < S.Parents.length) (hne : S.Find o ≠ S.Find d) :
    Classes (S.Union o d) + 1 = Classes S := by
  unfold Classes
  have himg : (S.Union o d).Parents.toFinset = S.Parents.toFinset.erase (S.Find o) := by
    unfold FDisjointSet.Union
    ext x
    simp only [List.mem_toFinset, List.mem_map, Finset.mem_erase]
    constructor
    · rintro ⟨r, hr, rfl⟩
      split_ifs with h
      · exact ⟨fun hc => hne hc.symm, List.mem_toFinset.1 (find_mem_parents S d hd)⟩
      · exact ⟨h, hr⟩
    · rintro ⟨hx, hm⟩
      exact ⟨x, hm, by rw [if_neg hx]⟩
  rw [himg, Finset.card_erase_of_mem (find_mem_parents S o ho)]
  have : 0 < S.Parents.toFinset.card :=
    Finset.card_pos.2 ⟨_, find_mem_parents S o ho⟩
  omega

theorem classes_pos (S : FDisjointSet) (h : 0 < S.Parents.length) : 1 ≤ Classes S :=
  Finset.card_pos.2 ⟨_, find_mem_parents S 0 h⟩

theorem find_eq_of_classes_one (S : FDisjointSet) (h : Classes S = 1) (i j : Nat)
    (hi : i < S.Parents.length) (hj : j < S.Parents.length) : S.Find i = S.Find j := by
  obtain ⟨a, ha⟩ := Finset.card_eq_one.1 h
  have h1 := find_mem_parents S i hi
  have h2 := find_mem_parents S j hj
  rw [ha, Finset.mem_singleton] at h1 h2
  rw [h1, h2]

theorem classes_one_of_find_eq (S : FDisjointSet) (hpos : 0 < S.Parents.length)
    (h : ∀ i j, i < S.Parents.length → j < S.Parents.length → S.Find i = S.Find j) :
    Classes S = 1 := by
  unfold Classes
  rw [Finset.card_eq_one]
  refine ⟨S.Find 0, ?_⟩
  ext x
  rw [List.mem_toFinset, Finset.mem_singleton]
  constructor
  · intro hx
    obtain ⟨k, hk, rfl⟩ := List.getElem_of_mem hx
    rw [← find_eq_getElem S k hk]
    exact h k 0 hk hpos
  · rintro rfl
    exact List.mem_toFinset.1 (find_mem_parents S 0 hpos)

theorem classes_one_of_related {PointArray : List FIntVector} (hnd : PointArray.Nodup)
    (S : FDisjointSet) (hwf : S.Parents.length = PointArray.length)
    (hne : PointArray ≠ [])
    (h : ∀ p ∈ PointArray, ∀ q ∈ PointArray, (DsSetoid PointArray S) p q) :
    Classes S = 1 := by
  apply classes_one_of_find_eq
  · rw [hwf]; exact List.length_pos.2 hne
  · intro i j hi hj
    rw [hwf] at hi hj
    have hpi : PointArray[i]? = some PointArray[i] := List.getElem?_eq_getElem hi
    have hpj : PointArray[j]? = some PointArray[j] := List.getElem?_eq_getElem hj
    have h1 := tarrayFind_nodup PointArray hnd i _ hpi
    have h2 := tarrayFind_nodup PointArray hnd j _ hpj
    exact (dsSetoid_rel_iff h1 h2).1
      (h _ (List.getElem_mem hi) _ (List.getElem_mem hj))

theorem kruskalAccepted_of_classes_one (PointArray : List FIntVector) (S : FDisjointSet)
    (hwf : S.Parents.length = PointArray.length) (h : Classes S = 1) :
    ∀ edges : List FEdgeInfo, KruskalAccepted PointArray S edges = [] := by
  intro edges
  induction edges with
  | nil => rfl
  | cons e rest ih =>
    unfold KruskalAccepted
    split
    · rename_i o d ho hd
      have := find_eq_of_classes_one S h o d (hwf ▸ tarrayFind_lt _ _ _ ho)
        (hwf ▸ tarrayFind_lt _ _ _ hd)
      simp [this, ih]
    · exact ih

/-! ## The loop with its early exit -/

/-- On a connected candidate graph over distinct points the loop returns, and it
returns the edges a full run accepts. -/
theorem kruskalLoop_connected {PointArray : List FIntVector} (hnd : PointArray.Nodup) :
    ∀ (edges : List FEdgeInfo) (S : FDisjointSet) (mst disc : List FEdgeInfo),
      S.Parents.length = PointArray.length → EndpointsIn PointArray edges → edges ≠ [] →
      mst.length + Classes S = PointArray.length →
      (∀ p ∈ PointArray, ∀ q ∈ PointArray, (DsSetoid PointArray S ⊔ LinkS edges) p q) →
      ∃ disc2, KruskalLoop PointArray ((PointArray.length : Int) - 1) S mst disc edges =
        some (mst ++ KruskalAccepted PointArray S edges, disc2) := by
  intro edges
  induction edges with
  | nil => intro S mst disc _ _ hne; exact absurd rfl hne
  | cons e rest ih =>
    intro S mst disc hwf hE _ hcount hconn
    obtain ⟨⟨o, ho⟩, ⟨d, hd⟩, hE2⟩ := endpointsIn_cons hE
    have hPne : PointArray ≠ [] := by
      intro hc
      have := tarrayFind_lt _ _ _ ho
      rw [hc] at this
      simp at this
    have hol : o < S.Parents.length := hwf ▸ tarrayFind_lt _ _ _ ho
    have hdl : d < S.Parents.length := hwf ▸ tarrayFind_lt _ _ _ hd
    by_cases hacc : S.Find o = S.Find d
    · -- discarded edge
      have hle : PairS e.Origin e.Destination ≤ DsSetoid PointArray S :=
        pairS_le ((dsSetoid_rel_iff ho hd).2 hacc)
      have hconn2 : ∀ p ∈ PointArray, ∀ q ∈ PointArray,
          (DsSetoid PointArray S ⊔ LinkS rest) p q := by
        intro p hp q hq
        have := hconn p hp q hq
        rw [linkS_cons, ← sup_assoc, sup_eq_left.2 hle] at this
        exact this
      rw [kruskalAccepted_reject ho hd hacc]
      unfold KruskalLoop
      simp only [ho, hd, hacc, ne_eq, not_true_eq_false, if_false]
      split_ifs with hstop
      · have hc1 : Classes S = 1 := by omega
        rw [kruskalAccepted_of_classes_one PointArray S hwf hc1]
        exact ⟨disc ++ e :: rest, by simp⟩
      · have hrest : rest ≠ [] := by
          rintro rfl
          have hc1 : Classes S = 1 := by
            apply classes_one_of_related hnd S hwf hPne
            intro p hp q hq
            have := hconn2 p hp q hq
            rwa [linkS_nil, sup_bot_eq] at this
          omega
        exact ih S mst _ hwf hE2 hrest hcount hconn2
    · -- accepted edge
      have hwf2 : (S.Union o d).Parents.length = PointArray.length := by
        rw [union_length]; exact hwf
      have hcl := classes_union S o d hol hdl hacc
      have hconn2 : ∀ p ∈ PointArray, ∀ q ∈ PointArray,
          (DsSetoid PointArray (S.Union o d) ⊔ LinkS rest) p q := by
        intro p hp q hq
        have := hconn p hp q hq
        rw [linkS_cons, ← sup_assoc, ← dsSetoid_union hwf ho hd] at this
        exact this
      rw [kruskalAccepted_accept ho hd hacc]
      unfold KruskalLoop
      simp only [ho, hd, hacc, ne_eq, not_false_eq_true, if_true]
      split_ifs with hstop
      · have hc1 : Classes (S.Union o d) = 1 := by
          rw [List.length_append, List.length_singleton] at hstop
          push_cast at hstop
          omega
        rw [kruskalAccepted_of_classes_one PointArray _ hwf2 hc1]
        exact ⟨_, rfl⟩
      · have hrest : rest ≠ [] := by
          rintro rfl
          have hc1 : Classes (S.Union o d) = 1 := by
            apply classes_one_of_related hnd _ hwf2 hPne
            intro p hp q hq
            have := hconn2 p hp q hq
            rwa [linkS_nil, sup_bot_eq] at this
          rw [List.length_append, List.length_singleton] at hstop
          push_cast at hstop
          omega
        obtain ⟨disc2, h2⟩ := ih (S.Union o d) (mst ++ [e]) disc hwf2 hE2 hrest
          (by rw [List.length_append, List.length_singleton]; omega) hconn2
        exact ⟨disc2, by rw [h2]; simp⟩

/-- Whenever the loop returns, the tree consists of the edges accepted from a
processed prefix of the edge list, and it has `TreeSize` edges. -/
theorem kruskalLoop_some {PointArray : List FIntVector} {TreeSize : Int} :
    ∀ (edges : List FEdgeInfo) (S : FDisjointSet) (mst disc m d : List FEdgeInfo),
      KruskalLoop PointArray TreeSize S mst disc edges = some (m, d) →
      (m.length : Int) = TreeSize ∧
      ∃ processed rest, edges = processed ++ rest ∧
        m = mst ++ KruskalAccepted PointArray S processed := by
  intro edges
  induction edges with
  | nil => intro S mst disc m d h; simp [KruskalLoop] at h
  | cons e rest ih =>
    intro S mst disc m d h
    unfold KruskalLoop at h
    split at h
    · rename_i o dd ho hd
      by_cases hacc : S.Find o = S.Find dd
      · simp only [hacc, ne_eq, not_true_eq_false, if_false] at h
        split_ifs at h with hstop
        · simp only [Option.some.injEq, Prod.mk.injEq] at h
          refine ⟨by rw [← h.1]; exact hstop, [e], rest, rfl, ?_⟩
          rw [kruskalAccepted_reject ho hd hacc]
          simp [KruskalAccepted, h.1]
        · obtain ⟨hl, processed, rest2, hdec, hm⟩ := ih S mst _ m d h
          refine ⟨hl, e :: processed, rest2, by rw [hdec]; rfl, ?_⟩
          rw [kruskalAccepted_reject ho hd hacc]
          exact hm
      · simp only [hacc, ne_eq, not_false_eq_true, if_true] at h
        split_ifs at h with hstop
        · simp only [Option.some.injEq, Prod.mk.injEq] at h
          refine ⟨by rw [← h.1]; exact hstop, [e], rest, rfl, ?_⟩
          rw [kruskalAccepted_accept ho hd hacc]
          simp [KruskalAccepted, h.1]
        · obtain ⟨hl, processed, rest2, hdec, hm⟩ := ih _ _ _ m d h
          refine ⟨hl, e :: processed, rest2, by rw [hdec]; rfl, ?_⟩
          rw [kruskalAccepted_accept ho hd hacc, hm]
          simp
    · simp at h

end LevelGen

namespace LevelGen

/-! ## Spanning trees -/

theorem acyclic_iff_forestMod (T : List FEdgeInfo) : Acyclic T ↔ ForestMod ⊥ T := by
  unfold Acyclic ForestMod
  constructor
  · intro h A e B hT hrel
    rw [bot_sup_eq] at hrel
    exact h A e B hT hrel
  · intro h A e B hT hrel
    apply h A e B hT
    rw [bot_sup_eq]
    exact hrel

theorem acyclic_perm {T T2 : List FEdgeInfo} (hp : T2.Perm T) (h : Acyclic T) : Acyclic T2 := by
  intro A e B hT hrel
  have hmem : e ∈ T := hp.subset (by rw [hT]; simp)
  obtain ⟨A2, B2, hT2⟩ := List.append_of_mem hmem
  have hperm : (A ++ B).Perm (A2 ++ B2) := by
    have h1 : (e :: (A ++ B)).Perm (e :: (A2 ++ B2)) := by
      refine List.Perm.trans (List.perm_middle.symm) ?_
      rw [← hT]
      refine List.Perm.trans hp ?_
      rw [hT2]
      exact List.perm_middle
    exact List.Perm.cons_inv h1
  apply h A2 e B2 hT2
  show (LinkS (A2 ++ B2)) e.Origin e.Destination
  rw [← linkS_perm hperm]
  exact hrel

theorem noEdgeJoinsConnected_of_acyclic {T : List FEdgeInfo} (h : Acyclic T) :
    NoEdgeJoinsConnected T := by
  intro A e B hT hrel
  apply h A e B hT
  exact (linkS_mono (A := A) (B := A ++ B) fun x hx => List.mem_append.2 (Or.inl hx)) hrel

theorem endpointsIn_perm {PointArray : List FIntVector} {A B : List FEdgeInfo}
    (hp : A.Perm B) (h : EndpointsIn PointArray B) : EndpointsIn PointArray A :=
  fun e he => h e (hp.subset he)

theorem init_length (n : Nat) : (FDisjointSet.Init n).Parents.length = n := by
  simp [FDisjointSet.Init]

/-- Core of the contract of the selection loop on a connected candidate graph over
distinct points and a weight-sorted, non-empty edge array. -/
theorem kruskalLoop_spanning {PointArray : List FIntVector} (hnd : PointArray.Nodup)
    (L : List FEdgeInfo) (hE : EndpointsIn PointArray L) (hL : L ≠ [])
    (hconn : ConnectsAll PointArray L) (disc : List FEdgeInfo) :
    ∃ m d, KruskalLoop PointArray ((PointArray.length : Int) - 1)
        (FDisjointSet.Init PointArray.length) [] disc L = some (m, d) ∧
      m = KruskalAccepted PointArray (FDisjointSet.Init PointArray.length) L ∧
      m.length + 1 = PointArray.length := by
  have hwf := init_length PointArray.length
  obtain ⟨d, hd⟩ := kruskalLoop_connected hnd L (FDisjointSet.Init PointArray.length) [] disc
    hwf hE hL (by simp [classes_init]) (by
      intro p hp q hq
      rw [dsSetoid_init, bot_sup_eq]
      exact hconn p hp q hq)
  rw [List.nil_append] at hd
  refine ⟨_, d, hd, rfl, ?_⟩
  have hlen := (kruskalLoop_some L _ [] disc _ d hd).1
  have hpos : 0 < PointArray.length := by
    cases L with
    | nil => exact absurd rfl hL
    | cons e rest =>
      obtain ⟨⟨o, ho⟩, _⟩ := endpointsIn_cons hE
      exact Nat.lt_of_le_of_lt (Nat.zero_le _) (tarrayFind_lt _ _ _ ho)
  omega

theorem connectsAll_nil_length {PointArray : List FIntVector} (hnd : PointArray.Nodup)
    (hconn : ConnectsAll PointArray []) : PointArray.length ≤ 1 := by
  by_contra hc
  push_neg at hc
  have h0 : 0 < PointArray.length := by omega
  have h := hconn _ (List.getElem_mem h0) _ (List.getElem_mem hc)
  have h2 : (LinkS []) PointArray[0] PointArray[1] := h
  rw [linkS_nil] at h2
  have h3 : PointArray[0] = PointArray[1] := h2
  have := (List.Nodup.getElem_inj_iff hnd).1 h3
  omega

theorem sortedInsert_perm (e : FEdgeInfo) :
    ∀ l : List FEdgeInfo, (SortedInsert e l).Perm (e :: l) := by
  intro l
  induction l with
  | nil => exact List.Perm.refl _
  | cons a rest ih =>
    unfold SortedInsert
    split_ifs
    · exact List.Perm.trans (List.Perm.cons a ih) (List.Perm.swap e a rest)
    · exact List.Perm.refl _

theorem sortedInsert_sorted (e : FEdgeInfo) :
    ∀ l : List FEdgeInfo, l.Pairwise (fun a b => EdgeWeightLess b a = false) →
      (SortedInsert e l).Pairwise (fun a b => EdgeWeightLess b a = false) := by
  intro l
  induction l with
  | nil => intro _; simp [SortedInsert]
  | cons a rest ih =>
    intro h
    rw [List.pairwise_cons] at h
    unfold SortedInsert
    split_ifs with hlt
    · rw [List.pairwise_cons]
      refine ⟨?_, ih h.2⟩
      intro b hb
      rcases List.mem_cons.1 ((sortedInsert_perm e rest).subset hb) with rfl | hb2
      · unfold EdgeWeightLess at hlt ⊢
        by_cases h1 : a.Weight < b.Weight
        · have : ¬ b.Weight < a.Weight := not_lt.2 (le_of_lt h1)
          simp [this]
        · simp [h1] at hlt
      · exact h.1 b hb2
    · rw [List.pairwise_cons]
      refine ⟨?_, List.pairwise_cons.2 h⟩
      intro b hb
      have hea : e.Weight ≤ a.Weight := by
        unfold EdgeWeightLess at hlt
        by_contra hc
        push_neg at hc
        simp [hc] at hlt
      rcases List.mem_cons.1 hb with rfl | hb2
      · simpa [EdgeWeightLess] using hlt
      · have hab := h.1 b hb2
        unfold EdgeWeightLess at hab ⊢
        have hab2 : a.Weight ≤ b.Weight := by
          by_contra hc
          push_neg at hc
          simp [hc] at hab
        have : ¬ b.Weight < e.Weight := not_lt.2 (le_trans hea hab2)
        simp [this]

theorem isTArraySort_TArraySort : IsTArraySort TArraySort := by
  constructor
  · intro l
    induction l with
    | nil => exact List.Perm.refl _
    | cons a rest ih =>
      exact List.Perm.trans (sortedInsert_perm a _) (List.Perm.cons a ih)
  · intro l
    induction l with
    | nil => simp [TArraySort]
    | cons a rest ih => exact sortedInsert_sorted a _ ih

theorem connectsAll_of_root {PointArray : List FIntVector} {T : List FEdgeInfo}
    (r : FIntVector) (h : ∀ p ∈ PointArray, Linked T r p) : ConnectsAll PointArray T :=
  fun p hp q hq => Relation.EqvGen.trans _ _ _ (Relation.EqvGen.symm _ _ (h p hp)) (h q hq)

theorem linked_edge {T : List FEdgeInfo} (e : FEdgeInfo) (he : e ∈ T) :
    Linked T e.Origin e.Destination := edge_linkS he

end LevelGen

namespace LevelGen

/-! ## Claims about the graph connector -/

theorem getMinimumSpanningTree_eq_V2 (SortFn : List FEdgeInfo → List FEdgeInfo)
    (EdgeLength : FIntVector → FIntVector → ℚ) (PointArray : List FIntVector)
    (QuarterEdgeArray : List (FIntVector × FIntVector)) (disc : List FEdgeInfo) :
    GetMinimumSpanningTree SortFn EdgeLength PointArray QuarterEdgeArray disc =
      GetMinimumSpanningTreeV2 SortFn PointArray
        (ConvertQuarterEdges EdgeLength QuarterEdgeArray) disc := rfl

/-- On distinct points and a connected candidate graph the function returns the
edges accepted by a full greedy run over the sorted candidates; there are one
fewer of them than points. -/
theorem getMinimumSpanningTreeV2_connected {SortFn : List FEdgeInfo → List FEdgeInfo}
    (hs : IsTArraySort SortFn) {PointArray : List FIntVector} (hnd : PointArray.Nodup)
    (hne : PointArray ≠ []) {EdgeArray : List FEdgeInfo}
    (hE : EndpointsIn PointArray EdgeArray) (hconn : ConnectsAll PointArray EdgeArray)
    (disc : List FEdgeInfo) :
    ∃ m d, GetMinimumSpanningTreeV2 SortFn PointArray EdgeArray disc = some (m, d) ∧
      m = KruskalAccepted PointArray (FDisjointSet.Init PointArray.length) (SortFn EdgeArray) ∧
      m.length + 1 = PointArray.length := by
  unfold GetMinimumSpanningTreeV2
  cases hEA : EdgeArray with
  | nil =>
    subst hEA
    have hS : SortFn [] = [] := List.Perm.eq_nil (hs.perm [])
    have hlen := connectsAll_nil_length hnd hconn
    have hpos : 0 < PointArray.length := List.length_pos.2 hne
    refine ⟨[], disc, by simp, by simp [hS, KruskalAccepted], ?_⟩
    simp
    omega
  | cons e rest =>
    rw [← hEA]
    have hE2 : EndpointsIn PointArray (SortFn EdgeArray) := endpointsIn_perm (hs.perm _) hE
    have hL : SortFn EdgeArray ≠ [] := by
      intro hc
      have := (hs.perm EdgeArray).symm
      rw [hc] at this
      rw [List.Perm.eq_nil this] at hEA
      simp at hEA
    have hconn2 : ConnectsAll PointArray (SortFn EdgeArray) := by
      intro p hp q hq
      show (LinkS (SortFn EdgeArray)) p q
      rw [linkS_perm (hs.perm EdgeArray)]
      exact hconn p hp q hq
    obtain ⟨m, d, h1, h2, h3⟩ := kruskalLoop_spanning hnd _ hE2 hL hconn2 disc
    refine ⟨m, d, ?_, h2, h3⟩
    have : EdgeArray.isEmpty = false := by rw [hEA]; rfl
    simp only [this]
    exact h1

/-- C1 (amended): for every list of pairwise distinct points and every candidate
edge list whose endpoints all occur in the point list and whose graph is
connected, `GetMinimumSpanningTreeV2` returns, the returned edges form a spanning
tree of the candidate graph, and no spanning tree of the candidate graph has a
smaller weight sum. -/
theorem C1_mst_minimum_weight (SortFn : List FEdgeInfo → List FEdgeInfo)
    (hs : IsTArraySort SortFn) (PointArray : List FIntVector) (hnd : PointArray.Nodup)
    (EdgeArray : List FEdgeInfo) (hE : EndpointsIn PointArray EdgeArray)
    (hconn : ConnectsAll PointArray EdgeArray) (disc : List FEdgeInfo) :
    ∃ m d, GetMinimumSpanningTreeV2 SortFn PointArray EdgeArray disc = some (m, d) ∧
      IsSpanningTree PointArray EdgeArray m ∧
      ∀ T, IsSpanningTree PointArray EdgeArray T → TotalWeight m ≤ TotalWeight T := by
  by_cases hne : PointArray = []
  · -- no points: no edges either
    subst hne
    have hEA : EdgeArray = [] := by
      cases EdgeArray with
      | nil => rfl
      | cons e rest => exact absurd (hE e (List.mem_cons_self _ _)).1 (List.not_mem_nil _)
    subst hEA
    refine ⟨[], disc, by simp [GetMinimumSpanningTreeV2], ?_, ?_⟩
    · exact ⟨List.Subperm.refl _, hconn, (acyclic_iff_forestMod _).2 (forestMod_nil _)⟩
    · intro T hT
      have : T = [] := List.subperm_nil.1 hT.1
      rw [this]
  · obtain ⟨m, d, hrun, hm, _⟩ := getMinimumSpanningTreeV2_connected hs hnd hne hE hconn disc
    have hwf := init_length PointArray.length
    have hE2 : EndpointsIn PointArray (SortFn EdgeArray) := endpointsIn_perm (hs.perm _) hE
    have hlink : LinkS m = LinkS EdgeArray := by
      have := kruskalAccepted_span PointArray (SortFn EdgeArray) _ hwf hE2
      rw [dsSetoid_init, bot_sup_eq, bot_sup_eq, ← hm] at this
      rw [this, linkS_perm (hs.perm EdgeArray)]
    refine ⟨m, d, hrun, ⟨?_, ?_, ?_⟩, ?_⟩
    · rw [hm]
      exact (kruskalAccepted_sublist PointArray _ _).subperm.trans (hs.perm EdgeArray).subperm
    · intro p hp q hq
      show (LinkS m) p q
      rw [hlink]
      exact hconn p hp q hq
    · rw [acyclic_iff_forestMod, hm, ← dsSetoid_init PointArray]
      exact kruskalAccepted_forest PointArray _ _ hwf
    · rintro T ⟨hsub, hTconn, hTac⟩
      obtain ⟨T2, hperm, hsubl⟩ := hsub.trans (hs.perm EdgeArray).symm.subperm
      rw [← totalWeight_perm hperm, hm]
      apply kruskalAccepted_minimal PointArray _ _ hwf hE2 (hs.sorted EdgeArray) T2 hsubl
      · rw [dsSetoid_init, ← acyclic_iff_forestMod]
        exact acyclic_perm hperm hTac
      · rw [dsSetoid_init, bot_sup_eq, bot_sup_eq, linkS_perm hperm]
        apply linkS_le
        intro e he
        exact hTconn _ (hE2 e he).1 _ (hE2 e he).2

theorem squarePoints_connected : ConnectsAll SquarePoints SquareEdges := by
  have h1 : Linked SquareEdges ⟨0, 0, 0⟩ ⟨1, 0, 0⟩ :=
    linked_edge ⟨⟨0, 0, 0⟩, ⟨1, 0, 0⟩, 1⟩ (by simp [SquareEdges])
  have h2 : Linked SquareEdges ⟨1, 0, 0⟩ ⟨1, 1, 0⟩ :=
    linked_edge ⟨⟨1, 0, 0⟩, ⟨1, 1, 0⟩, 1⟩ (by simp [SquareEdges])
  have h3 : Linked SquareEdges ⟨1, 1, 0⟩ ⟨0, 1, 0⟩ :=
    linked_edge ⟨⟨1, 1, 0⟩, ⟨0, 1, 0⟩, 1⟩ (by simp [SquareEdges])
  apply connectsAll_of_root ⟨0, 0, 0⟩
  intro p hp
  simp only [SquarePoints, List.mem_cons, List.mem_singleton, List.not_mem_nil, or_false] at hp
  rcases hp with rfl | rfl | rfl | rfl
  · exact Relation.EqvGen.refl _
  · exact h1
  · exact Relation.EqvGen.trans _ _ _ h1 h2
  · exact Relation.EqvGen.trans _ _ _ h1 (Relation.EqvGen.trans _ _ _ h2 h3)

/-- C1, witness: the unit square with all six pairwise edges meets the hypotheses,
and the run returns three edges of weight 1 and no diagonal. -/
theorem C1_witness :
    (∃ m d, GetMinimumSpanningTreeV2 TArraySort SquarePoints SquareEdges [] = some (m, d) ∧
      IsSpanningTree SquarePoints SquareEdges m ∧
      ∀ T, IsSpanningTree SquarePoints SquareEdges T → TotalWeight m ≤ TotalWeight T) ∧
    (GetMinimumSpanningTreeV2 TArraySort SquarePoints SquareEdges []).map Prod.fst =
      some SquareTree :=
  ⟨C1_mst_minimum_weight TArraySort isTArraySort_TArraySort SquarePoints (by decide)
    SquareEdges (by unfold EndpointsIn; decide) squarePoints_connected [], by decide!⟩

/-- C1, counterexample: with the point `(1,0,0)` listed twice, the endpoints of the
single candidate edge occur in the point list and the graph is connected, yet the
run reads past the end of the exhausted edge array and returns nothing. -/
theorem C1_counterexample :
    EndpointsIn RepeatedPoints UnitEdge ∧ ConnectsAll RepeatedPoints UnitEdge ∧
      GetMinimumSpanningTreeV2 TArraySort RepeatedPoints UnitEdge [] = none := by
  refine ⟨by unfold EndpointsIn; decide, ?_, by decide!⟩
  apply connectsAll_of_root ⟨0, 0, 0⟩
  intro p hp
  simp only [RepeatedPoints, List.mem_cons, List.mem_singleton, List.not_mem_nil,
    or_false] at hp
  rcases hp with rfl | rfl | rfl
  · exact Relation.EqvGen.refl _
  · exact linked_edge ⟨⟨0, 0, 0⟩, ⟨1, 0, 0⟩, 1⟩ (by simp [UnitEdge])
  · exact linked_edge ⟨⟨0, 0, 0⟩, ⟨1, 0, 0⟩, 1⟩ (by simp [UnitEdge])

/-- C2 (amended): for N >= 1 pairwise distinct points and a connected candidate
graph whose edge endpoints all occur in the point list, the selection loop shared
by `GetMinimumSpanningTree` and `GetMinimumSpanningTreeV2` returns exactly N-1
edges. -/
theorem C2_mst_has_n_minus_one_edges (SortFn : List FEdgeInfo → List FEdgeInfo)
    (hs : IsTArraySort SortFn) (PointArray : List FIntVector) (hnd : PointArray.Nodup)
    (hN : 1 ≤ PointArray.length) (disc : List FEdgeInfo) :
    (∀ EdgeArray : List FEdgeInfo, EndpointsIn PointArray EdgeArray →
      ConnectsAll PointArray EdgeArray →
      ∃ m d, GetMinimumSpanningTreeV2 SortFn PointArray EdgeArray disc = some (m, d) ∧
        (m.length : Int) = (PointArray.length : Int) - 1) ∧
    (∀ (EdgeLength : FIntVector → FIntVector → ℚ)
      (QuarterEdgeArray : List (FIntVector × FIntVector)),
      EndpointsIn PointArray (ConvertQuarterEdges EdgeLength QuarterEdgeArray) →
      ConnectsAll PointArray (ConvertQuarterEdges EdgeLength QuarterEdgeArray) →
      ∃ m d, GetMinimumSpanningTree SortFn EdgeLength PointArray QuarterEdgeArray disc =
          some (m, d) ∧ (m.length : Int) = (PointArray.length : Int) - 1) := by
  have hne : PointArray ≠ [] := List.length_pos.1 hN
  constructor
  · intro EdgeArray hE hconn
    obtain ⟨m, d, h1, _, h3⟩ := getMinimumSpanningTreeV2_connected hs hnd hne hE hconn disc
    exact ⟨m, d, h1, by omega⟩
  · intro EdgeLength QuarterEdgeArray hE hconn
    rw [getMinimumSpanningTree_eq_V2]
    obtain ⟨m, d, h1, _, h3⟩ := getMinimumSpanningTreeV2_connected hs hnd hne hE hconn disc
    exact ⟨m, d, h1, by omega⟩

/-- C2, witness: the unit square has four distinct points, and both entry points
return three edges on its six pairwise edges. -/
theorem C2_witness :
    (∀ EdgeArray : List FEdgeInfo, EndpointsIn SquarePoints EdgeArray →
      ConnectsAll SquarePoints EdgeArray →
      ∃ m d, GetMinimumSpanningTreeV2 TArraySort SquarePoints EdgeArray [] = some (m, d) ∧
        (m.length : Int) = (SquarePoints.length : Int) - 1) ∧
    (∀ (EdgeLength : FIntVector → FIntVector → ℚ)
      (QuarterEdgeArray : List (FIntVector × FIntVector)),
      EndpointsIn SquarePoints (ConvertQuarterEdges EdgeLength QuarterEdgeArray) →
      ConnectsAll SquarePoints (ConvertQuarterEdges EdgeLength QuarterEdgeArray) →
      ∃ m d, GetMinimumSpanningTree TArraySort EdgeLength SquarePoints QuarterEdgeArray [] =
          some (m, d) ∧ (m.length : Int) = (SquarePoints.length : Int) - 1) :=
  C2_mst_has_n_minus_one_edges TArraySort isTArraySort_TArraySort SquarePoints (by decide)
    (by decide) []

/-- C2, counterexample: three listed points, the first named again at the end, and
the single edge that connects the two distinct points: the loop accepts one edge,
never reaches two, and reads past the end of the exhausted edge array. -/
theorem C2_counterexample :
    1 ≤ RepeatedAnchor.length ∧ EndpointsIn RepeatedAnchor UnitEdgeY ∧
      ConnectsAll RepeatedAnchor UnitEdgeY ∧
      GetMinimumSpanningTreeV2 TArraySort RepeatedAnchor UnitEdgeY [] = none := by
  refine ⟨by decide, by unfold EndpointsIn; decide, ?_, by decide!⟩
  apply connectsAll_of_root ⟨0, 0, 0⟩
  intro p hp
  simp only [RepeatedAnchor, List.mem_cons, List.mem_singleton, List.not_mem_nil,
    or_false] at hp
  rcases hp with rfl | rfl | rfl
  · exact Relation.EqvGen.refl _
  · exact linked_edge ⟨⟨0, 0, 0⟩, ⟨0, 1, 0⟩, 1⟩ (by simp [UnitEdgeY])
  · exact Relation.EqvGen.refl _

/-- C3: for every input on which `GetMinimumSpanningTreeV2` returns, no returned
edge joins two points that the edges accepted before it already connect, and the
returned edges contain no cycle. -/
theorem C3_mst_is_forest (SortFn : List FEdgeInfo → List FEdgeInfo)
    (PointArray : List FIntVector) (EdgeArray disc m d : List FEdgeInfo)
    (hrun : GetMinimumSpanningTreeV2 SortFn PointArray EdgeArray disc = some (m, d)) :
    NoEdgeJoinsConnected m ∧ Acyclic m := by
  have hac : Acyclic m := by
    unfold GetMinimumSpanningTreeV2 at hrun
    by_cases hEA : EdgeArray.isEmpty = true
    · simp only [hEA, if_true, Option.some.injEq, Prod.mk.injEq] at hrun
      rw [← hrun.1, acyclic_iff_forestMod]
      exact forestMod_nil _
    · simp only [hEA] at hrun
      obtain ⟨_, processed, rest, _, hm⟩ := kruskalLoop_some _ _ _ _ _ _ hrun
      rw [List.nil_append] at hm
      rw [acyclic_iff_forestMod, hm, ← dsSetoid_init PointArray]
      exact kruskalAccepted_forest PointArray _ _ (init_length _)
  exact ⟨noEdgeJoinsConnected_of_acyclic hac, hac⟩

/-- C3, witness: the run on the unit square returns, so its tree is a forest. -/
theorem C3_witness :
    GetMinimumSpanningTreeV2 TArraySort SquarePoints SquareEdges [] =
        some (SquareTree, SquareDiscarded) ∧
      NoEdgeJoinsConnected SquareTree ∧ Acyclic SquareTree :=
  ⟨by decide!, C3_mst_is_forest TArraySort SquarePoints SquareEdges [] SquareTree
    SquareDiscarded (by decide!)⟩

end LevelGen

namespace LevelGen

/-! ## Lemmas on the containers -/

theorem tmapFind_add_same {κ ν : Type} [DecidableEq κ] (m : List (κ × ν)) (k : κ) (v : ν) :
    TMapFind (TMapAdd m k v) k = some v := by
  induction m with
  | nil => simp [TMapAdd, TMapFind]
  | cons a rest ih =>
    obtain ⟨k2, v2⟩ := a
    by_cases h : k2 = k
    · simp [TMapAdd, TMapFind, h]
    · simp [TMapAdd, TMapFind, h, ih]

theorem tmapFind_add_other {κ ν : Type} [DecidableEq κ] (m : List (κ × ν)) (k k' : κ) (v : ν)
    (hk : k ≠ k') : TMapFind (TMapAdd m k v) k' = TMapFind m k' := by
  induction m with
  | nil => simp [TMapAdd, TMapFind, hk]
  | cons a rest ih =>
    obtain ⟨k2, v2⟩ := a
    by_cases h : k2 = k
    · subst h
      simp [TMapAdd, TMapFind, hk]
    · by_cases h2 : k2 = k'
      · subst h2
        simp [TMapAdd, TMapFind, h]
      · simp [TMapAdd, TMapFind, h, h2, ih]

theorem tmapFind_mem {κ ν : Type} [DecidableEq κ] (m : List (κ × ν)) (k : κ) (v : ν)
    (h : TMapFind m k = some v) : (k, v) ∈ m := by
  induction m with
  | nil => simp [TMapFind] at h
  | cons a rest ih =>
    obtain ⟨k2, v2⟩ := a
    by_cases h2 : k2 = k
    · simp [TMapFind, h2] at h
      simp [h2, h]
    · simp [TMapFind, h2] at h
      exact List.mem_cons_of_mem _ (ih h)

theorem tmapContains_iff {κ ν : Type} [DecidableEq κ] (m : List (κ × ν)) (k : κ) :
    TMapContains m k = true ↔ k ∈ TMapKeys m := by
  induction m with
  | nil => simp [TMapContains, TMapFind, TMapKeys]
  | cons a rest ih =>
    obtain ⟨k2, v2⟩ := a
    by_cases h2 : k2 = k
    · simp [TMapContains, TMapFind, TMapKeys, h2]
    · have h3 : ¬ k = k2 := fun h => h2 h.symm
      simp only [TMapContains, TMapFind, TMapKeys, h2, if_false, List.map_cons,
        List.mem_cons, h3, false_or] at ih ⊢
      exact ih

theorem tmapContains_false_iff {κ ν : Type} [DecidableEq κ] (m : List (κ × ν)) (k : κ) :
    TMapContains m k = false ↔ k ∉ TMapKeys m := by
  rw [← tmapContains_iff]
  cases TMapContains m k <;> simp

theorem tmapAdd_absent {κ ν : Type} [DecidableEq κ] (m : List (κ × ν)) (k : κ) (v : ν)
    (h : k ∉ TMapKeys m) : TMapAdd m k v = m ++ [(k, v)] := by
  induction m with
  | nil => simp [TMapAdd]
  | cons a rest ih =>
    obtain ⟨k2, v2⟩ := a
    simp only [TMapKeys, List.map_cons, List.mem_cons, not_or] at h
    have h2 : ¬ k2 = k := fun e => h.1 e.symm
    simp only [TMapAdd, h2, if_false, List.cons_append, List.cons.injEq, true_and]
    exact ih h.2

theorem tmapAdd_append_left {κ ν : Type} [DecidableEq κ] (old A : List (κ × ν)) (k : κ) (v : ν)
    (h : k ∉ TMapKeys old) : TMapAdd (old ++ A) k v = old ++ TMapAdd A k v := by
  induction old with
  | nil => simp
  | cons a rest ih =>
    obtain ⟨k2, v2⟩ := a
    simp only [TMapKeys, List.map_cons, List.mem_cons, not_or] at h
    have h2 : ¬ k2 = k := fun e => h.1 e.symm
    simp only [List.cons_append, TMapAdd, h2, if_false, List.cons.injEq, true_and]
    exact ih h.2

theorem mem_tmapAdd {κ ν : Type} [DecidableEq κ] (m : List (κ × ν)) (k : κ) (v : ν)
    (e : κ × ν) (h : e ∈ TMapAdd m k v) : e ∈ m ∨ e = (k, v) := by
  induction m with
  | nil => simp [TMapAdd] at h; exact Or.inr h
  | cons a rest ih =>
    obtain ⟨k2, v2⟩ := a
    by_cases h2 : k2 = k
    · simp only [TMapAdd, h2, if_true, List.mem_cons] at h
      rcases h with h | h
      · exact Or.inr h
      · exact Or.inl (List.mem_cons_of_mem _ h)
    · simp only [TMapAdd, h2, if_false, List.mem_cons] at h
      rcases h with h | h
      · exact Or.inl (h ▸ List.mem_cons_self _ _)
      · rcases ih h with h3 | h3
        · exact Or.inl (List.mem_cons_of_mem _ h3)
        · exact Or.inr h3

theorem tmapKeys_add {κ ν : Type} [DecidableEq κ] (m : List (κ × ν)) (k k' : κ) (v : ν) :
    k' ∈ TMapKeys (TMapAdd m k v) ↔ k' ∈ TMapKeys m ∨ k' = k := by
  rw [← tmapContains_iff, ← tmapContains_iff]
  by_cases h : k = k'
  · subst h
    simp [TMapContains, tmapFind_add_same]
  · have h2 : ¬ k' = k := fun e => h e.symm
    simp [TMapContains, tmapFind_add_other m k k' v h, h2]

theorem tmapAdd_cons_ne {κ ν : Type} [DecidableEq κ] (a : κ × ν) (T : List (κ × ν)) (k : κ)
    (v : ν) (h : a.1 ≠ k) : TMapAdd (a :: T) k v = a :: TMapAdd T k v := by
  obtain ⟨k2, v2⟩ := a
  simp only [ne_eq] at h
  simp [TMapAdd, h]

theorem tmapAdd_keys_of_mem {κ ν : Type} [DecidableEq κ] (m : List (κ × ν)) (k : κ) (v : ν)
    (h : k ∈ TMapKeys m) : TMapKeys (TMapAdd m k v) = TMapKeys m := by
  induction m with
  | nil => simp [TMapKeys] at h
  | cons a rest ih =>
    obtain ⟨k2, v2⟩ := a
    by_cases h2 : k2 = k
    · simp [TMapAdd, TMapKeys, h2]
    · simp only [TMapKeys, List.map_cons, List.mem_cons] at h
      rcases h with h | h
      · exact absurd h.symm h2
      · simp only [TMapAdd, h2, if_false, TMapKeys, List.map_cons, List.cons.injEq, true_and]
        exact ih h

theorem fintVector_add_eq_self (a P : FIntVector) (h : a + P = P) : a = ⟨0, 0, 0⟩ := by
  obtain ⟨x, y, z⟩ := a
  obtain ⟨px, py, pz⟩ := P
  have h2 : (⟨x + px, y + py, z + pz⟩ : FIntVector) = ⟨px, py, pz⟩ := h
  simp only [FIntVector.mk.injEq] at h2 ⊢
  omega

theorem rotate_eq_zero (c : FIntVector) (R : FRotator)
    (h : RotateIntVectorCoordinatefromOrigin c R = ⟨0, 0, 0⟩) : c = ⟨0, 0, 0⟩ := by
  obtain ⟨x, y, z⟩ := c
  unfold RotateIntVectorCoordinatefromOrigin at h
  simp only at h
  split_ifs at h <;> simp only [FIntVector.mk.injEq] at h ⊢ <;> omega

theorem rotate_zero (R : FRotator) :
    RotateIntVectorCoordinatefromOrigin ⟨0, 0, 0⟩ R = ⟨0, 0, 0⟩ := by
  unfold RotateIntVectorCoordinatefromOrigin
  simp only
  split_ifs <;> simp

theorem fintVector_zero_add (P : FIntVector) : (⟨0, 0, 0⟩ : FIntVector) + P = P := by
  obtain ⟨px, py, pz⟩ := P
  show (⟨0 + px, 0 + py, 0 + pz⟩ : FIntVector) = ⟨px, py, pz⟩
  simp

end LevelGen

namespace LevelGen

/-! ## The room placer -/

theorem selectByChance_mem {α : Type} (Chance : α → ℚ) (r : ℚ) (Rows : List α) :
    ∀ (Minimum : ℚ) (Row : α), SelectByChance Chance r Minimum Rows = some Row → Row ∈ Rows := by
  induction Rows with
  | nil => intro m Row h; simp [SelectByChance] at h
  | cons a rest ih =>
    intro m Row h
    unfold SelectByChance at h
    split_ifs at h with hc
    · simp only [Option.some.injEq] at h
      exact h ▸ List.mem_cons_self _ _
    · exact List.mem_cons_of_mem _ (ih _ _ h)

theorem getRandomRoomFromRoomList_mem (E : Engine) (RoomList : DataTable FTileGenerationData)
    (Stream : FRandomStream) (Row : FTileGenerationData)
    (h : (GetRandomRoomFromRoomList E RoomList Stream).1 = some Row) :
    ∃ Rows, RoomList = some Rows ∧ Row ∈ Rows := by
  unfold GetRandomRoomFromRoomList at h
  cases RoomList with
  | none => simp at h
  | some Rows => exact ⟨Rows, rfl, selectByChance_mem _ _ _ _ _ h⟩

theorem emptyCoordinates_absent (S : FLevelGenerationSettings)
    (Tiles : List (FIntVector × FTileData)) (c : FIntVector)
    (h : c ∈ EmptyCoordinates S Tiles) : TMapContains Tiles c = false := by
  unfold EmptyCoordinates at h
  simp only [List.mem_flatMap, List.mem_range] at h
  obtain ⟨Z, _, Y, _, X, _, h⟩ := h
  split_ifs at h with hc
  · simp only [List.mem_singleton] at h
    subst h
    simpa using hc
  · simp at h

theorem getRandomEmptyCoordinate_absent (E : Engine) (S : FLevelGenerationSettings)
    (Stream Stream2 : FRandomStream) (Tiles : List (FIntVector × FTileData)) (c : FIntVector)
    (h : GetRandomEmptyCoordinate E S Stream Tiles = some (c, true, Stream2)) :
    TMapContains Tiles c = false := by
  unfold GetRandomEmptyCoordinate at h
  simp only at h
  split_ifs at h with h1 h2
  · cases hg : (EmptyCoordinates S Tiles)[(RandomIntegerInRangeFromStream E 0
        (((EmptyCoordinates S Tiles).length : Int) - 1) Stream).1.toNat]? with
    | none => simp [hg] at h
    | some d =>
      simp only [hg, Option.some.injEq, Prod.mk.injEq] at h
      have hmem := List.getElem?_mem hg
      rw [h.1] at hmem
      exact emptyCoordinates_absent S Tiles c hmem
  · simp at h

theorem roomPlacementIsValid_cells (S : FLevelGenerationSettings) (D : FGeneratedLevelData)
    (AP : List (FIntVector × FTileAccessData)) (P : FIntVector) (R : FRotator)
    (TS : List FIntVector) (h : RoomPlacementIsValid S D AP P R TS = some true) :
    ∀ c ∈ TS, RoomCellIsValid S D.LevelTileData P R TS c = true := by
  unfold RoomPlacementIsValid at h
  split_ifs at h
  · simp at h
  · simp only [Option.some.injEq, List.all_eq_true] at h
    exact h

theorem roomCellIsValid_absent (S : FLevelGenerationSettings)
    (Tiles : List (FIntVector × FTileData)) (P : FIntVector) (R : FRotator)
    (TS : List FIntVector) (c : FIntVector) (h : RoomCellIsValid S Tiles P R TS c = true) :
    TMapContains Tiles (RotateIntVectorCoordinatefromOrigin c R + P) = false := by
  unfold RoomCellIsValid at h
  simp only at h
  split_ifs at h with h1 h2 h3
  simpa using h3

/-- The fold of `AddRoomToLevel` over the footprint, started on tiles that end with
the anchor and further entries: the old tiles and the anchor stay in place. -/
theorem addSections_spec (old : List (FIntVector × FTileData)) (TD : FTileData) (R : FRotator)
    (P : FIntVector) (a : FIntVector × FTileData) (ha : a.1 = P) :
    ∀ (L : List FIntVector) (A : List (FIntVector × FTileData)),
      (∀ c ∈ L, RotateIntVectorCoordinatefromOrigin c R + P ∉ TMapKeys old) →
      ∃ A2, L.foldl (fun Tiles CurrentCoordinate =>
          if CurrentCoordinate = ⟨0, 0, 0⟩ then Tiles
          else TMapAdd Tiles (RotateIntVectorCoordinatefromOrigin CurrentCoordinate R + P)
            (RoomSectionTile TD R P CurrentCoordinate)) (old ++ a :: A) = old ++ a :: A2 ∧
        (∀ k ∈ TMapKeys A2, k ∈ TMapKeys A ∨
          ∃ c ∈ L, k = RotateIntVectorCoordinatefromOrigin c R + P) ∧
        (∀ k ∈ TMapKeys A, k ∈ TMapKeys A2) ∧
        (∀ c ∈ L, c ≠ ⟨0, 0, 0⟩ →
          RotateIntVectorCoordinatefromOrigin c R + P ∈ TMapKeys A2) := by
  intro L
  induction L with
  | nil =>
    intro A _
    exact ⟨A, rfl, fun k hk => Or.inl hk, fun k hk => hk, fun c hc => by simp at hc⟩
  | cons c L ih =>
    intro A hL
    by_cases hc : c = ⟨0, 0, 0⟩
    · obtain ⟨A2, h1, h2, h3, h4⟩ := ih A (fun d hd => hL d (List.mem_cons_of_mem _ hd))
      refine ⟨A2, ?_, ?_, h3, ?_⟩
      · simp only [List.foldl_cons, hc, if_true]
        exact h1
      · intro k hk
        rcases h2 k hk with h | ⟨d, hd, h⟩
        · exact Or.inl h
        · exact Or.inr ⟨d, List.mem_cons_of_mem _ hd, h⟩
      · intro d hd hd0
        rcases List.mem_cons.1 hd with h | h
        · exact absurd (h ▸ hc) hd0
        · exact h4 d h hd0
    · have hk : RotateIntVectorCoordinatefromOrigin c R + P ∉ TMapKeys old :=
        hL c (List.mem_cons_self _ _)
      have hne : a.1 ≠ RotateIntVectorCoordinatefromOrigin c R + P := by
        intro e
        rw [ha] at e
        exact hc (rotate_eq_zero c R (fintVector_add_eq_self _ _ e.symm))
      obtain ⟨A2, h1, h2, h3, h4⟩ :=
        ih (TMapAdd A (RotateIntVectorCoordinatefromOrigin c R + P)
          (RoomSectionTile TD R P c)) (fun d hd => hL d (List.mem_cons_of_mem _ hd))
      refine ⟨A2, ?_, ?_, ?_, ?_⟩
      · simp only [List.foldl_cons, hc, if_false]
        rw [tmapAdd_append_left _ _ _ _ hk, tmapAdd_cons_ne _ _ _ _ hne]
        exact h1
      · intro k hk2
        rcases h2 k hk2 with h | ⟨d, hd, h⟩
        · rcases (tmapKeys_add _ _ _ _).1 h with h | h
          · exact Or.inl h
          · exact Or.inr ⟨c, List.mem_cons_self _ _, h⟩
        · exact Or.inr ⟨d, List.mem_cons_of_mem _ hd, h⟩
      · intro k hk2
        exact h3 k ((tmapKeys_add _ _ _ _).2 (Or.inl hk2))
      · intro d hd hd0
        rcases List.mem_cons.1 hd with h | h
        · subst h
          exact h3 _ ((tmapKeys_add _ _ _ _).2 (Or.inr rfl))
        · exact h4 d h hd0

theorem addRoomToLevel_spec (old : List (FIntVector × FTileData)) (Row : FTileGenerationData)
    (R : FRotator) (P : FIntVector) (hP : P ∉ TMapKeys old)
    (hcells : ∀ c ∈ Row.TileData.TileSize,
      RotateIntVectorCoordinatefromOrigin c R + P ∉ TMapKeys old) :
    AddsRoom old (AddRoomToLevel old Row R P) Row.TileData.TileSize := by
  unfold AddRoomToLevel
  simp only
  rw [tmapAdd_absent old P _ hP]
  split_ifs with hlen
  · obtain ⟨A2, h1, h2, _, h4⟩ := addSections_spec old _ R P (P, _) rfl
      Row.TileData.TileSize [] hcells
    refine ⟨_, A2, h1, rfl, hP, ?_, ?_, ?_⟩
    · intro k hk
      rcases h2 k hk with h | ⟨c, hc, h⟩
      · simp [TMapKeys] at h
      · exact h ▸ hcells c hc
    · intro x hx
      simp only [FootprintOf, List.mem_map] at hx
      obtain ⟨c, hc, rfl⟩ := hx
      exact hcells c hc
    · intro _ x hx
      simp only [FootprintOf, List.mem_map] at hx
      obtain ⟨c, hc, rfl⟩ := hx
      by_cases hc0 : c = ⟨0, 0, 0⟩
      · subst hc0
        rw [rotate_zero, fintVector_zero_add]
        simp [TMapKeys]
      · have := h4 c hc hc0
        simp only [TMapKeys, List.map_cons, List.mem_cons]
        exact Or.inr this
  · refine ⟨_, [], rfl, rfl, hP, by simp [TMapKeys], ?_, ?_⟩
    · intro x hx
      simp only [FootprintOf, List.mem_map] at hx
      obtain ⟨c, hc, rfl⟩ := hx
      exact hcells c hc
    · intro h0 x hx
      simp only [FootprintOf, List.mem_map] at hx
      obtain ⟨c, hc, rfl⟩ := hx
      have hc0 : c = ⟨0, 0, 0⟩ := by
        simp only [gt_iff_lt, not_lt] at hlen
        match hTS : Row.TileData.TileSize, hlen, hc, h0 with
        | [], _, hc, _ => simp at hc
        | [d], _, hc, h0 =>
          simp only [List.mem_singleton] at hc h0
          rw [hc, ← h0]
        | _ :: _ :: _, hlen, _, _ => simp at hlen
      subst hc0
      rw [rotate_zero, fintVector_zero_add]
      simp [TMapKeys]

theorem placeRoomLoop_spec (E : Engine) (S : FLevelGenerationSettings)
    (RoomList : DataTable FTileGenerationData) :
    ∀ (Steps : Nat) (FailCounter : Int) (D D2 : FGeneratedLevelData),
      PlaceRoomLoop E S RoomList Steps FailCounter D = Outcome.returns D2 →
      D2.LevelTileData = D.LevelTileData ∨
        ∃ Rows Row, RoomList = some Rows ∧ Row ∈ Rows ∧
          AddsRoom D.LevelTileData D2.LevelTileData Row.TileData.TileSize := by
  intro Steps
  induction Steps with
  | zero => intro F D D2 h; simp [PlaceRoomLoop] at h
  | succ n ih =>
    intro F D D2 h
    unfold PlaceRoomLoop at h
    simp only at h
    split at h
    · have r := ih F _ D2 h
      exact r
    · rename_i Row hsel
      obtain ⟨Rows, hRows, hRow⟩ := getRandomRoomFromRoomList_mem E RoomList _ Row hsel
      split at h
      · simp at h
      · rename_i P bFound Stream hloc
        split at h
        · simp at h
        · split_ifs at h with hf
          · simp only [Outcome.returns.injEq] at h
            subst h
            exact Or.inl rfl
          · have r := ih (F + 1) _ D2 h
            exact r
        · rename_i hvalid
          simp only [Outcome.returns.injEq] at h
          subst h
          right
          refine ⟨Rows, Row, hRows, hRow, ?_⟩
          generalize (if Row.bTileHasSetRotation = true then
              (Row.TileSetRotation, (GetRandomRoomFromRoomList E RoomList D.LevelStream).2)
            else GetRandomRoomRotation E (GetRandomRoomFromRoomList E RoomList D.LevelStream).2) =
            Rot at hloc hvalid ⊢
          cases bFound with
          | false => simp at hvalid
          | true =>
            simp only [Bool.not_true, Bool.false_eq_true, if_false] at hvalid
            split_ifs at hloc with hset
            · simp at hloc
            · have hP := getRandomEmptyCoordinate_absent E S _ _ _ _ hloc
              have hcells := roomPlacementIsValid_cells _ _ _ _ _ _ hvalid
              apply addRoomToLevel_spec
              · exact (tmapContains_false_iff _ _).1 hP
              · intro c hc
                exact (tmapContains_false_iff _ _).1 (roomCellIsValid_absent _ _ _ _ _ _ (hcells c hc))

theorem placedRoom_same (D D1 : FGeneratedLevelData) (h : D1.LevelTileData = D.LevelTileData) :
    PlacedRoom D D1 = [] := by
  simp [PlacedRoom, h]

theorem placedRoom_added (D D1 : FGeneratedLevelData) (anchor : FIntVector × FTileData)
    (sections : List (FIntVector × FTileData))
    (h : D1.LevelTileData = D.LevelTileData ++ anchor :: sections) :
    PlacedRoom D D1 = [anchor] := by
  simp [PlacedRoom, h]

theorem placeRooms_spec (E : Engine) (Steps : Nat) (S : FLevelGenerationSettings) :
    ∀ (RoomLists : List (DataTable FTileGenerationData)) (D Final : FGeneratedLevelData)
      (Rooms : List (FIntVector × FTileData)),
      (∀ RoomList ∈ RoomLists, FootprintsHoldCentre RoomList) →
      PlaceRooms E Steps S RoomLists D = Outcome.returns (Final, Rooms) →
      Rooms.Pairwise (fun a b => ∀ x ∈ FootprintOf a, x ∉ FootprintOf b) ∧
        ∀ room ∈ Rooms, ∀ x ∈ FootprintOf room, x ∉ TMapKeys D.LevelTileData := by
  intro RoomLists
  induction RoomLists with
  | nil =>
    intro D Final Rooms _ h
    simp only [PlaceRooms, Outcome.returns.injEq, Prod.mk.injEq] at h
    rw [← h.2]
    simp
  | cons RoomList rest ih =>
    intro D Final Rooms hc h
    unfold PlaceRooms at h
    split at h
    · rename_i D1 hstep
      split at h
      · rename_i Final2 Rooms2 hrest
        simp only [Outcome.returns.injEq, Prod.mk.injEq] at h
        obtain ⟨ih1, ih2⟩ := ih D1 Final2 Rooms2
          (fun L hL => hc L (List.mem_cons_of_mem _ hL)) hrest
        rw [← h.2]
        rcases placeRoomLoop_spec E S RoomList Steps 0 D D1 hstep with hsame | hadd
        · rw [placedRoom_same D D1 hsame, List.nil_append]
          refine ⟨ih1, ?_⟩
          intro room hroom x hx
          rw [← hsame]
          exact ih2 room hroom x hx
        · obtain ⟨Rows, Row, hRows, hRow, anchor, sections, hnew, hTS, _, _, hfoot, hrec⟩ := hadd
          rw [placedRoom_added D D1 anchor sections hnew, List.singleton_append]
          have hcentre : (⟨0, 0, 0⟩ : FIntVector) ∈ Row.TileData.TileSize :=
            hc RoomList (List.mem_cons_self _ _) Rows hRows Row hRow
          refine ⟨List.pairwise_cons.2 ⟨?_, ih1⟩, ?_⟩
          · intro b hb x hx hxb
            have h1 : x ∈ TMapKeys D1.LevelTileData := by
              rw [hnew]
              simp only [TMapKeys, List.map_append, List.mem_append]
              exact Or.inr (hrec hcentre x hx)
            exact ih2 b hb x hxb h1
          · intro room hroom x hx
            rcases List.mem_cons.1 hroom with h1 | h1
            · subst h1
              exact hfoot x hx
            · intro hxD
              apply ih2 room h1 x hx
              rw [hnew]
              simp only [TMapKeys, List.map_append, List.mem_append]
              exact Or.inl hxD
      · simp at h
      · simp at h
    · simp at h
    · simp at h

theorem outcome_value_eq {α : Type} (o : Outcome α) (v : α) (h : o.value = some v) :
    o = Outcome.returns v := by
  cases o with
  | returns w => simp only [Outcome.value, Option.some.injEq] at h; rw [h]
  | aborts => simp [Outcome.value] at h
  | unfinished => simp [Outcome.value] at h

/-- C4: a call of `PlaceRoomInGrid` that returns leaves every tile it found in place
and appends tiles only at coordinates that held none; and after any sequence of
calls, from any layout, the rotated and translated footprints of two placed rooms
share no coordinate.  The room lists are those of the data model, in which every
footprint contains the offset (0,0,0), the anchor of the tile; the loop over the
sections of a room (line 561) presumes it. -/
theorem C4_placement_keeps_tiles_and_footprints_apart (E : Engine) (Steps : Nat)
    (S : FLevelGenerationSettings) :
    (∀ (RoomList : DataTable FTileGenerationData) (D : FGeneratedLevelData)
        (Tiles : List (FIntVector × FTileData)),
        TilesAfter (PlaceRoomInGrid E Steps S D RoomList) = some Tiles →
        ∃ Added, Tiles = D.LevelTileData ++ Added ∧
          ∀ k ∈ TMapKeys Added, TMapContains D.LevelTileData k = false) ∧
    (∀ (RoomLists : List (DataTable FTileGenerationData)) (D : FGeneratedLevelData)
        (Rooms : List (FIntVector × FTileData)),
        (∀ RoomList ∈ RoomLists, FootprintsHoldCentre RoomList) →
        RoomsPlaced (PlaceRooms E Steps S RoomLists D) = some Rooms →
        Rooms.Pairwise (fun a b => ∀ x ∈ FootprintOf a, x ∉ FootprintOf b)) := by
  constructor
  · intro RoomList D Tiles h
    simp only [TilesAfter, Option.map_eq_some'] at h
    obtain ⟨D1, hv, hT⟩ := h
    have hrun := outcome_value_eq _ _ hv
    rcases placeRoomLoop_spec E S RoomList Steps 0 D D1 hrun with hsame | hadd
    · exact ⟨[], by rw [← hT, hsame]; simp, by simp [TMapKeys]⟩
    · obtain ⟨_, _, _, _, anchor, sections, hnew, _, ha, hs, _, _⟩ := hadd
      refine ⟨anchor :: sections, by rw [← hT, hnew], ?_⟩
      intro k hk
      rw [tmapContains_false_iff]
      simp only [TMapKeys, List.map_cons, List.mem_cons] at hk
      rcases hk with hk | hk
      · exact hk ▸ ha
      · exact hs k hk
  · intro RoomLists D Rooms hc h
    simp only [RoomsPlaced, Option.map_eq_some'] at h
    obtain ⟨⟨Final, Rooms2⟩, hv, hR⟩ := h
    simp only at hR
    subst hR
    exact (placeRooms_spec E Steps S RoomLists D Final Rooms2 hc (outcome_value_eq _ _ hv)).1

theorem C4_witness :
    TMapKeys CentredTiles = [⟨0, 0, 0⟩, ⟨1, 0, 0⟩] ∧
    (∃ Added, CentredTiles = (LevelOf []).LevelTileData ++ Added ∧
      ∀ k ∈ TMapKeys Added, TMapContains (LevelOf []).LevelTileData k = false) ∧
    CentredRooms.map FootprintOf = [[⟨0, 0, 0⟩, ⟨1, 0, 0⟩], [⟨2, 0, 0⟩]] ∧
    CentredRooms.Pairwise (fun a b => ∀ x ∈ FootprintOf a, x ∉ FootprintOf b) :=
  ⟨by decide!,
   (C4_placement_keeps_tiles_and_footprints_apart (ScenarioEngine []) 10
      (PlainSettings ⟨4, 2, 2⟩)).1 (SingleRowList (RowWithFootprint [⟨0, 0, 0⟩, ⟨1, 0, 0⟩]))
      (LevelOf []) CentredTiles (by decide!),
   by decide!,
   (C4_placement_keeps_tiles_and_footprints_apart (ScenarioEngine []) 10
      (PlainSettings ⟨4, 2, 2⟩)).2 CentredRoomLists (LevelOf []) CentredRooms
      (by
        intro RoomList hL Rows hRows Row hRow
        simp only [CentredRoomLists, SingleRowList, List.mem_cons, List.mem_singleton,
          List.not_mem_nil, or_false] at hL
        rcases hL with h | h
        · rw [h] at hRows
          simp only [Option.some.injEq] at hRows
          rw [← hRows] at hRow
          simp only [List.mem_singleton] at hRow
          rw [hRow]
          simp [RowWithFootprint]
        · rw [h] at hRows
          simp only [Option.some.injEq] at hRows
          rw [← hRows] at hRow
          simp only [List.mem_singleton] at hRow
          rw [hRow]
          simp [RowWithFootprint])
      (by decide!)⟩

/-- Remark: the anchor offset of the data model matters.  On the empty level of a
grid of 4 by 2 by 2, a row whose only footprint cell is the offset (1,0,0), which no
tile of the data model has, is placed at the anchor (0,0,0), and a room of one cell
at the anchor (1,0,0): both footprints are the cell (1,0,0). -/
theorem offCentre_footprints_overlap :
    (RoomsPlaced (PlaceRooms (ScenarioEngine []) 10 (PlainSettings ⟨4, 2, 2⟩)
      OffCentreRoomLists (LevelOf []))).map
        (List.map (fun room => (room.1, FootprintOf room))) =
      some [(⟨0, 0, 0⟩, [⟨1, 0, 0⟩]), (⟨1, 0, 0⟩, [⟨1, 0, 0⟩])] := by
  decide!

end LevelGen

namespace LevelGen

/-! ## The checks of `RoomPlacementIsValid` -/

theorem fintVector_divide_one (c : FIntVector) : c.divide 1 = c := by
  obtain ⟨x, y, z⟩ := c
  simp [FIntVector.divide]

theorem roomCellIsValid_inGrid (S : FLevelGenerationSettings)
    (Tiles : List (FIntVector × FTileData)) (P : FIntVector) (R : FRotator)
    (TS : List FIntVector) (c : FIntVector) (h : RoomCellIsValid S Tiles P R TS c = true) :
    IsCoordinateInGridSpace ((RotateIntVectorCoordinatefromOrigin c R + P).divide S.TileSize)
      S.GridSize = true := by
  unfold RoomCellIsValid at h
  simp only at h
  split_ifs at h with h1 h2 h3
  simpa using h1

/-- C5: `RoomPlacementIsValid` hands the footprint cell divided by the tile size
of the settings to the grid check.  With a tile size of 1 every cell of an accepted
placement is a valid grid coordinate; with the default tile size of 1000 and a grid
of 2 by 2 by 2 the footprint (0,0,0), (1,0,0) is accepted at the coordinate (1,0,0)
although its cell (2,0,0) is no valid grid coordinate. -/
theorem C5_grid_check_divides_by_tile_size :
    (∀ (S : FLevelGenerationSettings) (D : FGeneratedLevelData)
        (AP : List (FIntVector × FTileAccessData)) (P : FIntVector) (R : FRotator)
        (TS : List FIntVector),
        S.TileSize = 1 → RoomPlacementIsValid S D AP P R TS = some true →
        ∀ c ∈ TS, IsCoordinateInGridSpace (RotateIntVectorCoordinatefromOrigin c R + P)
          S.GridSize = true) ∧
    (RoomPlacementIsValid (DefaultTileSizeSettings ⟨2, 2, 2⟩) (LevelOf [])
        [(⟨0, 0, 0⟩, ⟨HorizontalDirections, []⟩)] ⟨1, 0, 0⟩ ⟨0, 0, 0⟩
        [⟨0, 0, 0⟩, ⟨1, 0, 0⟩] = some true ∧
      RotateIntVectorCoordinatefromOrigin ⟨1, 0, 0⟩ ⟨0, 0, 0⟩ + ⟨1, 0, 0⟩ =
        (⟨2, 0, 0⟩ : FIntVector) ∧
      IsCoordinateInGridSpace ⟨2, 0, 0⟩ (DefaultTileSizeSettings ⟨2, 2, 2⟩).GridSize = false) := by
  refine ⟨?_, by decide!, by decide!, by decide!⟩
  intro S D AP P R TS hS h c hc
  have h1 := roomCellIsValid_inGrid _ _ _ _ _ _ (roomPlacementIsValid_cells _ _ _ _ _ _ h c hc)
  rw [hS, fintVector_divide_one] at h1
  exact h1

theorem C5_witness :
    RoomPlacementIsValid (PlainSettings ⟨2, 2, 2⟩) (LevelOf [])
        [(⟨0, 0, 0⟩, ⟨HorizontalDirections, []⟩)] ⟨0, 0, 0⟩ ⟨0, 0, 0⟩
        [⟨0, 0, 0⟩, ⟨1, 0, 0⟩] = some true ∧
      ∀ c ∈ [(⟨0, 0, 0⟩ : FIntVector), ⟨1, 0, 0⟩],
        IsCoordinateInGridSpace (RotateIntVectorCoordinatefromOrigin c ⟨0, 0, 0⟩ + ⟨0, 0, 0⟩)
          (PlainSettings ⟨2, 2, 2⟩).GridSize = true :=
  ⟨by decide!,
   C5_grid_check_divides_by_tile_size.1 (PlainSettings ⟨2, 2, 2⟩) (LevelOf [])
     [(⟨0, 0, 0⟩, ⟨HorizontalDirections, []⟩)] ⟨0, 0, 0⟩ ⟨0, 0, 0⟩ [⟨0, 0, 0⟩, ⟨1, 0, 0⟩]
     (by decide!) (by decide!)⟩

/-- C6: the checklist of `IsRoomBufferEmpty` has no entry (0,0,1), and for a buffer
of 2 only the doubled entries are checked.  With a buffer of 1 a room of one cell is
accepted at (1,1,1) while a tile stands at (1,1,2), at Chebyshev distance 1, though
it is rejected when the tile stands at (1,1,0); with a buffer of 2 it is accepted at
(1,1,0) while a tile stands at (3,2,0), at Chebyshev distance 2. -/
theorem C6_buffer_misses_cells :
    (RoomPlacementIsValid (BufferSettings ⟨3, 3, 3⟩ 1)
        (LevelOf [(⟨1, 1, 2⟩, SingleCellRoom [])])
        [(⟨0, 0, 0⟩, ⟨HorizontalDirections, []⟩)] ⟨1, 1, 1⟩ ⟨0, 0, 0⟩ [⟨0, 0, 0⟩] = some true ∧
      ChebyshevDistance ⟨1, 1, 2⟩
        (RotateIntVectorCoordinatefromOrigin ⟨0, 0, 0⟩ ⟨0, 0, 0⟩ + ⟨1, 1, 1⟩) = 1 ∧
      (⟨0, 0, 1⟩ : FIntVector) ∉ CoordinateChecklist ∧
      (⟨0, 0, -1⟩ : FIntVector) ∈ CoordinateChecklist) ∧
    RoomPlacementIsValid (BufferSettings ⟨3, 3, 3⟩ 1)
        (LevelOf [(⟨1, 1, 0⟩, SingleCellRoom [])])
        [(⟨0, 0, 0⟩, ⟨HorizontalDirections, []⟩)] ⟨1, 1, 1⟩ ⟨0, 0, 0⟩ [⟨0, 0, 0⟩] = some false ∧
    (RoomPlacementIsValid (BufferSettings ⟨5, 5, 1⟩ 2)
        (LevelOf [(⟨3, 2, 0⟩, SingleCellRoom [])])
        [(⟨0, 0, 0⟩, ⟨HorizontalDirections, []⟩)] ⟨1, 1, 0⟩ ⟨0, 0, 0⟩ [⟨0, 0, 0⟩] = some true ∧
      ChebyshevDistance ⟨3, 2, 0⟩
        (RotateIntVectorCoordinatefromOrigin ⟨0, 0, 0⟩ ⟨0, 0, 0⟩ + ⟨1, 1, 0⟩) = 2) := by
  refine ⟨⟨by decide!, by decide!, by decide!, by decide!⟩, by decide!, by decide!, by decide!⟩

end LevelGen

namespace LevelGen

/-! ## The search keeps chains of corridor cells -/

theorem inaccessible_fold_iff (c : FIntVector) :
    ∀ (Tiles : List (FIntVector × FTileData)) (Acc : List FIntVector),
      c ∈ Tiles.foldl (fun Nodes Entry =>
        match Entry.2.TileType with
        | ETileType.Room_Basic => TSetAdd Nodes Entry.1
        | ETileType.Room_Key => TSetAdd Nodes Entry.1
        | ETileType.Room_Special => TSetAdd Nodes Entry.1
        | ETileType.Room_Section => TSetAdd Nodes Entry.1
        | _ => Nodes) Acc ↔ c ∈ Acc ∨ HoldsRoom Tiles c := by
  intro Tiles
  induction Tiles with
  | nil => intro Acc; simp [HoldsRoom]
  | cons a rest ih =>
    intro Acc
    rw [List.foldl_cons, ih]
    have hadd : ∀ x : FIntVector, c ∈ TSetAdd Acc x ↔ c ∈ Acc ∨ c = x := by
      intro x
      unfold TSetAdd
      split_ifs with h
      · constructor
        · exact fun h1 => Or.inl h1
        · rintro (h1 | h1)
          · exact h1
          · exact h1 ▸ h
      · simp
    have hholds : HoldsRoom (a :: rest) c ↔
        (a.1 = c ∧ a.2.TileType.IsRoom = true) ∨ HoldsRoom rest c := by
      simp [HoldsRoom]
    rw [hholds]
    cases hT : a.2.TileType <;> simp only [hadd, ETileType.IsRoom] <;> constructor <;>
      intro h <;> simp_all <;> tauto

theorem mem_inaccessibleNodesOf (Tiles : List (FIntVector × FTileData)) (c : FIntVector) :
    c ∈ InaccessibleNodesOf Tiles ↔ HoldsRoom Tiles c := by
  unfold InaccessibleNodesOf
  rw [inaccessible_fold_iff]
  simp

theorem horizontal_direction (d : EDirections) (v : FIntVector) (c : FIntVector)
    (hd : d ∈ [EDirections.North, EDirections.East, EDirections.South, EDirections.West])
    (hv : TMapFind DirectionCoordinates d = some v) : HorizontalNeighbours c (c + v) := by
  obtain ⟨x, y, z⟩ := c
  simp only [List.mem_cons, List.mem_singleton, List.not_mem_nil, or_false] at hd
  rcases hd with h | h | h | h <;> subst h <;>
    simp only [DirectionCoordinates, TMapFind, reduceCtorEq, if_false, if_true,
      Option.some.injEq] at hv <;> subst hv <;>
    show HorizontalNeighbours ⟨x, y, z⟩ ⟨_, _, _⟩ <;>
    simp [HorizontalNeighbours]

theorem horizontalNeighbours_ne (a b : FIntVector) (h : HorizontalNeighbours a b) : a ≠ b := by
  intro e
  subst e
  simp [HorizontalNeighbours] at h

theorem newPlainNode_fields (E : Engine) (C : SearchContext) (c : FIntVector)
    (n : FAdvancedPathNode) (x : FIntVector) :
    (NewPlainNode E C c n x).SpecialPathType = ESpecialPathType.None ∧
      (NewPlainNode E C c n x).ParentNode = x ∧
      (NewPlainNode E C c n x).PreviousPath = TMapAdd n.PreviousPath c n := by
  simp [NewPlainNode, UpdateAdvancedNode, UpdateNodeFields, UpdateNodeCosts,
    ESpecialPathType.IsStructure]

theorem newPlainNode_good (E : Engine) (C : SearchContext) (c : FIntVector)
    (n : FAdvancedPathNode) (x : FIntVector)
    (hn : GoodNode C.StartLocation C.InaccessibleNodes (c, n))
    (hx1 : x ∉ TMapKeys n.PreviousPath) (hx2 : x ∉ C.InaccessibleNodes)
    (hx3 : HorizontalNeighbours c x) :
    GoodNode C.StartLocation C.InaccessibleNodes (x, NewPlainNode E C c n x) := by
  obtain ⟨f1, f2, f3⟩ := newPlainNode_fields E C c n x
  obtain ⟨_, _, hhead, hchain, hnodup, hacc⟩ := hn
  simp only at hhead hchain hnodup hacc
  have hc : c ∉ TMapKeys n.PreviousPath := by
    intro hmem
    have := List.nodup_append.1 hnodup
    exact this.2.2 hmem (List.mem_singleton_self c)
  refine ⟨f1, f2, ?_⟩
  simp only [f3]
  have hkeys : TMapKeys (TMapAdd n.PreviousPath c n) = TMapKeys n.PreviousPath ++ [c] := by
    rw [tmapAdd_absent _ _ _ hc]
    simp [TMapKeys]
  rw [hkeys]
  refine ⟨?_, ?_, ?_, ?_⟩
  · cases hk : TMapKeys n.PreviousPath with
    | nil => rw [hk] at hhead; simpa using hhead
    | cons a t => rw [hk] at hhead; simpa using hhead
  · apply List.Chain'.append hchain (List.chain'_singleton x)
    intro a ha b hb
    simp at ha
    simp only [List.head?_cons, Option.mem_def, Option.some.injEq] at hb
    subst ha
    subst hb
    exact hx3
  · rw [List.nodup_append]
    refine ⟨hnodup, List.nodup_singleton x, ?_⟩
    intro a ha hb
    simp only [List.mem_singleton] at hb
    subst hb
    rcases List.mem_append.1 ha with h | h
    · exact hx1 h
    · simp only [List.mem_singleton] at h
      exact horizontalNeighbours_ne _ _ hx3 h.symm
  · intro a ha
    rcases List.mem_append.1 ha with h | h
    · exact hacc a h
    · simp only [List.mem_singleton] at h
      exact h ▸ hx2

theorem foldl_option_noop {α β : Type} (f : Option α → β → Option α) (a a2 : α) :
    ∀ (Keys : List β), Keys.foldl f (some a) = some a2 → (∀ b, f none b = none) →
      (∀ b ∈ Keys, f (some a) b = none ∨ f (some a) b = some a) → a2 = a := by
  intro Keys
  induction Keys with
  | nil => intro h _ _; simpa using h.symm
  | cons k rest ih =>
    intro h hnone hstep
    rw [List.foldl_cons] at h
    rcases hstep k (List.mem_cons_self _ _) with h1 | h1
    · rw [h1] at h
      have hn : ∀ (L : List β), L.foldl f none = none := by
        intro L
        induction L with
        | nil => rfl
        | cons x t iht => rw [List.foldl_cons, hnone, iht]
      rw [hn] at h
      simp at h
    · rw [h1] at h
      exact ih h hnone (fun b hb => hstep b (List.mem_cons_of_mem _ hb))

theorem evaluateSpecial_noop (E : Engine) (S : FLevelGenerationSettings)
    (hno : NoSpecialStructure S) (OPEN CLOSED OPEN2 : List (FIntVector × FAdvancedPathNode))
    (Inaccessible : List FIntVector) (PGD : List FPathGenerationData)
    (D : FGeneratedLevelData) (c : FIntVector) (d : EDirections) (Start End : FIntVector)
    (h : EvaluateSpecialCorridorStructures E OPEN CLOSED Inaccessible PGD S D c d Start End =
      some OPEN2) : OPEN2 = OPEN := by
  unfold EvaluateSpecialCorridorStructures at h
  split at h
  · rename_i v r _ _
    simp only at h
    by_cases hc : (TSetContains Inaccessible (c + v) || TMapContains CLOSED (c + v)) = true
    · rw [if_pos hc] at h
      simp only [Option.some.injEq] at h
      exact h.symm
    · rw [if_neg hc] at h
      apply foldl_option_noop _ _ _ _ h
      · intro b
        rfl
      · intro k _
        simp only
        cases hf : TMapFind S.AllowedSpecialPathTypes k with
        | none => exact Or.inl rfl
        | some b =>
          have hb : b = false := hno (k, b) (tmapFind_mem _ _ _ hf)
          subst hb
          exact Or.inr rfl
  · simp at h

theorem expandClosedDirection_good (E : Engine) (C : SearchContext)
    (hno : NoSpecialStructure C.LevelGenerationSettings)
    (CLOSED OPEN OPEN2 : List (FIntVector × FAdvancedPathNode)) (c : FIntVector)
    (d : EDirections) (hd : d ∈ DirectionEvaluationOrder)
    (hCL : ∀ e ∈ CLOSED, GoodNode C.StartLocation C.InaccessibleNodes e)
    (hOP : ∀ e ∈ OPEN, GoodNode C.StartLocation C.InaccessibleNodes e)
    (h : ExpandClosedDirection E C CLOSED c OPEN d = some OPEN2) :
    ∀ e ∈ OPEN2, GoodNode C.StartLocation C.InaccessibleNodes e := by
  have hd4 : d ∈ [EDirections.North, EDirections.East, EDirections.South, EDirections.West] := by
    simp only [DirectionEvaluationOrder, List.mem_cons, List.mem_singleton,
      List.not_mem_nil, or_false] at hd ⊢
    tauto
  unfold ExpandClosedDirection at h
  by_cases hab : d = EDirections.Above ∨ d = EDirections.Below
  · rw [if_pos hab] at h
    simp only [Option.some.injEq] at h
    exact h ▸ hOP
  · rw [if_neg hab] at h
    split at h
    · rename_i v n hv hn
      simp only at h
      by_cases hprev : TMapContains n.PreviousPath (c + v) = true
      · rw [if_pos hprev] at h
        simp only [Option.some.injEq] at h
        exact h ▸ hOP
      · rw [if_neg hprev] at h
        have := evaluateSpecial_noop E _ hno _ _ _ _ _ _ _ _ _ _ h
        subst this
        split_ifs with hcond
        · intro e he
          rcases mem_tmapAdd _ _ _ _ he with h1 | h1
          · exact hOP e h1
          · subst h1
            simp only [Bool.and_eq_true, Bool.not_eq_eq_eq_not, Bool.not_true] at hcond
            apply newPlainNode_good E C c n (c + v) (hCL _ (tmapFind_mem _ _ _ hn))
            · rw [← tmapContains_iff]
              exact hprev
            · have := hcond.1.1.1
              simpa [TSetContains] using this
            · exact horizontal_direction d v c hd4 hv
        · exact hOP
    · simp at h

theorem foldl_option_invariant {α β : Type} (P : α → Prop) (g : Option α → β → Option α)
    (Keys : List β) (hnone : ∀ b, g none b = none)
    (hg : ∀ a, P a → ∀ b ∈ Keys, ∀ a2, g (some a) b = some a2 → P a2) :
    ∀ (a a2 : α), P a → Keys.foldl g (some a) = some a2 → P a2 := by
  induction Keys with
  | nil => intro a a2 ha h; simp only [List.foldl_nil, Option.some.injEq] at h; exact h ▸ ha
  | cons k rest ih =>
    intro a a2 ha h
    rw [List.foldl_cons] at h
    cases hk : g (some a) k with
    | none =>
      rw [hk] at h
      have hn : ∀ (L : List β), L.foldl g none = none := by
        intro L
        induction L with
        | nil => rfl
        | cons x t iht => rw [List.foldl_cons, hnone, iht]
      rw [hn] at h
      simp at h
    | some a3 =>
      rw [hk] at h
      exact ih (fun a4 h4 b hb a5 h5 => hg a4 h4 b (List.mem_cons_of_mem _ hb) a5 h5) a3 a2
        (hg a ha k (List.mem_cons_self _ _) a3 hk) h

theorem expandClosed_good (E : Engine) (C : SearchContext)
    (hno : NoSpecialStructure C.LevelGenerationSettings)
    (CLOSED OPEN OPEN2 : List (FIntVector × FAdvancedPathNode))
    (hCL : ∀ e ∈ CLOSED, GoodNode C.StartLocation C.InaccessibleNodes e)
    (hOP : ∀ e ∈ OPEN, GoodNode C.StartLocation C.InaccessibleNodes e)
    (h : ExpandClosed E C OPEN CLOSED = some OPEN2) :
    ∀ e ∈ OPEN2, GoodNode C.StartLocation C.InaccessibleNodes e := by
  unfold ExpandClosed at h
  refine foldl_option_invariant
    (fun Open => ∀ e ∈ Open, GoodNode C.StartLocation C.InaccessibleNodes e)
    _ (TMapKeys CLOSED) (fun _ => rfl) ?_ OPEN OPEN2 hOP h
  intro Open hOpen c _ Open2 hstep
  simp only at hstep
  unfold ExpandClosedNode at hstep
  split at hstep
  · simp at hstep
  · split_ifs at hstep with hsec
    · simp only [Option.some.injEq] at hstep
      exact hstep ▸ hOpen
    · exact foldl_option_invariant
        (fun Open => ∀ e ∈ Open, GoodNode C.StartLocation C.InaccessibleNodes e)
        _ DirectionEvaluationOrder (fun _ => rfl)
        (fun a ha d hd a2 h2 => expandClosedDirection_good E C hno CLOSED a a2 c d hd hCL ha h2)
        Open Open2 hOpen hstep

theorem relaxNeighbour_good (E : Engine) (C : SearchContext)
    (CLOSED OPEN OPEN2 : List (FIntVector × FAdvancedPathNode)) (cur : FIntVector)
    (CurrentNode : FAdvancedPathNode) (d : EDirections) (hd : d ∈ AllDirections)
    (hCur : GoodNode C.StartLocation C.InaccessibleNodes (cur, CurrentNode))
    (hfind : TMapFind CLOSED cur = some CurrentNode)
    (hOP : ∀ e ∈ OPEN, GoodNode C.StartLocation C.InaccessibleNodes e)
    (h : RelaxNeighbour E C CLOSED cur CurrentNode OPEN d = some OPEN2) :
    ∀ e ∈ OPEN2, GoodNode C.StartLocation C.InaccessibleNodes e := by
  unfold RelaxNeighbour at h
  by_cases hab : d = EDirections.Above ∨ d = EDirections.Below
  · rw [if_pos hab] at h
    simp only [Option.some.injEq] at h
    exact h ▸ hOP
  · rw [if_neg hab] at h
    have hd4 : d ∈ [EDirections.North, EDirections.East, EDirections.South,
        EDirections.West] := by
      simp only [AllDirections, List.mem_cons, List.mem_singleton, List.not_mem_nil,
        or_false] at hd ⊢
      tauto
    split at h
    · simp at h
    · rename_i v hv
      simp only at h
      split_ifs at h with h1 h2 h3 h4 h5
      · simp only [Option.some.injEq] at h; exact h ▸ hOP
      · simp only [Option.some.injEq] at h; exact h ▸ hOP
      · simp only [Option.some.injEq] at h; exact h ▸ hOP
      · simp only [Option.some.injEq] at h; exact h ▸ hOP
      · rw [hfind] at h
        simp only [Option.some.injEq] at h
        subst h
        intro e he
        rcases mem_tmapAdd _ _ _ _ he with h6 | h6
        · exact hOP e h6
        · subst h6
          apply newPlainNode_good E C cur CurrentNode (cur + v) hCur
          · rw [← tmapContains_iff]
            exact h3
          · simp only [Bool.or_eq_true, not_or] at h2
            simpa [TSetContains] using h2.1
          · exact horizontal_direction d v cur hd4 hv
      · simp only [Option.some.injEq] at h; exact h ▸ hOP

theorem searchLoop_returns (E : Engine) (C : SearchContext) (hsort : ValueSortPermutes E)
    (hno : NoSpecialStructure C.LevelGenerationSettings)
    (PathData0 : List (FIntVector × FAdvancedPathNode)) :
    ∀ (Steps : Nat) (OPEN CLOSED P : List (FIntVector × FAdvancedPathNode)),
      (∀ e ∈ OPEN, GoodNode C.StartLocation C.InaccessibleNodes e) →
      (∀ e ∈ CLOSED, GoodNode C.StartLocation C.InaccessibleNodes e) →
      SearchLoop E C PathData0 Steps OPEN CLOSED = Outcome.returns (true, P) →
      ∃ n, GoodNode C.StartLocation C.InaccessibleNodes (C.EndLocation, n) ∧
        P = AssemblePathData C.StartLocation PathData0
          (TMapAdd n.PreviousPath C.EndLocation n).reverse := by
  intro Steps
  induction Steps with
  | zero => intro OPEN CLOSED P _ _ h; simp [SearchLoop] at h
  | succ k ih =>
    intro OPEN CLOSED P hOP hCL h
    unfold SearchLoop at h
    split at h
    · simp at h
    · rename_i Expanded hexp
      have hExp := expandClosed_good E C hno CLOSED OPEN Expanded hCL hOP hexp
      have hSorted : ∀ e ∈ E.ValueSort OpenNodeLess Expanded,
          GoodNode C.StartLocation C.InaccessibleNodes e :=
        fun e he => hExp e ((hsort OpenNodeLess Expanded).mem_iff.1 he)
      split at h
      · simp at h
      · rename_i cur CurrentNode SortedRest hs
        rw [hs] at hSorted
        have hCur := hSorted _ (List.mem_cons_self _ _)
        have hns : CurrentNode.SpecialPathType.IsStructure = false := by
          rw [hCur.1]
          rfl
        simp only [hns, Bool.false_eq_true, if_false] at h
        have hCL2 : ∀ e ∈ TMapAdd CLOSED cur CurrentNode,
            GoodNode C.StartLocation C.InaccessibleNodes e := by
          intro e he
          rcases mem_tmapAdd _ _ _ _ he with h1 | h1
          · exact hCL e h1
          · exact h1 ▸ hCur
        have hOP2 : ∀ e ∈ TMapRemove ((cur, CurrentNode) :: SortedRest) cur,
            GoodNode C.StartLocation C.InaccessibleNodes e := by
          intro e he
          exact hSorted e (List.mem_of_mem_filter he)
        split_ifs at h with hend
        · simp only [Outcome.returns.injEq, Prod.mk.injEq, true_and] at h
          subst hend
          exact ⟨CurrentNode, hCur, h.symm⟩
        · split at h
          · simp at h
          · rename_i OPEN3 hrelax
            apply ih OPEN3 (TMapAdd CLOSED cur CurrentNode) P ?_ hCL2 h
            exact foldl_option_invariant
              (fun Open => ∀ e ∈ Open, GoodNode C.StartLocation C.InaccessibleNodes e)
              _ AllDirections (fun _ => rfl)
              (fun a ha d hd a2 h2 => relaxNeighbour_good E C _ a a2 cur CurrentNode d hd
                hCur (tmapFind_add_same _ _ _) ha h2)
              _ OPEN3 hOP2 hrelax

theorem assemblePathData_append (Start : FIntVector) (s : FAdvancedPathNode) :
    ∀ (L Acc : List (FIntVector × FAdvancedPathNode)),
      (TMapKeys (Acc ++ L ++ [(Start, s)])).Nodup →
      AssemblePathData Start Acc (L ++ [(Start, s)]) = Acc ++ L ++ [(Start, s)] := by
  intro L
  induction L with
  | nil =>
    intro Acc hnd
    have hS : Start ∉ TMapKeys Acc := by
      simp only [List.append_nil, TMapKeys, List.map_append, List.map_cons, List.map_nil] at hnd
      intro hmem
      exact (List.nodup_append.1 hnd).2.2 hmem (List.mem_singleton_self _)
    simp only [List.nil_append, AssemblePathData, if_true, List.append_nil]
    exact tmapAdd_absent _ _ _ hS
  | cons a L ih =>
    intro Acc hnd
    obtain ⟨k, v⟩ := a
    have hnd2 : (TMapKeys Acc ++ k :: (TMapKeys L ++ [Start])).Nodup := by
      simpa [TMapKeys] using hnd
    have hk : k ∉ TMapKeys Acc := by
      intro hmem
      exact (List.nodup_append.1 hnd2).2.2 hmem (List.mem_cons_self _ _)
    have hkS : k ≠ Start := by
      intro e
      have h3 := (List.nodup_cons.1 (List.nodup_append.1 hnd2).2.1).1
      apply h3
      rw [e]
      simp
    simp only [List.cons_append, AssemblePathData, hkS, if_false]
    rw [tmapAdd_absent _ _ _ hk]
    have h4 := ih (Acc ++ [(k, v)]) (by simpa [TMapKeys] using hnd)
    simpa using h4

theorem goodNode_assemble (Start End : FIntVector) (Inaccessible : List FIntVector)
    (n : FAdvancedPathNode) (hn : GoodNode Start Inaccessible (End, n)) :
    AssemblePathData Start [] (TMapAdd n.PreviousPath End n).reverse =
      (n.PreviousPath ++ [(End, n)]).reverse := by
  obtain ⟨_, _, hhead, _, hnodup, _⟩ := hn
  simp only at hhead hnodup
  have hE : End ∉ TMapKeys n.PreviousPath := by
    intro hmem
    exact (List.nodup_append.1 hnodup).2.2 hmem (List.mem_singleton_self _)
  rw [tmapAdd_absent _ _ _ hE]
  have hkeys : TMapKeys (n.PreviousPath ++ [(End, n)]) = TMapKeys n.PreviousPath ++ [End] := by
    simp [TMapKeys]
  rw [← hkeys] at hhead hnodup
  cases hL : n.PreviousPath ++ [(End, n)] with
  | nil => simp at hL
  | cons a rest =>
    rw [hL] at hhead hnodup
    obtain ⟨k, s⟩ := a
    simp only [TMapKeys, List.map_cons, List.head?_cons, Option.some.injEq] at hhead
    subst hhead
    rw [List.reverse_cons]
    have := assemblePathData_append k s rest.reverse [] (by
      simp only [List.nil_append]
      rw [← List.reverse_cons]
      simp only [TMapKeys, List.map_reverse, List.nodup_reverse]
      exact hnodup)
    simpa using this

theorem search_returns_chain (E : Engine) (Steps : Nat) (Start End : FIntVector)
    (PGD : List FPathGenerationData) (S : FLevelGenerationSettings) (D : FGeneratedLevelData)
    (P : List (FIntVector × FAdvancedPathNode)) (hsort : ValueSortPermutes E)
    (hno : NoSpecialStructure S) (hs : ¬ HoldsRoom D.LevelTileData Start)
    (he : ¬ HoldsRoom D.LevelTileData End)
    (h : AdvancedAStarPathfinding E Steps Start End [] PGD S D = Outcome.returns (true, P)) :
    ∃ n, GoodNode Start (InaccessibleNodesOf D.LevelTileData) (End, n) ∧
      P = (n.PreviousPath ++ [(End, n)]).reverse := by
  unfold AdvancedAStarPathfinding at h
  simp only at h
  have hs2 : Start ∉ InaccessibleNodesOf D.LevelTileData :=
    fun hm => hs ((mem_inaccessibleNodesOf _ _).1 hm)
  have he2 : End ∉ InaccessibleNodesOf D.LevelTileData :=
    fun hm => he ((mem_inaccessibleNodesOf _ _).1 hm)
  have hguard : ¬ (TSetContains (InaccessibleNodesOf D.LevelTileData) Start ||
      TSetContains (InaccessibleNodesOf D.LevelTileData) End) = true := by
    simp [TSetContains, hs2, he2]
  rw [if_neg hguard] at h
  obtain ⟨n, hn, hP⟩ := searchLoop_returns E _ hsort hno [] Steps _ _ P
    (by intro e he; cases he)
    (by
      intro e he
      simp only [TMapAdd, List.mem_singleton] at he
      subst he
      refine ⟨?_, rfl, ?_⟩
      · simp [UpdateAdvancedNode, UpdateNodeFields, UpdateNodeCosts,
          ESpecialPathType.IsStructure]
      · simp only [UpdateAdvancedNode, UpdateNodeFields, UpdateNodeCosts,
          ESpecialPathType.IsStructure, Bool.false_eq_true, if_false, TMapKeys, List.map_nil,
          List.nil_append]
        exact ⟨rfl, List.chain'_singleton _, List.nodup_singleton _,
          fun c hc => by
            have hcS : c = Start := by simpa using hc
            exact hcS ▸ hs2⟩) h
  refine ⟨n, hn, ?_⟩
  rw [hP]
  exact goodNode_assemble _ _ _ n hn

end LevelGen

namespace LevelGen

/-! ## The returned path -/


theorem valueSortedInsert_perm {κ ν : Type} (Less : ν → ν → Bool) (e : κ × ν) :
    ∀ (L : List (κ × ν)), (ValueSortedInsert Less e L).Perm (e :: L) := by
  intro L
  induction L with
  | nil => exact List.Perm.refl _
  | cons x rest ih =>
    unfold ValueSortedInsert
    split_ifs
    · exact List.Perm.refl _
    · exact (List.Perm.cons x ih).trans (List.Perm.swap e x rest)

theorem stableValueSort_perm {κ ν : Type} (Less : ν → ν → Bool) (Map : List (κ × ν)) :
    (StableValueSort Less Map).Perm Map := by
  unfold StableValueSort
  have hgen : ∀ (M Acc : List (κ × ν)),
      (M.foldl (fun Sorted e => ValueSortedInsert Less e Sorted) Acc).Perm (Acc ++ M) := by
    intro M
    induction M with
    | nil => intro Acc; simp
    | cons e rest ih =>
      intro Acc
      rw [List.foldl_cons]
      refine (ih _).trans ?_
      refine (List.Perm.append_right rest (valueSortedInsert_perm Less e Acc)).trans ?_
      simp only [List.cons_append]
      exact List.perm_middle.symm
  simpa using hgen Map []

theorem scenarioEngine_valueSortPermutes (Edges : List FEdgeInfo) :
    ValueSortPermutes (ScenarioEngine Edges) :=
  fun Less Map => stableValueSort_perm Less Map

theorem noSpecialStructure_plainSettings (GridSize : FIntVector) :
    NoSpecialStructure (PlainSettings GridSize) := by
  intro Entry hE
  simp [PlainSettings] at hE

/-- C7 (amended): for every engine whose `ValueSort` returns a permutation of the
map: when `AdvancedAStarPathfinding`, called with an empty `PathData`, no special
structure enabled and neither the start nor the end holding a room or room section
tile, returns true, the coordinates of `PathData` are, read backwards,
a chain from the start to the end in which consecutive cells are horizontal
neighbours, no cell occurs twice and no cell holds a room or room section tile. -/
theorem C7_returned_path_is_corridor_chain (E : Engine) (Steps : Nat)
    (Start End : FIntVector) (PGD : List FPathGenerationData) (S : FLevelGenerationSettings)
    (D : FGeneratedLevelData) (Keys : List FIntVector)
    (Parents : List (FIntVector × FIntVector)) (hsort : ValueSortPermutes E)
    (hno : NoSpecialStructure S) (hs : ¬ HoldsRoom D.LevelTileData Start)
    (he : ¬ HoldsRoom D.LevelTileData End)
    (h : SearchResult (AdvancedAStarPathfinding E Steps Start End [] PGD S D) =
      some (true, Keys, Parents)) :
    ∃ Chain : List FIntVector, Keys = Chain.reverse ∧ Chain.head? = some Start ∧
      Chain.getLast? = some End ∧ Chain.Chain' HorizontalNeighbours ∧ Chain.Nodup ∧
      ∀ c ∈ Chain, ¬ HoldsRoom D.LevelTileData c := by
  simp only [SearchResult, Option.map_eq_some'] at h
  obtain ⟨⟨b, P⟩, hv, hr⟩ := h
  simp only [Prod.mk.injEq] at hr
  obtain ⟨hb, hK, _⟩ := hr
  subst hb
  obtain ⟨n, ⟨_, _, hhead, hchain, hnodup, hacc⟩, hP⟩ :=
    search_returns_chain E Steps Start End PGD S D P hsort hno hs he (outcome_value_eq _ _ hv)
  refine ⟨TMapKeys n.PreviousPath ++ [End], ?_, hhead, by simp, hchain, hnodup, ?_⟩
  · rw [← hK, hP]
    simp [TMapKeys]
  · intro c hc hroom
    exact hacc c hc ((mem_inaccessibleNodesOf _ _).2 hroom)

theorem C7_witness :
    ∃ Chain : List FIntVector,
      [(⟨3, 0, 0⟩ : FIntVector), ⟨2, 0, 0⟩, ⟨1, 0, 0⟩] = Chain.reverse ∧
      Chain.head? = some ⟨1, 0, 0⟩ ∧ Chain.getLast? = some ⟨3, 0, 0⟩ ∧
      Chain.Chain' HorizontalNeighbours ∧ Chain.Nodup ∧
      ∀ c ∈ Chain, ¬ HoldsRoom CorridorScenario.LevelTileData c :=
  C7_returned_path_is_corridor_chain (ScenarioEngine []) 10 ⟨1, 0, 0⟩ ⟨3, 0, 0⟩ []
    (PlainSettings ⟨5, 5, 1⟩) CorridorScenario [⟨3, 0, 0⟩, ⟨2, 0, 0⟩, ⟨1, 0, 0⟩]
    [(⟨3, 0, 0⟩, ⟨3, 0, 0⟩), (⟨2, 0, 0⟩, ⟨2, 0, 0⟩), (⟨1, 0, 0⟩, ⟨1, 0, 0⟩)]
    (scenarioEngine_valueSortPermutes []) (noSpecialStructure_plainSettings _)
    (by decide!) (by decide!) (by decide!)

/-- C7, as stated, fails: with the start (0,0,0) on a room tile the function
returns true at once, and `PathData` holds the start and the end (3,0,0) only, which
are no neighbours. -/
theorem C7_counterexample :
    SearchResult (AdvancedAStarPathfinding (ScenarioEngine []) 10 ⟨0, 0, 0⟩ ⟨3, 0, 0⟩ [] []
        (PlainSettings ⟨5, 5, 1⟩) CorridorScenario) =
      some (true, [⟨0, 0, 0⟩, ⟨3, 0, 0⟩], [(⟨0, 0, 0⟩, ⟨0, 0, 0⟩), (⟨3, 0, 0⟩, ⟨3, 0, 0⟩)]) ∧
    NoSpecialStructure (PlainSettings ⟨5, 5, 1⟩) ∧
    HoldsRoom CorridorScenario.LevelTileData ⟨0, 0, 0⟩ ∧
    ¬ HorizontalNeighbours ⟨0, 0, 0⟩ ⟨3, 0, 0⟩ ∧ ¬ HorizontalNeighbours ⟨3, 0, 0⟩ ⟨0, 0, 0⟩ :=
  ⟨by decide!, noSpecialStructure_plainSettings _, by decide!, by decide!, by decide!⟩

/-- The field `ParentNode` is no link to a parent: `UpdateAdvancedNode` stores in it
the coordinate the node is made for.  When `AdvancedAStarPathfinding`, called with an
empty `PathData`, no special structure enabled and neither the start nor the end on
a room tile, returns true for a start other than the end, the walk along the field
`ParentNode` from the end stays at the end.  The program takes the parent of a node
from its `PreviousPath` (`GetParentNode`). -/
theorem parentNode_field_walk_stays_at_end (E : Engine) (Steps : Nat)
    (Start End : FIntVector) (PGD : List FPathGenerationData) (S : FLevelGenerationSettings)
    (D : FGeneratedLevelData) (Keys : List FIntVector)
    (Parents : List (FIntVector × FIntVector)) (hsort : ValueSortPermutes E)
    (hno : NoSpecialStructure S) (hs : ¬ HoldsRoom D.LevelTileData Start)
    (he : ¬ HoldsRoom D.LevelTileData End) (hne : Start ≠ End)
    (h : SearchResult (AdvancedAStarPathfinding E Steps Start End [] PGD S D) =
      some (true, Keys, Parents)) :
    ∀ k, ParentWalk Parents k End = some End ∧ ParentWalk Parents k End ≠ some Start := by
  simp only [SearchResult, Option.map_eq_some'] at h
  obtain ⟨⟨b, P⟩, hv, hr⟩ := h
  simp only [Prod.mk.injEq] at hr
  obtain ⟨hb, _, hPar⟩ := hr
  subst hb
  obtain ⟨n, ⟨_, hparent, _⟩, hP⟩ :=
    search_returns_chain E Steps Start End PGD S D P hsort hno hs he (outcome_value_eq _ _ hv)
  simp only at hparent
  have hfind : TMapFind Parents End = some End := by
    rw [← hPar, hP]
    simp [ParentsOf, TMapFind, hparent]
  have hwalk : ∀ k, ParentWalk Parents k End = some End := by
    intro k
    induction k with
    | zero => rfl
    | succ k ih => simp only [ParentWalk, hfind]; exact ih
  intro k
  refine ⟨hwalk k, ?_⟩
  rw [hwalk k]
  intro e
  simp only [Option.some.injEq] at e
  exact hne e.symm

theorem parentNode_field_walk_on_corridor :
    ParentWalk [(⟨3, 0, 0⟩, ⟨3, 0, 0⟩), (⟨2, 0, 0⟩, ⟨2, 0, 0⟩), (⟨1, 0, 0⟩, ⟨1, 0, 0⟩)] 5
        ⟨3, 0, 0⟩ = some ⟨3, 0, 0⟩ ∧
      ParentWalk [(⟨3, 0, 0⟩, ⟨3, 0, 0⟩), (⟨2, 0, 0⟩, ⟨2, 0, 0⟩), (⟨1, 0, 0⟩, ⟨1, 0, 0⟩)] 5
        ⟨3, 0, 0⟩ ≠ some ⟨1, 0, 0⟩ :=
  parentNode_field_walk_stays_at_end (ScenarioEngine []) 10 ⟨1, 0, 0⟩ ⟨3, 0, 0⟩ []
    (PlainSettings ⟨5, 5, 1⟩) CorridorScenario [⟨3, 0, 0⟩, ⟨2, 0, 0⟩, ⟨1, 0, 0⟩]
    [(⟨3, 0, 0⟩, ⟨3, 0, 0⟩), (⟨2, 0, 0⟩, ⟨2, 0, 0⟩), (⟨1, 0, 0⟩, ⟨1, 0, 0⟩)]
    (scenarioEngine_valueSortPermutes []) (noSpecialStructure_plainSettings _)
    (by decide!) (by decide!) (by decide!) (by decide!) 5

end LevelGen

namespace LevelGen

/-! ## `GenerateCorridors3D` on the scenarios -/

/-- C9: on a grid of 5 by 5 by 1 with two rooms anchored at (0,0,0) and (4,0,0),
each with one access point at its anchor open to the four horizontal directions, no
special structure enabled and the single edge between the rooms, run on the engine
`ScenarioEngine` (exact arithmetic, stable sorts), the spanning tree is that edge, the path is planned from (1,0,0) to (3,0,0), and `GenerateCorridors3D`
returns with exactly the corridor cells (3,0,0), (2,0,0), (1,0,0) in `LevelPathData`,
each with the two adjacent access points North and South, which are opposite, and
with a corridor tile for each of them in `LevelTileData`. -/
theorem C9_straight_corridor_between_two_rooms :
    GetMinimumSpanningTreeV2 (ScenarioEngine [CorridorScenarioEdge]).EdgeSort
        (RoomCoordinatesOf CorridorScenario.LevelTileData) [CorridorScenarioEdge] [] =
      some ([CorridorScenarioEdge], []) ∧
    PlannedRoutes (PlanPaths (ScenarioEngine [CorridorScenarioEdge])
        { CorridorScenario with MinimumSpanningTree := [CorridorScenarioEdge] }) =
      some [(⟨1, 0, 0⟩, ⟨3, 0, 0⟩, 2)] ∧
    (GenerateCorridors3D (ScenarioEngine [CorridorScenarioEdge]) 10 (PlainSettings ⟨5, 5, 1⟩)
        CorridorScenario).value.map CorridorCells =
      some [(⟨3, 0, 0⟩, [EDirections.North, EDirections.South]),
            (⟨2, 0, 0⟩, [EDirections.North, EDirections.South]),
            (⟨1, 0, 0⟩, [EDirections.North, EDirections.South])] ∧
    HoldsTwoOppositeDirections [EDirections.North, EDirections.South] = true ∧
    (TilesAfter (GenerateCorridors3D (ScenarioEngine [CorridorScenarioEdge]) 10
        (PlainSettings ⟨5, 5, 1⟩) CorridorScenario)).map
        (List.map (fun Entry => (Entry.1, Entry.2.TileType))) =
      some [(⟨0, 0, 0⟩, ETileType.Room_Basic), (⟨4, 0, 0⟩, ETileType.Room_Basic),
            (⟨3, 0, 0⟩, ETileType.Corridor), (⟨2, 0, 0⟩, ETileType.Corridor),
            (⟨1, 0, 0⟩, ETileType.Corridor)] := by
  refine ⟨by decide!, by decide!, by decide!, by decide!, by decide!⟩

/-- C10: in the branch of `GenerateCorridors3D` for a path of distance 0 the
direction from the shared cell to the other room is added to `DirectionsInUse`.  With
rooms at (0,0,0), open to the North only, and at (1,1,0), open to the West only,
every direction in use is accessible before the call; the path is planned from
(1,0,0) to (1,0,0), and after the call the first room has East and the second room
has South in use, neither of which is accessible. -/
theorem C10_adjacent_rooms_use_inaccessible_directions :
    DirectionsInUseAccessible AdjacentScenario ∧
    PlannedRoutes (PlanPaths (ScenarioEngine [AdjacentScenarioEdge])
        { AdjacentScenario with MinimumSpanningTree := [AdjacentScenarioEdge] }) =
      some [(⟨1, 0, 0⟩, ⟨1, 0, 0⟩, 0)] ∧
    (GenerateCorridors3D (ScenarioEngine [AdjacentScenarioEdge]) 10 (PlainSettings ⟨5, 5, 1⟩)
        AdjacentScenario).value.map AccessPointsOf =
      some [(⟨0, 0, 0⟩, [(⟨0, 0, 0⟩, ⟨[EDirections.North], [EDirections.East]⟩)]),
            (⟨1, 1, 0⟩, [(⟨0, 0, 0⟩, ⟨[EDirections.West], [EDirections.South]⟩)]),
            (⟨1, 0, 0⟩, [])] ∧
    (GenerateCorridors3D (ScenarioEngine [AdjacentScenarioEdge]) 10 (PlainSettings ⟨5, 5, 1⟩)
        AdjacentScenario).value.map (fun Data => decide (DirectionsInUseAccessible Data)) =
      some false := by
  refine ⟨by decide!, by decide!, by decide!, by decide!⟩

end LevelGen

namespace LevelGen

/-! ## The graph connector: what becomes of the candidate edges -/

theorem kruskalLoop_partition {PointArray : List FIntVector} {TreeSize : Int} :
    ∀ (edges : List FEdgeInfo) (S : FDisjointSet) (mst disc m d : List FEdgeInfo),
      KruskalLoop PointArray TreeSize S mst disc edges = some (m, d) →
      ∃ Taken Added, m = mst ++ Taken ∧ d = disc ++ Added ∧ (Taken ++ Added).Perm edges := by
  intro edges
  induction edges with
  | nil => intro S mst disc m d h; simp [KruskalLoop] at h
  | cons e rest ih =>
    intro S mst disc m d h
    unfold KruskalLoop at h
    split at h
    · split_ifs at h with h1 h2 h3
      · simp only [Option.some.injEq, Prod.mk.injEq] at h
        exact ⟨[e], rest, h.1.symm, h.2.symm, List.Perm.refl _⟩
      · obtain ⟨Taken, Added, hm, hd, hp⟩ := ih _ _ _ _ _ h
        refine ⟨e :: Taken, Added, ?_, hd, ?_⟩
        · rw [hm]; simp
        · exact List.Perm.cons e hp
      · simp only [Option.some.injEq, Prod.mk.injEq] at h
        refine ⟨[], e :: rest, by simp [h.1], ?_, List.Perm.refl _⟩
        rw [← h.2]; simp
      · obtain ⟨Taken, Added, hm, hd, hp⟩ := ih _ _ _ _ _ h
        refine ⟨Taken, e :: Added, hm, ?_, ?_⟩
        · rw [hd]; simp
        · exact List.perm_middle.trans (List.Perm.cons e hp)
    · simp at h

/-- C15: when `GetMinimumSpanningTreeV2` returns, for a sort that permutes, the
returned edges together with the edges it appended to `DiscardedEdgesArray` are a
permutation of the candidate edges, and what `DiscardedEdgesArray` held before is
kept in front. -/
theorem C15_tree_and_discarded_partition_candidates
    (SortFn : List FEdgeInfo → List FEdgeInfo) (hs : IsTArraySort SortFn)
    (PointArray : List FIntVector) (EdgeArray DiscardedEdgesArray Tree Discarded : List FEdgeInfo)
    (h : GetMinimumSpanningTreeV2 SortFn PointArray EdgeArray DiscardedEdgesArray =
      some (Tree, Discarded)) :
    ∃ Added, Discarded = DiscardedEdgesArray ++ Added ∧ (Tree ++ Added).Perm EdgeArray := by
  unfold GetMinimumSpanningTreeV2 at h
  simp only at h
  split_ifs at h with he
  · simp only [Option.some.injEq, Prod.mk.injEq] at h
    refine ⟨[], by simp [h.2], ?_⟩
    rw [← h.1]
    simp only [List.isEmpty_iff] at he
    simp [he]
  · obtain ⟨Taken, Added, hm, hd, hp⟩ := kruskalLoop_partition _ _ _ _ _ _ h
    refine ⟨Added, hd, ?_⟩
    rw [hm, List.nil_append]
    exact hp.trans (hs.perm EdgeArray)

theorem C15_witness :
    ∃ Added, SquareDiscarded = [] ++ Added ∧ (SquareTree ++ Added).Perm SquareEdges :=
  C15_tree_and_discarded_partition_candidates TArraySort isTArraySort_TArraySort SquarePoints
    SquareEdges [] SquareTree SquareDiscarded (by decide!)

theorem kruskalAccepted_classes (PointArray : List FIntVector) :
    ∀ (edges : List FEdgeInfo) (S : FDisjointSet),
      S.Parents.length = PointArray.length →
      (KruskalFinal PointArray S edges).Parents.length = PointArray.length ∧
      (KruskalAccepted PointArray S edges).length +
        Classes (KruskalFinal PointArray S edges) = Classes S := by
  intro edges
  induction edges with
  | nil => intro S hwf; exact ⟨hwf, by simp [KruskalAccepted, KruskalFinal]⟩
  | cons e rest ih =>
    intro S hwf
    unfold KruskalAccepted KruskalFinal
    split
    · rename_i o d ho hd
      split_ifs with hacc
      · have hwf2 : (S.Union o d).Parents.length = PointArray.length := by
          rw [union_length]; exact hwf
        obtain ⟨h1, h2⟩ := ih (S.Union o d) hwf2
        refine ⟨h1, ?_⟩
        have h3 := classes_union S o d (hwf ▸ tarrayFind_lt _ _ _ ho)
          (hwf ▸ tarrayFind_lt _ _ _ hd) hacc
        simp only [List.length_cons]
        omega
      · exact ih S hwf
    · exact ih S hwf

theorem kruskalFinal_link (PointArray : List FIntVector) :
    ∀ (edges : List FEdgeInfo) (S : FDisjointSet),
      S.Parents.length = PointArray.length →
      DsSetoid PointArray (KruskalFinal PointArray S edges) ≤
        DsSetoid PointArray S ⊔ LinkS edges := by
  intro edges
  induction edges with
  | nil => intro S _; simp [KruskalFinal]
  | cons e rest ih =>
    intro S hwf
    have hmono : DsSetoid PointArray S ⊔ LinkS rest ≤ DsSetoid PointArray S ⊔ LinkS (e :: rest) :=
      sup_le_sup_left (linkS_mono fun x hx => List.mem_cons_of_mem _ hx) _
    unfold KruskalFinal
    split
    · rename_i o d ho hd
      split_ifs with hacc
      · refine (ih (S.Union o d) (by rw [union_length]; exact hwf)).trans ?_
        refine sup_le ?_ (le_sup_of_le_right (linkS_mono fun x hx => List.mem_cons_of_mem _ hx))
        rw [dsSetoid_union hwf ho hd, linkS_cons]
        refine sup_le le_sup_left ?_
        exact le_sup_of_le_right le_sup_left
      · exact (ih S hwf).trans hmono
    · exact (ih S hwf).trans hmono

theorem getMinimumSpanningTreeV2_connects {SortFn : List FEdgeInfo → List FEdgeInfo}
    (hs : IsTArraySort SortFn) {PointArray : List FIntVector}
    {EdgeArray DiscardedEdgesArray Tree Discarded : List FEdgeInfo} (hne : EdgeArray ≠ [])
    (h : GetMinimumSpanningTreeV2 SortFn PointArray EdgeArray DiscardedEdgesArray =
      some (Tree, Discarded)) : ConnectsAll PointArray EdgeArray := by
  unfold GetMinimumSpanningTreeV2 at h
  simp only at h
  have he : ¬ EdgeArray.isEmpty = true := by
    simpa [List.isEmpty_iff] using hne
  rw [if_neg he] at h
  obtain ⟨hlen, processed, rest, hsplit, hm⟩ := kruskalLoop_some _ _ _ _ _ _ h
  rw [List.nil_append] at hm
  have hwf := init_length PointArray.length
  obtain ⟨hwf2, hcount⟩ := kruskalAccepted_classes PointArray processed
    (FDisjointSet.Init PointArray.length) hwf
  rw [classes_init, ← hm] at hcount
  have hone : Classes (KruskalFinal PointArray (FDisjointSet.Init PointArray.length)
      processed) = 1 := by
    omega
  intro p hp q hq
  obtain ⟨i, hi⟩ := tarrayFind_of_mem _ _ hp
  obtain ⟨j, hj⟩ := tarrayFind_of_mem _ _ hq
  have hfind := find_eq_of_classes_one _ hone i j
    (by rw [hwf2]; exact tarrayFind_lt _ _ _ hi) (by rw [hwf2]; exact tarrayFind_lt _ _ _ hj)
  have hrel := kruskalFinal_link PointArray processed _ hwf
    ((dsSetoid_rel_iff hi hj).2 hfind)
  rw [dsSetoid_init, bot_sup_eq] at hrel
  have hsub : LinkS processed ≤ LinkS EdgeArray := by
    apply linkS_mono
    intro e hmem
    apply (hs.perm EdgeArray).subset
    rw [hsplit]
    exact List.mem_append.2 (Or.inl hmem)
  exact hsub hrel

/-- C17: on a non-empty candidate list that does not connect all points, for
every sort that meets the contract of `TArray::Sort`, `GetMinimumSpanningTreeV2`
does not return: its loop stops only once the tree has one edge fewer than there
are points, so it goes on to read `EdgeArray[0]` of the emptied array. -/
theorem C17_disconnected_candidates_fail (SortFn : List FEdgeInfo → List FEdgeInfo)
    (hs : IsTArraySort SortFn) (PointArray : List FIntVector)
    (EdgeArray DiscardedEdgesArray : List FEdgeInfo) (hne : EdgeArray ≠ [])
    (hdis : ¬ ConnectsAll PointArray EdgeArray) :
    GetMinimumSpanningTreeV2 SortFn PointArray EdgeArray DiscardedEdgesArray = none := by
  cases hres : GetMinimumSpanningTreeV2 SortFn PointArray EdgeArray DiscardedEdgesArray with
  | none => rfl
  | some r =>
    obtain ⟨Tree, Discarded⟩ := r
    exact absurd (getMinimumSpanningTreeV2_connects hs hne hres) hdis

theorem threePoints_not_connected : ¬ ConnectsAll ThreePoints UnitEdge := by
  intro h
  have hl : Linked UnitEdge ⟨0, 0, 0⟩ ⟨5, 0, 0⟩ :=
    h ⟨0, 0, 0⟩ (by decide) ⟨5, 0, 0⟩ (by decide)
  have hle : LinkS UnitEdge ≤ Setoid.ker (fun p : FIntVector => decide (p = ⟨5, 0, 0⟩)) := by
    apply linkS_le
    intro e he
    simp only [UnitEdge, List.mem_singleton] at he
    subst he
    show decide _ = decide _
    decide
  have h2 := hle hl
  have h3 : decide ((⟨0, 0, 0⟩ : FIntVector) = ⟨5, 0, 0⟩) =
      decide ((⟨5, 0, 0⟩ : FIntVector) = ⟨5, 0, 0⟩) := h2
  revert h3
  decide

theorem C17_witness : GetMinimumSpanningTreeV2 TArraySort ThreePoints UnitEdge [] = none :=
  C17_disconnected_candidates_fail TArraySort isTArraySort_TArraySort ThreePoints UnitEdge []
    (by decide) threePoints_not_connected

/-! ## The edge re-insertion pass -/

theorem randomlyAddEdges_fold (E : Engine) (AddToMSTChance : ℚ) :
    ∀ (Discarded Tree : List FEdgeInfo) (Stream : FRandomStream),
      Discarded.foldl (fun (Acc : List FEdgeInfo × FRandomStream) CurrentEdge =>
        let Draw := RandomFloatInRangeFromStream E 0 1 Acc.2
        if Draw.1 ≤ AddToMSTChance then (Acc.1 ++ [CurrentEdge], Draw.2) else (Acc.1, Draw.2))
        (Tree, Stream) =
      (Tree ++ AdmittedEdges Discarded (UnitDraws E Discarded.length Stream) AddToMSTChance,
        AdvanceStream E Discarded.length Stream) := by
  intro Discarded
  induction Discarded with
  | nil => intro Tree Stream; simp [AdmittedEdges, UnitDraws, AdvanceStream]
  | cons e rest ih =>
    intro Tree Stream
    rw [List.foldl_cons]
    simp only
    by_cases hc : (RandomFloatInRangeFromStream E 0 1 Stream).1 ≤ AddToMSTChance
    · rw [if_pos hc, ih]
      simp only [List.length_cons, UnitDraws, AdvanceStream, AdmittedEdges, List.zip_cons_cons,
        List.filter_cons, hc, decide_True, if_true, List.map_cons, List.append_assoc,
        List.singleton_append]
      rfl
    · rw [if_neg hc, ih]
      simp only [List.length_cons, UnitDraws, AdvanceStream, AdmittedEdges, List.zip_cons_cons,
        List.filter_cons, hc, decide_False, Bool.false_eq_true, if_false]
      rfl

/-- C16: `RandomlyAddEdgesToMST` returns the tree it was given followed by the
discarded edges, in list order, whose draw is at most `AddToMSTChance`, where the
i-th discarded edge gets the i-th of as many successive draws of
`RandomFloatInRangeFromStream(0, 1, Stream)` as there are discarded edges; with an
empty discarded list the tree is returned as it was. -/
theorem C16_admitted_edges_follow_the_tree (E : Engine)
    (MinimumSpanningTree DiscardedEdgesArray : List FEdgeInfo) (Stream : FRandomStream)
    (AddToMSTChance : ℚ) :
    (RandomlyAddEdgesToMST E MinimumSpanningTree DiscardedEdgesArray Stream AddToMSTChance).1 =
      MinimumSpanningTree ++ AdmittedEdges DiscardedEdgesArray
        (UnitDraws E DiscardedEdgesArray.length Stream) AddToMSTChance ∧
    (UnitDraws E DiscardedEdgesArray.length Stream).length = DiscardedEdgesArray.length ∧
    (RandomlyAddEdgesToMST E MinimumSpanningTree [] Stream AddToMSTChance).1 =
      MinimumSpanningTree := by
  refine ⟨?_, ?_, ?_⟩
  · unfold RandomlyAddEdgesToMST
    rw [randomlyAddEdges_fold]
  · generalize DiscardedEdgesArray.length = k
    induction k generalizing Stream with
    | zero => rfl
    | succ k ih => simp [UnitDraws, ih]
  · rfl

/-- `RandomlyAddEdgesToMST` receives the stream by value.  Its draws advance its own
copy by one draw for every discarded edge, and the stream of the level is left as it
was: with corridor generation switched off, `LevelStream` after
`GenerateCorridors3D` is `LevelStream` before it, whatever the number of discarded
edges. -/
theorem levelStream_kept_without_corridors (E : Engine) (Steps : Nat)
    (LevelGenerationSettings : FLevelGenerationSettings)
    (GeneratedLevelData : FGeneratedLevelData) (Stream : FRandomStream)
    (hoff : LevelGenerationSettings.bGenerateCorridors = false)
    (hrun : StreamAfter (GenerateCorridors3D E Steps LevelGenerationSettings
      GeneratedLevelData) = some Stream) :
    Stream = GeneratedLevelData.LevelStream ∧
    ∀ (Tree Discarded : List FEdgeInfo),
      (RandomlyAddEdgesToMST E Tree Discarded GeneratedLevelData.LevelStream
        LevelGenerationSettings.ExtraCorridorChance).2 =
        AdvanceStream E Discarded.length GeneratedLevelData.LevelStream := by
  refine ⟨?_, ?_⟩
  · unfold GenerateCorridors3D at hrun
    simp only [hoff, Bool.not_false, if_true] at hrun
    split at hrun
    · simp [StreamAfter, Outcome.value] at hrun
    · simp only [StreamAfter, Outcome.value, Option.map_some', Option.some.injEq] at hrun
      exact hrun.symm
  · intro Tree Discarded
    unfold RandomlyAddEdgesToMST
    rw [randomlyAddEdges_fold]

theorem levelStream_kept_on_triangle :
    (⟨0, 0⟩ : FRandomStream) = TriangleScenario.LevelStream ∧
    ∀ (Tree Discarded : List FEdgeInfo),
      (RandomlyAddEdgesToMST (ScenarioEngine TriangleEdges) Tree Discarded
        TriangleScenario.LevelStream (NoCorridorSettings ⟨5, 5, 1⟩).ExtraCorridorChance).2 =
        AdvanceStream (ScenarioEngine TriangleEdges) Discarded.length
          TriangleScenario.LevelStream :=
  levelStream_kept_without_corridors (ScenarioEngine TriangleEdges) 10
    (NoCorridorSettings ⟨5, 5, 1⟩) TriangleScenario ⟨0, 0⟩ (by decide!) (by decide!)

/-- With corridor generation switched off, for three rooms and the three edges
between them one edge is discarded and admitted again, and `LevelStream` after
`GenerateCorridors3D` is the stream before the call, not the stream one draw
later. -/
theorem levelStream_not_advanced_on_triangle :
    (GetMinimumSpanningTreeV2 (ScenarioEngine TriangleEdges).EdgeSort
        (RoomCoordinatesOf TriangleScenario.LevelTileData) TriangleEdges []).map
        (fun r => (r.1.length, r.2.length)) = some (2, 1) ∧
    (TreeAfter (GenerateCorridors3D (ScenarioEngine TriangleEdges) 10
        (NoCorridorSettings ⟨5, 5, 1⟩) TriangleScenario)).map List.length = some 3 ∧
    StreamAfter (GenerateCorridors3D (ScenarioEngine TriangleEdges) 10
        (NoCorridorSettings ⟨5, 5, 1⟩) TriangleScenario) = some TriangleScenario.LevelStream ∧
    AdvanceStream (ScenarioEngine TriangleEdges) 1 TriangleScenario.LevelStream ≠
      TriangleScenario.LevelStream := by
  refine ⟨by decide!, by decide!, by decide!, by decide!⟩

/-- C14: `RandomlyAddEdgesToMST` receives the stream by value, so its draws advance
a copy and the draws that follow repeat them.  For every engine the copy ends one
draw later for every discarded edge.  On `TriangleScenario`, with a stream whose
draws alternate between 1/4 and 3/4, one edge is discarded and admitted again by the
draw 1/4; `GenerateCorridors3D` then builds five corridor tiles and draws a row of
`TwoRowTable` for each: the level stream ends five draws after its state on entry,
not six, and the first corridor tile gets the row of the draw 1/4, the value that
admitted the edge, where the stream one draw later gives the other row. -/
theorem C14_corridor_content_repeats_admission_draw :
    (∀ (E : Engine) (Tree Discarded : List FEdgeInfo) (Stream : FRandomStream) (Chance : ℚ),
      (RandomlyAddEdgesToMST E Tree Discarded Stream Chance).2 =
        AdvanceStream E Discarded.length Stream) ∧
    (GetMinimumSpanningTreeV2 (AlternatingEngine TriangleEdges).EdgeSort
        (RoomCoordinatesOf TriangleScenario.LevelTileData) TriangleEdges []).map
        (fun r => (r.1.length, r.2.length)) = some (2, 1) ∧
    UnitDraws (AlternatingEngine TriangleEdges) 2 TriangleScenario.LevelStream =
      [1 / 4, 3 / 4] ∧
    (TreeAfter (GenerateCorridors3D (AlternatingEngine TriangleEdges) 20
        (ContentSettings ⟨5, 5, 1⟩) TriangleScenario)).map List.length = some 3 ∧
    StreamAfter (GenerateCorridors3D (AlternatingEngine TriangleEdges) 20
        (ContentSettings ⟨5, 5, 1⟩) TriangleScenario) =
      some (AdvanceStream (AlternatingEngine TriangleEdges) 5 TriangleScenario.LevelStream) ∧
    AdvanceStream (AlternatingEngine TriangleEdges) 5 TriangleScenario.LevelStream ≠
      AdvanceStream (AlternatingEngine TriangleEdges) (1 + 5) TriangleScenario.LevelStream ∧
    CorridorContent (GenerateCorridors3D (AlternatingEngine TriangleEdges) 20
        (ContentSettings ⟨5, 5, 1⟩) TriangleScenario) =
      some [(⟨1, 0, 0⟩, some 1), (⟨0, 1, 0⟩, some 2), (⟨1, 2, 0⟩, some 1),
        (⟨2, 2, 0⟩, some 2), (⟨2, 1, 0⟩, some 1)] ∧
    (GetRandomCorridorFromCorridorList (AlternatingEngine TriangleEdges) TwoRowTable
        TriangleScenario.LevelStream).1.map (fun Row => Row.CorridorMap) = some (some 1) ∧
    (GetRandomCorridorFromCorridorList (AlternatingEngine TriangleEdges) TwoRowTable
        (AdvanceStream (AlternatingEngine TriangleEdges) 1 TriangleScenario.LevelStream)).1.map
        (fun Row => Row.CorridorMap) = some (some 2) := by
  refine ⟨?_, by decide!, by decide!, by decide!, by decide!, by decide!, by decide!,
    by decide!, by decide!⟩
  intro E Tree Discarded Stream Chance
  unfold RandomlyAddEdgesToMST
  rw [randomlyAddEdges_fold]

end LevelGen

namespace LevelGen

/-! ## Rotations, seeds and the loops of the room phases -/

/-- C12: for every direction other than the counter `MAX`, that is for None, North,
East, South, West, Above and Below, four applications of `RotateDirection` with a
yaw of 90 degrees give the direction back. -/
theorem C12_four_quarter_turns_are_identity (d : EDirections) (hd : d ≠ EDirections.MAX) :
    RotateDirection (RotateDirection (RotateDirection (RotateDirection d QuarterTurn)
      QuarterTurn) QuarterTurn) QuarterTurn = d := by
  cases d
  case MAX => exact absurd rfl hd
  all_goals decide!

theorem C12_witness :
    RotateDirection (RotateDirection (RotateDirection (RotateDirection EDirections.North
      QuarterTurn) QuarterTurn) QuarterTurn) QuarterTurn = EDirections.North :=
  C12_four_quarter_turns_are_identity EDirections.North (by decide)

/-- With `bUsePlayerSeed` set, `GenerateLevel` overwrites the level stream with the
seed of the settings before any phase reads it: on equal settings and on levels with
equal tiles, equal path data and an equal tree list the outcome is the same,
whatever the state of the level stream on entry and whatever seed the global
generator would hand out. -/
theorem seeded_run_ignores_entry_stream (E : Engine) (Steps : Nat) (NewSeed1 NewSeed2 : Int)
    (LevelGenerationSettings : FLevelGenerationSettings)
    (Data1 Data2 : FGeneratedLevelData)
    (hseed : LevelGenerationSettings.bUsePlayerSeed = true)
    (hTiles : Data1.LevelTileData = Data2.LevelTileData)
    (hPaths : Data1.LevelPathData = Data2.LevelPathData)
    (hTree : Data1.MinimumSpanningTree = Data2.MinimumSpanningTree) :
    GenerateLevel E Steps NewSeed1 LevelGenerationSettings Data1 =
      GenerateLevel E Steps NewSeed2 LevelGenerationSettings Data2 ∧
    TilesAfter (GenerateLevel E Steps NewSeed1 LevelGenerationSettings Data1) =
      TilesAfter (GenerateLevel E Steps NewSeed2 LevelGenerationSettings Data2) ∧
    TreeAfter (GenerateLevel E Steps NewSeed1 LevelGenerationSettings Data1) =
      TreeAfter (GenerateLevel E Steps NewSeed2 LevelGenerationSettings Data2) := by
  have h : GenerateLevel E Steps NewSeed1 LevelGenerationSettings Data1 =
      GenerateLevel E Steps NewSeed2 LevelGenerationSettings Data2 := by
    unfold GenerateLevel
    simp only [hseed, if_true, hTiles, hPaths, hTree]
  exact ⟨h, by rw [h], by rw [h]⟩

theorem seeded_run_on_corridor_scenario :
    GenerateLevel (ScenarioEngine [CorridorScenarioEdge]) 10 1 (SeededSettings ⟨5, 5, 1⟩)
        CorridorScenario =
      GenerateLevel (ScenarioEngine [CorridorScenarioEdge]) 10 2 (SeededSettings ⟨5, 5, 1⟩)
        CorridorScenarioOtherStream ∧
    TilesAfter (GenerateLevel (ScenarioEngine [CorridorScenarioEdge]) 10 1
        (SeededSettings ⟨5, 5, 1⟩) CorridorScenario) =
      TilesAfter (GenerateLevel (ScenarioEngine [CorridorScenarioEdge]) 10 2
        (SeededSettings ⟨5, 5, 1⟩) CorridorScenarioOtherStream) ∧
    TreeAfter (GenerateLevel (ScenarioEngine [CorridorScenarioEdge]) 10 1
        (SeededSettings ⟨5, 5, 1⟩) CorridorScenario) =
      TreeAfter (GenerateLevel (ScenarioEngine [CorridorScenarioEdge]) 10 2
        (SeededSettings ⟨5, 5, 1⟩) CorridorScenarioOtherStream) :=
  seeded_run_ignores_entry_stream (ScenarioEngine [CorridorScenarioEdge]) 10 1 2
    (SeededSettings ⟨5, 5, 1⟩) CorridorScenario CorridorScenarioOtherStream rfl rfl rfl rfl

theorem placeRoomLoop_no_row (E : Engine) (S : FLevelGenerationSettings)
    (RoomList : DataTable FTileGenerationData)
    (h : ∀ Stream, (GetRandomRoomFromRoomList E RoomList Stream).1 = none) :
    ∀ (Steps : Nat) (FailCounter : Int) (D : FGeneratedLevelData),
      PlaceRoomLoop E S RoomList Steps FailCounter D = Outcome.unfinished := by
  intro Steps
  induction Steps with
  | zero => intro F D; rfl
  | succ n ih =>
    intro F D
    unfold PlaceRoomLoop
    simp only [h D.LevelStream]
    exact ih _ _

/-- C19: when the room list yields no row, whatever the state of the stream (as the
null table and the table without rows do), the loop of `PlaceRoomInGrid` takes the
`continue` of line 516 in every iteration without counting a failure: for every
number of steps the run is still in its loop, so the function never returns. -/
theorem C19_no_row_never_returns (E : Engine) (Steps : Nat)
    (LevelGenerationSettings : FLevelGenerationSettings)
    (GeneratedLevelData : FGeneratedLevelData) (RoomList : DataTable FTileGenerationData)
    (h : ∀ Stream, (GetRandomRoomFromRoomList E RoomList Stream).1 = none) :
    PlaceRoomInGrid E Steps LevelGenerationSettings GeneratedLevelData RoomList =
      Outcome.unfinished :=
  placeRoomLoop_no_row E LevelGenerationSettings RoomList h Steps 0 GeneratedLevelData

theorem C19_witness :
    PlaceRoomInGrid (ScenarioEngine []) 1000 (PlainSettings ⟨2, 2, 2⟩) (LevelOf []) none =
      Outcome.unfinished ∧
    PlaceRoomInGrid (ScenarioEngine []) 1000 (PlainSettings ⟨2, 2, 2⟩) (LevelOf []) (some []) =
      Outcome.unfinished :=
  ⟨C19_no_row_never_returns (ScenarioEngine []) 1000 (PlainSettings ⟨2, 2, 2⟩) (LevelOf []) none
      (fun _ => rfl),
   C19_no_row_never_returns (ScenarioEngine []) 1000 (PlainSettings ⟨2, 2, 2⟩) (LevelOf [])
      (some []) (fun _ => rfl)⟩

theorem basicRoomLoop_empty_list (E : Engine) (Steps : Nat) (S : FLevelGenerationSettings)
    (Quantity : Int) (hempty : S.BasicRoomList = []) (hq : 0 < Quantity) :
    ∀ (Rounds : Nat) (D : FGeneratedLevelData),
      BasicRoomLoop E Steps S Quantity Rounds 0 D = Outcome.unfinished := by
  intro Rounds
  induction Rounds with
  | zero => intro D; rfl
  | succ n ih =>
    intro D
    unfold BasicRoomLoop
    simp only [hq, if_true, hempty, GetRandomRoomListFromDataTable, List.isEmpty_nil]
    exact ih _

/-- C20: with an empty `BasicRoomList`, `GenerateBasicRooms` returns with the tiles
unchanged when the number of rooms it draws is 0; when that number is positive,
`GetRandomRoomListFromDataTable` returns the null table in every iteration of the
loop of lines 238-245 and `RoomsGenerated` is never incremented: for every number of
steps the run is still in its loop, so the function never returns. -/
theorem C20_empty_room_list_never_returns (E : Engine) (Steps : Nat)
    (LevelGenerationSettings : FLevelGenerationSettings)
    (GeneratedLevelData : FGeneratedLevelData)
    (hempty : LevelGenerationSettings.BasicRoomList = []) :
    ((DrawBasicRoomQuantity E LevelGenerationSettings GeneratedLevelData).1 = 0 →
      TilesAfter (GenerateBasicRooms E Steps LevelGenerationSettings GeneratedLevelData) =
        some GeneratedLevelData.LevelTileData) ∧
    (0 < (DrawBasicRoomQuantity E LevelGenerationSettings GeneratedLevelData).1 →
      GenerateBasicRooms E Steps LevelGenerationSettings GeneratedLevelData =
        Outcome.unfinished) := by
  constructor
  · intro h0
    unfold GenerateBasicRooms
    simp only [h0, if_true]
    rfl
  · intro hq
    unfold GenerateBasicRooms
    have hne : ¬ (DrawBasicRoomQuantity E LevelGenerationSettings GeneratedLevelData).1 = 0 := by
      omega
    simp only [hne, if_false]
    exact basicRoomLoop_empty_list E Steps LevelGenerationSettings _ hempty hq Steps _

theorem C20_witness :
    (DrawBasicRoomQuantity (ScenarioEngine []) OneBasicRoomSettings (LevelOf [])).1 = 1 ∧
    GenerateBasicRooms (ScenarioEngine []) 1000 OneBasicRoomSettings (LevelOf []) =
      Outcome.unfinished :=
  ⟨by decide!,
   (C20_empty_room_list_never_returns (ScenarioEngine []) 1000 OneBasicRoomSettings (LevelOf [])
      rfl).2 (by decide!)⟩

/-- C11: the scan for the start cell never checks whether the cell holds a tile
(line 338 checks the end cell again), `AdvancedAStarPathfinding` returns true with
the start and the end as path when the start is a room cell, and the last loop of
`GenerateCorridors3D` adds a corridor tile under every path coordinate.  With a room
at (0,0,0) open to the North and a room anchored at (1,1,0) whose room section lies
at (1,0,0), the path is planned from (1,0,0), and after the call (1,0,0) holds a
corridor tile with an empty footprint in place of the room section. -/
theorem C11_room_section_replaced_by_corridor :
    TileShapes BlockedScenario.LevelTileData =
      [(⟨0, 0, 0⟩, ETileType.Room_Basic, ⟨0, 0, 0⟩, [⟨0, 0, 0⟩]),
       (⟨1, 1, 0⟩, ETileType.Room_Basic, ⟨0, 0, 0⟩, [⟨0, 0, 0⟩, ⟨0, -1, 0⟩]),
       (⟨1, 0, 0⟩, ETileType.Room_Section, ⟨0, 0, 0⟩, [⟨0, 0, 0⟩])] ∧
    PlannedRoutes (PlanPaths (ScenarioEngine [BlockedScenarioEdge])
        { BlockedScenario with MinimumSpanningTree := [BlockedScenarioEdge] }) =
      some [(⟨1, 0, 0⟩, ⟨1, 2, 0⟩, 2)] ∧
    (SearchResult (AdvancedAStarPathfinding (ScenarioEngine [BlockedScenarioEdge]) 10
        ⟨1, 0, 0⟩ ⟨1, 2, 0⟩ [] [] (PlainSettings ⟨5, 5, 1⟩) BlockedScenario)).map
        (fun r => (r.1, r.2.1)) = some (true, [⟨1, 0, 0⟩, ⟨1, 2, 0⟩]) ∧
    (TilesAfter (GenerateCorridors3D (ScenarioEngine [BlockedScenarioEdge]) 10
        (PlainSettings ⟨5, 5, 1⟩) BlockedScenario)).map TileShapes =
      some [(⟨0, 0, 0⟩, ETileType.Room_Basic, ⟨0, 0, 0⟩, [⟨0, 0, 0⟩]),
            (⟨1, 1, 0⟩, ETileType.Room_Basic, ⟨0, 0, 0⟩, [⟨0, 0, 0⟩, ⟨0, -1, 0⟩]),
            (⟨1, 0, 0⟩, ETileType.Corridor, ⟨0, 180, 0⟩, []),
            (⟨1, 2, 0⟩, ETileType.Corridor, ⟨0, 270, 0⟩, [])] := by
  refine ⟨by decide!, by decide!, by decide!, by decide!⟩

end LevelGen

namespace LevelGen

/-! ## The search on a plane without obstacles never empties `OPEN` -/

theorem foldl_option_none {α β : Type} (g : Option α → β → Option α)
    (hnone : ∀ b, g none b = none) : ∀ (L : List β), L.foldl g none = none := by
  intro L
  induction L with
  | nil => rfl
  | cons x t iht => rw [List.foldl_cons, hnone, iht]

/-- A fold of steps that may fail: when every step from a state with `P` succeeds
and keeps `P` and `R`, and the step for the key `b0` establishes `R`, the fold
succeeds, keeps `P` and `R`, and establishes `R` when `b0` is among the keys. -/
theorem foldl_option_track {α β : Type} (P R : α → Prop) (g : Option α → β → Option α)
    (b0 : β) (Keys : List β)
    (hstep : ∀ a, P a → ∀ b ∈ Keys, ∃ a2, g (some a) b = some a2 ∧ P a2 ∧ (R a → R a2) ∧
      (b = b0 → R a2)) :
    ∀ a, P a → ∃ a2, Keys.foldl g (some a) = some a2 ∧ P a2 ∧ (R a → R a2) ∧
      (b0 ∈ Keys → R a2) := by
  induction Keys with
  | nil =>
    intro a ha
    exact ⟨a, rfl, ha, fun h => h, fun h => by simp at h⟩
  | cons k rest ih =>
    intro a ha
    obtain ⟨a1, h1, hP1, hR1, hE1⟩ := hstep a ha k (List.mem_cons_self _ _)
    obtain ⟨a2, h2, hP2, hR2, hE2⟩ :=
      ih (fun a3 h3 b hb => hstep a3 h3 b (List.mem_cons_of_mem _ hb)) a1 hP1
    refine ⟨a2, ?_, hP2, fun h => hR2 (hR1 h), ?_⟩
    · rw [List.foldl_cons, h1]
      exact h2
    · intro hmem
      rcases List.mem_cons.1 hmem with h | h
      · exact hR2 (hE1 h.symm)
      · exact hE2 h

theorem tmapFind_of_mem_keys {κ ν : Type} [DecidableEq κ] (m : List (κ × ν)) (k : κ)
    (h : k ∈ TMapKeys m) : ∃ v, TMapFind m k = some v := by
  have h2 := (tmapContains_iff m k).2 h
  unfold TMapContains at h2
  cases hf : TMapFind m k with
  | none => rw [hf] at h2; simp at h2
  | some v => exact ⟨v, rfl⟩

theorem exists_max_X (CLOSED : List (FIntVector × FAdvancedPathNode)) (hne : CLOSED ≠ []) :
    ∃ e ∈ CLOSED, ∀ e2 ∈ CLOSED, e2.1.X ≤ e.1.X := by
  induction CLOSED with
  | nil => exact absurd rfl hne
  | cons a rest ih =>
    by_cases hr : rest = []
    · subst hr
      exact ⟨a, List.mem_cons_self _ _, fun e2 h2 => by
        simp only [List.mem_singleton] at h2
        rw [h2]⟩
    · obtain ⟨m, hm, hmax⟩ := ih hr
      by_cases hc : m.1.X ≤ a.1.X
      · refine ⟨a, List.mem_cons_self _ _, ?_⟩
        intro e2 h2
        rcases List.mem_cons.1 h2 with h | h
        · rw [h]
        · exact le_trans (hmax e2 h) hc
      · refine ⟨m, List.mem_cons_of_mem _ hm, ?_⟩
        intro e2 h2
        rcases List.mem_cons.1 h2 with h | h
        · rw [h]; omega
        · exact hmax e2 h

theorem evaluateSpecial_eq (E : Engine) (S : FLevelGenerationSettings)
    (hno : NoSpecialStructure S) (OPEN CLOSED : List (FIntVector × FAdvancedPathNode))
    (Inaccessible : List FIntVector) (PGD : List FPathGenerationData)
    (D : FGeneratedLevelData) (c : FIntVector) (d : EDirections)
    (hd : d ∈ [EDirections.North, EDirections.East, EDirections.South, EDirections.West])
    (Start End : FIntVector) :
    EvaluateSpecialCorridorStructures E OPEN CLOSED Inaccessible PGD S D c d Start End =
      some OPEN := by
  have hstep : ∀ k ∈ TMapKeys S.AllowedSpecialPathTypes,
      TMapFind S.AllowedSpecialPathTypes k = some false := by
    intro k hk
    obtain ⟨b, hb⟩ := tmapFind_of_mem_keys _ _ hk
    have hb2 : b = false := hno (k, b) (tmapFind_mem _ _ _ hb)
    rw [hb, hb2]
  have hfold : ∀ (F : List (FIntVector × FAdvancedPathNode) → ESpecialPathType →
      Option (List (FIntVector × FAdvancedPathNode))) (Keys : List ESpecialPathType),
      (∀ k ∈ Keys, TMapFind S.AllowedSpecialPathTypes k = some false) →
      Keys.foldl (fun (Acc : Option (List (FIntVector × FAdvancedPathNode))) k =>
        match Acc with
        | none => none
        | some Open =>
          match TMapFind S.AllowedSpecialPathTypes k with
          | none => none
          | some false => some Open
          | some true => F Open k) (some OPEN) = some OPEN := by
    intro F Keys
    induction Keys with
    | nil => intro _; rfl
    | cons k rest ih =>
      intro hk
      rw [List.foldl_cons]
      simp only [hk k (List.mem_cons_self _ _)]
      exact ih (fun k2 h2 => hk k2 (List.mem_cons_of_mem _ h2))
  unfold EvaluateSpecialCorridorStructures
  simp only [List.mem_cons, List.mem_singleton, List.not_mem_nil, or_false] at hd
  rcases hd with h | h | h | h <;> subst h <;>
    simp only [DirectionCoordinates, RotationMap, TMapFind, reduceCtorEq, if_false, if_true] <;>
    split_ifs <;> first | rfl | exact hfold _ _ hstep

theorem direction_vector (d : EDirections)
    (hd : d ∈ [EDirections.North, EDirections.East, EDirections.South, EDirections.West]) :
    ∃ v, TMapFind DirectionCoordinates d = some v ∧ v.Z = 0 ∧
      (d = EDirections.North → v = ⟨1, 0, 0⟩) := by
  simp only [List.mem_cons, List.mem_singleton, List.not_mem_nil, or_false] at hd
  rcases hd with h | h | h | h <;> subst h
  · exact ⟨⟨1, 0, 0⟩, rfl, rfl, fun _ => rfl⟩
  · exact ⟨⟨0, 1, 0⟩, rfl, rfl, fun h => by cases h⟩
  · exact ⟨⟨-1, 0, 0⟩, rfl, rfl, fun h => by cases h⟩
  · exact ⟨⟨0, -1, 0⟩, rfl, rfl, fun h => by cases h⟩

theorem fintVector_add_Z (a b : FIntVector) : (a + b).Z = a.Z + b.Z := rfl

theorem fintVector_add_X (a b : FIntVector) : (a + b).X = a.X + b.X := rfl

theorem planeNode_mono (Start : FIntVector) (CL CL2 : List (FIntVector × FAdvancedPathNode))
    (h : ∀ k ∈ TMapKeys CL, k ∈ TMapKeys CL2) (e : FIntVector × FAdvancedPathNode)
    (he : PlaneNode Start CL e) : PlaneNode Start CL2 e :=
  ⟨he.1, he.2.1, fun k hk => h k (he.2.2 k hk)⟩

theorem newPlainNode_plane (E : Engine) (C : SearchContext)
    (CLOSED : List (FIntVector × FAdvancedPathNode)) (c : FIntVector) (n : FAdvancedPathNode)
    (v : FIntVector) (hv : v.Z = 0) (hc : c ∈ TMapKeys CLOSED)
    (hn : PlaneNode C.StartLocation CLOSED (c, n)) :
    PlaneNode C.StartLocation CLOSED (c + v, NewPlainNode E C c n (c + v)) := by
  obtain ⟨f1, _, f3⟩ := newPlainNode_fields E C c n (c + v)
  refine ⟨?_, f1, ?_⟩
  · show (c + v).Z = _
    rw [fintVector_add_Z, hv, add_zero]
    exact hn.1
  · intro k hk
    simp only [f3] at hk
    rcases (tmapKeys_add _ _ _ _).1 hk with h | h
    · exact hn.2.2 k h
    · exact h ▸ hc

theorem expandClosedDirection_plane (E : Engine) (C : SearchContext)
    (hno : NoSpecialStructure C.LevelGenerationSettings) (hfree : FreePlane C)
    (CLOSED Open : List (FIntVector × FAdvancedPathNode)) (c : FIntVector) (d : EDirections)
    (hd : d ∈ DirectionEvaluationOrder) (hc : c ∈ TMapKeys CLOSED)
    (hCL : ∀ e ∈ CLOSED, PlaneNode C.StartLocation CLOSED e)
    (hOP : ∀ e ∈ Open, PlaneNode C.StartLocation CLOSED e) :
    ∃ Open2, ExpandClosedDirection E C CLOSED c Open d = some Open2 ∧
      (∀ e ∈ Open2, PlaneNode C.StartLocation CLOSED e) ∧
      (∀ k ∈ TMapKeys Open, k ∈ TMapKeys Open2) ∧
      (d = EDirections.North → (∀ e2 ∈ CLOSED, e2.1.X ≤ c.X) →
        c + ⟨1, 0, 0⟩ ∈ TMapKeys Open2) := by
  have hd4 : d ∈ [EDirections.North, EDirections.East, EDirections.South, EDirections.West] := by
    simp only [DirectionEvaluationOrder, List.mem_cons, List.mem_singleton,
      List.not_mem_nil, or_false] at hd ⊢
    tauto
  have hab : ¬ (d = EDirections.Above ∨ d = EDirections.Below) := by
    simp only [List.mem_cons, List.mem_singleton, List.not_mem_nil, or_false] at hd4
    rcases hd4 with h | h | h | h <;> subst h <;> decide
  obtain ⟨v, hv, hvZ, hvN⟩ := direction_vector d hd4
  obtain ⟨n, hn⟩ := tmapFind_of_mem_keys CLOSED c hc
  have hnode : PlaneNode C.StartLocation CLOSED (c, n) := hCL _ (tmapFind_mem _ _ _ hn)
  have hxZ : (c + v).Z = C.StartLocation.Z := by
    rw [fintVector_add_Z, hvZ, add_zero]; exact hnode.1
  have hmax : d = EDirections.North → (∀ e2 ∈ CLOSED, e2.1.X ≤ c.X) →
      c + v ∉ TMapKeys CLOSED := by
    intro hN hm hmem
    rw [hvN hN] at hmem
    simp only [TMapKeys, List.mem_map] at hmem
    obtain ⟨e2, he2, hk⟩ := hmem
    have := hm e2 he2
    rw [hk, fintVector_add_X] at this
    simp at this
  unfold ExpandClosedDirection
  rw [if_neg hab]
  simp only [hv, hn]
  by_cases hprev : TMapContains n.PreviousPath (c + v) = true
  · rw [if_pos hprev]
    refine ⟨Open, rfl, hOP, fun k hk => hk, ?_⟩
    intro hN hm
    exact absurd (hnode.2.2 _ ((tmapContains_iff _ _).1 hprev)) (hmax hN hm)
  · rw [if_neg hprev, evaluateSpecial_eq E _ hno _ _ _ _ _ _ _ hd4]
    refine ⟨_, rfl, ?_, ?_, ?_⟩
    · split_ifs with hcond
      · intro e he
        rcases mem_tmapAdd _ _ _ _ he with h1 | h1
        · exact hOP e h1
        · subst h1
          exact newPlainNode_plane E C CLOSED c n v hvZ hc hnode
      · exact hOP
    · intro k hk
      split_ifs with hcond
      · exact (tmapKeys_add _ _ _ _).2 (Or.inl hk)
      · exact hk
    · intro hN hm
      rw [← hvN hN]
      split_ifs with hcond
      · exact (tmapKeys_add _ _ _ _).2 (Or.inr rfl)
      · have h1 : TSetContains C.InaccessibleNodes (c + v) = false := by
          simpa [TSetContains] using (hfree _ hxZ).1
        have h2 : IsSpecialPathAt C.GeneratedLevelData (c + v) = false := (hfree _ hxZ).2
        have h3 : TMapContains CLOSED (c + v) = false :=
          (tmapContains_false_iff _ _).2 (hmax hN hm)
        simp only [h1, h2, h3, Bool.not_false, Bool.true_and, Bool.and_true,
          Bool.not_eq_eq_eq_not, Bool.not_true, Bool.not_eq_false] at hcond
        exact (tmapContains_iff _ _).1 hcond

theorem expandClosedNode_plane (E : Engine) (C : SearchContext)
    (hno : NoSpecialStructure C.LevelGenerationSettings) (hfree : FreePlane C)
    (CLOSED Open : List (FIntVector × FAdvancedPathNode)) (c : FIntVector)
    (hc : c ∈ TMapKeys CLOSED)
    (hCL : ∀ e ∈ CLOSED, PlaneNode C.StartLocation CLOSED e)
    (hOP : ∀ e ∈ Open, PlaneNode C.StartLocation CLOSED e) :
    ∃ Open2, ExpandClosedNode E C CLOSED Open c = some Open2 ∧
      (∀ e ∈ Open2, PlaneNode C.StartLocation CLOSED e) ∧
      (∀ k ∈ TMapKeys Open, k ∈ TMapKeys Open2) ∧
      ((∀ e2 ∈ CLOSED, e2.1.X ≤ c.X) → c + ⟨1, 0, 0⟩ ∈ TMapKeys Open2) := by
  unfold ExpandClosedNode
  obtain ⟨n, hn⟩ := tmapFind_of_mem_keys CLOSED c hc
  have hnode := hCL _ (tmapFind_mem _ _ _ hn)
  have hsec : ¬ n.SpecialPathType = ESpecialPathType.SpecialPathSection := by
    rw [hnode.2.1]; decide
  simp only [hn, hsec, if_false]
  obtain ⟨Open2, h2, hP2, _, hE2⟩ := foldl_option_track
    (fun O => (∀ e ∈ O, PlaneNode C.StartLocation CLOSED e) ∧
      (∀ k ∈ TMapKeys Open, k ∈ TMapKeys O))
    (fun O => (∀ e2 ∈ CLOSED, e2.1.X ≤ c.X) → c + ⟨1, 0, 0⟩ ∈ TMapKeys O)
    (fun Acc CurrentDirection =>
      match Acc with
      | none => none
      | some O => ExpandClosedDirection E C CLOSED c O CurrentDirection)
    EDirections.North DirectionEvaluationOrder
    (by
      intro a ha d hd
      obtain ⟨a2, h3, hP3, hK3, hN3⟩ :=
        expandClosedDirection_plane E C hno hfree CLOSED a c d hd hc hCL ha.1
      exact ⟨a2, h3, ⟨hP3, fun k hk => hK3 k (ha.2 k hk)⟩, fun hr hm => hK3 _ (hr hm),
        fun hdN => hN3 hdN⟩) Open ⟨hOP, fun k hk => hk⟩
  exact ⟨Open2, h2, hP2.1, hP2.2, hE2 (by decide)⟩

theorem expandClosed_plane (E : Engine) (C : SearchContext)
    (hno : NoSpecialStructure C.LevelGenerationSettings) (hfree : FreePlane C)
    (CLOSED OPEN : List (FIntVector × FAdvancedPathNode)) (hne : CLOSED ≠ [])
    (hCL : ∀ e ∈ CLOSED, PlaneNode C.StartLocation CLOSED e)
    (hOP : ∀ e ∈ OPEN, PlaneNode C.StartLocation CLOSED e) :
    ∃ Expanded, ExpandClosed E C OPEN CLOSED = some Expanded ∧
      (∀ e ∈ Expanded, PlaneNode C.StartLocation CLOSED e) ∧ Expanded ≠ [] := by
  obtain ⟨m, hm, hmax⟩ := exists_max_X CLOSED hne
  have hmk : m.1 ∈ TMapKeys CLOSED := List.mem_map_of_mem Prod.fst hm
  unfold ExpandClosed
  obtain ⟨Expanded, hE, hP, _, hR⟩ := foldl_option_track
    (fun O => ∀ e ∈ O, PlaneNode C.StartLocation CLOSED e)
    (fun O => m.1 + ⟨1, 0, 0⟩ ∈ TMapKeys O)
    (fun Acc CurrentClosedNode =>
      match Acc with
      | none => none
      | some O => ExpandClosedNode E C CLOSED O CurrentClosedNode)
    m.1 (TMapKeys CLOSED)
    (by
      intro a ha c hc
      obtain ⟨a2, h3, hP3, hK3, hN3⟩ := expandClosedNode_plane E C hno hfree CLOSED a c hc hCL ha
      exact ⟨a2, h3, hP3, fun hr => hK3 _ hr, fun hcm => by
        subst hcm
        exact hN3 hmax⟩) OPEN hOP
  refine ⟨Expanded, hE, hP, ?_⟩
  intro hnil
  have := hR hmk
  rw [hnil] at this
  simp [TMapKeys] at this

theorem relaxNeighbour_plane (E : Engine) (C : SearchContext)
    (CLOSED Open : List (FIntVector × FAdvancedPathNode)) (cur : FIntVector)
    (CurrentNode : FAdvancedPathNode) (d : EDirections) (hd : d ∈ AllDirections)
    (hcur : cur ∈ TMapKeys CLOSED)
    (hCur : PlaneNode C.StartLocation CLOSED (cur, CurrentNode))
    (hfind : TMapFind CLOSED cur = some CurrentNode)
    (hOP : ∀ e ∈ Open, PlaneNode C.StartLocation CLOSED e) :
    ∃ Open2, RelaxNeighbour E C CLOSED cur CurrentNode Open d = some Open2 ∧
      ∀ e ∈ Open2, PlaneNode C.StartLocation CLOSED e := by
  unfold RelaxNeighbour
  by_cases hab : d = EDirections.Above ∨ d = EDirections.Below
  · rw [if_pos hab]
    exact ⟨Open, rfl, hOP⟩
  · rw [if_neg hab]
    have hd4 : d ∈ [EDirections.North, EDirections.East, EDirections.South,
        EDirections.West] := by
      simp only [AllDirections, List.mem_cons, List.mem_singleton, List.not_mem_nil,
        or_false] at hd ⊢
      tauto
    obtain ⟨v, hv, hvZ, _⟩ := direction_vector d hd4
    simp only [hv, hfind]
    split_ifs
    all_goals first
      | exact ⟨Open, rfl, hOP⟩
      | refine ⟨_, rfl, ?_⟩
        intro e he
        rcases mem_tmapAdd _ _ _ _ he with h1 | h1
        · exact hOP e h1
        · subst h1
          exact newPlainNode_plane E C CLOSED cur CurrentNode v hvZ hcur hCur

theorem searchLoop_endless (E : Engine) (C : SearchContext) (hsort : ValueSortPermutes E)
    (hno : NoSpecialStructure C.LevelGenerationSettings) (hfree : FreePlane C)
    (hlevel : C.StartLocation.Z ≠ C.EndLocation.Z)
    (PathData0 : List (FIntVector × FAdvancedPathNode)) :
    ∀ (Steps : Nat) (OPEN CLOSED : List (FIntVector × FAdvancedPathNode)),
      CLOSED ≠ [] →
      (∀ e ∈ CLOSED, PlaneNode C.StartLocation CLOSED e) →
      (∀ e ∈ OPEN, PlaneNode C.StartLocation CLOSED e) →
      SearchLoop E C PathData0 Steps OPEN CLOSED = Outcome.unfinished := by
  intro Steps
  induction Steps with
  | zero => intro OPEN CLOSED _ _ _; rfl
  | succ k ih =>
    intro OPEN CLOSED hne hCL hOP
    obtain ⟨Expanded, hexp, hExp, hExpNe⟩ :=
      expandClosed_plane E C hno hfree CLOSED OPEN hne hCL hOP
    unfold SearchLoop
    simp only [hexp]
    have hperm := hsort OpenNodeLess Expanded
    cases hs : E.ValueSort OpenNodeLess Expanded with
    | nil =>
      rw [hs] at hperm
      exact absurd (List.Perm.nil_eq hperm).symm hExpNe
    | cons Head SortedRest =>
      obtain ⟨cur, CurrentNode⟩ := Head
      have hSorted : ∀ e ∈ (cur, CurrentNode) :: SortedRest,
          PlaneNode C.StartLocation CLOSED e := by
        intro e he
        rw [← hs] at he
        exact hExp e (hperm.mem_iff.1 he)
      have hCur := hSorted _ (List.mem_cons_self _ _)
      have hns : CurrentNode.SpecialPathType.IsStructure = false := by
        rw [hCur.2.1]
        rfl
      have hend : ¬ cur = C.EndLocation := by
        intro e
        apply hlevel
        rw [← e]
        exact hCur.1.symm
      simp only [hns, Bool.false_eq_true, if_false, hend]
      have hkeys : ∀ k ∈ TMapKeys CLOSED, k ∈ TMapKeys (TMapAdd CLOSED cur CurrentNode) :=
        fun k hk => (tmapKeys_add _ _ _ _).2 (Or.inl hk)
      have hcur : cur ∈ TMapKeys (TMapAdd CLOSED cur CurrentNode) :=
        (tmapKeys_add _ _ _ _).2 (Or.inr rfl)
      have hCL2 : ∀ e ∈ TMapAdd CLOSED cur CurrentNode,
          PlaneNode C.StartLocation (TMapAdd CLOSED cur CurrentNode) e := by
        intro e he
        apply planeNode_mono _ _ _ hkeys
        rcases mem_tmapAdd _ _ _ _ he with h1 | h1
        · exact hCL e h1
        · exact h1 ▸ hCur
      have hOP2 : ∀ e ∈ TMapRemove ((cur, CurrentNode) :: SortedRest) cur,
          PlaneNode C.StartLocation (TMapAdd CLOSED cur CurrentNode) e := by
        intro e he
        exact planeNode_mono _ _ _ hkeys _ (hSorted e (List.mem_of_mem_filter he))
      obtain ⟨OPEN3, h3, hP3, _, _⟩ := foldl_option_track
        (fun O => ∀ e ∈ O, PlaneNode C.StartLocation (TMapAdd CLOSED cur CurrentNode) e)
        (fun _ => True)
        (fun Acc CurrentDirection =>
          match Acc with
          | none => none
          | some O =>
            RelaxNeighbour E C (TMapAdd CLOSED cur CurrentNode) cur CurrentNode O
              CurrentDirection)
        EDirections.North AllDirections
        (by
          intro a ha d hd
          obtain ⟨a2, h4, hP4⟩ := relaxNeighbour_plane E C _ a cur CurrentNode d hd hcur
            (planeNode_mono _ _ _ hkeys _ hCur) (tmapFind_add_same _ _ _) ha
          exact ⟨a2, h4, hP4, fun _ => trivial, fun _ => trivial⟩)
        _ hOP2
      simp only [h3]
      apply ih OPEN3 _ ?_ hCL2 hP3
      intro hnil
      rw [hnil] at hcur
      simp [TMapKeys] at hcur

/-- C18: the search is not confined to the grid.  For every engine whose
`ValueSort` returns a permutation of the map, with no special structure enabled, an
end on another level than the start and no room tile or special path on the level
of the start (nor a room tile at the end), every round of the loop of
`AdvancedAStarPathfinding` finds a cell next to the closed cell of largest X to put
into `OPEN`, and no cell it pops is the end: for every number of steps the run is
still in its loop, so the function never returns and `OPEN` never empties. -/
theorem C18_search_on_another_level_never_returns (E : Engine) (Steps : Nat)
    (Start End : FIntVector) (PathData : List (FIntVector × FAdvancedPathNode))
    (PGD : List FPathGenerationData) (S : FLevelGenerationSettings)
    (D : FGeneratedLevelData) (hsort : ValueSortPermutes E) (hno : NoSpecialStructure S)
    (hlevel : Start.Z ≠ End.Z) (hend : ¬ HoldsRoom D.LevelTileData End)
    (hplane : ∀ c : FIntVector, c.Z = Start.Z →
      ¬ HoldsRoom D.LevelTileData c ∧ IsSpecialPathAt D c = false) :
    AdvancedAStarPathfinding E Steps Start End PathData PGD S D = Outcome.unfinished := by
  unfold AdvancedAStarPathfinding
  simp only
  have hs2 : Start ∉ InaccessibleNodesOf D.LevelTileData :=
    fun hm => (hplane Start rfl).1 ((mem_inaccessibleNodesOf _ _).1 hm)
  have he2 : End ∉ InaccessibleNodesOf D.LevelTileData :=
    fun hm => hend ((mem_inaccessibleNodesOf _ _).1 hm)
  have hguard : ¬ (TSetContains (InaccessibleNodesOf D.LevelTileData) Start ||
      TSetContains (InaccessibleNodesOf D.LevelTileData) End) = true := by
    simp [TSetContains, hs2, he2]
  rw [if_neg hguard]
  apply searchLoop_endless E _ hsort hno ?_ hlevel
  · simp [TMapAdd]
  · intro e he
    simp only [TMapAdd, List.mem_singleton] at he
    subst he
    refine ⟨rfl, ?_, ?_⟩
    · simp [UpdateAdvancedNode, UpdateNodeFields, UpdateNodeCosts,
        ESpecialPathType.IsStructure]
    · intro k hk
      simp [UpdateAdvancedNode, UpdateNodeFields, UpdateNodeCosts,
        ESpecialPathType.IsStructure, TMapKeys] at hk
  · intro e he
    cases he
  · intro c hc
    exact ⟨fun hm => (hplane c hc).1 ((mem_inaccessibleNodesOf _ _).1 hm), (hplane c hc).2⟩

theorem C18_witness :
    AdvancedAStarPathfinding (ScenarioEngine []) 1000 ⟨0, 0, 0⟩ ⟨0, 0, 1⟩ [] []
      (PlainSettings ⟨5, 5, 2⟩) (LevelOf []) = Outcome.unfinished :=
  C18_search_on_another_level_never_returns (ScenarioEngine []) 1000 ⟨0, 0, 0⟩ ⟨0, 0, 1⟩ [] []
    (PlainSettings ⟨5, 5, 2⟩) (LevelOf []) (scenarioEngine_valueSortPermutes [])
    (noSpecialStructure_plainSettings _) (by decide) (by decide)
    (fun c _ => ⟨by simp [HoldsRoom, LevelOf], rfl⟩)

end LevelGen

namespace LevelGen

/-! ## Set coordinates, empty coordinates and the entries of a placed room -/

theorem placeRoomLoop_set_coordinate (E : Engine) (S : FLevelGenerationSettings)
    (Rows : List FTileGenerationData) (T : List (FIntVector × FTileData))
    (hset : ∀ Row ∈ Rows, Row.bTileHasSetCoordinate = true ∧
      TMapContains T Row.TileSetGridCoordinate = false) :
    ∀ (Steps : Nat) (FailCounter : Int) (D D2 : FGeneratedLevelData),
      D.LevelTileData = T →
      PlaceRoomLoop E S (some Rows) Steps FailCounter D = Outcome.returns D2 →
      D2.LevelTileData = T := by
  intro Steps
  induction Steps with
  | zero => intro F D D2 _ h; simp [PlaceRoomLoop] at h
  | succ n ih =>
    intro F D D2 hT h
    unfold PlaceRoomLoop at h
    simp only at h
    split at h
    · refine ih F _ D2 ?_ h
      exact hT
    · rename_i Row hsel
      obtain ⟨Rows2, hRows, hRow⟩ := getRandomRoomFromRoomList_mem E (some Rows) _ Row hsel
      simp only [Option.some.injEq] at hRows
      subst hRows
      obtain ⟨h1, h2⟩ := hset Row hRow
      rw [hT, h1, h2] at h
      simp only [Bool.not_false, Bool.and_self, if_true, Bool.not_true] at h
      by_cases hf : F + 1 > RoundToInt (((S.GridSize.X * S.GridSize.Y * S.GridSize.Z : Int) : ℚ) *
          (1 / 4))
      · rw [if_pos hf] at h
        simp only [Outcome.returns.injEq] at h
        subst h
        rfl
      · rw [if_neg hf] at h
        refine ih (F + 1) _ D2 ?_ h
        rfl

/-- C21 (code bug): a call of `PlaceRoomInGrid` on a room list whose rows all have
a set coordinate that holds no tile places nothing: when it returns, the tiles of
the level are the tiles it was given, whether or not the placement at the set
coordinate is valid. -/
theorem C21_set_coordinate_room_is_never_placed (E : Engine) (Steps : Nat)
    (S : FLevelGenerationSettings) (D : FGeneratedLevelData) (Rows : List FTileGenerationData)
    (Tiles : List (FIntVector × FTileData))
    (hset : ∀ Row ∈ Rows, Row.bTileHasSetCoordinate = true ∧
      TMapContains D.LevelTileData Row.TileSetGridCoordinate = false)
    (h : TilesAfter (PlaceRoomInGrid E Steps S D (some Rows)) = some Tiles) :
    Tiles = D.LevelTileData := by
  simp only [TilesAfter, Option.map_eq_some'] at h
  obtain ⟨D1, hv, hT⟩ := h
  have hrun := outcome_value_eq _ _ hv
  rw [← hT]
  exact placeRoomLoop_set_coordinate E S Rows D.LevelTileData hset Steps 0 D D1 rfl hrun

theorem C21_witness :
    RoomPlacementIsValid (PlainSettings ⟨4, 2, 2⟩) (LevelOf [])
      (RowAtCoordinate ⟨1, 0, 0⟩).TileData.TileAccessPoints ⟨1, 0, 0⟩ ⟨0, 0, 0⟩
      (RowAtCoordinate ⟨1, 0, 0⟩).TileData.TileSize = some true ∧
    TilesAfter (PlaceRoomInGrid (ScenarioEngine []) 10 (PlainSettings ⟨4, 2, 2⟩) (LevelOf [])
      (some [RowAtCoordinate ⟨1, 0, 0⟩])) = some [] ∧
    ([] : List (FIntVector × FTileData)) = (LevelOf []).LevelTileData :=
  ⟨by decide!, by decide!,
   C21_set_coordinate_room_is_never_placed (ScenarioEngine []) 10 (PlainSettings ⟨4, 2, 2⟩)
     (LevelOf []) [RowAtCoordinate ⟨1, 0, 0⟩] []
     (by
       intro Row hRow
       simp only [List.mem_singleton] at hRow
       subst hRow
       exact ⟨rfl, rfl⟩)
     (by decide!)⟩

theorem emptyCoordinates_bound (S : FLevelGenerationSettings)
    (Tiles : List (FIntVector × FTileData)) (c : FIntVector)
    (h : c ∈ EmptyCoordinates S Tiles) :
    c.X < S.GridSize.X - 1 ∧ c.Y < S.GridSize.Y - 1 ∧ c.Z < S.GridSize.Z - 1 := by
  unfold EmptyCoordinates at h
  simp only [List.mem_flatMap, List.mem_range] at h
  obtain ⟨Z, hZ, Y, hY, X, hX, h⟩ := h
  split_ifs at h with hc
  · simp only [List.mem_singleton] at h
    subst h
    simp only
    omega
  · simp at h

/-- C22 (code bug): `GetRandomEmptyCoordinate` never returns a coordinate of the
last row, column or layer of the grid, and on a grid that is one cell wide along
some axis it reports that no empty coordinate was found, whatever tiles the level
holds. -/
theorem C22_empty_coordinate_skips_last_layers (E : Engine) (S : FLevelGenerationSettings)
    (Stream : FRandomStream) (Tiles : List (FIntVector × FTileData)) :
    (∀ (c : FIntVector) (Stream2 : FRandomStream),
      GetRandomEmptyCoordinate E S Stream Tiles = some (c, true, Stream2) →
      c.X < S.GridSize.X - 1 ∧ c.Y < S.GridSize.Y - 1 ∧ c.Z < S.GridSize.Z - 1) ∧
    ((S.GridSize.X ≤ 1 ∨ S.GridSize.Y ≤ 1 ∨ S.GridSize.Z ≤ 1) →
      GetRandomEmptyCoordinate E S Stream Tiles = some (⟨0, 0, 0⟩, false, Stream)) := by
  constructor
  · intro c Stream2 h
    unfold GetRandomEmptyCoordinate at h
    simp only at h
    split_ifs at h with h1 h2
    · cases hg : (EmptyCoordinates S Tiles)[(RandomIntegerInRangeFromStream E 0
          (((EmptyCoordinates S Tiles).length : Int) - 1) Stream).1.toNat]? with
      | none => simp [hg] at h
      | some d =>
        simp only [hg, Option.some.injEq, Prod.mk.injEq] at h
        have hmem := List.getElem?_mem hg
        rw [h.1] at hmem
        exact emptyCoordinates_bound S Tiles c hmem
    · simp at h
  · intro hsize
    have hnil : EmptyCoordinates S Tiles = [] := by
      apply List.eq_nil_iff_forall_not_mem.2
      intro c hc
      have := emptyCoordinates_bound S Tiles c hc
      have hpos := hc
      unfold EmptyCoordinates at hpos
      simp only [List.mem_flatMap, List.mem_range] at hpos
      obtain ⟨Z, hZ, Y, hY, X, hX, _⟩ := hpos
      omega
    unfold GetRandomEmptyCoordinate
    simp [hnil]

theorem C22_witness :
    (IsCoordinateInGridSpace ⟨1, 1, 1⟩ ⟨2, 2, 2⟩ = true ∧
      TMapContains [((⟨0, 0, 0⟩ : FIntVector), CorridorTile)] ⟨1, 1, 1⟩ = false ∧
      GetRandomEmptyCoordinate (ScenarioEngine []) (PlainSettings ⟨2, 2, 2⟩) ⟨0, 0⟩
        [(⟨0, 0, 0⟩, CorridorTile)] = some (⟨0, 0, 0⟩, false, ⟨0, 0⟩)) ∧
    (IsCoordinateInGridSpace ⟨0, 0, 0⟩ ⟨1, 1, 1⟩ = true ∧
      GetRandomEmptyCoordinate (ScenarioEngine []) (PlainSettings ⟨1, 1, 1⟩) ⟨0, 0⟩ [] =
        some (⟨0, 0, 0⟩, false, ⟨0, 0⟩)) ∧
    ((0 : Int) < 3 - 1 ∧ (0 : Int) < 3 - 1 ∧ (0 : Int) < 3 - 1) :=
  ⟨by decide!,
   ⟨by decide!,
    (C22_empty_coordinate_skips_last_layers (ScenarioEngine []) (PlainSettings ⟨1, 1, 1⟩)
      ⟨0, 0⟩ []).2 (Or.inl (by decide))⟩,
   (C22_empty_coordinate_skips_last_layers (ScenarioEngine []) (PlainSettings ⟨3, 3, 3⟩)
      ⟨0, 0⟩ []).1 ⟨0, 0, 0⟩ ⟨0, 1⟩ (by decide!)⟩

end LevelGen

namespace LevelGen

end LevelGen

namespace LevelGen

/-! ## The access point scan selects a nearest pair of candidate cells -/

/-- A fold of steps that may fail: a property that every step keeps, and that the
step for the key `b0` establishes, holds of the result when it held at the start or
`b0` is among the keys. -/
theorem foldl_option_reach {α β : Type} (R : α → Prop) (g : Option α → β → Option α)
    (hnone : ∀ b, g none b = none) (b0 : β) (Keys : List β)
    (hkeep : ∀ a, R a → ∀ b ∈ Keys, ∀ a2, g (some a) b = some a2 → R a2)
    (hest : ∀ a a2, g (some a) b0 = some a2 → R a2) :
    ∀ (a r : α), Keys.foldl g (some a) = some r → (R a ∨ b0 ∈ Keys) → R r := by
  induction Keys with
  | nil =>
    intro a r h hR
    simp only [List.foldl_nil, Option.some.injEq] at h
    rcases hR with hR | hR
    · exact h ▸ hR
    · simp at hR
  | cons k rest ih =>
    intro a r h hR
    rw [List.foldl_cons] at h
    cases hk : g (some a) k with
    | none =>
      rw [hk, foldl_option_none g hnone] at h
      simp at h
    | some a1 =>
      rw [hk] at h
      have ih2 := ih (fun x hx b hb => hkeep x hx b (List.mem_cons_of_mem _ hb)) a1 r h
      rcases hR with hR | hR
      · exact ih2 (Or.inl (hkeep a hR k (List.mem_cons_self _ _) a1 hk))
      · rcases List.mem_cons.1 hR with e | e
        · exact ih2 (Or.inl (hest a a1 (e ▸ hk)))
        · exact ih2 (Or.inr e)

theorem mem_candidateCells (Anchor : FIntVector) (Tile : FTileData)
    (Entry : FIntVector × FTileAccessData) (d : EDirections) (v : FIntVector)
    (hE : Entry ∈ Tile.TileAccessPoints) (hd : d ∈ Entry.2.AccessibleDirections)
    (hv : TMapFind DirectionCoordinates d = some v) :
    Anchor + RotateIntVectorCoordinatefromOrigin (Entry.1 + v) Tile.TileRotation ∈
      CandidateCells Anchor Tile := by
  unfold CandidateCells
  simp only [List.mem_flatMap, List.mem_filterMap, Option.map_eq_some']
  exact ⟨Entry, hE, d, hd, v, hv, rfl⟩

theorem mem_candidateCells_iff (Anchor : FIntVector) (Tile : FTileData) (c : FIntVector) :
    c ∈ CandidateCells Anchor Tile ↔
      ∃ Entry ∈ Tile.TileAccessPoints, ∃ d ∈ Entry.2.AccessibleDirections, ∃ v,
        TMapFind DirectionCoordinates d = some v ∧
        Anchor + RotateIntVectorCoordinatefromOrigin (Entry.1 + v) Tile.TileRotation = c := by
  unfold CandidateCells
  simp only [List.mem_flatMap, List.mem_filterMap, Option.map_eq_some']

theorem scanOrigin_eq (E : Engine) (D : FGeneratedLevelData) (Edge : FEdgeInfo)
    (OriginTile DestinationTile : FTileData) (ExO : List FIntVector) (dAP : FIntVector)
    (dDir : EDirections) (e : FIntVector) (Best : FPathGenerationData) :
    ScanOriginAccessPoints E D Edge OriginTile DestinationTile ExO dAP dDir e Best =
      OriginTile.TileAccessPoints.foldl (fun Acc OriginEntry =>
        OriginEntry.2.AccessibleDirections.foldl
          (ScanOriginStep E D Edge OriginTile DestinationTile ExO dAP dDir e OriginEntry) Acc)
        (some Best) := rfl

theorem scanAccessPoints_eq (E : Engine) (D : FGeneratedLevelData) (Edge : FEdgeInfo)
    (OriginTile DestinationTile : FTileData) (ExO ExD : List FIntVector) :
    ScanAccessPoints E D Edge OriginTile DestinationTile ExO ExD =
      DestinationTile.TileAccessPoints.foldl (fun Acc DestinationEntry =>
        DestinationEntry.2.AccessibleDirections.foldl
          (ScanDestinationStep E D Edge OriginTile DestinationTile ExO ExD DestinationEntry) Acc)
        (some { FPathGenerationData.Default with
          PathData := Edge
          OriginTile := some Edge.Origin
          DestinationTile := some Edge.Destination }) := rfl

/-- One step of the innermost loop of the scan: the distance never grows, a
candidate result stays or is replaced by a candidate, and after the step the
distance is at most the distance of the pair the step looks at. -/
theorem scanStep_spec (E : Engine) (D : FGeneratedLevelData) (Edge : FEdgeInfo)
    (OriginTile DestinationTile : FTileData) (ExO : List FIntVector)
    (OriginEntry : FIntVector × FTileAccessData) (dAP : FIntVector) (dDir : EDirections)
    (e : FIntVector) (Current Next : FPathGenerationData) (d : EDirections)
    (h : ScanOriginStep E D Edge OriginTile DestinationTile ExO dAP dDir e OriginEntry
      (some Current) d = some Next) :
    Next.PathDistance ≤ Current.PathDistance ∧
    (Next = Current ∨ ∃ v, TMapFind DirectionCoordinates d = some v ∧
      Next.PathStart = Edge.Origin +
        RotateIntVectorCoordinatefromOrigin (OriginEntry.1 + v) OriginTile.TileRotation ∧
      Next.PathStart ∉ ExO ∧ Next.PathEnd = e ∧ TMapContains D.LevelTileData e = false ∧
      Next.PathDistance = E.Length (Next.PathEnd - Next.PathStart)) ∧
    (∀ v, TMapFind DirectionCoordinates d = some v →
      Edge.Origin + RotateIntVectorCoordinatefromOrigin (OriginEntry.1 + v)
        OriginTile.TileRotation ∉ ExO →
      TMapContains D.LevelTileData e = false →
      Next.PathDistance ≤ E.Length (e - (Edge.Origin +
        RotateIntVectorCoordinatefromOrigin (OriginEntry.1 + v) OriginTile.TileRotation))) := by
  unfold ScanOriginStep at h
  simp only at h
  cases hv : TMapFind DirectionCoordinates d with
  | none => rw [hv] at h; simp at h
  | some v =>
    rw [hv] at h
    simp only at h
    by_cases hex : Edge.Origin + RotateIntVectorCoordinatefromOrigin (OriginEntry.1 + v)
        OriginTile.TileRotation ∈ ExO
    · simp only [hex, decide_True, if_true, Option.some.injEq] at h
      subst h
      refine ⟨le_refl _, Or.inl rfl, ?_⟩
      intro v2 hv2 hn _
      simp only [Option.some.injEq] at hv2
      subst hv2
      exact absurd hex hn
    · simp only [hex, decide_False, Bool.false_eq_true, if_false] at h
      by_cases hocc : TMapContains D.LevelTileData e = true
      · simp only [hocc, if_true, Option.some.injEq] at h
        subst h
        refine ⟨le_refl _, Or.inl rfl, ?_⟩
        intro v2 _ _ hfree
        rw [hfree] at hocc
        simp at hocc
      · simp only [hocc, Bool.false_eq_true, if_false] at h
        have hfree : TMapContains D.LevelTileData e = false := by simpa using hocc
        by_cases hlt : E.Length (e - (Edge.Origin + RotateIntVectorCoordinatefromOrigin
            (OriginEntry.1 + v) OriginTile.TileRotation)) < Current.PathDistance
        · simp only [hlt, if_true, Option.some.injEq] at h
          subst h
          refine ⟨le_of_lt hlt, Or.inr ⟨v, rfl, rfl, hex, rfl, hfree, rfl⟩, ?_⟩
          intro v2 hv2 _ _
          simp only [Option.some.injEq] at hv2
          subst hv2
          exact le_refl _
        · simp only [hlt, if_false, Option.some.injEq] at h
          subst h
          refine ⟨le_refl _, Or.inl rfl, ?_⟩
          intro v2 hv2 _ _
          simp only [Option.some.injEq] at hv2
          subst hv2
          exact not_lt.1 hlt

/-- The loops of `ScanOriginAccessPoints` for one candidate end cell: the distance
never grows, the result is the best so far or a candidate pair with that end, and
the distance is at most the distance from any start cell that is not excluded. -/
theorem scanOrigin_spec (E : Engine) (D : FGeneratedLevelData) (Edge : FEdgeInfo)
    (OriginTile DestinationTile : FTileData) (ExO : List FIntVector) (dAP : FIntVector)
    (dDir : EDirections) (e : FIntVector) (Best Result : FPathGenerationData)
    (h : ScanOriginAccessPoints E D Edge OriginTile DestinationTile ExO dAP dDir e Best =
      some Result) :
    Result.PathDistance ≤ Best.PathDistance ∧
    (Result = Best ∨
      (Result.PathStart ∈ CandidateCells Edge.Origin OriginTile ∧ Result.PathStart ∉ ExO ∧
        Result.PathEnd = e ∧ TMapContains D.LevelTileData e = false ∧
        Result.PathDistance = E.Length (Result.PathEnd - Result.PathStart))) ∧
    (∀ s ∈ CandidateCells Edge.Origin OriginTile, s ∉ ExO →
      TMapContains D.LevelTileData e = false → Result.PathDistance ≤ E.Length (e - s)) := by
  rw [scanOrigin_eq] at h
  have hkeep : ∀ (B : ℚ), ∀ a : FPathGenerationData, a.PathDistance ≤ B →
      ∀ Entry ∈ OriginTile.TileAccessPoints, ∀ a2,
        Entry.2.AccessibleDirections.foldl
          (ScanOriginStep E D Edge OriginTile DestinationTile ExO dAP dDir e Entry) (some a) =
          some a2 → a2.PathDistance ≤ B := by
    intro B a ha Entry _ a2 hfold
    refine foldl_option_invariant (fun x : FPathGenerationData => x.PathDistance ≤ B) _
      Entry.2.AccessibleDirections (fun _ => rfl) ?_ a a2 ha hfold
    intro x hx d _ x2 hstep
    exact le_trans (scanStep_spec E D Edge OriginTile DestinationTile ExO Entry dAP dDir e
      x x2 d hstep).1 hx
  refine ⟨?_, ?_, ?_⟩
  · exact foldl_option_invariant (fun x : FPathGenerationData => x.PathDistance ≤ Best.PathDistance)
      _ OriginTile.TileAccessPoints (fun b => foldl_option_none _ (fun _ => rfl) _)
      (fun a ha Entry hE a2 hfold => hkeep _ a ha Entry hE a2 hfold) Best Result (le_refl _) h
  · refine foldl_option_invariant (fun x : FPathGenerationData => x = Best ∨
        (x.PathStart ∈ CandidateCells Edge.Origin OriginTile ∧ x.PathStart ∉ ExO ∧
          x.PathEnd = e ∧ TMapContains D.LevelTileData e = false ∧
          x.PathDistance = E.Length (x.PathEnd - x.PathStart)))
      _ OriginTile.TileAccessPoints (fun b => foldl_option_none _ (fun _ => rfl) _)
      ?_ Best Result (Or.inl rfl) h
    intro a ha Entry hE a2 hfold
    refine foldl_option_invariant (fun x : FPathGenerationData => x = Best ∨
        (x.PathStart ∈ CandidateCells Edge.Origin OriginTile ∧ x.PathStart ∉ ExO ∧
          x.PathEnd = e ∧ TMapContains D.LevelTileData e = false ∧
          x.PathDistance = E.Length (x.PathEnd - x.PathStart)))
      _ Entry.2.AccessibleDirections (fun _ => rfl) ?_ a a2 ha hfold
    intro x hx d hd x2 hstep
    rcases (scanStep_spec E D Edge OriginTile DestinationTile ExO Entry dAP dDir e
      x x2 d hstep).2.1 with h1 | ⟨v, hv, hs, hn, he, hfree, hdist⟩
    · exact h1 ▸ hx
    · right
      exact ⟨hs ▸ mem_candidateCells _ _ Entry d v hE hd hv, hn, he, hfree, hdist⟩
  · intro s hs hn hfree
    obtain ⟨Entry, hE, d, hd, v, hv, rfl⟩ := (mem_candidateCells_iff _ _ _).1 hs
    refine foldl_option_reach (fun x : FPathGenerationData => x.PathDistance ≤ E.Length (e -
        (Edge.Origin + RotateIntVectorCoordinatefromOrigin (Entry.1 + v) OriginTile.TileRotation)))
      (fun Acc OriginEntry => OriginEntry.2.AccessibleDirections.foldl
        (ScanOriginStep E D Edge OriginTile DestinationTile ExO dAP dDir e OriginEntry) Acc)
      (fun b => foldl_option_none _ (fun _ => rfl) _) Entry OriginTile.TileAccessPoints
      (fun a ha Entry2 hE2 a2 hfold => hkeep _ a ha Entry2 hE2 a2 hfold) ?_ Best Result h
      (Or.inr hE)
    intro a a2 hfold
    refine foldl_option_reach (fun x : FPathGenerationData => x.PathDistance ≤ E.Length (e -
        (Edge.Origin + RotateIntVectorCoordinatefromOrigin (Entry.1 + v) OriginTile.TileRotation)))
      (ScanOriginStep E D Edge OriginTile DestinationTile ExO dAP dDir e Entry)
      (fun _ => rfl) d Entry.2.AccessibleDirections ?_ ?_ a a2 hfold (Or.inr hd)
    · intro x hx d2 _ x2 hstep
      exact le_trans (scanStep_spec E D Edge OriginTile DestinationTile ExO Entry dAP dDir e
        x x2 d2 hstep).1 hx
    · intro x x2 hstep
      exact (scanStep_spec E D Edge OriginTile DestinationTile ExO Entry dAP dDir e
        x x2 d hstep).2.2 v hv hn hfree

/-- One step of the loop over the directions of an access point of the destination
tile. -/
theorem scanDestinationStep_spec (E : Engine) (D : FGeneratedLevelData) (Edge : FEdgeInfo)
    (OriginTile DestinationTile : FTileData) (ExO ExD : List FIntVector)
    (Entry : FIntVector × FTileAccessData) (Current Next : FPathGenerationData)
    (d : EDirections)
    (h : ScanDestinationStep E D Edge OriginTile DestinationTile ExO ExD Entry (some Current) d =
      some Next) :
    Next.PathDistance ≤ Current.PathDistance ∧
    (Next = Current ∨ ∃ v, TMapFind DirectionCoordinates d = some v ∧
      Next.PathEnd = Edge.Destination +
        RotateIntVectorCoordinatefromOrigin (Entry.1 + v) DestinationTile.TileRotation ∧
      Next.PathEnd ∉ ExD ∧ Next.PathStart ∈ CandidateCells Edge.Origin OriginTile ∧
      Next.PathStart ∉ ExO ∧ TMapContains D.LevelTileData Next.PathEnd = false ∧
      Next.PathDistance = E.Length (Next.PathEnd - Next.PathStart)) ∧
    (∀ v, TMapFind DirectionCoordinates d = some v →
      Edge.Destination + RotateIntVectorCoordinatefromOrigin (Entry.1 + v)
        DestinationTile.TileRotation ∉ ExD →
      TMapContains D.LevelTileData (Edge.Destination +
        RotateIntVectorCoordinatefromOrigin (Entry.1 + v) DestinationTile.TileRotation) = false →
      ∀ s ∈ CandidateCells Edge.Origin OriginTile, s ∉ ExO →
        Next.PathDistance ≤ E.Length (Edge.Destination +
          RotateIntVectorCoordinatefromOrigin (Entry.1 + v) DestinationTile.TileRotation - s)) := by
  unfold ScanDestinationStep at h
  simp only at h
  cases hv : TMapFind DirectionCoordinates d with
  | none => rw [hv] at h; simp at h
  | some v =>
    rw [hv] at h
    simp only at h
    by_cases hex : Edge.Destination + RotateIntVectorCoordinatefromOrigin (Entry.1 + v)
        DestinationTile.TileRotation ∈ ExD
    · simp only [hex, decide_True, if_true, Option.some.injEq] at h
      subst h
      refine ⟨le_refl _, Or.inl rfl, ?_⟩
      intro v2 hv2 hn _
      simp only [Option.some.injEq] at hv2
      subst hv2
      exact absurd hex hn
    · simp only [hex, decide_False, Bool.false_eq_true, if_false] at h
      by_cases hocc : TMapContains D.LevelTileData (Edge.Destination +
          RotateIntVectorCoordinatefromOrigin (Entry.1 + v) DestinationTile.TileRotation) = true
      · simp only [hocc, if_true, Option.some.injEq] at h
        subst h
        refine ⟨le_refl _, Or.inl rfl, ?_⟩
        intro v2 hv2 _ hfree
        simp only [Option.some.injEq] at hv2
        subst hv2
        rw [hfree] at hocc
        simp at hocc
      · simp only [hocc, Bool.false_eq_true, if_false] at h
        obtain ⟨h1, h2, h3⟩ := scanOrigin_spec E D Edge OriginTile DestinationTile ExO _ _ _ _ _ h
        refine ⟨h1, ?_, ?_⟩
        · rcases h2 with h2 | ⟨hs, hn, he, hfree, hdist⟩
          · exact Or.inl h2
          · right
            exact ⟨v, rfl, he, he ▸ hex, hs, hn, he ▸ hfree, hdist⟩
        · intro v2 hv2 _ hfree s hs hn
          simp only [Option.some.injEq] at hv2
          subst hv2
          exact h3 s hs hn hfree

/-- The access point scan: a result with a distance below `FLT_MAX` is a candidate
pair, and its distance is at most the distance of every candidate pair. -/
theorem scanAccessPoints_spec (E : Engine) (D : FGeneratedLevelData) (Edge : FEdgeInfo)
    (OriginTile DestinationTile : FTileData) (ExO ExD : List FIntVector)
    (G : FPathGenerationData)
    (h : ScanAccessPoints E D Edge OriginTile DestinationTile ExO ExD = some G) :
    (G.PathDistance < FLT_MAX →
      RouteIsCandidate E D Edge OriginTile DestinationTile ExO ExD G) ∧
    (∀ s ∈ CandidateCells Edge.Origin OriginTile, s ∉ ExO →
      ∀ e ∈ CandidateCells Edge.Destination DestinationTile, e ∉ ExD →
        TMapContains D.LevelTileData e = false → G.PathDistance ≤ E.Length (e - s)) := by
  rw [scanAccessPoints_eq] at h
  have hkeep : ∀ (B : ℚ), ∀ a : FPathGenerationData, a.PathDistance ≤ B →
      ∀ Entry ∈ DestinationTile.TileAccessPoints, ∀ a2,
        Entry.2.AccessibleDirections.foldl
          (ScanDestinationStep E D Edge OriginTile DestinationTile ExO ExD Entry) (some a) =
          some a2 → a2.PathDistance ≤ B := by
    intro B a ha Entry _ a2 hfold
    refine foldl_option_invariant (fun x : FPathGenerationData => x.PathDistance ≤ B) _
      Entry.2.AccessibleDirections (fun _ => rfl) ?_ a a2 ha hfold
    intro x hx d _ x2 hstep
    exact le_trans (scanDestinationStep_spec E D Edge OriginTile DestinationTile ExO ExD Entry
      x x2 d hstep).1 hx
  constructor
  · refine foldl_option_invariant (fun x : FPathGenerationData => x.PathDistance < FLT_MAX →
        RouteIsCandidate E D Edge OriginTile DestinationTile ExO ExD x)
      _ DestinationTile.TileAccessPoints (fun b => foldl_option_none _ (fun _ => rfl) _)
      ?_ _ G ?_ h
    · intro a ha Entry hE a2 hfold
      refine foldl_option_invariant (fun x : FPathGenerationData => x.PathDistance < FLT_MAX →
          RouteIsCandidate E D Edge OriginTile DestinationTile ExO ExD x)
        _ Entry.2.AccessibleDirections (fun _ => rfl) ?_ a a2 ha hfold
      intro x hx d hd x2 hstep
      rcases (scanDestinationStep_spec E D Edge OriginTile DestinationTile ExO ExD Entry
        x x2 d hstep).2.1 with h1 | ⟨v, hv, he, hne, hs, hns, hfree, hdist⟩
      · exact h1 ▸ hx
      · intro _
        exact ⟨hns, hne, hfree, hs, he ▸ mem_candidateCells _ _ Entry d v hE hd hv, hdist⟩
    · intro hlt
      exact absurd hlt (lt_irrefl _)
  · intro s hs hns e he hne hfree
    obtain ⟨Entry, hE, d, hd, v, hv, rfl⟩ := (mem_candidateCells_iff _ _ _).1 he
    refine foldl_option_reach (fun x : FPathGenerationData => x.PathDistance ≤ E.Length
        (Edge.Destination + RotateIntVectorCoordinatefromOrigin (Entry.1 + v)
          DestinationTile.TileRotation - s))
      (fun Acc DestinationEntry => DestinationEntry.2.AccessibleDirections.foldl
        (ScanDestinationStep E D Edge OriginTile DestinationTile ExO ExD DestinationEntry) Acc)
      (fun b => foldl_option_none _ (fun _ => rfl) _) Entry DestinationTile.TileAccessPoints
      (fun a ha Entry2 hE2 a2 hfold => hkeep _ a ha Entry2 hE2 a2 hfold) ?_ _ G h
      (Or.inr hE)
    intro a a2 hfold
    refine foldl_option_reach (fun x : FPathGenerationData => x.PathDistance ≤ E.Length
        (Edge.Destination + RotateIntVectorCoordinatefromOrigin (Entry.1 + v)
          DestinationTile.TileRotation - s))
      (ScanDestinationStep E D Edge OriginTile DestinationTile ExO ExD Entry)
      (fun _ => rfl) d Entry.2.AccessibleDirections ?_ ?_ a a2 hfold (Or.inr hd)
    · intro x hx d2 _ x2 hstep
      exact le_trans (scanDestinationStep_spec E D Edge OriginTile DestinationTile ExO ExD Entry
        x x2 d2 hstep).1 hx
    · intro x x2 hstep
      exact (scanDestinationStep_spec E D Edge OriginTile DestinationTile ExO ExD Entry
        x x2 d hstep).2.2 v hv hne hfree s hs hns

/-- C28: whenever `GetShortestPathToTargetRoom` returns a distance below `FLT_MAX`,
both rooms hold a tile, `PathStart` is a cell the origin room opens onto that is not
in `ExcludedOriginAPs`, `PathEnd` is a cell the destination room opens onto that is
not in `ExcludedDestinationAPs` and holds no tile, `PathDistance` is the length of
their difference, and no pair of such cells is nearer. -/
theorem C28_shortest_path_avoids_excluded_cells (E : Engine) (D : FGeneratedLevelData)
    (InPathData : FEdgeInfo) (ExcludedOriginAPs ExcludedDestinationAPs : List FIntVector)
    (G : FPathGenerationData)
    (h : GetShortestPathToTargetRoom E D InPathData ExcludedOriginAPs ExcludedDestinationAPs =
      some G)
    (hlt : G.PathDistance < FLT_MAX) :
    ∃ OriginTile DestinationTile,
      TMapFind D.LevelTileData InPathData.Origin = some OriginTile ∧
      TMapFind D.LevelTileData InPathData.Destination = some DestinationTile ∧
      RouteIsCandidate E D InPathData OriginTile DestinationTile ExcludedOriginAPs
        ExcludedDestinationAPs G ∧
      ∀ s ∈ CandidateCells InPathData.Origin OriginTile, s ∉ ExcludedOriginAPs →
        ∀ e ∈ CandidateCells InPathData.Destination DestinationTile,
          e ∉ ExcludedDestinationAPs → TMapContains D.LevelTileData e = false →
          G.PathDistance ≤ E.Length (e - s) := by
  unfold GetShortestPathToTargetRoom at h
  split at h
  · rename_i OriginTile DestinationTile hO hD
    obtain ⟨h1, h2⟩ := scanAccessPoints_spec E D InPathData OriginTile DestinationTile _ _ G h
    exact ⟨OriginTile, DestinationTile, hO, hD, h1 hlt, h2⟩
  · simp only [Option.some.injEq] at h
    subst h
    exact absurd hlt (lt_irrefl _)

theorem C28_witness :
    (CorridorScenarioRoute.PathStart = ⟨0, 1, 0⟩ ∧ CorridorScenarioRoute.PathEnd = ⟨3, 0, 0⟩ ∧
      CorridorScenarioRoute.PathDistance = 207243 / 65536) ∧
    ∃ OriginTile DestinationTile,
      TMapFind CorridorScenario.LevelTileData CorridorScenarioEdge.Origin = some OriginTile ∧
      TMapFind CorridorScenario.LevelTileData CorridorScenarioEdge.Destination =
        some DestinationTile ∧
      RouteIsCandidate (ScenarioEngine []) CorridorScenario CorridorScenarioEdge OriginTile
        DestinationTile [⟨1, 0, 0⟩] [] CorridorScenarioRoute ∧
      ∀ s ∈ CandidateCells CorridorScenarioEdge.Origin OriginTile, s ∉ [(⟨1, 0, 0⟩ : FIntVector)] →
        ∀ e ∈ CandidateCells CorridorScenarioEdge.Destination DestinationTile,
          e ∉ ([] : List FIntVector) → TMapContains CorridorScenario.LevelTileData e = false →
          CorridorScenarioRoute.PathDistance ≤ (ScenarioEngine []).Length (e - s) :=
  ⟨by decide!,
   C28_shortest_path_avoids_excluded_cells (ScenarioEngine []) CorridorScenario
     CorridorScenarioEdge [⟨1, 0, 0⟩] [] CorridorScenarioRoute (by decide!) (by decide!)⟩

end LevelGen

namespace LevelGen

/-! ## A structure is rejected when a raw volume offset lies on the predecessor chain -/

theorem volumeIsInvalid_raw_offset (Place : FIntVector → FIntVector) (c : FIntVector)
    (ClosedNode : FAdvancedPathNode) (CLOSED : List (FIntVector × FAdvancedPathNode))
    (Inaccessible : List FIntVector) (PGD : List FPathGenerationData) (D : FGeneratedLevelData)
    (End v : FIntVector) (hchain : TMapContains ClosedNode.PreviousPath v = true) :
    ∀ (L : List FIntVector) (b : Bool), v ∈ L →
      VolumeIsInvalid Place c ClosedNode CLOSED Inaccessible PGD D End L = some b → b = true := by
  intro L
  induction L with
  | nil => intro b hv _; simp at hv
  | cons x rest ih =>
    intro b hv h
    unfold VolumeIsInvalid at h
    simp only at h
    cases hE : IsCoordinateEmpty (Place x) c CLOSED Inaccessible PGD D with
    | none => rw [hE] at h; simp at h
    | some Empty =>
      rw [hE] at h
      simp only at h
      by_cases h1 : (!Empty || decide (Place x = End)) = true
      · rw [if_pos h1] at h
        simpa using h.symm
      · rw [if_neg h1] at h
        by_cases h2 : TMapContains ClosedNode.PreviousPath x = true
        · rw [if_pos h2] at h
          simpa using h.symm
        · rw [if_neg h2] at h
          rcases List.mem_cons.1 hv with e | e
          · exact absurd (e ▸ hchain) h2
          · exact ih b e h

/-- C29 (code bug): in the first orientation of `EvaluateSpecialCorridorStructures`,
a template is rejected whenever one of its volume offsets, taken as it stands,
neither rotated nor translated, is a coordinate of the predecessor chain of the
closed node, and no existing path is reused at the origin: `OPEN` is left as it was,
wherever the rotated, translated footprint and the exit lie. -/
theorem C29_raw_offset_on_chain_rejects_structure (E : Engine)
    (OPEN CLOSED : List (FIntVector × FAdvancedPathNode)) (Inaccessible : List FIntVector)
    (PGD : List FPathGenerationData) (S : FLevelGenerationSettings) (D : FGeneratedLevelData)
    (CurrentClosedNode CurrentCoordinate : FIntVector) (PathRotation : FRotator)
    (CurrentSpecialPathType : ESpecialPathType) (SpecialPathInfo : FSpecialPathInfo)
    (Start End : FIntVector) (ClosedNode : FAdvancedPathNode) (v : FIntVector)
    (hfind : TMapFind CLOSED CurrentClosedNode = some ClosedNode)
    (hv : v ∈ SpecialPathInfo.PathVolume)
    (hchain : TMapContains ClosedNode.PreviousPath v = true)
    (hnew : TMapFind D.LevelPathData CurrentCoordinate = none) :
    EvaluateStructureFirst E OPEN CLOSED Inaccessible PGD S D CurrentClosedNode
        CurrentCoordinate PathRotation CurrentSpecialPathType SpecialPathInfo Start End =
      some OPEN ∨
    EvaluateStructureFirst E OPEN CLOSED Inaccessible PGD S D CurrentClosedNode
        CurrentCoordinate PathRotation CurrentSpecialPathType SpecialPathInfo Start End =
      none := by
  unfold EvaluateStructureFirst
  simp only
  by_cases hopen : TMapContains OPEN (CurrentCoordinate +
      RotateIntVectorCoordinatefromOrigin SpecialPathInfo.ExitVector PathRotation) = true
  · rw [if_pos hopen]
    exact Or.inl rfl
  · rw [if_neg hopen, hfind, hnew]
    simp only
    cases hV : VolumeIsInvalid
        (fun v => CurrentCoordinate + RotateIntVectorCoordinatefromOrigin v PathRotation)
        CurrentClosedNode ClosedNode CLOSED Inaccessible PGD D End SpecialPathInfo.PathVolume with
    | none => exact Or.inr rfl
    | some b =>
      have hb := volumeIsInvalid_raw_offset _ _ _ _ _ _ _ _ v hchain _ b hv hV
      subst hb
      cases hX : IsCoordinateEmpty (CurrentCoordinate +
          RotateIntVectorCoordinatefromOrigin SpecialPathInfo.ExitVector PathRotation)
          CurrentClosedNode CLOSED Inaccessible [] D with
      | none => exact Or.inr rfl
      | some bE =>
        left
        simp

theorem C29_witness :
    PlacementIsFree [] (ClosedAfterOneStep (ScenarioEngine []) (StairsContext ⟨0, 0, 0⟩ ⟨5, 0, 1⟩))
      [] [] (LevelOf []) ⟨1, 0, 0⟩ ⟨2, 0, 0⟩ ⟨0, 0, 0⟩ StairsInfo ⟨5, 0, 1⟩ ∧
    StairsProposals (ScenarioEngine []) (StairsContext ⟨0, 0, 0⟩ ⟨5, 0, 1⟩) = some [] ∧
    StairsProposals (ScenarioEngine []) (StairsContext ⟨0, 1, 0⟩ ⟨5, 0, 1⟩) =
      some [⟨3, 1, 1⟩, ⟨3, 1, -1⟩] ∧
    (EvaluateStructureFirst (ScenarioEngine []) []
        (ClosedAfterOneStep (ScenarioEngine []) (StairsContext ⟨0, 0, 0⟩ ⟨5, 0, 1⟩)) [] []
        (StairsSettings ⟨8, 8, 2⟩) (LevelOf []) ⟨1, 0, 0⟩ ⟨2, 0, 0⟩ ⟨0, 0, 0⟩
        ESpecialPathType.Stairs_1x1x2 StairsInfo ⟨0, 0, 0⟩ ⟨5, 0, 1⟩ = some [] ∨
      EvaluateStructureFirst (ScenarioEngine []) []
        (ClosedAfterOneStep (ScenarioEngine []) (StairsContext ⟨0, 0, 0⟩ ⟨5, 0, 1⟩)) [] []
        (StairsSettings ⟨8, 8, 2⟩) (LevelOf []) ⟨1, 0, 0⟩ ⟨2, 0, 0⟩ ⟨0, 0, 0⟩
        ESpecialPathType.Stairs_1x1x2 StairsInfo ⟨0, 0, 0⟩ ⟨5, 0, 1⟩ = none) :=
  ⟨by decide!, by decide!, by decide!,
   C29_raw_offset_on_chain_rejects_structure (ScenarioEngine []) []
     (ClosedAfterOneStep (ScenarioEngine []) (StairsContext ⟨0, 0, 0⟩ ⟨5, 0, 1⟩)) [] []
     (StairsSettings ⟨8, 8, 2⟩) (LevelOf []) ⟨1, 0, 0⟩ ⟨2, 0, 0⟩ ⟨0, 0, 0⟩
     ESpecialPathType.Stairs_1x1x2 StairsInfo ⟨0, 0, 0⟩ ⟨5, 0, 1⟩
     (NewPlainNode (ScenarioEngine []) (StairsContext ⟨0, 0, 0⟩ ⟨5, 0, 1⟩) ⟨0, 0, 0⟩
       { FAdvancedPathNode.Default with ParentNode := ⟨0, 0, 0⟩ } ⟨1, 0, 0⟩)
     ⟨0, 0, 0⟩ rfl (by decide) (by decide!) rfl⟩

end LevelGen

namespace LevelGen

theorem advancedAStar_eq (E : Engine) (Steps : Nat) (Start End : FIntVector)
    (PathData : List (FIntVector × FAdvancedPathNode))
    (PGD : List FPathGenerationData) (S : FLevelGenerationSettings) (D : FGeneratedLevelData)
    (hguard : ¬ (TSetContains (InaccessibleNodesOf D.LevelTileData) Start ||
      TSetContains (InaccessibleNodesOf D.LevelTileData) End) = true) :
    AdvancedAStarPathfinding E Steps Start End PathData PGD S D =
      SearchLoop E (SearchContextOf Start End PGD S D) PathData Steps []
        (InitialClosed E Start End S D) := by
  unfold AdvancedAStarPathfinding
  simp only
  rw [if_neg hguard]
  rfl

theorem chain_level (R : FIntVector → FIntVector → Prop)
    (hR : ∀ a b, R a b → a.Z = b.Z) :
    ∀ (L : List FIntVector) (s : FIntVector), L.head? = some s → L.Chain' R →
      ∀ c ∈ L, c.Z = s.Z := by
  intro L
  induction L with
  | nil => intro s hs; simp at hs
  | cons a rest ih =>
    intro s hs hch c hc
    simp only [List.head?_cons, Option.some.injEq] at hs
    subst hs
    rcases List.mem_cons.1 hc with e | e
    · rw [e]
    · cases rest with
      | nil => simp at e
      | cons b rest2 =>
        have h1 := (List.chain'_cons.1 hch)
        have := ih b rfl h1.2 c e
        rw [this, hR a b h1.1]

theorem goodNode_level (Start : FIntVector) (Inaccessible : List FIntVector)
    (Entry : FIntVector × FAdvancedPathNode) (h : GoodNode Start Inaccessible Entry) :
    Entry.1.Z = Start.Z ∧ ∀ c ∈ TMapKeys Entry.2.PreviousPath, c.Z = Start.Z := by
  obtain ⟨_, _, hhead, hchain, _, _⟩ := h
  have := chain_level HorizontalNeighbours (fun a b hab => hab.1) _ Start hhead hchain
  exact ⟨this _ (by simp), fun c hc => this c (by simp [hc])⟩

/-- Every record of `SearchStates` holds only nodes with the invariant `GoodNode`,
when the maps it starts from do and no special structure is enabled. -/
theorem searchStates_good (E : Engine) (C : SearchContext) (hsort : ValueSortPermutes E)
    (hno : NoSpecialStructure C.LevelGenerationSettings) :
    ∀ (Steps : Nat) (OPEN CLOSED : List (FIntVector × FAdvancedPathNode)),
      (∀ e ∈ OPEN, GoodNode C.StartLocation C.InaccessibleNodes e) →
      (∀ e ∈ CLOSED, GoodNode C.StartLocation C.InaccessibleNodes e) →
      ∀ State ∈ SearchStates E C Steps OPEN CLOSED,
        (∀ e ∈ State.1, GoodNode C.StartLocation C.InaccessibleNodes e) ∧
        (∀ e ∈ State.2, GoodNode C.StartLocation C.InaccessibleNodes e) := by
  intro Steps
  induction Steps with
  | zero => intro OPEN CLOSED _ _ State h; simp [SearchStates] at h
  | succ k ih =>
    intro OPEN CLOSED hOP hCL State h
    unfold SearchStates at h
    rcases List.mem_cons.1 h with h | h
    · subst h
      exact ⟨hOP, hCL⟩
    split at h
    · simp at h
    · rename_i Expanded hexp
      have hExp := expandClosed_good E C hno CLOSED OPEN Expanded hCL hOP hexp
      rcases List.mem_cons.1 h with h | h
      · subst h
        exact ⟨hExp, hCL⟩
      have hSorted : ∀ e ∈ E.ValueSort OpenNodeLess Expanded,
          GoodNode C.StartLocation C.InaccessibleNodes e :=
        fun e he => hExp e ((hsort OpenNodeLess Expanded).mem_iff.1 he)
      split at h
      · simp at h
      · rename_i cur CurrentNode SortedRest hs
        rw [hs] at hSorted
        have hCur := hSorted _ (List.mem_cons_self _ _)
        have hns : CurrentNode.SpecialPathType.IsStructure = false := by
          rw [hCur.1]
          rfl
        simp only [hns, Bool.false_eq_true, if_false] at h
        have hCL2 : ∀ e ∈ TMapAdd CLOSED cur CurrentNode,
            GoodNode C.StartLocation C.InaccessibleNodes e := by
          intro e he
          rcases mem_tmapAdd _ _ _ _ he with h1 | h1
          · exact hCL e h1
          · exact h1 ▸ hCur
        have hOP2 : ∀ e ∈ TMapRemove ((cur, CurrentNode) :: SortedRest) cur,
            GoodNode C.StartLocation C.InaccessibleNodes e := by
          intro e he
          exact hSorted e (List.mem_of_mem_filter he)
        rcases List.mem_cons.1 h with h | h
        · subst h
          exact ⟨hOP2, hCL2⟩
        split_ifs at h with hend
        · simp at h
        · split at h
          · simp at h
          · rename_i OPEN3 hrelax
            have hOP3 : ∀ e ∈ OPEN3, GoodNode C.StartLocation C.InaccessibleNodes e :=
              foldl_option_invariant
                (fun Open => ∀ e ∈ Open, GoodNode C.StartLocation C.InaccessibleNodes e)
                _ AllDirections (fun _ => rfl)
                (fun a ha d hd a2 h2 => relaxNeighbour_good E C _ a a2 cur CurrentNode d hd
                  hCur (tmapFind_add_same _ _ _) ha h2)
                _ OPEN3 hOP2 hrelax
            rcases List.mem_cons.1 h with h | h
            · subst h
              exact ⟨hOP3, hCL2⟩
            · exact ih OPEN3 (TMapAdd CLOSED cur CurrentNode) hOP3 hCL2 State h

theorem searchLoop_returns_false (E : Engine) (C : SearchContext)
    (PathData0 : List (FIntVector × FAdvancedPathNode)) :
    ∀ (Steps : Nat) (OPEN CLOSED P : List (FIntVector × FAdvancedPathNode)),
      SearchLoop E C PathData0 Steps OPEN CLOSED = Outcome.returns (false, P) →
      P = PathData0 := by
  intro Steps
  induction Steps with
  | zero => intro OPEN CLOSED P h; simp [SearchLoop] at h
  | succ k ih =>
    intro OPEN CLOSED P h
    unfold SearchLoop at h
    split at h
    · simp at h
    · split at h
      · simp only [Outcome.returns.injEq, Prod.mk.injEq, true_and] at h
        exact h.symm
      · rename_i cur CurrentNode SortedRest hs
        simp only at h
        cases hcm : (if CurrentNode.SpecialPathType.IsStructure then
            CommitStructure CurrentNode CurrentNode.SpecialPathInfo.PathVolume.length
              ((cur, CurrentNode) :: SortedRest, CLOSED)
          else some ((cur, CurrentNode) :: SortedRest, CLOSED)) with
        | none => rw [hcm] at h; simp at h
        | some St =>
          obtain ⟨OPEN1, CLOSED1⟩ := St
          rw [hcm] at h
          simp only at h
          by_cases hend : cur = C.EndLocation
          · rw [if_pos hend] at h
            simp at h
          · rw [if_neg hend] at h
            split at h
            · simp at h
            · exact ih _ _ P h

theorem assemblePathData_keys (Start : FIntVector) :
    ∀ (L Acc : List (FIntVector × FAdvancedPathNode)),
      ∀ c ∈ TMapKeys (AssemblePathData Start Acc L), c ∈ TMapKeys Acc ∨ c ∈ TMapKeys L := by
  intro L
  induction L with
  | nil => intro Acc c hc; exact Or.inl hc
  | cons a rest ih =>
    intro Acc c hc
    obtain ⟨k, n⟩ := a
    unfold AssemblePathData at hc
    simp only at hc
    split_ifs at hc with hS
    · rcases (tmapKeys_add _ _ _ _).1 hc with h | h
      · exact Or.inl h
      · exact Or.inr (by simp [TMapKeys, h])
    · rcases ih _ c hc with h | h
      · rcases (tmapKeys_add _ _ _ _).1 h with h | h
        · exact Or.inl h
        · exact Or.inr (by simp [TMapKeys, h])
      · exact Or.inr (by
          simp only [TMapKeys, List.map_cons, List.mem_cons]
          exact Or.inr h)

theorem initialClosed_good (E : Engine) (Start End : FIntVector) (S : FLevelGenerationSettings)
    (D : FGeneratedLevelData) (Inaccessible : List FIntVector) (hs : Start ∉ Inaccessible) :
    ∀ e ∈ InitialClosed E Start End S D, GoodNode Start Inaccessible e := by
  intro e he
  simp only [InitialClosed, TMapAdd, List.mem_singleton] at he
  subst he
  refine ⟨?_, rfl, ?_⟩
  · simp [UpdateAdvancedNode, UpdateNodeFields, UpdateNodeCosts,
      ESpecialPathType.IsStructure]
  · simp only [UpdateAdvancedNode, UpdateNodeFields, UpdateNodeCosts,
      ESpecialPathType.IsStructure, Bool.false_eq_true, if_false, TMapKeys, List.map_nil,
      List.nil_append]
    exact ⟨rfl, List.chain'_singleton _, List.nodup_singleton _,
      fun c hc => by
        have hcS : c = Start := by simpa using hc
        exact hcS ▸ hs⟩

/-- C27: with no special structure enabled and neither start nor goal on a room
cell, every coordinate in `OPEN` or `CLOSED` in every record of a run of
`AdvancedAStarPathfinding` has the `Z` of `StartLocation`, and so has every
coordinate of the returned `PathData` that was not in it before the call. -/
theorem C27_search_stays_on_the_level_of_the_start (E : Engine) (Steps : Nat)
    (Start End : FIntVector) (PathData : List (FIntVector × FAdvancedPathNode))
    (PGD : List FPathGenerationData) (S : FLevelGenerationSettings) (D : FGeneratedLevelData)
    (hsort : ValueSortPermutes E) (hno : NoSpecialStructure S)
    (hs : ¬ HoldsRoom D.LevelTileData Start) (he : ¬ HoldsRoom D.LevelTileData End) :
    (∀ State ∈ StateKeys (AdvancedAStarStates E Steps Start End PGD S D),
      ∀ c ∈ State.1 ++ State.2, c.Z = Start.Z) ∧
    (∀ (Found : Bool) (Keys : List FIntVector) (Parents : List (FIntVector × FIntVector)),
      SearchResult (AdvancedAStarPathfinding E Steps Start End PathData PGD S D) =
        some (Found, Keys, Parents) →
      ∀ c ∈ Keys, c ∈ TMapKeys PathData ∨ c.Z = Start.Z) := by
  have hs2 : Start ∉ InaccessibleNodesOf D.LevelTileData :=
    fun hm => hs ((mem_inaccessibleNodesOf _ _).1 hm)
  have he2 : End ∉ InaccessibleNodesOf D.LevelTileData :=
    fun hm => he ((mem_inaccessibleNodesOf _ _).1 hm)
  have hguard : ¬ (TSetContains (InaccessibleNodesOf D.LevelTileData) Start ||
      TSetContains (InaccessibleNodesOf D.LevelTileData) End) = true := by
    simp [TSetContains, hs2, he2]
  have hinit := initialClosed_good E Start End S D (InaccessibleNodesOf D.LevelTileData) hs2
  constructor
  · intro State hState c hc
    simp only [StateKeys, List.mem_map] at hState
    obtain ⟨St, hSt, rfl⟩ := hState
    unfold AdvancedAStarStates at hSt
    simp only at hSt
    rw [if_neg hguard] at hSt
    obtain ⟨h1, h2⟩ := searchStates_good E (SearchContextOf Start End PGD S D) hsort hno Steps
      [] _ (by intro e h; cases h) hinit St hSt
    simp only [List.mem_append, TMapKeys, List.mem_map] at hc
    rcases hc with ⟨e, hmem, rfl⟩ | ⟨e, hmem, rfl⟩
    · exact (goodNode_level _ _ e (h1 e hmem)).1
    · exact (goodNode_level _ _ e (h2 e hmem)).1
  · intro Found Keys Parents hres c hc
    simp only [SearchResult, Option.map_eq_some'] at hres
    obtain ⟨⟨b, P⟩, hv, hR⟩ := hres
    simp only [Prod.mk.injEq] at hR
    obtain ⟨rfl, rfl, _⟩ := hR
    have hrun := outcome_value_eq _ _ hv
    rw [advancedAStar_eq E Steps Start End PathData PGD S D hguard] at hrun
    cases b with
    | false =>
      have := searchLoop_returns_false E _ PathData Steps _ _ P hrun
      subst this
      exact Or.inl hc
    | true =>
      obtain ⟨n, hn, hP⟩ := searchLoop_returns E (SearchContextOf Start End PGD S D) hsort hno
        PathData Steps _ _ P (by intro e h; cases h) hinit hrun
      rw [hP] at hc
      rcases assemblePathData_keys _ _ _ c hc with h | h
      · exact Or.inl h
      · right
        have hlev := goodNode_level _ _ _ hn
        simp only [TMapKeys, List.map_reverse, List.mem_reverse] at h
        rcases (tmapKeys_add _ _ _ _).1 h with h | h
        · exact hlev.2 c h
        · rw [h]
          exact hlev.1

theorem C27_witness :
    (StateKeys (AdvancedAStarStates (ScenarioEngine []) 10 ⟨1, 0, 0⟩ ⟨3, 0, 0⟩ []
        (PlainSettings ⟨5, 5, 1⟩) CorridorScenario)).length = 7 ∧
    (SearchResult (AdvancedAStarPathfinding (ScenarioEngine []) 10 ⟨1, 0, 0⟩ ⟨3, 0, 0⟩ [] []
        (PlainSettings ⟨5, 5, 1⟩) CorridorScenario)).map (fun r => (r.1, r.2.1)) =
      some (true, [⟨3, 0, 0⟩, ⟨2, 0, 0⟩, ⟨1, 0, 0⟩]) ∧
    (∀ State ∈ StateKeys (AdvancedAStarStates (ScenarioEngine []) 10 ⟨1, 0, 0⟩ ⟨3, 0, 0⟩ []
        (PlainSettings ⟨5, 5, 1⟩) CorridorScenario),
      ∀ c ∈ State.1 ++ State.2, c.Z = (⟨1, 0, 0⟩ : FIntVector).Z) ∧
    (∀ (Found : Bool) (Keys : List FIntVector) (Parents : List (FIntVector × FIntVector)),
      SearchResult (AdvancedAStarPathfinding (ScenarioEngine []) 10 ⟨1, 0, 0⟩ ⟨3, 0, 0⟩ [] []
        (PlainSettings ⟨5, 5, 1⟩) CorridorScenario) = some (Found, Keys, Parents) →
      ∀ c ∈ Keys, c ∈ TMapKeys ([] : List (FIntVector × FAdvancedPathNode)) ∨
        c.Z = (⟨1, 0, 0⟩ : FIntVector).Z) :=
  ⟨by decide!, by decide!,
   C27_search_stays_on_the_level_of_the_start (ScenarioEngine []) 10 ⟨1, 0, 0⟩ ⟨3, 0, 0⟩ [] []
     (PlainSettings ⟨5, 5, 1⟩) CorridorScenario (scenarioEngine_valueSortPermutes [])
     (noSpecialStructure_plainSettings _) (by decide) (by decide)⟩

end LevelGen

namespace LevelGen

/-! ## The cells of a popped structure are closed -/

theorem deepOK_mono (K K2 : List FIntVector) (hK : ∀ x ∈ K, x ∈ K2) :
    ∀ (d : Nat) (n : FAdvancedPathNode), DeepOK K d n → DeepOK K2 d n := by
  intro d
  induction d with
  | zero => intro n _; trivial
  | succ d ih =>
    intro n h
    exact ⟨fun x hx => hK x (h.1 x hx), fun e he => ih e.2 (h.2 e he)⟩

theorem updateAdvancedNode_structure (E : Engine) (A : FAdvancedPathNode)
    (S : FLevelGenerationSettings) (D : FGeneratedLevelData)
    (Origin Current Exit : FIntVector) (T : ESpecialPathType) (Info : FSpecialPathInfo)
    (Rot : FRotator) (Pre : List (FIntVector × FAdvancedPathNode)) (Start End : FIntVector)
    (hT : T.IsStructure = true) :
    UpdateAdvancedNode E A S D Origin Current Exit T Info Rot Pre Start End =
      UpdateNodeCosts E
        ((if (UpdateNodeFields E A S D Origin Current Exit T Info Rot Pre End).1.bIsPathReversed
            then Info.PathVolume else Info.PathVolume.reverse).foldl
          (AddVolumeCell E S D Exit Pre Start End)
          (UpdateNodeFields E A S D Origin Current Exit T Info Rot Pre End).1)
        (UpdateNodeFields E A S D Origin Current Exit T Info Rot Pre End).2 Exit Start End := by
  unfold UpdateAdvancedNode
  simp only [hT, if_true]
  rfl

theorem updateAdvancedNode_plain (E : Engine) (A : FAdvancedPathNode)
    (S : FLevelGenerationSettings) (D : FGeneratedLevelData)
    (Origin Current Exit : FIntVector) (T : ESpecialPathType) (Info : FSpecialPathInfo)
    (Rot : FRotator) (Pre : List (FIntVector × FAdvancedPathNode)) (Start End : FIntVector)
    (hT : T.IsStructure = false) :
    (UpdateAdvancedNode E A S D Origin Current Exit T Info Rot Pre Start End).PreviousPath = Pre ∧
    (UpdateAdvancedNode E A S D Origin Current Exit T Info Rot Pre Start End).SpecialPathType =
      T := by
  unfold UpdateAdvancedNode
  simp [hT, UpdateNodeCosts, UpdateNodeFields]

/-- The fold of `AddVolumeCell` over a list of offsets keeps the structure fields of
the node, extends the keys of its previous path by at most one key per offset, adds
the cell of every offset, and stores only section nodes whose previous path is
`Pre`. -/
theorem addVolumeCells_spec (E : Engine) (S : FLevelGenerationSettings)
    (D : FGeneratedLevelData) (Exit : FIntVector) (Pre : List (FIntVector × FAdvancedPathNode))
    (Start End : FIntVector) :
    ∀ (L : List FIntVector) (N : FAdvancedPathNode),
      (L.foldl (AddVolumeCell E S D Exit Pre Start End) N).SpecialPathType = N.SpecialPathType ∧
      (L.foldl (AddVolumeCell E S D Exit Pre Start End) N).SpecialPathInfo = N.SpecialPathInfo ∧
      (L.foldl (AddVolumeCell E S D Exit Pre Start End) N).SpecialPathOriginVector =
        N.SpecialPathOriginVector ∧
      (L.foldl (AddVolumeCell E S D Exit Pre Start End) N).SpecialPathRotation =
        N.SpecialPathRotation ∧
      (∃ New, TMapKeys (L.foldl (AddVolumeCell E S D Exit Pre Start End) N).PreviousPath =
          TMapKeys N.PreviousPath ++ New ∧ New.length ≤ L.length) ∧
      (∀ v ∈ L, N.SpecialPathOriginVector +
          RotateIntVectorCoordinatefromOrigin v N.SpecialPathRotation ∈
        TMapKeys (L.foldl (AddVolumeCell E S D Exit Pre Start End) N).PreviousPath) ∧
      (∀ e ∈ (L.foldl (AddVolumeCell E S D Exit Pre Start End) N).PreviousPath,
        e ∈ N.PreviousPath ∨ e.2.PreviousPath = Pre) := by
  intro L
  induction L with
  | nil =>
    intro N
    exact ⟨rfl, rfl, rfl, rfl, ⟨[], by simp, by simp⟩, by simp, fun e he => Or.inl he⟩
  | cons v rest ih =>
    intro N
    obtain ⟨h1, h2, h3, h4, ⟨New, h5, h5b⟩, h6, h7⟩ :=
      ih (AddVolumeCell E S D Exit Pre Start End N v)
    have hN1 : (AddVolumeCell E S D Exit Pre Start End N v).SpecialPathOriginVector =
        N.SpecialPathOriginVector := rfl
    have hN2 : (AddVolumeCell E S D Exit Pre Start End N v).SpecialPathRotation =
        N.SpecialPathRotation := rfl
    have hP : (AddVolumeCell E S D Exit Pre Start End N v).PreviousPath =
        TMapAdd N.PreviousPath (N.SpecialPathOriginVector +
          RotateIntVectorCoordinatefromOrigin v N.SpecialPathRotation)
          (UpdateSectionNode E S D N (N.SpecialPathOriginVector +
            RotateIntVectorCoordinatefromOrigin v N.SpecialPathRotation) Exit Pre Start End) := rfl
    simp only [List.foldl_cons]
    refine ⟨h1, h2, h3, h4, ?_, ?_, ?_⟩
    · by_cases hmem : N.SpecialPathOriginVector +
          RotateIntVectorCoordinatefromOrigin v N.SpecialPathRotation ∈ TMapKeys N.PreviousPath
      · refine ⟨New, ?_, by simp only [List.length_cons]; omega⟩
        rw [h5, hP, tmapAdd_keys_of_mem _ _ _ hmem]
      · refine ⟨(N.SpecialPathOriginVector +
          RotateIntVectorCoordinatefromOrigin v N.SpecialPathRotation) :: New, ?_,
          by simp only [List.length_cons]; omega⟩
        rw [h5, hP, tmapAdd_absent _ _ _ hmem]
        simp [TMapKeys]
    · intro w hw
      rcases List.mem_cons.1 hw with e | e
      · subst e
        rw [h5]
        apply List.mem_append_left
        rw [hP]
        exact (tmapKeys_add _ _ _ _).2 (Or.inr rfl)
      · have := h6 w e
        rw [hN1, hN2] at this
        exact this
    · intro e he
      rcases h7 e he with h | h
      · rw [hP] at h
        rcases mem_tmapAdd _ _ _ _ h with h | h
        · exact Or.inl h
        · right
          rw [h]
          simp [UpdateSectionNode, UpdateNodeFields, UpdateNodeCosts]
      · exact Or.inr h

theorem deepOK_of_path (K : List FIntVector) (Pre : List (FIntVector × FAdvancedPathNode))
    (hkeys : ∀ x ∈ TMapKeys Pre, x ∈ K) (hvals : ∀ d, ∀ v ∈ Pre, DeepOK K d v.2)
    (n : FAdvancedPathNode) (hn : n.PreviousPath = Pre) : ∀ d, DeepOK K d n := by
  intro d
  cases d with
  | zero => trivial
  | succ d =>
    refine ⟨?_, ?_⟩
    · rw [hn]
      exact hkeys
    · rw [hn]
      exact hvals d

theorem mem_drop_append {α : Type} (A B : List α) (N : Nat) (hN : A.length ≤ N) (x : α)
    (hx : x ∈ (A ++ B).drop N) : x ∈ B := by
  rw [List.drop_append_eq_append_drop, List.drop_eq_nil_of_le hN, List.nil_append] at hx
  exact List.mem_of_mem_drop hx

theorem structureNode_spec (E : Engine) (S : FLevelGenerationSettings)
    (D : FGeneratedLevelData) (Exit : FIntVector) (Pre : List (FIntVector × FAdvancedPathNode))
    (Start End : FIntVector) (L : List FIntVector) (F : FAdvancedPathNode) (w : ℚ)
    (node : FAdvancedPathNode)
    (hnode : node = UpdateNodeCosts E (L.foldl (AddVolumeCell E S D Exit Pre Start End) F) w Exit
      Start End) :
    node.SpecialPathType = F.SpecialPathType ∧ node.SpecialPathInfo = F.SpecialPathInfo ∧
    node.SpecialPathOriginVector = F.SpecialPathOriginVector ∧
    node.SpecialPathRotation = F.SpecialPathRotation ∧
    (∃ New, TMapKeys node.PreviousPath = TMapKeys F.PreviousPath ++ New ∧
      New.length ≤ L.length) ∧
    (∀ v ∈ L, F.SpecialPathOriginVector +
      RotateIntVectorCoordinatefromOrigin v F.SpecialPathRotation ∈ TMapKeys node.PreviousPath) ∧
    (∀ e ∈ node.PreviousPath, e ∈ F.PreviousPath ∨ e.2.PreviousPath = Pre) := by
  subst hnode
  exact addVolumeCells_spec E S D Exit Pre Start End L F

/-- A node made by `UpdateAdvancedNode` from a previous path of closed coordinates,
stored under a coordinate that is not closed, has the invariant of `OPEN`. -/
theorem newNode_openOK (E : Engine) (A : FAdvancedPathNode) (S : FLevelGenerationSettings)
    (D : FGeneratedLevelData) (Origin Current Exit : FIntVector) (T : ESpecialPathType)
    (Info : FSpecialPathInfo) (Rot : FRotator) (Pre : List (FIntVector × FAdvancedPathNode))
    (Start End : FIntVector) (K : List FIntVector)
    (hkeys : ∀ x ∈ TMapKeys Pre, x ∈ K) (hvals : ∀ d, ∀ v ∈ Pre, DeepOK K d v.2)
    (hExit : Exit ∉ K) :
    OpenEntryOK K
      (Exit, UpdateAdvancedNode E A S D Origin Current Exit T Info Rot Pre Start End) := by
  cases hT : T.IsStructure with
  | false =>
    obtain ⟨hP, hty⟩ := updateAdvancedNode_plain E A S D Origin Current Exit T Info Rot Pre
      Start End hT
    refine ⟨hExit, ?_, ?_, ?_⟩
    · intro d v hv
      simp only at hv
      rw [hP] at hv
      exact hvals d v hv
    · intro x hx
      simp only at hx
      rw [hP] at hx
      exact hkeys x (List.mem_reverse.1 (List.mem_of_mem_drop hx))
    · intro hs
      simp only at hs
      rw [hty, hT] at hs
      simp at hs
  | true =>
    have hnode := updateAdvancedNode_structure E A S D Origin Current Exit T Info Rot Pre
      Start End hT
    generalize UpdateAdvancedNode E A S D Origin Current Exit T Info Rot Pre Start End = node
      at hnode ⊢
    obtain ⟨h1, h2, h3, h4, ⟨New, h5, h5b⟩, h6, h7⟩ :=
      structureNode_spec E S D Exit Pre Start End _ _ _ node hnode
    have h1b : node.SpecialPathType = T := h1
    have h2b : node.SpecialPathInfo = Info := h2
    have h3b : node.SpecialPathOriginVector = Origin := h3
    have h4b : node.SpecialPathRotation = Rot := h4
    have h5c : TMapKeys node.PreviousPath = TMapKeys Pre ++ New := h5
    have hlen : New.length ≤ Info.PathVolume.length := by
      refine le_trans h5b ?_
      split_ifs <;> simp
    have h6b : ∀ v ∈ Info.PathVolume, Origin + RotateIntVectorCoordinatefromOrigin v Rot ∈
        TMapKeys node.PreviousPath := by
      intro v hv
      apply h6 v
      split_ifs
      · exact hv
      · exact List.mem_reverse.2 hv
    have h7b : ∀ e ∈ node.PreviousPath, e ∈ Pre ∨ e.2.PreviousPath = Pre := h7
    refine ⟨hExit, ?_, ?_, ?_⟩
    · intro d v hv
      rcases h7b v hv with h | h
      · exact hvals d v h
      · exact deepOK_of_path K Pre hkeys hvals v.2 h d
    · intro x hx
      have hVC : VolumeCount node = Info.PathVolume.length := by
        unfold VolumeCount
        rw [h1b, h2b, hT]
        rfl
      simp only at hx
      rw [hVC, h5c, List.reverse_append] at hx
      have := mem_drop_append _ _ _ (by rw [List.length_reverse]; omega) x hx
      exact hkeys x (List.mem_reverse.1 this)
    · intro _ x hx
      simp only [StructureCells, List.mem_map] at hx
      obtain ⟨v, hv, rfl⟩ := hx
      rw [h2b] at hv
      rw [h3b, h4b]
      exact h6b v hv

theorem previousNodePath_ok (CLOSED : List (FIntVector × FAdvancedPathNode)) (c : FIntVector)
    (ClosedNode : FAdvancedPathNode)
    (hCL : ∀ e ∈ CLOSED, ClosedEntryOK (TMapKeys CLOSED) e)
    (hfind : TMapFind CLOSED c = some ClosedNode) :
    (∀ x ∈ TMapKeys (TMapAdd ClosedNode.PreviousPath c ClosedNode), x ∈ TMapKeys CLOSED) ∧
    (∀ d, ∀ v ∈ TMapAdd ClosedNode.PreviousPath c ClosedNode, DeepOK (TMapKeys CLOSED) d v.2) := by
  have hmem := tmapFind_mem _ _ _ hfind
  have hok := hCL _ hmem
  constructor
  · intro x hx
    rcases (tmapKeys_add _ _ _ _).1 hx with h | h
    · exact (hok 1).1 x h
    · rw [h]
      simp only [TMapKeys, List.mem_map]
      exact ⟨_, hmem, rfl⟩
  · intro d v hv
    rcases mem_tmapAdd _ _ _ _ hv with h | h
    · exact (hok (d + 1)).2 v h
    · rw [h]
      exact hok d

theorem isCoordinateEmpty_closed (x c : FIntVector)
    (CLOSED : List (FIntVector × FAdvancedPathNode)) (Inaccessible : List FIntVector)
    (PGD : List FPathGenerationData) (D : FGeneratedLevelData)
    (h : IsCoordinateEmpty x c CLOSED Inaccessible PGD D = some true) :
    x ∉ TMapKeys CLOSED := by
  unfold IsCoordinateEmpty at h
  by_cases h1 : TSetContains Inaccessible x = true
  · rw [if_pos h1] at h
    simp at h
  · rw [if_neg h1] at h
    by_cases h2 : TMapContains CLOSED x = true
    · rw [if_pos h2] at h
      simp at h
    · intro hmem
      exact h2 ((tmapContains_iff _ _).2 hmem)

theorem tmapAdd_openOK (K : List FIntVector) (OPEN : List (FIntVector × FAdvancedPathNode))
    (k : FIntVector) (n : FAdvancedPathNode) (hOP : ∀ e ∈ OPEN, OpenEntryOK K e)
    (hn : OpenEntryOK K (k, n)) : ∀ e ∈ TMapAdd OPEN k n, OpenEntryOK K e := by
  intro e he
  rcases mem_tmapAdd _ _ _ _ he with h | h
  · exact hOP e h
  · exact h ▸ hn

/-- The first orientation of a template keeps the invariant of `OPEN` when no path
exists that could be reused. -/
theorem evaluateStructureFirst_openOK (E : Engine)
    (OPEN CLOSED OPEN2 : List (FIntVector × FAdvancedPathNode)) (Inaccessible : List FIntVector)
    (PGD : List FPathGenerationData) (S : FLevelGenerationSettings) (D : FGeneratedLevelData)
    (c Current : FIntVector) (R : FRotator) (T : ESpecialPathType) (Info : FSpecialPathInfo)
    (Start End : FIntVector) (hLPD : D.LevelPathData = [])
    (hCL : ∀ e ∈ CLOSED, ClosedEntryOK (TMapKeys CLOSED) e)
    (hOP : ∀ e ∈ OPEN, OpenEntryOK (TMapKeys CLOSED) e)
    (h : EvaluateStructureFirst E OPEN CLOSED Inaccessible PGD S D c Current R T Info Start End =
      some OPEN2) :
    ∀ e ∈ OPEN2, OpenEntryOK (TMapKeys CLOSED) e := by
  unfold EvaluateStructureFirst at h
  simp only at h
  by_cases hopen : TMapContains OPEN (Current +
      RotateIntVectorCoordinatefromOrigin Info.ExitVector R) = true
  · rw [if_pos hopen] at h
    simp only [Option.some.injEq] at h
    exact h ▸ hOP
  · rw [if_neg hopen, hLPD] at h
    simp only [TMapFind] at h
    cases hfind : TMapFind CLOSED c with
    | none => rw [hfind] at h; simp at h
    | some ClosedNode =>
      rw [hfind] at h
      simp only at h
      cases hV : VolumeIsInvalid
          (fun v => Current + RotateIntVectorCoordinatefromOrigin v R)
          c ClosedNode CLOSED Inaccessible PGD D End Info.PathVolume with
      | none => rw [hV] at h; simp at h
      | some bV =>
        cases hX : IsCoordinateEmpty (Current +
            RotateIntVectorCoordinatefromOrigin Info.ExitVector R) c CLOSED Inaccessible []
            D with
        | none => rw [hV, hX] at h; simp at h
        | some bE =>
          rw [hV, hX] at h
          simp only [Bool.or_false] at h
          split_ifs at h with hvalid
          · simp only [Option.some.injEq] at h
            subst h
            obtain ⟨hk, hv⟩ := previousNodePath_ok CLOSED c ClosedNode hCL hfind
            apply tmapAdd_openOK _ _ _ _ hOP
            apply newNode_openOK _ _ _ _ _ _ _ _ _ _ _ _ _ _ hk hv
            have hbE : bE = true := by
              cases bE with
              | true => rfl
              | false => simp at hvalid
            subst hbE
            exact isCoordinateEmpty_closed _ _ _ _ _ _ hX
          · simp only [Option.some.injEq] at h
            exact h ▸ hOP

/-- The second orientation of a template keeps the invariant of `OPEN` when no path
exists that could be reused. -/
theorem evaluateStructureSecond_openOK (E : Engine)
    (OPEN CLOSED OPEN2 : List (FIntVector × FAdvancedPathNode)) (Inaccessible : List FIntVector)
    (PGD : List FPathGenerationData) (S : FLevelGenerationSettings) (D : FGeneratedLevelData)
    (c Current DirectionVector : FIntVector) (R Reversed : FRotator) (T : ESpecialPathType)
    (Info : FSpecialPathInfo) (Start End : FIntVector) (hLPD : D.LevelPathData = [])
    (hCL : ∀ e ∈ CLOSED, ClosedEntryOK (TMapKeys CLOSED) e)
    (hOP : ∀ e ∈ OPEN, OpenEntryOK (TMapKeys CLOSED) e)
    (h : EvaluateStructureSecond E OPEN CLOSED Inaccessible PGD S D c Current DirectionVector R
      Reversed T Info Start End = some OPEN2) :
    ∀ e ∈ OPEN2, OpenEntryOK (TMapKeys CLOSED) e := by
  unfold EvaluateStructureSecond at h
  simp only at h
  by_cases hopen : TMapContains OPEN (Current +
      RotateIntVectorCoordinatefromOrigin (Info.ExitVector.scale (-1)) Reversed) = true
  · rw [if_pos hopen] at h
    simp only [Option.some.injEq] at h
    exact h ▸ hOP
  · rw [if_neg hopen, hLPD] at h
    simp only [TMapFind] at h
    cases hfind : TMapFind CLOSED c with
    | none => rw [hfind] at h; simp at h
    | some ClosedNode =>
      rw [hfind] at h
      simp only at h
      cases hV : VolumeIsInvalid
          (fun v => Current + RotateIntVectorCoordinatefromOrigin (v.scale (-1)) Reversed)
          c ClosedNode CLOSED Inaccessible PGD D End Info.PathVolume with
      | none => rw [hV] at h; simp at h
      | some bV =>
        cases hX : IsCoordinateEmpty (Current +
            RotateIntVectorCoordinatefromOrigin (Info.ExitVector.scale (-1)) Reversed) c CLOSED
            Inaccessible [] D with
        | none => rw [hV, hX] at h; simp at h
        | some bE =>
          rw [hV, hX] at h
          simp only [Bool.or_false] at h
          by_cases hskip : (bE && TMapContains ClosedNode.PreviousPath (Current +
              RotateIntVectorCoordinatefromOrigin (Info.ExitVector.scale (-1)) Reversed)) = true
          · rw [if_pos hskip] at h
            simp only [Option.some.injEq] at h
            exact h ▸ hOP
          · rw [if_neg hskip] at h
            by_cases hvalid : (!(bV || !bE)) = true
            · rw [if_pos hvalid] at h
              simp only [Option.some.injEq] at h
              subst h
              obtain ⟨hk, hv⟩ := previousNodePath_ok CLOSED c ClosedNode hCL hfind
              apply tmapAdd_openOK _ _ _ _ hOP
              apply newNode_openOK _ _ _ _ _ _ _ _ _ _ _ _ _ _ hk hv
              have hbE : bE = true := by
                cases bE with
                | true => rfl
                | false => simp at hvalid
              subst hbE
              exact isCoordinateEmpty_closed _ _ _ _ _ _ hX
            · rw [if_neg hvalid] at h
              simp only [Option.some.injEq] at h
              exact h ▸ hOP

theorem newPlainNode_openOK (E : Engine) (C : SearchContext)
    (CLOSED : List (FIntVector × FAdvancedPathNode)) (c x : FIntVector)
    (ClosedNode : FAdvancedPathNode)
    (hCL : ∀ e ∈ CLOSED, ClosedEntryOK (TMapKeys CLOSED) e)
    (hfind : TMapFind CLOSED c = some ClosedNode) (hx : x ∉ TMapKeys CLOSED) :
    OpenEntryOK (TMapKeys CLOSED) (x, NewPlainNode E C c ClosedNode x) := by
  obtain ⟨hk, hv⟩ := previousNodePath_ok CLOSED c ClosedNode hCL hfind
  unfold NewPlainNode
  exact newNode_openOK _ _ _ _ _ _ _ _ _ _ _ _ _ _ hk hv hx

theorem evaluateSpecial_openOK (E : Engine) (S : FLevelGenerationSettings)
    (OPEN CLOSED OPEN2 : List (FIntVector × FAdvancedPathNode))
    (Inaccessible : List FIntVector) (PGD : List FPathGenerationData)
    (D : FGeneratedLevelData) (c : FIntVector) (d : EDirections) (Start End : FIntVector)
    (hLPD : D.LevelPathData = [])
    (hCL : ∀ e ∈ CLOSED, ClosedEntryOK (TMapKeys CLOSED) e)
    (hOP : ∀ e ∈ OPEN, OpenEntryOK (TMapKeys CLOSED) e)
    (h : EvaluateSpecialCorridorStructures E OPEN CLOSED Inaccessible PGD S D c d Start End =
      some OPEN2) : ∀ e ∈ OPEN2, OpenEntryOK (TMapKeys CLOSED) e := by
  unfold EvaluateSpecialCorridorStructures at h
  split at h
  · rename_i v r _ _
    simp only at h
    by_cases hc : (TSetContains Inaccessible (c + v) || TMapContains CLOSED (c + v)) = true
    · rw [if_pos hc] at h
      simp only [Option.some.injEq] at h
      exact h ▸ hOP
    · rw [if_neg hc] at h
      refine foldl_option_invariant
        (fun Open => ∀ e ∈ Open, OpenEntryOK (TMapKeys CLOSED) e)
        _ (TMapKeys S.AllowedSpecialPathTypes) (fun _ => rfl) ?_ OPEN OPEN2 hOP h
      intro Open hOpen T _ Open2 hstep
      simp only at hstep
      cases hf : TMapFind S.AllowedSpecialPathTypes T with
      | none => rw [hf] at hstep; simp at hstep
      | some b =>
        rw [hf] at hstep
        cases b with
        | false =>
          simp only [Option.some.injEq] at hstep
          exact hstep ▸ hOpen
        | true =>
          simp only at hstep
          cases hdata : S.SpecialPathData with
          | none => rw [hdata] at hstep; simp at hstep
          | some Settings =>
            rw [hdata] at hstep
            simp only at hstep
            cases hinfo : TMapFind Settings T with
            | none =>
              rw [hinfo] at hstep
              simp only [Option.some.injEq] at hstep
              exact hstep ▸ hOpen
            | some Info =>
              rw [hinfo] at hstep
              simp only at hstep
              cases hfirst : EvaluateStructureFirst E Open CLOSED Inaccessible PGD S D c (c + v)
                  r T Info Start End with
              | none => rw [hfirst] at hstep; simp at hstep
              | some Open1 =>
                rw [hfirst] at hstep
                simp only at hstep
                have h1 := evaluateStructureFirst_openOK E Open CLOSED Open1 Inaccessible PGD S D
                  c (c + v) r T Info Start End hLPD hCL hOpen hfirst
                exact evaluateStructureSecond_openOK E Open1 CLOSED Open2 Inaccessible PGD S D
                  c (c + v) v r _ T Info Start End hLPD hCL h1 hstep
  · simp at h

theorem expandClosedDirection_openOK (E : Engine) (C : SearchContext)
    (hLPD : C.GeneratedLevelData.LevelPathData = [])
    (CLOSED OPEN OPEN2 : List (FIntVector × FAdvancedPathNode)) (c : FIntVector)
    (d : EDirections)
    (hCL : ∀ e ∈ CLOSED, ClosedEntryOK (TMapKeys CLOSED) e)
    (hOP : ∀ e ∈ OPEN, OpenEntryOK (TMapKeys CLOSED) e)
    (h : ExpandClosedDirection E C CLOSED c OPEN d = some OPEN2) :
    ∀ e ∈ OPEN2, OpenEntryOK (TMapKeys CLOSED) e := by
  unfold ExpandClosedDirection at h
  by_cases hab : d = EDirections.Above ∨ d = EDirections.Below
  · rw [if_pos hab] at h
    simp only [Option.some.injEq] at h
    exact h ▸ hOP
  · rw [if_neg hab] at h
    split at h
    · rename_i v n hv hn
      simp only at h
      by_cases hprev : TMapContains n.PreviousPath (c + v) = true
      · rw [if_pos hprev] at h
        simp only [Option.some.injEq] at h
        exact h ▸ hOP
      · rw [if_neg hprev] at h
        refine evaluateSpecial_openOK E _ _ CLOSED OPEN2 _ _ _ c d _ _ hLPD hCL ?_ h
        split_ifs with hcond
        · apply tmapAdd_openOK _ _ _ _ hOP
          apply newPlainNode_openOK E C CLOSED c (c + v) n hCL hn
          simp only [Bool.and_eq_true, Bool.not_eq_eq_eq_not, Bool.not_true] at hcond
          exact (tmapContains_false_iff _ _).1 hcond.1.2
        · exact hOP
    · simp at h

theorem expandClosed_openOK (E : Engine) (C : SearchContext)
    (hLPD : C.GeneratedLevelData.LevelPathData = [])
    (CLOSED OPEN OPEN2 : List (FIntVector × FAdvancedPathNode))
    (hCL : ∀ e ∈ CLOSED, ClosedEntryOK (TMapKeys CLOSED) e)
    (hOP : ∀ e ∈ OPEN, OpenEntryOK (TMapKeys CLOSED) e)
    (h : ExpandClosed E C OPEN CLOSED = some OPEN2) :
    ∀ e ∈ OPEN2, OpenEntryOK (TMapKeys CLOSED) e := by
  unfold ExpandClosed at h
  refine foldl_option_invariant
    (fun Open => ∀ e ∈ Open, OpenEntryOK (TMapKeys CLOSED) e)
    _ (TMapKeys CLOSED) (fun _ => rfl) ?_ OPEN OPEN2 hOP h
  intro Open hOpen c _ Open2 hstep
  simp only at hstep
  unfold ExpandClosedNode at hstep
  split at hstep
  · simp at hstep
  · split_ifs at hstep with hsec
    · simp only [Option.some.injEq] at hstep
      exact hstep ▸ hOpen
    · exact foldl_option_invariant
        (fun Open => ∀ e ∈ Open, OpenEntryOK (TMapKeys CLOSED) e)
        _ DirectionEvaluationOrder (fun _ => rfl)
        (fun a ha d _ a2 h2 => expandClosedDirection_openOK E C hLPD CLOSED a a2 c d hCL ha h2)
        Open Open2 hOpen hstep

theorem relaxNeighbour_openOK (E : Engine) (C : SearchContext)
    (CLOSED OPEN OPEN2 : List (FIntVector × FAdvancedPathNode)) (cur : FIntVector)
    (CurrentNode : FAdvancedPathNode) (d : EDirections)
    (hCL : ∀ e ∈ CLOSED, ClosedEntryOK (TMapKeys CLOSED) e)
    (hOP : ∀ e ∈ OPEN, OpenEntryOK (TMapKeys CLOSED) e)
    (h : RelaxNeighbour E C CLOSED cur CurrentNode OPEN d = some OPEN2) :
    ∀ e ∈ OPEN2, OpenEntryOK (TMapKeys CLOSED) e := by
  unfold RelaxNeighbour at h
  by_cases hab : d = EDirections.Above ∨ d = EDirections.Below
  · rw [if_pos hab] at h
    simp only [Option.some.injEq] at h
    exact h ▸ hOP
  · rw [if_neg hab] at h
    split at h
    · simp at h
    · rename_i v hv
      simp only at h
      split_ifs at h with h1 h2 h3 h4 h5
      · simp only [Option.some.injEq] at h; exact h ▸ hOP
      · simp only [Option.some.injEq] at h; exact h ▸ hOP
      · simp only [Option.some.injEq] at h; exact h ▸ hOP
      · simp only [Option.some.injEq] at h; exact h ▸ hOP
      · cases hfind : TMapFind CLOSED cur with
        | none => rw [hfind] at h; simp at h
        | some ClosedNode =>
          rw [hfind] at h
          simp only [Option.some.injEq] at h
          subst h
          apply tmapAdd_openOK _ _ _ _ hOP
          apply newPlainNode_openOK E C CLOSED cur (cur + v) ClosedNode hCL hfind
          simp only [Bool.or_eq_true, not_or] at h2
          exact (tmapContains_false_iff _ _).1 (by simpa using h2.2)
      · simp only [Option.some.injEq] at h; exact h ▸ hOP

theorem tmapKeys_remove {κ ν : Type} [DecidableEq κ] (m : List (κ × ν)) (k x : κ) :
    x ∈ TMapKeys (TMapRemove m k) ↔ x ∈ TMapKeys m ∧ x ≠ k := by
  simp only [TMapKeys, TMapRemove, List.mem_map, List.mem_filter, decide_eq_true_eq]
  constructor
  · rintro ⟨e, ⟨he, hne⟩, rfl⟩
    exact ⟨⟨e, he, rfl⟩, hne⟩
  · rintro ⟨⟨e, he, rfl⟩, hne⟩
    exact ⟨e, ⟨he, hne⟩, rfl⟩

/-- The commit of the cells of a popped structure: `OPEN` only loses entries,
`CLOSED` gains entries of the previous path of the node, every coordinate that is
new in `CLOSED` is gone from `OPEN`, and the last `Count` coordinates of the
previous path are closed. -/
theorem commitStructure_spec (n : FAdvancedPathNode) :
    ∀ (Count : Nat) (OPEN0 CLOSED0 OPEN1 CLOSED1 : List (FIntVector × FAdvancedPathNode)),
      CommitStructure n Count (OPEN0, CLOSED0) = some (OPEN1, CLOSED1) →
      (∀ e ∈ OPEN1, e ∈ OPEN0) ∧
      (∀ e ∈ CLOSED1, e ∈ CLOSED0 ∨ e ∈ n.PreviousPath) ∧
      (∀ x ∈ TMapKeys CLOSED0, x ∈ TMapKeys CLOSED1) ∧
      (∀ x ∈ TMapKeys CLOSED1, x ∈ TMapKeys CLOSED0 ∨ x ∉ TMapKeys OPEN1) ∧
      (∀ x ∈ (TMapKeys n.PreviousPath).reverse.take Count, x ∈ TMapKeys CLOSED1) := by
  intro Count
  induction Count with
  | zero =>
    intro OPEN0 CLOSED0 OPEN1 CLOSED1 h
    simp only [CommitStructure, Option.some.injEq, Prod.mk.injEq] at h
    obtain ⟨rfl, rfl⟩ := h
    exact ⟨fun e he => he, fun e he => Or.inl he, fun x hx => hx, fun x hx => Or.inl hx,
      by simp⟩
  | succ k ih =>
    intro OPEN0 CLOSED0 OPEN1 CLOSED1 h
    unfold CommitStructure at h
    cases hprev : CommitStructure n k (OPEN0, CLOSED0) with
    | none => rw [hprev] at h; simp at h
    | some St =>
      obtain ⟨OPENk, CLOSEDk⟩ := St
      rw [hprev] at h
      simp only at h
      obtain ⟨i1, i2, i3, i4, i5⟩ := ih OPEN0 CLOSED0 OPENk CLOSEDk hprev
      cases hkey : (TMapKeys n.PreviousPath).reverse[k]? with
      | none => rw [hkey] at h; simp at h
      | some x =>
        rw [hkey] at h
        simp only at h
        cases hsec : TMapFind n.PreviousPath x with
        | none => rw [hsec] at h; simp at h
        | some sec =>
          rw [hsec] at h
          simp only [Option.some.injEq, Prod.mk.injEq] at h
          obtain ⟨rfl, rfl⟩ := h
          refine ⟨?_, ?_, ?_, ?_, ?_⟩
          · intro e he
            exact i1 e (List.mem_of_mem_filter he)
          · intro e he
            rcases mem_tmapAdd _ _ _ _ he with h1 | h1
            · exact i2 e h1
            · exact Or.inr (h1 ▸ tmapFind_mem _ _ _ hsec)
          · intro y hy
            exact (tmapKeys_add _ _ _ _).2 (Or.inl (i3 y hy))
          · intro y hy
            rcases (tmapKeys_add _ _ _ _).1 hy with h1 | h1
            · rcases i4 y h1 with h2 | h2
              · exact Or.inl h2
              · exact Or.inr (fun hmem => h2 ((tmapKeys_remove _ _ _).1 hmem).1)
            · exact Or.inr (fun hmem => ((tmapKeys_remove _ _ _).1 hmem).2 h1)
          · intro y hy
            rw [List.take_succ, hkey] at hy
            simp only [Option.toList_some, List.mem_append, List.mem_singleton] at hy
            rcases hy with h1 | h1
            · exact (tmapKeys_add _ _ _ _).2 (Or.inl (i5 y h1))
            · exact (tmapKeys_add _ _ _ _).2 (Or.inr h1)

/-- The pop of a node (lines 923-946) keeps the invariants of `OPEN` and `CLOSED`,
and closes every cell of the footprint of the structure the node carries. -/
theorem pop_spec (n : FAdvancedPathNode) (cur : FIntVector)
    (Sorted CLOSED OPEN1 CLOSED1 : List (FIntVector × FAdvancedPathNode))
    (hCL : ∀ e ∈ CLOSED, ClosedEntryOK (TMapKeys CLOSED) e)
    (hOP : ∀ e ∈ Sorted, OpenEntryOK (TMapKeys CLOSED) e)
    (hn : OpenEntryOK (TMapKeys CLOSED) (cur, n))
    (h : CommitStructure n (VolumeCount n) (Sorted, CLOSED) = some (OPEN1, CLOSED1)) :
    (∀ e ∈ TMapAdd CLOSED1 cur n, ClosedEntryOK (TMapKeys (TMapAdd CLOSED1 cur n)) e) ∧
    (∀ e ∈ TMapRemove OPEN1 cur, OpenEntryOK (TMapKeys (TMapAdd CLOSED1 cur n)) e) ∧
    (∀ x ∈ TMapKeys n.PreviousPath, x ∈ TMapKeys (TMapAdd CLOSED1 cur n)) := by
  obtain ⟨c1, c2, c3, c4, c5⟩ := commitStructure_spec n _ _ _ _ _ h
  obtain ⟨hn1, hn2, hn3, hn4⟩ := hn
  simp only at hn1 hn2 hn3 hn4
  have hK1 : ∀ x ∈ TMapKeys CLOSED1, x ∈ TMapKeys (TMapAdd CLOSED1 cur n) :=
    fun x hx => (tmapKeys_add _ _ _ _).2 (Or.inl hx)
  have hK : ∀ x ∈ TMapKeys CLOSED, x ∈ TMapKeys (TMapAdd CLOSED1 cur n) :=
    fun x hx => hK1 x (c3 x hx)
  have hall : ∀ x ∈ TMapKeys n.PreviousPath, x ∈ TMapKeys (TMapAdd CLOSED1 cur n) := by
    intro x hx
    have hx2 : x ∈ (TMapKeys n.PreviousPath).reverse := List.mem_reverse.2 hx
    rw [← List.take_append_drop (VolumeCount n) (TMapKeys n.PreviousPath).reverse] at hx2
    rcases List.mem_append.1 hx2 with h1 | h1
    · exact hK1 x (c5 x h1)
    · exact hK x (hn3 x h1)
  refine ⟨?_, ?_, hall⟩
  · intro e he d
    rcases mem_tmapAdd _ _ _ _ he with h1 | h1
    · rcases c2 e h1 with h2 | h2
      · exact deepOK_mono _ _ hK d e.2 (hCL e h2 d)
      · exact deepOK_mono _ _ hK d e.2 (hn2 d e h2)
    · rw [h1]
      cases d with
      | zero => trivial
      | succ d => exact ⟨hall, fun v hv => deepOK_mono _ _ hK d v.2 (hn2 d v hv)⟩
  · intro e he
    have he1 : e ∈ OPEN1 := List.mem_of_mem_filter he
    have hne : e.1 ≠ cur := by
      have := (List.mem_filter.1 he).2
      simpa using this
    obtain ⟨e1, e2, e3, e4⟩ := hOP e (c1 e he1)
    refine ⟨?_, fun d v hv => deepOK_mono _ _ hK d v.2 (e2 d v hv), fun x hx => hK x (e3 x hx),
      e4⟩
    intro hmem
    rcases (tmapKeys_add _ _ _ _).1 hmem with h1 | h1
    · rcases c4 _ h1 with h2 | h2
      · exact e1 h2
      · apply h2
        simp only [TMapKeys, List.mem_map]
        exact ⟨e, he1, rfl⟩
    · exact hne h1

theorem commit_eq (n : FAdvancedPathNode)
    (State : List (FIntVector × FAdvancedPathNode) × List (FIntVector × FAdvancedPathNode)) :
    (if n.SpecialPathType.IsStructure then
        CommitStructure n n.SpecialPathInfo.PathVolume.length State
      else some State) = CommitStructure n (VolumeCount n) State := by
  unfold VolumeCount
  split_ifs
  · rfl
  · rfl

/-- Every pop `SearchPops` records leaves the footprint of the structure of the
popped node in `CLOSED` and out of `OPEN`, when no path exists that could be
reused. -/
theorem searchPops_closed (E : Engine) (C : SearchContext) (hsort : ValueSortPermutes E)
    (hLPD : C.GeneratedLevelData.LevelPathData = []) :
    ∀ (Steps : Nat) (OPEN CLOSED : List (FIntVector × FAdvancedPathNode)),
      (∀ e ∈ CLOSED, ClosedEntryOK (TMapKeys CLOSED) e) →
      (∀ e ∈ OPEN, OpenEntryOK (TMapKeys CLOSED) e) →
      ∀ Pop ∈ SearchPops E C Steps OPEN CLOSED, Pop.1.SpecialPathType.IsStructure = true →
        ∀ x ∈ StructureCells Pop.1, x ∈ TMapKeys Pop.2.2 ∧ x ∉ TMapKeys Pop.2.1 := by
  intro Steps
  induction Steps with
  | zero => intro OPEN CLOSED _ _ Pop h; simp [SearchPops] at h
  | succ k ih =>
    intro OPEN CLOSED hCL hOP Pop h
    unfold SearchPops at h
    split at h
    · simp at h
    · rename_i Expanded hexp
      have hExp := expandClosed_openOK E C hLPD CLOSED OPEN Expanded hCL hOP hexp
      have hSorted : ∀ e ∈ E.ValueSort OpenNodeLess Expanded,
          OpenEntryOK (TMapKeys CLOSED) e :=
        fun e he => hExp e ((hsort OpenNodeLess Expanded).mem_iff.1 he)
      split at h
      · simp at h
      · rename_i cur CurrentNode SortedRest hs
        rw [hs] at hSorted
        have hCur := hSorted _ (List.mem_cons_self _ _)
        simp only at h
        rw [commit_eq] at h
        cases hcm : CommitStructure CurrentNode (VolumeCount CurrentNode)
            ((cur, CurrentNode) :: SortedRest, CLOSED) with
        | none => rw [hcm] at h; simp at h
        | some St =>
          obtain ⟨OPEN1, CLOSED1⟩ := St
          rw [hcm] at h
          simp only at h
          obtain ⟨p1, p2, p3⟩ := pop_spec CurrentNode cur _ CLOSED OPEN1 CLOSED1 hCL hSorted hCur hcm
          have hcells : ∀ (Open : List (FIntVector × FAdvancedPathNode)),
              (∀ e ∈ Open, OpenEntryOK (TMapKeys (TMapAdd CLOSED1 cur CurrentNode)) e) →
              CurrentNode.SpecialPathType.IsStructure = true →
              ∀ x ∈ StructureCells CurrentNode,
                x ∈ TMapKeys (TMapAdd CLOSED1 cur CurrentNode) ∧ x ∉ TMapKeys Open := by
            intro Open hOpen hst x hx
            have hxK := p3 x (hCur.2.2.2 hst x hx)
            refine ⟨hxK, ?_⟩
            intro hmem
            simp only [TMapKeys, List.mem_map] at hmem
            obtain ⟨e, he, rfl⟩ := hmem
            exact (hOpen e he).1 hxK
          by_cases hend : cur = C.EndLocation
          · rw [if_pos hend] at h
            simp only [List.mem_singleton] at h
            subst h
            exact hcells _ p2
          · rw [if_neg hend] at h
            split at h
            · simp at h
            · rename_i OPEN3 hrelax
              have hOP3 : ∀ e ∈ OPEN3,
                  OpenEntryOK (TMapKeys (TMapAdd CLOSED1 cur CurrentNode)) e :=
                foldl_option_invariant
                  (fun Open => ∀ e ∈ Open,
                    OpenEntryOK (TMapKeys (TMapAdd CLOSED1 cur CurrentNode)) e)
                  _ AllDirections (fun _ => rfl)
                  (fun a ha d _ a2 h2 => relaxNeighbour_openOK E C _ a a2 cur CurrentNode d
                    p1 ha h2)
                  _ OPEN3 p2 hrelax
              rcases List.mem_cons.1 h with h | h
              · subst h
                exact hcells _ hOP3
              · exact ih OPEN3 _ p1 hOP3 Pop h

theorem initialClosed_ok (E : Engine) (Start End : FIntVector) (S : FLevelGenerationSettings)
    (D : FGeneratedLevelData) :
    ∀ e ∈ InitialClosed E Start End S D,
      ClosedEntryOK (TMapKeys (InitialClosed E Start End S D)) e := by
  intro e he
  simp only [InitialClosed, TMapAdd, List.mem_singleton] at he
  subst he
  apply deepOK_of_path _ []
  · intro x hx
    simp [TMapKeys] at hx
  · intro d v hv
    cases hv
  · simp [UpdateAdvancedNode, UpdateNodeFields, UpdateNodeCosts, ESpecialPathType.IsStructure]

/-- While `LevelPathData` is empty, so that no placement reuses an existing path,
every pop of `AdvancedAStarPathfinding` of a node that carries a special structure
leaves every cell of the footprint of that structure (structure origin plus each
rotated volume offset) in `CLOSED` and none of them in `OPEN` when the pass ends,
that is before the next expansion. -/
theorem popped_structure_cells_closed_without_reuse (E : Engine) (Steps : Nat)
    (Start End : FIntVector) (PGD : List FPathGenerationData) (S : FLevelGenerationSettings)
    (D : FGeneratedLevelData) (hsort : ValueSortPermutes E) (hLPD : D.LevelPathData = []) :
    ∀ Pop ∈ AdvancedAStarPops E Steps Start End PGD S D,
      Pop.1.SpecialPathType.IsStructure = true →
      ∀ x ∈ StructureCells Pop.1, x ∈ TMapKeys Pop.2.2 ∧ x ∉ TMapKeys Pop.2.1 := by
  intro Pop hPop
  unfold AdvancedAStarPops at hPop
  simp only at hPop
  split_ifs at hPop with hguard
  · cases hPop
  · exact searchPops_closed E (SearchContextOf Start End PGD S D) hsort hLPD Steps [] _
      (initialClosed_ok E Start End S D) (by intro e he; cases he) Pop hPop

/-- On the empty level with the template `StairsInfo` the search from (0,0,0) to
(3,0,1) pops the staircase at (1,0,0) and then the end; the cell (1,0,0) of the
staircase is in `CLOSED` and not in `OPEN` when its pass ends. -/
theorem popped_stairs_cells_are_closed :
    (PopKeys (AdvancedAStarPops (ScenarioEngine []) 6 ⟨0, 0, 0⟩ ⟨3, 0, 1⟩ []
        (StairsSettings ⟨8, 8, 2⟩) (LevelOf []))).map (fun p => (p.1, p.2.1, p.2.2.2)) =
      [(ESpecialPathType.Stairs_1x1x2, [⟨1, 0, 0⟩], [⟨0, 0, 0⟩, ⟨1, 0, 0⟩, ⟨2, 0, 1⟩]),
       (ESpecialPathType.None, [⟨3, 0, 1⟩],
         [⟨0, 0, 0⟩, ⟨1, 0, 0⟩, ⟨2, 0, 1⟩, ⟨3, 0, 1⟩])] ∧
    ∀ Pop ∈ AdvancedAStarPops (ScenarioEngine []) 6 ⟨0, 0, 0⟩ ⟨3, 0, 1⟩ []
        (StairsSettings ⟨8, 8, 2⟩) (LevelOf []),
      Pop.1.SpecialPathType.IsStructure = true →
      ∀ x ∈ StructureCells Pop.1, x ∈ TMapKeys Pop.2.2 ∧ x ∉ TMapKeys Pop.2.1 :=
  ⟨by decide!,
   popped_structure_cells_closed_without_reuse (ScenarioEngine []) 6 ⟨0, 0, 0⟩ ⟨3, 0, 1⟩ []
     (StairsSettings ⟨8, 8, 2⟩) (LevelOf []) (scenarioEngine_valueSortPermutes []) rfl⟩

/-- C30: on a level whose `LevelPathData` holds two structures that the search
reuses, the commit of a popped structure leaves a cell of its footprint in `OPEN`.
The search runs from (0,0,0) to (0,5,0).  The second pop is the node of the
structure at (0,2,0), whose footprint is the cells (0,2,0) and (0,0,0); when the
pass ends, that is before the next expansion, `CLOSED` holds both cells and `OPEN`
still holds the node stored under (0,0,0), the exit of the other reused
structure. -/
theorem C30_reused_structure_leaves_cell_in_open :
    (PopKeys (AdvancedAStarPops (ScenarioEngine []) 2 ⟨0, 0, 0⟩ ⟨0, 5, 0⟩ []
        (ReuseSettings ⟨8, 8, 1⟩) ReuseScenario))[1]? =
      some (ESpecialPathType.Stairs_1x2x2, [⟨0, 2, 0⟩, ⟨0, 0, 0⟩],
        [⟨1, 1, 0⟩, ⟨-1, 1, 0⟩, ⟨-1, 0, 0⟩, ⟨0, -1, 0⟩, ⟨0, -2, 0⟩, ⟨0, 0, 0⟩, ⟨1, 3, 0⟩,
          ⟨0, 4, 0⟩, ⟨-1, 3, 0⟩],
        [⟨0, 0, 0⟩, ⟨0, 1, 0⟩, ⟨0, 2, 0⟩, ⟨0, 3, 0⟩]) ∧
    ESpecialPathType.Stairs_1x2x2.IsStructure = true ∧
    (⟨0, 0, 0⟩ : FIntVector) ∈ ([⟨0, 2, 0⟩, ⟨0, 0, 0⟩] : List FIntVector) ∧
    (⟨0, 0, 0⟩ : FIntVector) ∈ ([⟨1, 1, 0⟩, ⟨-1, 1, 0⟩, ⟨-1, 0, 0⟩, ⟨0, -1, 0⟩, ⟨0, -2, 0⟩,
      ⟨0, 0, 0⟩, ⟨1, 3, 0⟩, ⟨0, 4, 0⟩, ⟨-1, 3, 0⟩] : List FIntVector) := by
  decide!

end LevelGen

namespace LevelGen

/-! ## The returned edge list names no pair of endpoints twice -/

theorem sameDirection_symm {a b : FEdgeInfo} (h : SameDirection a b) : SameDirection b a :=
  ⟨h.1.symm, h.2.symm⟩

theorem sameDirection_trans {a b c : FEdgeInfo} (h1 : SameDirection a b)
    (h2 : SameDirection b c) : SameDirection a c :=
  ⟨h1.1.trans h2.1, h1.2.trans h2.2⟩

theorem sameDirection_refl (a : FEdgeInfo) : SameDirection a a := ⟨rfl, rfl⟩

theorem oppositeDirection_symm {a b : FEdgeInfo} (h : OppositeDirection a b) :
    OppositeDirection b a := ⟨h.2.symm, h.1.symm⟩

theorem opposite_of_same_left {a b c : FEdgeInfo} (h1 : SameDirection a b)
    (h2 : OppositeDirection b c) : OppositeDirection a c :=
  ⟨h1.1.trans h2.1, h1.2.trans h2.2⟩

theorem opposite_of_same_right {a b c : FEdgeInfo} (h1 : OppositeDirection a b)
    (h2 : SameDirection b c) : OppositeDirection a c :=
  ⟨h1.1.trans h2.2, h1.2.trans h2.1⟩

theorem same_of_opposite_opposite {a b c : FEdgeInfo} (h1 : OppositeDirection a b)
    (h2 : OppositeDirection b c) : SameDirection a c :=
  ⟨h1.1.trans h2.2, h1.2.trans h2.1⟩

theorem mem_edgeSetReplace (Test : FEdgeInfo → Bool) (e : FEdgeInfo) :
    ∀ (s : List FEdgeInfo) (y : FEdgeInfo), y ∈ EdgeSetReplace Test e s → y ∈ s ∨ y = e := by
  intro s
  induction s with
  | nil => intro y hy; simp [EdgeSetReplace] at hy
  | cons x rest ih =>
    intro y hy
    unfold EdgeSetReplace at hy
    split_ifs at hy with hT
    · rcases List.mem_cons.1 hy with h | h
      · exact Or.inr h
      · exact Or.inl (List.mem_cons_of_mem _ h)
    · rcases List.mem_cons.1 hy with h | h
      · exact Or.inl (h ▸ List.mem_cons_self _ _)
      · rcases ih y h with h2 | h2
        · exact Or.inl (List.mem_cons_of_mem _ h2)
        · exact Or.inr h2

theorem edgeSetReplace_keeps (Test : FEdgeInfo → Bool) (e : FEdgeInfo) :
    ∀ (s : List FEdgeInfo) (y : FEdgeInfo), y ∈ s → Test y = false →
      y ∈ EdgeSetReplace Test e s := by
  intro s
  induction s with
  | nil => intro y hy; simp at hy
  | cons x rest ih =>
    intro y hy hT
    unfold EdgeSetReplace
    rcases List.mem_cons.1 hy with h | h
    · subst h
      rw [hT]
      simp
    · split_ifs
      · exact List.mem_cons_of_mem _ h
      · exact List.mem_cons_of_mem _ (ih y h hT)

theorem edgeSetReplace_mem_new (Test : FEdgeInfo → Bool) (e : FEdgeInfo) :
    ∀ (s : List FEdgeInfo), s.any Test = true → e ∈ EdgeSetReplace Test e s := by
  intro s
  induction s with
  | nil => intro h; simp at h
  | cons x rest ih =>
    intro h
    unfold EdgeSetReplace
    split_ifs with hT
    · exact List.mem_cons_self _ _
    · simp only [List.any_cons, hT, Bool.false_or] at h
      exact List.mem_cons_of_mem _ (ih h)

/-- Replacing the first element that passes the test by an edge keeps the list free
of repeated directions, when no other element has the direction of that edge. -/
theorem edgeSetReplace_noTwice (Test : FEdgeInfo → Bool) (e : FEdgeInfo) :
    ∀ (s : List FEdgeInfo), NoTwice s →
      (∀ y ∈ s, Test y = false → ¬ SameDirection y e) →
      (∀ x ∈ s, Test x = true → ∀ y ∈ s, SameDirection y e → SameDirection y x) →
      NoTwice (EdgeSetReplace Test e s) := by
  intro s
  induction s with
  | nil => intro _ _ _; simp [EdgeSetReplace, NoTwice]
  | cons x rest ih =>
    intro hnt hother hsame
    unfold EdgeSetReplace
    have hx := List.pairwise_cons.1 hnt
    split_ifs with hT
    · apply List.pairwise_cons.2
      refine ⟨?_, hx.2⟩
      intro y hy hey
      have h1 := hsame x (List.mem_cons_self _ _) hT y (List.mem_cons_of_mem _ hy)
        (sameDirection_symm hey)
      exact hx.1 y hy (sameDirection_symm h1)
    · apply List.pairwise_cons.2
      have hTf : Test x = false := by simpa using hT
      refine ⟨?_, ?_⟩
      · intro y hy
        rcases mem_edgeSetReplace Test e rest y hy with h | h
        · exact hx.1 y h
        · intro hxy
          rw [h] at hxy
          exact hother x (List.mem_cons_self _ _) hTf hxy
      · exact ih hx.2 (fun y hy => hother y (List.mem_cons_of_mem _ hy))
          (fun z hz hTz y hy => hsame z (List.mem_cons_of_mem _ hz) hTz y
            (List.mem_cons_of_mem _ hy))

theorem eraseFirst_sublist (Test : FEdgeInfo → Bool) :
    ∀ (s : List FEdgeInfo), (EraseFirst Test s).Sublist s := by
  intro s
  induction s with
  | nil => exact List.Sublist.refl _
  | cons x rest ih =>
    unfold EraseFirst
    split_ifs
    · exact List.sublist_cons_self _ _
    · exact List.Sublist.cons₂ _ ih

theorem eraseFirst_keeps (Test : FEdgeInfo → Bool) :
    ∀ (s : List FEdgeInfo) (y : FEdgeInfo), y ∈ s → Test y = false →
      y ∈ EraseFirst Test s := by
  intro s
  induction s with
  | nil => intro y hy; simp at hy
  | cons x rest ih =>
    intro y hy hT
    unfold EraseFirst
    rcases List.mem_cons.1 hy with h | h
    · subst h
      rw [hT]
      simp
    · split_ifs
      · exact h
      · exact List.mem_cons_of_mem _ (ih y h hT)

/-- Erasing the first element with the direction of an edge, from a list without
repeated directions, leaves no element with that direction. -/
theorem eraseFirst_absent (e : FEdgeInfo) :
    ∀ (s : List FEdgeInfo), NoTwice s →
      ∀ y ∈ EraseFirst (fun x => decide (SameDirection x e)) s, ¬ SameDirection y e := by
  intro s
  induction s with
  | nil => intro _ y hy; simp [EraseFirst] at hy
  | cons x rest ih =>
    intro hnt y hy
    have hx := List.pairwise_cons.1 hnt
    unfold EraseFirst at hy
    split_ifs at hy with hT
    · intro hye
      have hxe : SameDirection x e := by simpa using hT
      exact hx.1 y hy (sameDirection_trans hxe (sameDirection_symm hye))
    · rcases List.mem_cons.1 hy with h | h
      · subst h
        simpa using hT
      · exact ih hx.2 y h

theorem edgeSetAdd_noTwice (Collides : List FEdgeInfo → FEdgeInfo → Bool)
    (s : List FEdgeInfo) (e : FEdgeInfo) (hnt : NoTwice s) :
    NoTwice (EdgeSetAdd Collides s e) := by
  unfold EdgeSetAdd
  by_cases h1 : s.any (fun x => decide (SameDirection x e)) = true
  · rw [if_pos h1]
    apply edgeSetReplace_noTwice _ _ _ hnt
    · intro y _ hT
      simpa using hT
    · intro x _ hTx y _ hye
      have hxe : SameDirection x e := by simpa using hTx
      exact sameDirection_trans hye (sameDirection_symm hxe)
  · rw [if_neg h1]
    have hnone : ∀ y ∈ s, ¬ SameDirection y e := by
      intro y hy hye
      apply h1
      simp only [List.any_eq_true, decide_eq_true_eq]
      exact ⟨y, hy, hye⟩
    by_cases h2 : (s.any (fun x => decide (OppositeDirection x e)) && Collides s e) = true
    · rw [if_pos h2]
      apply edgeSetReplace_noTwice _ _ _ hnt
      · intro y hy _
        exact hnone y hy
      · intro x _ _ y hy hye
        exact absurd hye (hnone y hy)
    · rw [if_neg h2]
      unfold NoTwice
      rw [List.pairwise_append]
      refine ⟨hnt, List.pairwise_singleton _ _, ?_⟩
      intro a ha b hb
      simp only [List.mem_singleton] at hb
      rw [hb]
      exact hnone a ha

theorem edgeSetRemove_sublist (Collides : List FEdgeInfo → FEdgeInfo → Bool)
    (s : List FEdgeInfo) (e : FEdgeInfo) : (EdgeSetRemove Collides s e).Sublist s := by
  unfold EdgeSetRemove
  split_ifs
  · exact eraseFirst_sublist _ _
  · exact eraseFirst_sublist _ _
  · exact List.Sublist.refl _

/-- After `Remove` of an edge, a set without repeated directions holds no edge with
the direction of that edge. -/
theorem edgeSetRemove_absent (Collides : List FEdgeInfo → FEdgeInfo → Bool)
    (s : List FEdgeInfo) (e : FEdgeInfo) (hnt : NoTwice s) :
    ∀ y ∈ EdgeSetRemove Collides s e, ¬ SameDirection y e := by
  unfold EdgeSetRemove
  by_cases h1 : s.any (fun x => decide (SameDirection x e)) = true
  · rw [if_pos h1]
    exact eraseFirst_absent e s hnt
  · rw [if_neg h1]
    have hnone : ∀ y ∈ s, ¬ SameDirection y e := by
      intro y hy hye
      apply h1
      simp only [List.any_eq_true, decide_eq_true_eq]
      exact ⟨y, hy, hye⟩
    split_ifs
    · intro y hy
      exact hnone y ((eraseFirst_sublist _ _).subset hy)
    · exact hnone


theorem foldl_sublist {α : Type} (f : List FEdgeInfo → α → List FEdgeInfo)
    (hf : ∀ s a, (f s a).Sublist s) :
    ∀ (L : List α) (s : List FEdgeInfo), (L.foldl f s).Sublist s := by
  intro L
  induction L with
  | nil => intro s; exact List.Sublist.refl _
  | cons a rest ih =>
    intro s
    rw [List.foldl_cons]
    exact (ih (f s a)).trans (hf s a)

theorem noTwice_sublist {s t : List FEdgeInfo} (h : s.Sublist t) (hnt : NoTwice t) :
    NoTwice s := List.Pairwise.sublist h hnt

theorem collectEdges_noTwice (E : Engine) (Collides : List FEdgeInfo → FEdgeInfo → Bool)
    (T : List FTetrahedron) : NoTwice (CollectEdges E Collides T) := by
  have hinner : ∀ (L : List FEdgeInfo) (s : List FEdgeInfo), NoTwice s →
      NoTwice (L.foldl (EdgeSetAdd Collides) s) := by
    intro L
    induction L with
    | nil => intro s hs; exact hs
    | cons a rest ih =>
      intro s hs
      rw [List.foldl_cons]
      exact ih _ (edgeSetAdd_noTwice Collides s a hs)
  have houter : ∀ (T : List FTetrahedron) (s : List FEdgeInfo), NoTwice s →
      NoTwice (T.foldl (fun EdgeSet CurrentTetrahedron =>
        (TetrahedronEdges E CurrentTetrahedron).foldl (EdgeSetAdd Collides) EdgeSet) s) := by
    intro T
    induction T with
    | nil => intro s hs; exact hs
    | cons a rest ih =>
      intro s hs
      rw [List.foldl_cons]
      exact ih _ (hinner _ s hs)
  exact houter T [] List.Pairwise.nil

theorem removeBoundaryEdges_sublist (Collides : List FEdgeInfo → FEdgeInfo → Bool)
    (B : List FIntVector) (s : List FEdgeInfo) :
    (RemoveBoundaryEdges Collides B s).Sublist s := by
  unfold RemoveBoundaryEdges
  apply foldl_sublist
  intro t a
  split_ifs
  · exact edgeSetRemove_sublist Collides t a
  · exact List.Sublist.refl _

theorem removeReverses_sublist (Collides : List FEdgeInfo → FEdgeInfo → Bool)
    (c : FEdgeInfo) (A s : List FEdgeInfo) :
    (RemoveReverses Collides c A s).Sublist s := by
  unfold RemoveReverses
  apply foldl_sublist
  intro t a
  split_ifs
  · exact List.Sublist.refl _
  · exact edgeSetRemove_sublist Collides t a
  · exact List.Sublist.refl _

/-- After the inner loop for `c`, the set holds no edge with the direction of a
reverse of `c` that the array held. -/
theorem removeReverses_absent (Collides : List FEdgeInfo → FEdgeInfo → Bool)
    (c : FEdgeInfo) :
    ∀ (A s : List FEdgeInfo), NoTwice s →
      ∀ x ∈ A, OppositeDirection x c → ¬ SameDirection c x →
        ∀ y ∈ RemoveReverses Collides c A s, ¬ SameDirection y x := by
  intro A
  induction A with
  | nil => intro s _ x hx; simp at hx
  | cons a rest ih =>
    intro s hnt x hx hopp hns y hy
    unfold RemoveReverses at hy
    rw [List.foldl_cons] at hy
    rcases List.mem_cons.1 hx with h | h
    · subst h
      have h1 : ¬ (c.Origin = x.Origin ∧ c.Destination = x.Destination) := hns
      have h2 : x.Origin = c.Destination ∧ x.Destination = c.Origin := hopp
      rw [if_neg h1, if_pos h2] at hy
      have hsub := removeReverses_sublist Collides c rest (EdgeSetRemove Collides s x)
      unfold RemoveReverses at hsub
      exact edgeSetRemove_absent Collides s x hnt y (hsub.subset hy)
    · refine ih _ ?_ x h hopp hns y hy
      split_ifs
      · exact hnt
      · exact noTwice_sublist (edgeSetRemove_sublist Collides s a) hnt
      · exact hnt

theorem reversesGone_sublist {c : FEdgeInfo} {s t : List FEdgeInfo} (h : s.Sublist t)
    (hg : ReversesGone c t) : ReversesGone c s := by
  intro ⟨a, ha, hac⟩ b hb hbc
  exact hg ⟨a, h.subset ha, hac⟩ b (h.subset hb) hbc

theorem removeDuplicateStep_sublist (Collides : List FEdgeInfo → FEdgeInfo → Bool)
    (s : List FEdgeInfo) (c : FEdgeInfo) :
    (if !EdgeSetContains Collides s c then s
      else RemoveReverses Collides c s s).Sublist s := by
  split_ifs
  · exact List.Sublist.refl _
  · exact removeReverses_sublist Collides c s s

theorem removeDuplicateStep_gone (Collides : List FEdgeInfo → FEdgeInfo → Bool)
    (s : List FEdgeInfo) (c : FEdgeInfo) (hnt : NoTwice s) :
    ReversesGone c (if !EdgeSetContains Collides s c then s
      else RemoveReverses Collides c s s) := by
  by_cases hc : (!EdgeSetContains Collides s c) = true
  · rw [if_pos hc]
    intro ⟨a, ha, hac⟩
    exfalso
    have : EdgeSetContains Collides s c = true := by
      unfold EdgeSetContains
      rw [Bool.or_eq_true]
      left
      simp only [List.any_eq_true, decide_eq_true_eq]
      exact ⟨a, ha, hac⟩
    rw [this] at hc
    simp at hc
  · rw [if_neg hc]
    intro _ b hb hbc
    by_contra hns
    have hbs : b ∈ s := (removeReverses_sublist Collides c s s).subset hb
    exact removeReverses_absent Collides c s s hnt b hbs hbc hns b hb (sameDirection_refl b)

theorem removeDuplicateEdges_sublist (Collides : List FEdgeInfo → FEdgeInfo → Bool)
    (s : List FEdgeInfo) : (RemoveDuplicateEdges Collides s).Sublist s := by
  unfold RemoveDuplicateEdges
  exact foldl_sublist _ (removeDuplicateStep_sublist Collides) s s

theorem removeDuplicateEdges_gone (Collides : List FEdgeInfo → FEdgeInfo → Bool) :
    ∀ (L s : List FEdgeInfo), NoTwice s →
      ∀ c ∈ L, ReversesGone c (L.foldl (fun Set CurrentEdge =>
        if !EdgeSetContains Collides Set CurrentEdge then Set
        else RemoveReverses Collides CurrentEdge Set Set) s) := by
  intro L
  induction L with
  | nil => intro s _ c hc; simp at hc
  | cons a rest ih =>
    intro s hnt c hc
    rw [List.foldl_cons]
    have hnt2 := noTwice_sublist (removeDuplicateStep_sublist Collides s a) hnt
    rcases List.mem_cons.1 hc with h | h
    · subst h
      exact reversesGone_sublist (foldl_sublist _ (removeDuplicateStep_sublist Collides) rest _)
        (removeDuplicateStep_gone Collides s c hnt)
    · exact ih _ hnt2 c h

/-- The list left by the removal of duplicate edges names no pair of endpoints
twice, when the set it starts from holds no direction twice. -/
theorem removeDuplicateEdges_pairwise (Collides : List FEdgeInfo → FEdgeInfo → Bool)
    (s : List FEdgeInfo) (hnt : NoTwice s) :
    (RemoveDuplicateEdges Collides s).Pairwise
      (fun a b => ¬ SameDirection a b ∧ ¬ OppositeDirection a b) := by
  have hsub := removeDuplicateEdges_sublist Collides s
  have hnt2 : NoTwice (RemoveDuplicateEdges Collides s) := noTwice_sublist hsub hnt
  refine List.Pairwise.imp_of_mem ?_ hnt2
  intro a b ha hb hab
  refine ⟨hab, ?_⟩
  intro hopp
  have hg := removeDuplicateEdges_gone Collides s s hnt b (hsub.subset hb)
  have := hg ⟨b, hb, sameDirection_refl b⟩ a ha hopp
  exact hab (sameDirection_symm this)

/-- C25: for every engine, every arrangement of the edges in the hash buckets, every
grid size, every point list and either value of the flag, no two entries of the list
returned by `DelaunayTetrahedralization` have the same origin and the same
destination, and no entry is the reverse of another entry. -/
theorem C25_no_pair_of_endpoints_twice (E : Engine)
    (Collides : List FEdgeInfo → FEdgeInfo → Bool) (GridSize : FIntVector)
    (PointArray : List FIntVector) (bRemoveBoundaryTetrahedron : Bool) :
    (DelaunayTetrahedralization E Collides GridSize PointArray
      bRemoveBoundaryTetrahedron).Pairwise
      (fun a b => ¬ SameDirection a b ∧ ¬ OppositeDirection a b) := by
  unfold DelaunayTetrahedralization
  split_ifs
  · exact List.Pairwise.nil
  · apply removeDuplicateEdges_pairwise
    exact noTwice_sublist (removeBoundaryEdges_sublist Collides _ _)
      (collectEdges_noTwice E Collides _)

/-! ## Edges of tetrahedra that touch the boundary tetrahedron -/

theorem mem_edgeSetAdd (Collides : List FEdgeInfo → FEdgeInfo → Bool) (s : List FEdgeInfo)
    (e y : FEdgeInfo) (hy : y ∈ EdgeSetAdd Collides s e) : y ∈ s ∨ y = e := by
  unfold EdgeSetAdd at hy
  split_ifs at hy
  · exact mem_edgeSetReplace _ e s y hy
  · exact mem_edgeSetReplace _ e s y hy
  · rcases List.mem_append.1 hy with h | h
    · exact Or.inl h
    · exact Or.inr (List.mem_singleton.1 h)

theorem edgeSetAdd_self (Collides : List FEdgeInfo → FEdgeInfo → Bool) (s : List FEdgeInfo)
    (e : FEdgeInfo) : e ∈ EdgeSetAdd Collides s e := by
  unfold EdgeSetAdd
  by_cases h1 : s.any (fun x => decide (SameDirection x e)) = true
  · rw [if_pos h1]
    exact edgeSetReplace_mem_new _ e s h1
  · rw [if_neg h1]
    by_cases h2 : (s.any (fun x => decide (OppositeDirection x e)) && Collides s e) = true
    · rw [if_pos h2]
      exact edgeSetReplace_mem_new _ e s (Bool.and_eq_true_iff.1 h2).1
    · rw [if_neg h2]
      exact List.mem_append_right _ (List.mem_singleton_self e)

/-- `Add` of an edge that is no reverse of `e` leaves the direction of `e` in the
set. -/
theorem edgeSetAdd_keeps_direction (Collides : List FEdgeInfo → FEdgeInfo → Bool)
    (s : List FEdgeInfo) (e x : FEdgeInfo) (hx : ¬ OppositeDirection x e)
    (h : ∃ y ∈ s, SameDirection y e) : ∃ y ∈ EdgeSetAdd Collides s x, SameDirection y e := by
  obtain ⟨y, hy, hye⟩ := h
  by_cases hyx : SameDirection y x
  · exact ⟨x, edgeSetAdd_self Collides s x,
      sameDirection_trans (sameDirection_symm hyx) hye⟩
  · refine ⟨y, ?_, hye⟩
    unfold EdgeSetAdd
    split_ifs
    · exact edgeSetReplace_keeps _ x s y hy (by simpa using hyx)
    · apply edgeSetReplace_keeps _ x s y hy
      have : ¬ OppositeDirection y x := by
        intro hopp
        exact hx (opposite_of_same_right (oppositeDirection_symm hopp) hye)
      simpa using this
    · exact List.mem_append_left _ hy

theorem foldl_edgeSetAdd_mem (Collides : List FEdgeInfo → FEdgeInfo → Bool) :
    ∀ (L s : List FEdgeInfo) (z : FEdgeInfo), z ∈ L.foldl (EdgeSetAdd Collides) s →
      z ∈ s ∨ z ∈ L := by
  intro L
  induction L with
  | nil => intro s z hz; exact Or.inl hz
  | cons a rest ih =>
    intro s z hz
    rw [List.foldl_cons] at hz
    rcases ih _ z hz with h | h
    · rcases mem_edgeSetAdd Collides s a z h with h2 | h2
      · exact Or.inl h2
      · exact Or.inr (h2 ▸ List.mem_cons_self _ _)
    · exact Or.inr (List.mem_cons_of_mem _ h)

theorem foldl_edgeSetAdd_keeps (Collides : List FEdgeInfo → FEdgeInfo → Bool)
    (e : FEdgeInfo) :
    ∀ (L s : List FEdgeInfo), (∀ x ∈ L, ¬ OppositeDirection x e) →
      (∃ y ∈ s, SameDirection y e) →
      ∃ y ∈ L.foldl (EdgeSetAdd Collides) s, SameDirection y e := by
  intro L
  induction L with
  | nil => intro s _ h; exact h
  | cons a rest ih =>
    intro s hL h
    rw [List.foldl_cons]
    exact ih _ (fun x hx => hL x (List.mem_cons_of_mem _ hx))
      (edgeSetAdd_keeps_direction Collides s e a (hL a (List.mem_cons_self _ _)) h)

theorem foldl_edgeSetAdd_holds (Collides : List FEdgeInfo → FEdgeInfo → Bool)
    (e : FEdgeInfo) :
    ∀ (L s : List FEdgeInfo), (∀ x ∈ L, ¬ OppositeDirection x e) → e ∈ L →
      ∃ y ∈ L.foldl (EdgeSetAdd Collides) s, SameDirection y e := by
  intro L
  induction L with
  | nil => intro s _ h; simp at h
  | cons a rest ih =>
    intro s hL h
    rw [List.foldl_cons]
    have hrest : ∀ x ∈ rest, ¬ OppositeDirection x e :=
      fun x hx => hL x (List.mem_cons_of_mem _ hx)
    rcases List.mem_cons.1 h with h1 | h1
    · subst h1
      exact foldl_edgeSetAdd_keeps Collides e rest _ hrest
        ⟨e, edgeSetAdd_self Collides s e, sameDirection_refl e⟩
    · exact ih _ hrest h1

/-- The edges that `DelaunayTetrahedralization` adds to `EdgeSet`, in the order in
which it adds them. -/
theorem collectEdges_eq (E : Engine) (Collides : List FEdgeInfo → FEdgeInfo → Bool)
    (T : List FTetrahedron) :
    CollectEdges E Collides T
      = ((T.map (TetrahedronEdges E)).flatten).foldl (EdgeSetAdd Collides) [] := by
  have h : ∀ (T : List FTetrahedron) (s : List FEdgeInfo),
      T.foldl (fun EdgeSet CurrentTetrahedron =>
        (TetrahedronEdges E CurrentTetrahedron).foldl (EdgeSetAdd Collides) EdgeSet) s
      = ((T.map (TetrahedronEdges E)).flatten).foldl (EdgeSetAdd Collides) s := by
    intro T
    induction T with
    | nil => intro s; rfl
    | cons a rest ih =>
      intro s
      rw [List.foldl_cons, ih, List.map_cons, List.flatten_cons, List.foldl_append]
  exact h T []

theorem edgeSetRemove_keeps (Collides : List FEdgeInfo → FEdgeInfo → Bool)
    (s : List FEdgeInfo) (c y : FEdgeInfo) (hy : y ∈ s) (h1 : ¬ SameDirection y c)
    (h2 : ¬ OppositeDirection y c) : y ∈ EdgeSetRemove Collides s c := by
  unfold EdgeSetRemove
  split_ifs
  · exact eraseFirst_keeps _ s y hy (by simpa using h1)
  · exact eraseFirst_keeps _ s y hy (by simpa using h2)
  · exact hy

/-- The removal of the edges connected to the boundary vertices keeps every edge
of which neither end is a boundary vertex. -/
theorem removeBoundaryEdges_keeps (Collides : List FEdgeInfo → FEdgeInfo → Bool)
    (B : List FIntVector) (y : FEdgeInfo) (hO : TSetContains B y.Origin = false)
    (hD : TSetContains B y.Destination = false) (s : List FEdgeInfo) (hy : y ∈ s) :
    y ∈ RemoveBoundaryEdges Collides B s := by
  have h : ∀ (L s : List FEdgeInfo), y ∈ s →
      y ∈ L.foldl (fun Set CurrentEdge =>
        if TSetContains B CurrentEdge.Origin || TSetContains B CurrentEdge.Destination then
          EdgeSetRemove Collides Set CurrentEdge
        else Set) s := by
    intro L
    induction L with
    | nil => intro s hs; exact hs
    | cons c rest ih =>
      intro s hs
      rw [List.foldl_cons]
      apply ih
      by_cases hc : (TSetContains B c.Origin || TSetContains B c.Destination) = true
      · rw [if_pos hc]
        apply edgeSetRemove_keeps Collides s c y hs
        · intro hyc
          rw [← hyc.1, ← hyc.2, hO, hD] at hc
          simp at hc
        · intro hyc
          rw [← hyc.1, ← hyc.2, hO, hD] at hc
          simp at hc
      · rw [if_neg hc]
        exact hs
  exact h s s hy

theorem removeReverses_keeps (Collides : List FEdgeInfo → FEdgeInfo → Bool)
    (c e y : FEdgeInfo) (hc : ¬ OppositeDirection c e) (hye : SameDirection y e) :
    ∀ (A s : List FEdgeInfo), (∀ x ∈ A, ¬ OppositeDirection x e) → y ∈ s →
      y ∈ RemoveReverses Collides c A s := by
  intro A
  induction A with
  | nil => intro s _ hs; exact hs
  | cons x rest ih =>
    intro s hA hs
    unfold RemoveReverses
    rw [List.foldl_cons]
    have hrest : ∀ z ∈ rest, ¬ OppositeDirection z e :=
      fun z hz => hA z (List.mem_cons_of_mem _ hz)
    have := ih
    unfold RemoveReverses at this
    apply this _ hrest
    split_ifs with h1 h2
    · exact hs
    · apply edgeSetRemove_keeps Collides s x y hs
      · intro hyx
        have hxc : OppositeDirection x c := h2
        exact hc (opposite_of_same_right
          (opposite_of_same_right (oppositeDirection_symm hxc) (sameDirection_symm hyx)) hye)
      · intro hyx
        exact hA x (List.mem_cons_self _ _)
          (opposite_of_same_right (oppositeDirection_symm hyx) hye)
    · exact hs

/-- The removal of duplicate edges keeps an edge when the set holds no reverse of
it. -/
theorem removeDuplicateEdges_keeps (Collides : List FEdgeInfo → FEdgeInfo → Bool)
    (e y : FEdgeInfo) (hye : SameDirection y e) (s : List FEdgeInfo)
    (hs : ∀ x ∈ s, ¬ OppositeDirection x e) (hy : y ∈ s) :
    y ∈ RemoveDuplicateEdges Collides s := by
  have h : ∀ (L s : List FEdgeInfo), (∀ x ∈ L, ¬ OppositeDirection x e) →
      (∀ x ∈ s, ¬ OppositeDirection x e) → y ∈ s →
      y ∈ L.foldl (fun Set CurrentEdge =>
        if !EdgeSetContains Collides Set CurrentEdge then Set
        else RemoveReverses Collides CurrentEdge Set Set) s := by
    intro L
    induction L with
    | nil => intro s _ _ hy; exact hy
    | cons c rest ih =>
      intro s hL hs hy
      rw [List.foldl_cons]
      apply ih _ (fun x hx => hL x (List.mem_cons_of_mem _ hx))
      · intro x hx
        exact hs x ((removeDuplicateStep_sublist Collides s c).subset hx)
      · split_ifs
        · exact hy
        · exact removeReverses_keeps Collides c e y (hL c (List.mem_cons_self _ _)) hye s s
            hs hy
  exact h s s hs hs hy

/-- With any value of the flag, `DelaunayTetrahedralization` returns an edge for
every edge of every final tetrahedron, also of a tetrahedron that touches the
boundary tetrahedron, of which neither end is a vertex of the boundary tetrahedron
and of which no final tetrahedron gives the reverse. -/
theorem tetrahedron_edges_are_returned (E : Engine)
    (Collides : List FEdgeInfo → FEdgeInfo → Bool) (GridSize : FIntVector)
    (PointArray : List FIntVector) (bRemoveBoundaryTetrahedron : Bool)
    (hGrid : GridSize ≠ ⟨0, 0, 0⟩)
    (t : FTetrahedron) (ht : t ∈ FinalTetrahedra E GridSize PointArray)
    (e : FEdgeInfo) (he : e ∈ TetrahedronEdges E t)
    (hO : TSetContains (BoundaryIntVertices (BoundaryTetrahedronOf E GridSize)) e.Origin
      = false)
    (hD : TSetContains (BoundaryIntVertices (BoundaryTetrahedronOf E GridSize)) e.Destination
      = false)
    (hrev : ∀ t2 ∈ FinalTetrahedra E GridSize PointArray,
      ∀ x ∈ TetrahedronEdges E t2, ¬ OppositeDirection x e) :
    ∃ y ∈ DelaunayTetrahedralization E Collides GridSize PointArray
      bRemoveBoundaryTetrahedron, SameDirection y e := by
  unfold DelaunayTetrahedralization
  rw [if_neg hGrid]
  have hall : ∀ x ∈ ((FinalTetrahedra E GridSize PointArray).map (TetrahedronEdges E)).flatten,
      ¬ OppositeDirection x e := by
    intro x hx
    obtain ⟨l, hl, hxl⟩ := List.mem_flatten.1 hx
    obtain ⟨t2, ht2, rfl⟩ := List.mem_map.1 hl
    exact hrev t2 ht2 x hxl
  have hmem : e ∈ ((FinalTetrahedra E GridSize PointArray).map (TetrahedronEdges E)).flatten :=
    List.mem_flatten.2 ⟨_, List.mem_map.2 ⟨t, ht, rfl⟩, he⟩
  obtain ⟨y, hy, hye⟩ := foldl_edgeSetAdd_holds Collides e _ [] hall hmem
  rw [← collectEdges_eq] at hy
  have hpool : ∀ x ∈ CollectEdges E Collides (FinalTetrahedra E GridSize PointArray),
      ¬ OppositeDirection x e := by
    intro x hx
    rw [collectEdges_eq] at hx
    rcases foldl_edgeSetAdd_mem Collides _ [] x hx with h | h
    · simp at h
    · exact hall x h
  refine ⟨y, ?_, hye⟩
  apply removeDuplicateEdges_keeps Collides e y hye
  · intro x hx
    exact hpool x ((removeBoundaryEdges_sublist Collides _ _).subset hx)
  · apply removeBoundaryEdges_keeps Collides _ y _ _ _ hy
    · rw [hye.1]; exact hO
    · rw [hye.2]; exact hD

/-- C26, as stated, fails: for the points (1,1,0) and (2,1,0) on a grid of 4 by 4
by 2 every final tetrahedron shares a vertex with the boundary tetrahedron, so that
`TetrahedraToEdgeArray` is empty, and with the flag set the function returns the
edge from (1,1,0) to (2,1,0), an edge of the final tetrahedron `SharedTetrahedron`. -/
theorem C26_counterexample :
    TetrahedraToEdgeArray (BoundaryTetrahedronOf (ScenarioEngine []) ⟨4, 4, 2⟩)
        (FinalTetrahedra (ScenarioEngine []) ⟨4, 4, 2⟩ TwoPoints) true = [] ∧
      (∀ t ∈ FinalTetrahedra (ScenarioEngine []) ⟨4, 4, 2⟩ TwoPoints,
        (TSetIntersect (BoundaryTetrahedronOf (ScenarioEngine []) ⟨4, 4, 2⟩).Vertices
          t.Vertices).isEmpty = false) ∧
      SharedTetrahedron ∈ FinalTetrahedra (ScenarioEngine []) ⟨4, 4, 2⟩ TwoPoints ∧
      FEdgeInfo.Make (ScenarioEngine []) ⟨1, 1, 0⟩ ⟨2, 1, 0⟩ ∈
        TetrahedronEdges (ScenarioEngine []) SharedTetrahedron ∧
      EdgeEnds (DelaunayTetrahedralization (ScenarioEngine []) (fun _ _ => false) ⟨4, 4, 2⟩
        TwoPoints true) = [(⟨1, 1, 0⟩, ⟨2, 1, 0⟩)] := by
  refine ⟨by decide!, by decide!, by decide!, by decide!, by decide!⟩

end LevelGen

namespace LevelGen

/-! ## Rotations and directions -/

theorem rotateIntVector_of_trunc (v : FIntVector) (r : FRotator) (k : Int)
    (h : TruncToInt (r.Yaw / 90) = k) :
    RotateIntVectorCoordinatefromOrigin v r =
      (if k = -1 then ⟨v.Y, v.X * -1, v.Z⟩
      else if k = -2 then ⟨v.X * -1, v.Y * -1, v.Z⟩
      else if k = -3 then ⟨v.Y * -1, v.X, v.Z⟩
      else if k = 1 then ⟨v.Y * -1, v.X, v.Z⟩
      else if k = 2 then ⟨v.X * -1, v.Y * -1, v.Z⟩
      else if k = 3 then ⟨v.Y, v.X * -1, v.Z⟩
      else v) := by
  subst h
  rfl

/-- With the products with `-1.f` taken exactly, for every integer vector and every
yaw among 0, 90, 180 and 270 degrees (with any pitch and roll), rotating the vector
by the yaw and then by the negated yaw gives the vector back. -/
theorem rotation_round_trip_exact (v : FIntVector) (r : FRotator) (Pitch Roll : ℚ)
    (hr : r.Yaw ∈ [(0 : ℚ), 90, 180, 270]) :
    RotateIntVectorCoordinatefromOrigin (RotateIntVectorCoordinatefromOrigin v r)
      ⟨Pitch, -r.Yaw, Roll⟩ = v := by
  obtain ⟨x, y, z⟩ := v
  obtain ⟨p, yaw, ro⟩ := r
  simp only [List.mem_cons, List.mem_singleton, List.not_mem_nil, or_false] at hr
  rcases hr with h | h | h | h <;> subst h
  · have h1 : TruncToInt ((⟨p, 0, ro⟩ : FRotator).Yaw / 90) = 0 := by
      show TruncToInt ((0 : ℚ) / 90) = 0
      decide!
    have h2 : TruncToInt ((⟨Pitch, -(0 : ℚ), Roll⟩ : FRotator).Yaw / 90) = 0 := by
      show TruncToInt ((-(0 : ℚ)) / 90) = 0
      decide!
    rw [rotateIntVector_of_trunc _ _ _ h2, rotateIntVector_of_trunc _ _ _ h1]
    simp
  · have h1 : TruncToInt ((⟨p, 90, ro⟩ : FRotator).Yaw / 90) = 1 := by
      show TruncToInt ((90 : ℚ) / 90) = 1
      decide!
    have h2 : TruncToInt ((⟨Pitch, -(90 : ℚ), Roll⟩ : FRotator).Yaw / 90) = -1 := by
      show TruncToInt ((-(90 : ℚ)) / 90) = -1
      decide!
    rw [rotateIntVector_of_trunc _ _ _ h2, rotateIntVector_of_trunc _ _ _ h1]
    simp
  · have h1 : TruncToInt ((⟨p, 180, ro⟩ : FRotator).Yaw / 90) = 2 := by
      show TruncToInt ((180 : ℚ) / 90) = 2
      decide!
    have h2 : TruncToInt ((⟨Pitch, -(180 : ℚ), Roll⟩ : FRotator).Yaw / 90) = -2 := by
      show TruncToInt ((-(180 : ℚ)) / 90) = -2
      decide!
    rw [rotateIntVector_of_trunc _ _ _ h2, rotateIntVector_of_trunc _ _ _ h1]
    simp
  · have h1 : TruncToInt ((⟨p, 270, ro⟩ : FRotator).Yaw / 90) = 3 := by
      show TruncToInt ((270 : ℚ) / 90) = 3
      decide!
    have h2 : TruncToInt ((⟨Pitch, -(270 : ℚ), Roll⟩ : FRotator).Yaw / 90) = -3 := by
      show TruncToInt ((-(270 : ℚ)) / 90) = -3
      decide!
    rw [rotateIntVector_of_trunc _ _ _ h2, rotateIntVector_of_trunc _ _ _ h1]
    simp

theorem rotation_round_trip_exact_example :
    RotateIntVectorCoordinatefromOrigin
      (RotateIntVectorCoordinatefromOrigin ⟨3, -2, 5⟩ ⟨0, 270, 0⟩) ⟨0, -270, 0⟩
      = (⟨3, -2, 5⟩ : FIntVector) :=
  rotation_round_trip_exact ⟨3, -2, 5⟩ ⟨0, 270, 0⟩ 0 0 (by simp)

theorem fintVector_add_sub_cancel (c v : FIntVector) : c + v - c = v := by
  obtain ⟨x, y, z⟩ := c
  obtain ⟨a, b, d⟩ := v
  show (⟨x + a - x, y + b - y, z + d - z⟩ : FIntVector) = ⟨a, b, d⟩
  congr 1 <;> ring

theorem getDirectionForIntVectors_of_difference (c t : FIntVector) :
    GetDirectionForIntVectors c t = GetDirectionForIntVectors ⟨0, 0, 0⟩ (t - c) := by
  obtain ⟨x, y, z⟩ := c
  obtain ⟨a, b, d⟩ := t
  show GetDirectionForIntVectors ⟨x, y, z⟩ ⟨a, b, d⟩
    = GetDirectionForIntVectors ⟨0, 0, 0⟩ ⟨a - x, b - y, d - z⟩
  have h1 : (⟨a, b, d⟩ : FIntVector) - ⟨x, y, z⟩ = ⟨a - x, b - y, d - z⟩ := rfl
  have h2 : (⟨a - x, b - y, d - z⟩ : FIntVector) - ⟨0, 0, 0⟩ = ⟨a - x, b - y, d - z⟩ := by
    show (⟨a - x - 0, b - y - 0, d - z - 0⟩ : FIntVector) = _
    simp only [sub_zero]
  unfold GetDirectionForIntVectors
  simp only [h1, h2]

/-- C38: for every coordinate and every direction that `DirectionCoordinates` holds
(None, North, East, South, West, Above, Below), `GetDirectionForIntVectors` from the
coordinate to the coordinate plus the vector of the direction is the direction. -/
theorem C38_direction_of_neighbour (c : FIntVector) (d : EDirections) (v : FIntVector)
    (hd : TMapFind DirectionCoordinates d = some v) :
    GetDirectionForIntVectors c (c + v) = d := by
  rw [getDirectionForIntVectors_of_difference, fintVector_add_sub_cancel]
  cases d <;> simp [TMapFind, DirectionCoordinates] at hd <;> subst hd <;> decide

theorem C38_witness :
    GetDirectionForIntVectors ⟨4, 7, 1⟩ (⟨4, 7, 1⟩ + ⟨0, -1, 0⟩) = EDirections.West :=
  C38_direction_of_neighbour ⟨4, 7, 1⟩ EDirections.West ⟨0, -1, 0⟩ (by decide)

end LevelGen

namespace LevelGen

/-! ## The determinant by expansion along the first row -/

theorem foldl_add_eq_sum (f : Nat → ℚ) :
    ∀ (k : Nat) (init : ℚ),
      (List.range k).foldl (fun Determinant x => Determinant + f x) init
        = init + ∑ x in Finset.range k, f x := by
  intro k
  induction k with
  | zero => intro init; simp
  | succ k ih =>
    intro init
    rw [List.range_succ, List.foldl_append, ih, Finset.sum_range_succ]
    simp only [List.foldl_cons, List.foldl_nil]
    ring

theorem getDeterminant_two (M : Nat → Nat → ℚ) :
    GetDeterminant M 2 = M 0 0 * M 1 1 - M 1 0 * M 0 1 := rfl

theorem getDeterminant_succ (M : Nat → Nat → ℚ) (k : Nat) :
    GetDeterminant M (k + 3) =
      (List.range (k + 3)).foldl (fun Determinant x =>
        Determinant + (-1) ^ x * M 0 x *
          GetDeterminant (fun subi subj => M (subi + 1) (if subj < x then subj else subj + 1))
            (k + 2)) 0 := rfl

theorem getDeterminant_eq_det :
    ∀ (k : Nat) (M : Nat → Nat → ℚ),
      GetDeterminant M (k + 2)
        = Matrix.det (Matrix.of (fun (i j : Fin (k + 2)) => M i j)) := by
  intro k
  induction k with
  | zero =>
    intro M
    rw [getDeterminant_two, Matrix.det_fin_two]
    simp only [Matrix.of_apply]
    show M 0 0 * M 1 1 - M 1 0 * M 0 1 = M 0 0 * M 1 1 - M 0 1 * M 1 0
    ring
  | succ k ih =>
    intro M
    rw [getDeterminant_succ, foldl_add_eq_sum, zero_add, Matrix.det_succ_row_zero,
      Finset.sum_range]
    apply Finset.sum_congr rfl
    intro x _
    rw [ih]
    congr 1
    congr 1
    ext i j
    simp only [Matrix.of_apply, Matrix.submatrix_apply, Fin.val_succ]
    congr 1
    by_cases h : (j : Nat) < (x : Nat)
    · rw [if_pos h]
      have : j.castSucc < x := h
      rw [Fin.succAbove_of_castSucc_lt _ _ this]
      rfl
    · rw [if_neg h]
      have : x ≤ j.castSucc := Nat.le_of_not_lt h
      rw [Fin.succAbove_of_le_castSucc _ _ this]
      rfl

/-- C34: for every matrix and every size from 2 on (so for the sizes 2 to 10 that fit
the array), `GetDeterminant`, which is total, is the determinant of the leading block
of that size, in exact arithmetic. -/
theorem C34_getDeterminant_is_the_determinant (M : Nat → Nat → ℚ) (n : Nat) (hn : 2 ≤ n) :
    GetDeterminant M n = Matrix.det (Matrix.of (fun (i j : Fin n) => M i j)) := by
  obtain ⟨k, rfl⟩ : ∃ k, n = k + 2 := ⟨n - 2, by omega⟩
  exact getDeterminant_eq_det k M

theorem C34_witness :
    GetDeterminant (fun i j => if i = j then 2 else 0) 3
      = Matrix.det (Matrix.of (fun (i j : Fin 3) =>
          (fun (i j : Nat) => if i = j then (2 : ℚ) else 0) i j)) :=
  C34_getDeterminant_is_the_determinant (fun i j => if i = j then 2 else 0) 3 (by decide)

end LevelGen

namespace LevelGen

/-! ## The sign of `InSphere` -/

theorem getDeterminant_three (M : Nat → Nat → ℚ) :
    GetDeterminant M 3 =
      M 0 0 * (M 1 1 * M 2 2 - M 2 1 * M 1 2) - M 0 1 * (M 1 0 * M 2 2 - M 2 0 * M 1 2)
        + M 0 2 * (M 1 0 * M 2 1 - M 2 0 * M 1 1) := by
  rw [getDeterminant_succ, foldl_add_eq_sum]
  simp only [Finset.sum_range_succ, Finset.sum_range_zero]
  simp [getDeterminant_two]
  ring

theorem getDeterminant_four (M : Nat → Nat → ℚ) :
    GetDeterminant M 4 =
      M 0 0 * GetDeterminant (fun i j => M (i + 1) (if j < 0 then j else j + 1)) 3
        - M 0 1 * GetDeterminant (fun i j => M (i + 1) (if j < 1 then j else j + 1)) 3
        + M 0 2 * GetDeterminant (fun i j => M (i + 1) (if j < 2 then j else j + 1)) 3
        - M 0 3 * GetDeterminant (fun i j => M (i + 1) (if j < 3 then j else j + 1)) 3 := by
  rw [getDeterminant_succ, foldl_add_eq_sum]
  simp only [Finset.sum_range_succ, Finset.sum_range_zero]
  ring

theorem getDeterminant_five (M : Nat → Nat → ℚ) :
    GetDeterminant M 5 =
      M 0 0 * GetDeterminant (fun i j => M (i + 1) (if j < 0 then j else j + 1)) 4
        - M 0 1 * GetDeterminant (fun i j => M (i + 1) (if j < 1 then j else j + 1)) 4
        + M 0 2 * GetDeterminant (fun i j => M (i + 1) (if j < 2 then j else j + 1)) 4
        - M 0 3 * GetDeterminant (fun i j => M (i + 1) (if j < 3 then j else j + 1)) 4
        + M 0 4 * GetDeterminant (fun i j => M (i + 1) (if j < 4 then j else j + 1)) 4 := by
  rw [getDeterminant_succ, foldl_add_eq_sum]
  simp only [Finset.sum_range_succ, Finset.sum_range_zero]
  ring

/-- The determinant of `InSphere` is the orientation of the four points times the
power of the fifth point with respect to the sphere through them, negated. -/
theorem inSphereDeterminant_eq (A B C D P O : FVector) (R2 : ℚ)
    (h : IsCircumsphere A B C D O R2) :
    InSphereDeterminant A B C D P = (R2 - P.DistSquared O) * Orientation A B C D := by
  obtain ⟨hA, hB, hC, hD⟩ := h
  obtain ⟨ax, ay, az⟩ := A
  obtain ⟨bx, b_y, bz⟩ := B
  obtain ⟨cx, cy, cz⟩ := C
  obtain ⟨dx, dy, dz⟩ := D
  obtain ⟨px, py, pz⟩ := P
  obtain ⟨ox, oy, oz⟩ := O
  simp only [FVector.DistSquared] at hA hB hC hD
  simp only [InSphereDeterminant, Orientation, getDeterminant_five, getDeterminant_four,
    getDeterminant_three, InSphereMatrix, OrientationMatrix, FVector.DistSquared]
  simp
  linear_combination
    (-(1 : ℚ)) * (bx * (cy * dz - dy * cz) - b_y * (cx * dz - dx * cz) + bz * (cx * dy - dx * cy)
        - (bx * (cy * pz - py * cz) - b_y * (cx * pz - px * cz) + bz * (cx * py - px * cy))
        + (bx * (dy * pz - py * dz) - b_y * (dx * pz - px * dz) + bz * (dx * py - px * dy))
        - (cx * (dy * pz - py * dz) - cy * (dx * pz - px * dz) + cz * (dx * py - px * dy))) * hA
    + (ax * (cy * dz - dy * cz) - ay * (cx * dz - dx * cz) + az * (cx * dy - dx * cy)
        - (ax * (cy * pz - py * cz) - ay * (cx * pz - px * cz) + az * (cx * py - px * cy))
        + (ax * (dy * pz - py * dz) - ay * (dx * pz - px * dz) + az * (dx * py - px * dy))
        - (cx * (dy * pz - py * dz) - cy * (dx * pz - px * dz) + cz * (dx * py - px * dy))) * hB
    + (-(1 : ℚ)) * (ax * (b_y * dz - dy * bz) - ay * (bx * dz - dx * bz) + az * (bx * dy - dx * b_y)
        - (ax * (b_y * pz - py * bz) - ay * (bx * pz - px * bz) + az * (bx * py - px * b_y))
        + (ax * (dy * pz - py * dz) - ay * (dx * pz - px * dz) + az * (dx * py - px * dy))
        - (bx * (dy * pz - py * dz) - b_y * (dx * pz - px * dz) + bz * (dx * py - px * dy))) * hC
    + (ax * (b_y * cz - cy * bz) - ay * (bx * cz - cx * bz) + az * (bx * cy - cx * b_y)
        - (ax * (b_y * pz - py * bz) - ay * (bx * pz - px * bz) + az * (bx * py - px * b_y))
        + (ax * (cy * pz - py * cz) - ay * (cx * pz - px * cz) + az * (cx * py - px * cy))
        - (bx * (cy * pz - py * cz) - b_y * (cx * pz - px * cz) + bz * (cx * py - px * cy))) * hD

theorem isInt_getDeterminant_aux :
    ∀ (k : Nat) (M : Nat → Nat → ℚ), (∀ i j, ∃ n : ℤ, M i j = n) →
      ∃ n : ℤ, GetDeterminant M (k + 2) = n := by
  intro k
  induction k with
  | zero =>
    intro M hM
    obtain ⟨a, ha⟩ := hM 0 0
    obtain ⟨b, hb⟩ := hM 1 1
    obtain ⟨c, hc⟩ := hM 1 0
    obtain ⟨d, hd⟩ := hM 0 1
    refine ⟨a * b - c * d, ?_⟩
    rw [getDeterminant_two, ha, hb, hc, hd]
    push_cast
    ring
  | succ k ih =>
    intro M hM
    rw [getDeterminant_succ, foldl_add_eq_sum, zero_add]
    have hterm : ∀ x, ∃ n : ℤ, (-1 : ℚ) ^ x * M 0 x *
        GetDeterminant (fun subi subj => M (subi + 1) (if subj < x then subj else subj + 1))
          (k + 2) = n := by
      intro x
      obtain ⟨a, ha⟩ := hM 0 x
      obtain ⟨b, hb⟩ := ih (fun subi subj => M (subi + 1) (if subj < x then subj else subj + 1))
        (fun i j => hM _ _)
      refine ⟨(-1) ^ x * a * b, ?_⟩
      rw [ha, hb]
      push_cast
      ring
    have hsum : ∀ (m : Nat) (f : Nat → ℚ), (∀ x, ∃ n : ℤ, f x = n) →
        ∃ n : ℤ, ∑ x in Finset.range m, f x = n := by
      intro m f hf
      induction m with
      | zero => exact ⟨0, by simp⟩
      | succ m ihm =>
        obtain ⟨a, ha⟩ := ihm
        obtain ⟨b, hb⟩ := hf m
        refine ⟨a + b, ?_⟩
        rw [Finset.sum_range_succ, ha, hb]
        push_cast
        ring
    exact hsum _ _ hterm

theorem isInt_of_den (q : ℚ) (h : q.den = 1) : ∃ n : ℤ, q = n :=
  ⟨q.num, ((Rat.den_eq_one_iff q).1 h).symm⟩

theorem truncToInt_intCast (n : ℤ) : TruncToInt (n : ℚ) = n := by
  unfold TruncToInt
  simp

theorem floatToInt32_intCast (n : ℤ) (h1 : -2147483648 ≤ n) (h2 : n ≤ 2147483647) :
    FloatToInt32 (n : ℚ) = n := by
  unfold FloatToInt32
  simp only [truncToInt_intCast]
  rw [if_pos ⟨h1, h2⟩]

theorem floatToInt32_of_large (n : ℤ) (h : 2147483647 < n) :
    FloatToInt32 (n : ℚ) = -2147483648 := by
  unfold FloatToInt32
  simp only [truncToInt_intCast]
  rw [if_neg (by omega)]

/-- For points with integer coordinates the determinant of `InSphere` is an integer,
so the conversion to `int` keeps it when it lies in the range of `int32`. -/
theorem inSphere_eq_determinant (A B C D P : FVector)
    (hI : ∀ v ∈ [A, B, C, D, P], v.IsIntegral)
    (hR : FitsInt32 (InSphereDeterminant A B C D P)) :
    (InSphere A B C D P : ℚ) = InSphereDeterminant A B C D P := by
  have hM : ∀ i j, ∃ n : ℤ, InSphereMatrix A B C D P i j = n := by
    intro i j
    unfold InSphereMatrix
    cases hv : [A, B, C, D, P][i]? with
    | none => exact ⟨0, by simp⟩
    | some v =>
      have hmem : v ∈ [A, B, C, D, P] := by
        obtain ⟨hlt, hget⟩ := List.getElem?_eq_some_iff.1 hv
        exact hget ▸ List.getElem_mem hlt
      obtain ⟨hx, hy, hz⟩ := hI v hmem
      obtain ⟨a, ha⟩ := isInt_of_den _ hx
      obtain ⟨b, hb⟩ := isInt_of_den _ hy
      obtain ⟨c, hc⟩ := isInt_of_den _ hz
      simp only
      split_ifs
      · exact ⟨a, ha⟩
      · exact ⟨b, hb⟩
      · exact ⟨c, hc⟩
      · exact ⟨a * a + b * b + c * c, by rw [ha, hb, hc]; push_cast; ring⟩
      · exact ⟨1, by simp⟩
      · exact ⟨0, by simp⟩
  obtain ⟨n, hn⟩ := isInt_getDeterminant_aux 3 (InSphereMatrix A B C D P) hM
  have h1 : InSphereDeterminant A B C D P = n := hn
  have h2 : InSphere A B C D P = FloatToInt32 (InSphereDeterminant A B C D P) := rfl
  obtain ⟨hlo, hhi⟩ := hR
  rw [h1] at hlo hhi
  have hlo2 : (-2147483648 : ℤ) ≤ n := by exact_mod_cast hlo
  have hhi2 : n ≤ (2147483647 : ℤ) := by exact_mod_cast hhi
  rw [h2, h1, floatToInt32_intCast n hlo2 hhi2]

/-- C33 (amended): for every tetrahedron ABCD in positive orientation and every point
P, all with integer coordinates, whose determinant (taken in exact arithmetic) lies
in the range of `int32`, `InSphere(A, B, C, D, P)` is positive iff P lies strictly
inside the sphere through A, B, C, D, negative iff P lies strictly outside it, and 0
iff P lies on it. -/
theorem C33_inSphere_sign_in_positive_orientation (A B C D P O : FVector) (R2 : ℚ)
    (hS : IsCircumsphere A B C D O R2) (hO : 0 < Orientation A B C D)
    (hI : ∀ v ∈ [A, B, C, D, P], v.IsIntegral)
    (hR : FitsInt32 (InSphereDeterminant A B C D P)) :
    (0 < InSphere A B C D P ↔ P.DistSquared O < R2) ∧
      (InSphere A B C D P < 0 ↔ R2 < P.DistSquared O) ∧
      (InSphere A B C D P = 0 ↔ P.DistSquared O = R2) := by
  have hdet := inSphereDeterminant_eq A B C D P O R2 hS
  have hint := inSphere_eq_determinant A B C D P hI hR
  rw [hdet] at hint
  have hpos : (0 < InSphere A B C D P) ↔ (0 : ℚ) < (InSphere A B C D P : ℚ) := by
    exact Int.cast_pos.symm
  have hneg : (InSphere A B C D P < 0) ↔ (InSphere A B C D P : ℚ) < 0 := by
    exact Int.cast_lt_zero.symm
  have hzero : (InSphere A B C D P = 0) ↔ (InSphere A B C D P : ℚ) = 0 := by
    exact Int.cast_eq_zero.symm
  rw [hpos, hneg, hzero, hint]
  refine ⟨?_, ?_, ?_⟩
  · rw [mul_pos_iff_of_pos_right hO]
    exact sub_pos
  · constructor
    · intro h
      by_contra hc
      have : 0 ≤ (R2 - P.DistSquared O) * Orientation A B C D :=
        mul_nonneg (by linarith) hO.le
      linarith
    · intro h
      exact mul_neg_of_neg_of_pos (by linarith) hO
  · rw [mul_eq_zero]
    constructor
    · intro h
      rcases h with h | h
      · linarith
      · exact absurd h hO.ne'
    · intro h
      left
      linarith

theorem C33_witness :
    (0 < InSphere ⟨2, 0, 0⟩ ⟨0, 0, 0⟩ ⟨0, 2, 0⟩ ⟨0, 0, 2⟩ ⟨1, 1, 0⟩ ↔
        FVector.DistSquared ⟨1, 1, 0⟩ ⟨1, 1, 1⟩ < 3) ∧
      (InSphere ⟨2, 0, 0⟩ ⟨0, 0, 0⟩ ⟨0, 2, 0⟩ ⟨0, 0, 2⟩ ⟨1, 1, 0⟩ < 0 ↔
        3 < FVector.DistSquared ⟨1, 1, 0⟩ ⟨1, 1, 1⟩) ∧
      (InSphere ⟨2, 0, 0⟩ ⟨0, 0, 0⟩ ⟨0, 2, 0⟩ ⟨0, 0, 2⟩ ⟨1, 1, 0⟩ = 0 ↔
        FVector.DistSquared ⟨1, 1, 0⟩ ⟨1, 1, 1⟩ = 3) :=
  C33_inSphere_sign_in_positive_orientation ⟨2, 0, 0⟩ ⟨0, 0, 0⟩ ⟨0, 2, 0⟩ ⟨0, 0, 2⟩
    ⟨1, 1, 0⟩ ⟨1, 1, 1⟩ 3 (by decide!) (by decide!) (by decide!) (by decide!)

/-- C33, as stated, fails in three ways.  For the vertex order (0,0,0), (2,0,0), (0,2,0),
(0,0,2) the sphere with centre (1,1,1) and squared radius 3 passes through the four
points, which do not lie in one plane, the point (1,1,0) lies strictly inside it,
and `InSphere` is not positive (it is -16).  With positive orientation and the
vertices (0,0,0), (0,1/2,0), (1/2,0,0), (0,0,1/2) the point (1/4,1/4,1/4) lies
strictly inside the sphere and `InSphere` is 0.  With positive orientation, integer
coordinates and the vertices (1000,0,0), (0,0,0), (0,1000,0), (0,0,1000) the point
(1,1,1) lies strictly inside the sphere, the determinant is 2997000000000, beyond
the range of `int32`, and `InSphere` is negative. -/
theorem C33_counterexample :
    (IsCircumsphere ⟨0, 0, 0⟩ ⟨2, 0, 0⟩ ⟨0, 2, 0⟩ ⟨0, 0, 2⟩ ⟨1, 1, 1⟩ 3 ∧
      Orientation ⟨0, 0, 0⟩ ⟨2, 0, 0⟩ ⟨0, 2, 0⟩ ⟨0, 0, 2⟩ ≠ 0 ∧
      FVector.DistSquared ⟨1, 1, 0⟩ ⟨1, 1, 1⟩ < 3 ∧
      InSphere ⟨0, 0, 0⟩ ⟨2, 0, 0⟩ ⟨0, 2, 0⟩ ⟨0, 0, 2⟩ ⟨1, 1, 0⟩ = -16) ∧
    (IsCircumsphere ⟨0, 0, 0⟩ ⟨0, 1 / 2, 0⟩ ⟨1 / 2, 0, 0⟩ ⟨0, 0, 1 / 2⟩
        ⟨1 / 4, 1 / 4, 1 / 4⟩ (3 / 16) ∧
      0 < Orientation ⟨0, 0, 0⟩ ⟨0, 1 / 2, 0⟩ ⟨1 / 2, 0, 0⟩ ⟨0, 0, 1 / 2⟩ ∧
      FVector.DistSquared ⟨1 / 4, 1 / 4, 1 / 4⟩ ⟨1 / 4, 1 / 4, 1 / 4⟩ < 3 / 16 ∧
      InSphere ⟨0, 0, 0⟩ ⟨0, 1 / 2, 0⟩ ⟨1 / 2, 0, 0⟩ ⟨0, 0, 1 / 2⟩ ⟨1 / 4, 1 / 4, 1 / 4⟩
        = 0) ∧
    (IsCircumsphere ⟨1000, 0, 0⟩ ⟨0, 0, 0⟩ ⟨0, 1000, 0⟩ ⟨0, 0, 1000⟩ ⟨500, 500, 500⟩ 750000 ∧
      0 < Orientation ⟨1000, 0, 0⟩ ⟨0, 0, 0⟩ ⟨0, 1000, 0⟩ ⟨0, 0, 1000⟩ ∧
      FVector.DistSquared ⟨1, 1, 1⟩ ⟨500, 500, 500⟩ < 750000 ∧
      InSphereDeterminant ⟨1000, 0, 0⟩ ⟨0, 0, 0⟩ ⟨0, 1000, 0⟩ ⟨0, 0, 1000⟩ ⟨1, 1, 1⟩ =
        2997000000000 ∧
      InSphere ⟨1000, 0, 0⟩ ⟨0, 0, 0⟩ ⟨0, 1000, 0⟩ ⟨0, 0, 1000⟩ ⟨1, 1, 1⟩ < 0) := by
  decide!

end LevelGen

namespace LevelGen

/-! ## `DoTetrahedraIntersect` compares a tetrahedron with itself -/

/-- C35: for every tetrahedron A with four different vertices that
`PointsAreCoplanar` does not report as lying in one plane, in whichever order they
are listed, and for every tetrahedron B, `DoTetrahedraIntersect(A, B)` returns
false: both lists of faces are taken from A. -/
theorem C35_doTetrahedraIntersect_ignores_second (G : GeomTools)
    (TetrahedronA TetrahedronB : FTetrahedron)
    (hDistinct : [TetrahedronA.A, TetrahedronA.B, TetrahedronA.C, TetrahedronA.D].Nodup)
    (hSolid : ∀ p ∈ [TetrahedronA.A, TetrahedronA.B, TetrahedronA.C, TetrahedronA.D],
      ∀ q ∈ [TetrahedronA.A, TetrahedronA.B, TetrahedronA.C, TetrahedronA.D],
      ∀ r ∈ [TetrahedronA.A, TetrahedronA.B, TetrahedronA.C, TetrahedronA.D],
      ∀ s ∈ [TetrahedronA.A, TetrahedronA.B, TetrahedronA.C, TetrahedronA.D],
      [p, q, r, s].Nodup → G.PointsAreCoplanar [p, q, r, s] = false) :
    DoTetrahedraIntersect G TetrahedronA TetrahedronB = some false := by
  obtain ⟨a, b, c, d⟩ := TetrahedronA
  simp only [List.nodup_cons, List.mem_cons, List.mem_singleton, List.not_mem_nil,
    or_false, not_or, List.nodup_nil, and_true, not_false_eq_true] at hDistinct
  obtain ⟨⟨hab, hac, had⟩, ⟨hbc, hbd⟩, hcd⟩ := hDistinct
  have hba := Ne.symm hab
  have hca := Ne.symm hac
  have hda := Ne.symm had
  have hcb := Ne.symm hbc
  have hdb := Ne.symm hbd
  have hdc := Ne.symm hcd
  have hcop : ∀ p q r s : FVector, (p = a ∨ p = b ∨ p = c ∨ p = d) →
      (q = a ∨ q = b ∨ q = c ∨ q = d) → (r = a ∨ r = b ∨ r = c ∨ r = d) →
      (s = a ∨ s = b ∨ s = c ∨ s = d) → [p, q, r, s].Nodup →
      G.PointsAreCoplanar [p, q, r, s] = false := by
    intro p q r s hp hq hr hs hn
    exact hSolid p (by simpa using hp) q (by simpa using hq) r (by simpa using hr) s
      (by simpa using hs) hn
  have hnd : ∀ p q r s : FVector, p ≠ q → p ≠ r → p ≠ s → q ≠ r → q ≠ s → r ≠ s →
      [p, q, r, s].Nodup := by
    intro p q r s h1 h2 h3 h4 h5 h6
    simp [h1, h2, h3, h4, h5, h6]
  have f11 : TriTriIntersect3D G ⟨a, b, c⟩ ⟨a, b, c⟩ = some false := by
    simp [TriTriIntersect3D, FTriangle.Vertices, TSetAdd, TSetIncludes, hab, hac, had, hbc, hbd,
      hcd, hba, hca, hda, hcb, hdb, hdc]
  have f12 : TriTriIntersect3D G ⟨a, b, c⟩ ⟨a, c, d⟩ = some false := by
    simp [TriTriIntersect3D, FTriangle.Vertices, TSetAdd, TSetIncludes, TSetIntersectArray,
      TSetDifference, hab, hac, had, hbc, hbd, hcd, hba, hca, hda, hcb, hdb, hdc]
    exact hcop _ _ _ _ (by simp) (by simp) (by simp) (by simp)
      (hnd _ _ _ _ (by assumption) (by assumption) (by assumption) (by assumption)
        (by assumption) (by assumption))
  have f13 : TriTriIntersect3D G ⟨a, b, c⟩ ⟨a, d, b⟩ = some false := by
    simp [TriTriIntersect3D, FTriangle.Vertices, TSetAdd, TSetIncludes, TSetIntersectArray,
      TSetDifference, hab, hac, had, hbc, hbd, hcd, hba, hca, hda, hcb, hdb, hdc]
    exact hcop _ _ _ _ (by simp) (by simp) (by simp) (by simp)
      (hnd _ _ _ _ (by assumption) (by assumption) (by assumption) (by assumption)
        (by assumption) (by assumption))
  have f14 : TriTriIntersect3D G ⟨a, b, c⟩ ⟨b, d, c⟩ = some false := by
    simp [TriTriIntersect3D, FTriangle.Vertices, TSetAdd, TSetIncludes, TSetIntersectArray,
      TSetDifference, hab, hac, had, hbc, hbd, hcd, hba, hca, hda, hcb, hdb, hdc]
    exact hcop _ _ _ _ (by simp) (by simp) (by simp) (by simp)
      (hnd _ _ _ _ (by assumption) (by assumption) (by assumption) (by assumption)
        (by assumption) (by assumption))
  have f21 : TriTriIntersect3D G ⟨a, c, d⟩ ⟨a, b, c⟩ = some false := by
    simp [TriTriIntersect3D, FTriangle.Vertices, TSetAdd, TSetIncludes, TSetIntersectArray,
      TSetDifference, hab, hac, had, hbc, hbd, hcd, hba, hca, hda, hcb, hdb, hdc]
    exact hcop _ _ _ _ (by simp) (by simp) (by simp) (by simp)
      (hnd _ _ _ _ (by assumption) (by assumption) (by assumption) (by assumption)
        (by assumption) (by assumption))
  have f22 : TriTriIntersect3D G ⟨a, c, d⟩ ⟨a, c, d⟩ = some false := by
    simp [TriTriIntersect3D, FTriangle.Vertices, TSetAdd, TSetIncludes, hab, hac, had, hbc, hbd,
      hcd, hba, hca, hda, hcb, hdb, hdc]
  have f23 : TriTriIntersect3D G ⟨a, c, d⟩ ⟨a, d, b⟩ = some false := by
    simp [TriTriIntersect3D, FTriangle.Vertices, TSetAdd, TSetIncludes, TSetIntersectArray,
      TSetDifference, hab, hac, had, hbc, hbd, hcd, hba, hca, hda, hcb, hdb, hdc]
    exact hcop _ _ _ _ (by simp) (by simp) (by simp) (by simp)
      (hnd _ _ _ _ (by assumption) (by assumption) (by assumption) (by assumption)
        (by assumption) (by assumption))
  have f24 : TriTriIntersect3D G ⟨a, c, d⟩ ⟨b, d, c⟩ = some false := by
    simp [TriTriIntersect3D, FTriangle.Vertices, TSetAdd, TSetIncludes, TSetIntersectArray,
      TSetDifference, hab, hac, had, hbc, hbd, hcd, hba, hca, hda, hcb, hdb, hdc]
    exact hcop _ _ _ _ (by simp) (by simp) (by simp) (by simp)
      (hnd _ _ _ _ (by assumption) (by assumption) (by assumption) (by assumption)
        (by assumption) (by assumption))
  have f31 : TriTriIntersect3D G ⟨a, d, b⟩ ⟨a, b, c⟩ = some false := by
    simp [TriTriIntersect3D, FTriangle.Vertices, TSetAdd, TSetIncludes, TSetIntersectArray,
      TSetDifference, hab, hac, had, hbc, hbd, hcd, hba, hca, hda, hcb, hdb, hdc]
    exact hcop _ _ _ _ (by simp) (by simp) (by simp) (by simp)
      (hnd _ _ _ _ (by assumption) (by assumption) (by assumption) (by assumption)
        (by assumption) (by assumption))
  have f32 : TriTriIntersect3D G ⟨a, d, b⟩ ⟨a, c, d⟩ = some false := by
    simp [TriTriIntersect3D, FTriangle.Vertices, TSetAdd, TSetIncludes, TSetIntersectArray,
      TSetDifference, hab, hac, had, hbc, hbd, hcd, hba, hca, hda, hcb, hdb, hdc]
    exact hcop _ _ _ _ (by simp) (by simp) (by simp) (by simp)
      (hnd _ _ _ _ (by assumption) (by assumption) (by assumption) (by assumption)
        (by assumption) (by assumption))
  have f33 : TriTriIntersect3D G ⟨a, d, b⟩ ⟨a, d, b⟩ = some false := by
    simp [TriTriIntersect3D, FTriangle.Vertices, TSetAdd, TSetIncludes, hab, hac, had, hbc, hbd,
      hcd, hba, hca, hda, hcb, hdb, hdc]
  have f34 : TriTriIntersect3D G ⟨a, d, b⟩ ⟨b, d, c⟩ = some false := by
    simp [TriTriIntersect3D, FTriangle.Vertices, TSetAdd, TSetIncludes, TSetIntersectArray,
      TSetDifference, hab, hac, had, hbc, hbd, hcd, hba, hca, hda, hcb, hdb, hdc]
    exact hcop _ _ _ _ (by simp) (by simp) (by simp) (by simp)
      (hnd _ _ _ _ (by assumption) (by assumption) (by assumption) (by assumption)
        (by assumption) (by assumption))
  have f41 : TriTriIntersect3D G ⟨b, d, c⟩ ⟨a, b, c⟩ = some false := by
    simp [TriTriIntersect3D, FTriangle.Vertices, TSetAdd, TSetIncludes, TSetIntersectArray,
      TSetDifference, hab, hac, had, hbc, hbd, hcd, hba, hca, hda, hcb, hdb, hdc]
    exact hcop _ _ _ _ (by simp) (by simp) (by simp) (by simp)
      (hnd _ _ _ _ (by assumption) (by assumption) (by assumption) (by assumption)
        (by assumption) (by assumption))
  have f42 : TriTriIntersect3D G ⟨b, d, c⟩ ⟨a, c, d⟩ = some false := by
    simp [TriTriIntersect3D, FTriangle.Vertices, TSetAdd, TSetIncludes, TSetIntersectArray,
      TSetDifference, hab, hac, had, hbc, hbd, hcd, hba, hca, hda, hcb, hdb, hdc]
    exact hcop _ _ _ _ (by simp) (by simp) (by simp) (by simp)
      (hnd _ _ _ _ (by assumption) (by assumption) (by assumption) (by assumption)
        (by assumption) (by assumption))
  have f43 : TriTriIntersect3D G ⟨b, d, c⟩ ⟨a, d, b⟩ = some false := by
    simp [TriTriIntersect3D, FTriangle.Vertices, TSetAdd, TSetIncludes, TSetIntersectArray,
      TSetDifference, hab, hac, had, hbc, hbd, hcd, hba, hca, hda, hcb, hdb, hdc]
    exact hcop _ _ _ _ (by simp) (by simp) (by simp) (by simp)
      (hnd _ _ _ _ (by assumption) (by assumption) (by assumption) (by assumption)
        (by assumption) (by assumption))
  have f44 : TriTriIntersect3D G ⟨b, d, c⟩ ⟨b, d, c⟩ = some false := by
    simp [TriTriIntersect3D, FTriangle.Vertices, TSetAdd, TSetIncludes, hab, hac, had, hbc, hbd,
      hcd, hba, hca, hda, hcb, hdb, hdc]
  simp only [DoTetrahedraIntersect, GetTetrahedronFaces, GetVertexByIndex, List.map_cons,
    List.map_nil, List.flatMap_cons, List.flatMap_nil, List.cons_append, List.nil_append,
    List.append_nil, List.foldl_cons, List.foldl_nil]
  simp [f11, f12, f13, f14, f21, f22, f23, f24, f31, f32, f33, f34, f41, f42, f43, f44]

theorem C35_witness :
    DoTetrahedraIntersect ScenarioGeomTools CornerTetrahedron ShiftedTetrahedron
      = some false :=
  C35_doTetrahedraIntersect_ignores_second ScenarioGeomTools CornerTetrahedron
    ShiftedTetrahedron (by decide!) (by decide!)

end LevelGen

namespace LevelGen

/-! ## The endpoints of the returned edges are input points -/

theorem mem_tsetAdd {α : Type} [DecidableEq α] (s : List α) (x y : α) :
    y ∈ TSetAdd s x ↔ y ∈ s ∨ y = x := by
  unfold TSetAdd
  split_ifs with h
  · constructor
    · exact Or.inl
    · intro h2
      rcases h2 with h2 | h2
      · exact h2
      · exact h2 ▸ h
  · simp

theorem insertPoint_vertices (S : List FVector) (T : List FTetrahedron) (Point : FVector)
    (hT : ∀ t ∈ T, t.A ∈ S ∧ t.B ∈ S ∧ t.C ∈ S ∧ t.D ∈ S) (hP : Point ∈ S) :
    ∀ t ∈ InsertPoint T Point, t.A ∈ S ∧ t.B ∈ S ∧ t.C ∈ S ∧ t.D ∈ S := by
  unfold InsertPoint
  simp only
  have hcav : ∀ t ∈ T.filter (fun Tetrahedron =>
      decide (InSphere Tetrahedron.A Tetrahedron.B Tetrahedron.C Tetrahedron.D Point > 0)),
      t.A ∈ S ∧ t.B ∈ S ∧ t.C ∈ S ∧ t.D ∈ S :=
    fun t ht => hT t (List.mem_of_mem_filter ht)
  generalize T.filter (fun Tetrahedron =>
      decide (InSphere Tetrahedron.A Tetrahedron.B Tetrahedron.C Tetrahedron.D Point > 0))
    = CavityList at hcav ⊢
  have hfaces : ∀ f ∈ CavityList.flatMap (fun CavityTetrahedron =>
      (CavityFaces CavityTetrahedron).filter (fun CurrentFace =>
        (Neighbour CavityList CavityTetrahedron.Vertices CurrentFace.Vertices).isNone)),
      f.A ∈ S ∧ f.B ∈ S ∧ f.C ∈ S := by
    intro f hf
    obtain ⟨t, ht, hft⟩ := List.mem_flatMap.1 hf
    have hf2 := List.mem_of_mem_filter hft
    obtain ⟨hA, hB, hC, hD⟩ := hcav t ht
    simp only [CavityFaces, List.mem_cons, List.mem_singleton, List.not_mem_nil,
      or_false] at hf2
    rcases hf2 with h | h | h | h <;> subst h <;> simp [hA, hB, hC, hD]
  generalize CavityList.flatMap (fun CavityTetrahedron =>
      (CavityFaces CavityTetrahedron).filter (fun CurrentFace =>
        (Neighbour CavityList CavityTetrahedron.Vertices CurrentFace.Vertices).isNone))
    = BoundaryFaces at hfaces ⊢
  have hrem : ∀ (L : List FTetrahedron) (R : List FTetrahedron),
      (∀ t ∈ R, t.A ∈ S ∧ t.B ∈ S ∧ t.C ∈ S ∧ t.D ∈ S) →
      ∀ t ∈ L.foldl RemoveTetrahedronFromArray R, t.A ∈ S ∧ t.B ∈ S ∧ t.C ∈ S ∧ t.D ∈ S := by
    intro L
    induction L with
    | nil => intro R hR; exact hR
    | cons a rest ih =>
      intro R hR
      rw [List.foldl_cons]
      apply ih
      intro t ht
      exact hR t (List.mem_of_mem_filter ht)
  have hR := hrem CavityList T hT
  generalize CavityList.foldl RemoveTetrahedronFromArray T = Remaining at hR ⊢
  clear hrem hcav hT
  induction BoundaryFaces generalizing Remaining with
  | nil => exact hR
  | cons f rest ih =>
    rw [List.foldl_cons]
    apply ih (fun g hg => hfaces g (List.mem_cons_of_mem _ hg))
    obtain ⟨hA, hB, hC⟩ := hfaces f (List.mem_cons_self _ _)
    split_ifs
    · intro t ht
      rcases List.mem_append.1 ht with h | h
      · exact hR t h
      · rw [List.mem_singleton.1 h]
        exact ⟨hP, hA, hB, hC⟩
    · exact hR

theorem bowyerWatson3D_vertices (S : List FVector) (Points : List FVector) :
    ∀ (T : List FTetrahedron), (∀ t ∈ T, t.A ∈ S ∧ t.B ∈ S ∧ t.C ∈ S ∧ t.D ∈ S) →
      (∀ p ∈ Points, p ∈ S) →
      ∀ t ∈ BowyerWatson3D T Points, t.A ∈ S ∧ t.B ∈ S ∧ t.C ∈ S ∧ t.D ∈ S := by
  intro T hT hP
  unfold BowyerWatson3D
  split_ifs
  · exact hT
  · clear * - hT hP
    induction Points generalizing T with
    | nil => exact hT
    | cons p rest ih =>
      rw [List.foldl_cons]
      exact ih _ (insertPoint_vertices S T p hT (hP p (List.mem_cons_self _ _)))
        (fun q hq => hP q (List.mem_cons_of_mem _ hq))

theorem toFIntVector_toFVector (p : FIntVector) : p.toFVector.toFIntVector = p := by
  obtain ⟨x, y, z⟩ := p
  simp [FIntVector.toFVector, FVector.toFIntVector, truncToInt_intCast]

/-- After the removal of the edges connected to the boundary vertices, no edge of
the set has an end among them. -/
theorem removeBoundaryEdges_clean (Collides : List FEdgeInfo → FEdgeInfo → Bool)
    (B : List FIntVector) (s : List FEdgeInfo) (hnt : NoTwice s) :
    ∀ y ∈ RemoveBoundaryEdges Collides B s,
      TSetContains B y.Origin = false ∧ TSetContains B y.Destination = false := by
  have h : ∀ (L t : List FEdgeInfo), NoTwice t →
      ∀ y ∈ L.foldl (fun Set CurrentEdge =>
        if TSetContains B CurrentEdge.Origin || TSetContains B CurrentEdge.Destination then
          EdgeSetRemove Collides Set CurrentEdge
        else Set) t,
        y ∈ L → TSetContains B y.Origin = false ∧ TSetContains B y.Destination = false := by
    intro L
    induction L with
    | nil => intro t _ y _ hy; simp at hy
    | cons c rest ih =>
      intro t ht y hy hyL
      rw [List.foldl_cons] at hy
      have hstep : (if TSetContains B c.Origin || TSetContains B c.Destination then
          EdgeSetRemove Collides t c else t).Sublist t := by
        split_ifs
        · exact edgeSetRemove_sublist Collides t c
        · exact List.Sublist.refl _
      have hnt2 := noTwice_sublist hstep ht
      rcases List.mem_cons.1 hyL with h1 | h1
      · subst h1
        by_cases hc : (TSetContains B y.Origin || TSetContains B y.Destination) = true
        · exfalso
          rw [if_pos hc] at hy
          have hy2 : y ∈ EdgeSetRemove Collides t y :=
            (foldl_sublist _ (fun u a => by
              split_ifs
              · exact edgeSetRemove_sublist Collides u a
              · exact List.Sublist.refl _) rest _).subset hy
          exact edgeSetRemove_absent Collides t y ht y hy2 (sameDirection_refl y)
        · simpa using hc
      · exact ih _ hnt2 y hy h1
  intro y hy
  exact h s s hnt y hy ((removeBoundaryEdges_sublist Collides B s).subset hy)

theorem mem_boundaryIntVertices (t : FTetrahedron) (v : FVector)
    (hv : v ∈ [t.A, t.B, t.C, t.D]) :
    TSetContains (BoundaryIntVertices t) v.toFIntVector = true := by
  unfold TSetContains BoundaryIntVertices
  simp only [decide_eq_true_eq, mem_tsetAdd]
  simp only [List.mem_cons, List.mem_singleton, List.not_mem_nil, or_false] at hv
  rcases hv with h | h | h | h <;> subst h <;> simp

/-- Both ends of every edge of a tetrahedron are conversions of its vertices. -/
theorem tetrahedronEdges_ends (E : Engine) (t : FTetrahedron) :
    ∀ e ∈ TetrahedronEdges E t,
      (∃ v ∈ [t.A, t.B, t.C, t.D], e.Origin = v.toFIntVector) ∧
      (∃ v ∈ [t.A, t.B, t.C, t.D], e.Destination = v.toFIntVector) := by
  intro e he
  simp only [TetrahedronEdges, List.mem_cons, List.mem_singleton, List.not_mem_nil,
    or_false] at he
  rcases he with h | h | h | h | h | h <;> subst h <;>
    simp [FEdgeInfo.Make]

/-- C36: for every grid size and every point list (so for positive axes and valid
grid coordinates), both ends of every edge that `DelaunayTetrahedralization` returns
are points of the list, and `TArray::Find`, the lookup `GetMinimumSpanningTreeV2`
makes in the point list for the two ends of an edge, finds them. -/
theorem C36_returned_edges_join_input_points (E : Engine)
    (Collides : List FEdgeInfo → FEdgeInfo → Bool) (GridSize : FIntVector)
    (PointArray : List FIntVector) (bRemoveBoundaryTetrahedron : Bool) :
    EndpointsIn PointArray
        (DelaunayTetrahedralization E Collides GridSize PointArray bRemoveBoundaryTetrahedron) ∧
      ∀ e ∈ DelaunayTetrahedralization E Collides GridSize PointArray
          bRemoveBoundaryTetrahedron,
        (TArrayFind PointArray e.Origin).isSome = true ∧
          (TArrayFind PointArray e.Destination).isSome = true := by
  have hmain : EndpointsIn PointArray
      (DelaunayTetrahedralization E Collides GridSize PointArray
        bRemoveBoundaryTetrahedron) := by
    unfold DelaunayTetrahedralization
    split_ifs with hG
    · intro e he
      simp at he
    · intro e he
      simp only at he
      have he2 := (removeDuplicateEdges_sublist Collides _).subset he
      have hclean := removeBoundaryEdges_clean Collides
        (BoundaryIntVertices (BoundaryTetrahedronOf E GridSize)) _
        (collectEdges_noTwice E Collides (FinalTetrahedra E GridSize PointArray)) e he2
      have he3 := (removeBoundaryEdges_sublist Collides _ _).subset he2
      rw [collectEdges_eq] at he3
      rcases foldl_edgeSetAdd_mem Collides _ [] e he3 with h | h
      · simp at h
      obtain ⟨l, hl, hel⟩ := List.mem_flatten.1 h
      obtain ⟨t, ht, rfl⟩ := List.mem_map.1 hl
      set Bd := BoundaryTetrahedronOf E GridSize with hBd
      set S : List FVector := [Bd.A, Bd.B, Bd.C, Bd.D] ++ PointArray.map FIntVector.toFVector
        with hS
      have hverts : t.A ∈ S ∧ t.B ∈ S ∧ t.C ∈ S ∧ t.D ∈ S := by
        apply bowyerWatson3D_vertices S (PointArray.map FIntVector.toFVector) [Bd] _ _ t ht
        · intro u hu
          rw [List.mem_singleton.1 hu]
          simp [hS]
        · intro p hp
          exact List.mem_append_right _ hp
      have hend : ∀ v ∈ [t.A, t.B, t.C, t.D], ∀ c : FIntVector, c = v.toFIntVector →
          TSetContains (BoundaryIntVertices Bd) c = false → c ∈ PointArray := by
        intro v hv c hc hcl
        have hvS : v ∈ S := by
          simp only [List.mem_cons, List.mem_singleton, List.not_mem_nil, or_false] at hv
          rcases hv with h | h | h | h <;> subst h
          · exact hverts.1
          · exact hverts.2.1
          · exact hverts.2.2.1
          · exact hverts.2.2.2
        rcases List.mem_append.1 hvS with h | h
        · exfalso
          have := mem_boundaryIntVertices Bd v h
          rw [← hc, hcl] at this
          exact Bool.false_ne_true this
        · obtain ⟨p, hp, rfl⟩ := List.mem_map.1 h
          rw [hc, toFIntVector_toFVector]
          exact hp
      obtain ⟨⟨v, hv, hvo⟩, ⟨w, hw, hwd⟩⟩ := tetrahedronEdges_ends E t e hel
      exact ⟨hend v hv _ hvo hclean.1, hend w hw _ hwd hclean.2⟩
  refine ⟨hmain, ?_⟩
  intro e he
  obtain ⟨hO, hD⟩ := hmain e he
  obtain ⟨i, hi⟩ := tarrayFind_of_mem PointArray e.Origin hO
  obtain ⟨j, hj⟩ := tarrayFind_of_mem PointArray e.Destination hD
  rw [hi, hj]
  exact ⟨rfl, rfl⟩

/-- C26 (amended): with any value of the flag, every edge that
`DelaunayTetrahedralization` returns is one of the six edges of some final
tetrahedron, and neither of its ends is a vertex of the boundary tetrahedron: the
edges that touch the boundary tetrahedron are removed, whereas the tetrahedra that
touch it stay in the array the edges are taken from. -/
theorem C26_returned_edges_avoid_boundary_vertices (E : Engine)
    (Collides : List FEdgeInfo → FEdgeInfo → Bool) (GridSize : FIntVector)
    (PointArray : List FIntVector) (bRemoveBoundaryTetrahedron : Bool) :
    ∀ e ∈ DelaunayTetrahedralization E Collides GridSize PointArray
        bRemoveBoundaryTetrahedron,
      (∃ t ∈ FinalTetrahedra E GridSize PointArray, e ∈ TetrahedronEdges E t) ∧
      TSetContains (BoundaryIntVertices (BoundaryTetrahedronOf E GridSize)) e.Origin = false ∧
      TSetContains (BoundaryIntVertices (BoundaryTetrahedronOf E GridSize)) e.Destination =
        false := by
  intro e he
  unfold DelaunayTetrahedralization at he
  split_ifs at he with hG
  · simp at he
  · simp only at he
    have he2 := (removeDuplicateEdges_sublist Collides _).subset he
    have hclean := removeBoundaryEdges_clean Collides
      (BoundaryIntVertices (BoundaryTetrahedronOf E GridSize)) _
      (collectEdges_noTwice E Collides (FinalTetrahedra E GridSize PointArray)) e he2
    have he3 := (removeBoundaryEdges_sublist Collides _ _).subset he2
    rw [collectEdges_eq] at he3
    rcases foldl_edgeSetAdd_mem Collides _ [] e he3 with h | h
    · simp at h
    obtain ⟨l, hl, hel⟩ := List.mem_flatten.1 h
    obtain ⟨t, ht, rfl⟩ := List.mem_map.1 hl
    exact ⟨⟨t, ht, hel⟩, hclean.1, hclean.2⟩

theorem C26_witness :
    FEdgeInfo.Make (ScenarioEngine []) ⟨1, 1, 0⟩ ⟨2, 1, 0⟩ ∈
        DelaunayTetrahedralization (ScenarioEngine []) (fun _ _ => false) ⟨4, 4, 2⟩ TwoPoints
          true ∧
      (∃ t ∈ FinalTetrahedra (ScenarioEngine []) ⟨4, 4, 2⟩ TwoPoints,
        FEdgeInfo.Make (ScenarioEngine []) ⟨1, 1, 0⟩ ⟨2, 1, 0⟩ ∈
          TetrahedronEdges (ScenarioEngine []) t) ∧
      TSetContains (BoundaryIntVertices (BoundaryTetrahedronOf (ScenarioEngine []) ⟨4, 4, 2⟩))
        (FEdgeInfo.Make (ScenarioEngine []) ⟨1, 1, 0⟩ ⟨2, 1, 0⟩).Origin = false ∧
      TSetContains (BoundaryIntVertices (BoundaryTetrahedronOf (ScenarioEngine []) ⟨4, 4, 2⟩))
        (FEdgeInfo.Make (ScenarioEngine []) ⟨1, 1, 0⟩ ⟨2, 1, 0⟩).Destination = false :=
  ⟨by decide!,
    C26_returned_edges_avoid_boundary_vertices (ScenarioEngine []) (fun _ _ => false)
      ⟨4, 4, 2⟩ TwoPoints true (FEdgeInfo.Make (ScenarioEngine []) ⟨1, 1, 0⟩ ⟨2, 1, 0⟩)
      (by decide!)⟩

end LevelGen

namespace LevelGen

/-! ## The corridor kind and yaw for the directions in use -/

theorem foldl_tsetAdd_mem (d : EDirections) :
    ∀ (L s : List EDirections), d ∈ L.foldl TSetAdd s ↔ d ∈ s ∨ d ∈ L := by
  intro L
  induction L with
  | nil => intro s; simp
  | cons a rest ih =>
    intro s
    rw [List.foldl_cons, ih, mem_tsetAdd]
    simp only [List.mem_cons]
    tauto

theorem corridorConnections_contains (m : List (EDirections × ETileType)) (d : EDirections) :
    TSetContains ((TMapKeys m).foldl TSetAdd []) d = TMapContains m d := by
  rw [Bool.eq_iff_iff, tmapContains_iff]
  unfold TSetContains
  simp only [decide_eq_true_eq, foldl_tsetAdd_mem, List.not_mem_nil, false_or]

theorem rotateDirection_table :
    RotateDirection EDirections.North ⟨0, 0, 0⟩ = EDirections.North ∧
    RotateDirection EDirections.East ⟨0, 0, 0⟩ = EDirections.East ∧
    RotateDirection EDirections.South ⟨0, 0, 0⟩ = EDirections.South ∧
    RotateDirection EDirections.West ⟨0, 0, 0⟩ = EDirections.West ∧
    RotateDirection EDirections.North ⟨0, 90, 0⟩ = EDirections.East ∧
    RotateDirection EDirections.East ⟨0, 90, 0⟩ = EDirections.South ∧
    RotateDirection EDirections.South ⟨0, 90, 0⟩ = EDirections.West ∧
    RotateDirection EDirections.North ⟨0, 180, 0⟩ = EDirections.South ∧
    RotateDirection EDirections.East ⟨0, 180, 0⟩ = EDirections.West ∧
    RotateDirection EDirections.South ⟨0, 180, 0⟩ = EDirections.North ∧
    RotateDirection EDirections.North ⟨0, 270, 0⟩ = EDirections.West ∧
    RotateDirection EDirections.East ⟨0, 270, 0⟩ = EDirections.North ∧
    RotateDirection EDirections.South ⟨0, 270, 0⟩ = EDirections.East := by
  decide!

theorem corridorKindAndRotation_openings (CorridorTileData : FCorridorTileData) :
    (CorridorKindAndRotation CorridorTileData).1
        = KindOfOpenings (InUseDirections CorridorTileData) ∧
      ∀ d : EDirections,
        d ∈ (CanonicalOpenings (CorridorKindAndRotation CorridorTileData).1).map
            (fun Opening => RotateDirection Opening
              (CorridorKindAndRotation CorridorTileData).2)
          ↔ d ∈ InUseDirections CorridorTileData := by
  obtain ⟨r1, r2, r3, r4, r5, r6, r7, r8, r9, r10, r11, r12, r13⟩ := rotateDirection_table
  have hfilter : ∀ (p : EDirections → Bool),
      [EDirections.North, EDirections.East, EDirections.South, EDirections.West].filter p
        = (if p EDirections.North then [EDirections.North] else [])
          ++ ((if p EDirections.East then [EDirections.East] else [])
          ++ ((if p EDirections.South then [EDirections.South] else [])
          ++ (if p EDirections.West then [EDirections.West] else []))) := by
    intro p
    cases h1 : p EDirections.North <;> cases h2 : p EDirections.East <;>
      cases h3 : p EDirections.South <;> cases h4 : p EDirections.West <;>
      simp [List.filter, h1, h2, h3, h4]
  unfold CorridorKindAndRotation InUseDirections
  simp only [corridorConnections_contains, hfilter]
  generalize TMapContains CorridorTileData.AdjacentAccessPoints EDirections.North = n
  generalize TMapContains CorridorTileData.AdjacentAccessPoints EDirections.East = e
  generalize TMapContains CorridorTileData.AdjacentAccessPoints EDirections.South = s
  generalize TMapContains CorridorTileData.AdjacentAccessPoints EDirections.West = w
  cases n <;> cases e <;> cases s <;> cases w <;>
    simp [TSetContains, KindOfOpenings, CanonicalOpenings, r1, r2, r3, r4, r5, r6, r7, r8,
      r9, r10, r11, r12, r13] <;> tauto

/-- C32: for every corridor tile, with S the directions among North, East, South and
West that are keys of `AdjacentAccessPoints`, the kind that
`GetTileDataFromCorridorTileData` picks is the kind for the number and adjacency of S,
the openings of that kind at yaw 0, rotated by the picked rotation with
`RotateDirection`, are exactly the directions of S, and the returned tile is a corridor
tile with that rotation and, if listed, the content of a row of that kind. -/
theorem C32_corridor_kind_and_yaw_match_openings (CorridorTileData : FCorridorTileData) :
    (CorridorKindAndRotation CorridorTileData).1
        = KindOfOpenings (InUseDirections CorridorTileData) ∧
      (∀ d : EDirections,
        d ∈ (CanonicalOpenings (CorridorKindAndRotation CorridorTileData).1).map
            (fun Opening => RotateDirection Opening
              (CorridorKindAndRotation CorridorTileData).2)
          ↔ d ∈ InUseDirections CorridorTileData) ∧
      ∀ (E : Engine) (LevelGenerationSettings : FLevelGenerationSettings)
        (LevelStream : FRandomStream),
        GetTileDataFromCorridorTileData E CorridorTileData LevelGenerationSettings LevelStream
          = CopyCorridorContent E LevelGenerationSettings
              (CorridorKindAndRotation CorridorTileData).1
              { FTileData.Default with
                TileType := ETileType.Corridor
                TileRotation := (CorridorKindAndRotation CorridorTileData).2 } LevelStream :=
  ⟨(corridorKindAndRotation_openings CorridorTileData).1,
    (corridorKindAndRotation_openings CorridorTileData).2, fun _ _ _ => rfl⟩

end LevelGen

namespace LevelGen

/-! ## Plain nodes stay off rooms and special structures -/

theorem plainDeep_of_path (C : SearchContext) (Pre : List (FIntVector × FAdvancedPathNode))
    (hPre : ∀ e ∈ Pre, PlainEntryOK C e) (n : FAdvancedPathNode)
    (hn : ∀ e ∈ n.PreviousPath, e ∈ Pre ∨
      (e.2.SpecialPathType = ESpecialPathType.SpecialPathSection ∧ e.2.PreviousPath = Pre)) :
    ∀ d, PlainDeep C d n := by
  have hbase : ∀ (m : FAdvancedPathNode), m.PreviousPath = Pre → ∀ d, PlainDeep C d m := by
    intro m hm d
    cases d with
    | zero => trivial
    | succ d =>
      intro e he
      rw [hm] at he
      exact ⟨(hPre e he).1, (hPre e he).2 d⟩
  intro d
  cases d with
  | zero => trivial
  | succ d =>
    intro e he
    rcases hn e he with h | ⟨hty, hpp⟩
    · exact ⟨(hPre e h).1, (hPre e h).2 d⟩
    · refine ⟨?_, hbase e.2 hpp d⟩
      intro hnone
      rw [hty] at hnone
      cases hnone

theorem updateSectionNode_fields (E : Engine) (S : FLevelGenerationSettings)
    (D : FGeneratedLevelData) (Parent : FAdvancedPathNode) (V Exit : FIntVector)
    (Pre : List (FIntVector × FAdvancedPathNode)) (Start End : FIntVector) :
    (UpdateSectionNode E S D Parent V Exit Pre Start End).SpecialPathType
        = ESpecialPathType.SpecialPathSection ∧
      (UpdateSectionNode E S D Parent V Exit Pre Start End).PreviousPath = Pre := by
  simp [UpdateSectionNode, UpdateNodeCosts, UpdateNodeFields]

theorem addVolumeCells_entries (E : Engine) (S : FLevelGenerationSettings)
    (D : FGeneratedLevelData) (Exit : FIntVector) (Pre : List (FIntVector × FAdvancedPathNode))
    (Start End : FIntVector) :
    ∀ (L : List FIntVector) (N : FAdvancedPathNode),
      ∀ e ∈ (L.foldl (AddVolumeCell E S D Exit Pre Start End) N).PreviousPath,
        e ∈ N.PreviousPath ∨
        (e.2.SpecialPathType = ESpecialPathType.SpecialPathSection ∧ e.2.PreviousPath = Pre) := by
  intro L
  induction L with
  | nil => intro N e he; exact Or.inl he
  | cons v rest ih =>
    intro N e he
    rw [List.foldl_cons] at he
    rcases ih _ e he with h | h
    · unfold AddVolumeCell at h
      simp only at h
      rcases mem_tmapAdd _ _ _ _ h with h2 | h2
      · exact Or.inl h2
      · right
        rw [h2]
        exact updateSectionNode_fields E S D N _ Exit Pre Start End
    · exact Or.inr h

/-- The node `UpdateAdvancedNode` builds has the type it is given, and the entries of
its previous path are entries of the path it is given or cells of its structure. -/
theorem updateAdvancedNode_entries (E : Engine) (A : FAdvancedPathNode)
    (S : FLevelGenerationSettings) (D : FGeneratedLevelData)
    (Origin Current Exit : FIntVector) (T : ESpecialPathType) (Info : FSpecialPathInfo)
    (Rot : FRotator) (Pre : List (FIntVector × FAdvancedPathNode)) (Start End : FIntVector) :
    (UpdateAdvancedNode E A S D Origin Current Exit T Info Rot Pre Start End).SpecialPathType
        = T ∧
      ∀ e ∈ (UpdateAdvancedNode E A S D Origin Current Exit T Info Rot Pre Start
          End).PreviousPath,
        e ∈ Pre ∨
        (e.2.SpecialPathType = ESpecialPathType.SpecialPathSection ∧ e.2.PreviousPath = Pre) := by
  cases hT : T.IsStructure with
  | false =>
    obtain ⟨hP, hty⟩ := updateAdvancedNode_plain E A S D Origin Current Exit T Info Rot Pre
      Start End hT
    refine ⟨hty, ?_⟩
    intro e he
    rw [hP] at he
    exact Or.inl he
  | true =>
    rw [updateAdvancedNode_structure E A S D Origin Current Exit T Info Rot Pre Start End hT]
    have hspec := addVolumeCells_spec E S D Exit Pre Start End
      (if (UpdateNodeFields E A S D Origin Current Exit T Info Rot Pre End).1.bIsPathReversed
        then Info.PathVolume else Info.PathVolume.reverse)
      (UpdateNodeFields E A S D Origin Current Exit T Info Rot Pre End).1
    have hent := addVolumeCells_entries E S D Exit Pre Start End
      (if (UpdateNodeFields E A S D Origin Current Exit T Info Rot Pre End).1.bIsPathReversed
        then Info.PathVolume else Info.PathVolume.reverse)
      (UpdateNodeFields E A S D Origin Current Exit T Info Rot Pre End).1
    refine ⟨?_, ?_⟩
    · have h1 : (UpdateNodeCosts E
          ((if (UpdateNodeFields E A S D Origin Current Exit T Info Rot Pre End).1.bIsPathReversed
            then Info.PathVolume else Info.PathVolume.reverse).foldl
            (AddVolumeCell E S D Exit Pre Start End)
            (UpdateNodeFields E A S D Origin Current Exit T Info Rot Pre End).1)
          (UpdateNodeFields E A S D Origin Current Exit T Info Rot Pre End).2 Exit Start
          End).SpecialPathType =
          ((if (UpdateNodeFields E A S D Origin Current Exit T Info Rot Pre End).1.bIsPathReversed
            then Info.PathVolume else Info.PathVolume.reverse).foldl
            (AddVolumeCell E S D Exit Pre Start End)
            (UpdateNodeFields E A S D Origin Current Exit T Info Rot Pre End).1).SpecialPathType :=
        rfl
      rw [h1, hspec.1]
      rfl
    · intro e he
      have he2 : e ∈ ((if (UpdateNodeFields E A S D Origin Current Exit T Info Rot Pre
          End).1.bIsPathReversed then Info.PathVolume else Info.PathVolume.reverse).foldl
          (AddVolumeCell E S D Exit Pre Start End)
          (UpdateNodeFields E A S D Origin Current Exit T Info Rot Pre End).1).PreviousPath := he
      rcases hent e he2 with h | h
      · exact Or.inl h
      · exact Or.inr h

theorem newNode_plainEntryOK (E : Engine) (C : SearchContext) (A : FAdvancedPathNode)
    (S : FLevelGenerationSettings) (D : FGeneratedLevelData)
    (Origin Current Exit : FIntVector) (T : ESpecialPathType) (Info : FSpecialPathInfo)
    (Rot : FRotator) (Pre : List (FIntVector × FAdvancedPathNode)) (Start End : FIntVector)
    (hPre : ∀ e ∈ Pre, PlainEntryOK C e)
    (hcell : T = ESpecialPathType.None → GoodPlainCell C Exit) :
    PlainEntryOK C
      (Exit, UpdateAdvancedNode E A S D Origin Current Exit T Info Rot Pre Start End) := by
  obtain ⟨hty, hent⟩ := updateAdvancedNode_entries E A S D Origin Current Exit T Info Rot Pre
    Start End
  refine ⟨?_, plainDeep_of_path C Pre hPre _ hent⟩
  intro hnone
  exact hcell (by rw [← hty]; exact hnone)

/-- The path handed to a node that is reached from a closed node: the previous path
of the closed node and the closed node itself. -/
theorem previousNodePath_plain (C : SearchContext)
    (CLOSED : List (FIntVector × FAdvancedPathNode)) (c : FIntVector)
    (ClosedNode : FAdvancedPathNode) (hCL : ∀ e ∈ CLOSED, PlainEntryOK C e)
    (hfind : TMapFind CLOSED c = some ClosedNode) :
    ∀ e ∈ TMapAdd ClosedNode.PreviousPath c ClosedNode, PlainEntryOK C e := by
  have hmem := tmapFind_mem _ _ _ hfind
  have hok := hCL _ hmem
  intro e he
  rcases mem_tmapAdd _ _ _ _ he with h | h
  · exact ⟨(hok.2 1 e h).1, fun d => (hok.2 (d + 1) e h).2⟩
  · rw [h]
    exact hok

theorem tmapAdd_plain (C : SearchContext) (OPEN : List (FIntVector × FAdvancedPathNode))
    (k : FIntVector) (n : FAdvancedPathNode) (hOP : ∀ e ∈ OPEN, PlainEntryOK C e)
    (hn : PlainEntryOK C (k, n)) : ∀ e ∈ TMapAdd OPEN k n, PlainEntryOK C e := by
  intro e he
  rcases mem_tmapAdd _ _ _ _ he with h | h
  · exact hOP e h
  · exact h ▸ hn

/-- What the first orientation of a template does to `OPEN`: nothing, or it adds
one node of the type of the template, reached from the closed node. -/
theorem evaluateStructureFirst_shape (E : Engine)
    (OPEN CLOSED OPEN2 : List (FIntVector × FAdvancedPathNode)) (Inaccessible : List FIntVector)
    (PGD : List FPathGenerationData) (S : FLevelGenerationSettings) (D : FGeneratedLevelData)
    (c Current : FIntVector) (R : FRotator) (T : ESpecialPathType) (Info : FSpecialPathInfo)
    (Start End : FIntVector)
    (h : EvaluateStructureFirst E OPEN CLOSED Inaccessible PGD S D c Current R T Info Start End =
      some OPEN2) :
    OPEN2 = OPEN ∨ ∃ (ClosedNode A : FAdvancedPathNode) (Origin Cur Exit : FIntVector)
      (Rot : FRotator), TMapFind CLOSED c = some ClosedNode ∧
      OPEN2 = TMapAdd OPEN Exit (UpdateAdvancedNode E A S D Origin Cur Exit T Info Rot
        (TMapAdd ClosedNode.PreviousPath c ClosedNode) Start End) := by
  unfold EvaluateStructureFirst at h
  simp only at h
  split_ifs at h with hopen
  · simp only [Option.some.injEq] at h
    exact Or.inl h.symm
  · cases hfind : TMapFind CLOSED c with
    | none => rw [hfind] at h; simp at h
    | some ClosedNode =>
      rw [hfind] at h
      simp only at h
      split at h
      · split_ifs at h with hvalid
        · simp only [Option.some.injEq] at h
          exact Or.inr ⟨ClosedNode, _, _, _, _, _, rfl, h.symm⟩
        · simp only [Option.some.injEq] at h
          exact Or.inl h.symm
      · simp at h

theorem ite_some_cases {α : Type} (p : Prop) [Decidable p] (x y z : α)
    (h : (if p then some x else some y) = some z) : z = x ∨ z = y := by
  split_ifs at h
  · exact Or.inl (Option.some.inj h).symm
  · exact Or.inr (Option.some.inj h).symm

theorem evaluateStructureSecond_shape (E : Engine)
    (OPEN CLOSED OPEN2 : List (FIntVector × FAdvancedPathNode)) (Inaccessible : List FIntVector)
    (PGD : List FPathGenerationData) (S : FLevelGenerationSettings) (D : FGeneratedLevelData)
    (c Current DirectionVector : FIntVector) (R Reversed : FRotator) (T : ESpecialPathType)
    (Info : FSpecialPathInfo) (Start End : FIntVector)
    (h : EvaluateStructureSecond E OPEN CLOSED Inaccessible PGD S D c Current DirectionVector R
      Reversed T Info Start End = some OPEN2) :
    OPEN2 = OPEN ∨ ∃ (ClosedNode A : FAdvancedPathNode) (Origin Cur Exit : FIntVector)
      (Rot : FRotator), TMapFind CLOSED c = some ClosedNode ∧
      OPEN2 = TMapAdd OPEN Exit (UpdateAdvancedNode E A S D Origin Cur Exit T Info Rot
        (TMapAdd ClosedNode.PreviousPath c ClosedNode) Start End) := by
  unfold EvaluateStructureSecond at h
  simp only at h
  by_cases hopen : TMapContains OPEN (Current +
      RotateIntVectorCoordinatefromOrigin (Info.ExitVector.scale (-1)) Reversed) = true
  · rw [if_pos hopen] at h
    simp only [Option.some.injEq] at h
    exact Or.inl h.symm
  · rw [if_neg hopen] at h
    cases hfind : TMapFind CLOSED c with
    | none => rw [hfind] at h; simp at h
    | some ClosedNode =>
      rw [hfind] at h
      simp only at h
      cases hV : VolumeIsInvalid
          (fun v => Current + RotateIntVectorCoordinatefromOrigin (v.scale (-1)) Reversed)
          c ClosedNode CLOSED Inaccessible PGD D End Info.PathVolume with
      | none => rw [hV] at h; simp at h
      | some bV =>
        cases hX : IsCoordinateEmpty (Current +
            RotateIntVectorCoordinatefromOrigin (Info.ExitVector.scale (-1)) Reversed) c CLOSED
            Inaccessible [] D with
        | none => rw [hV, hX] at h; simp at h
        | some bE =>
          rw [hV, hX] at h
          simp only at h
          by_cases hskip : (bE && TMapContains ClosedNode.PreviousPath (Current +
              RotateIntVectorCoordinatefromOrigin (Info.ExitVector.scale (-1)) Reversed)) = true
          · rw [if_pos hskip] at h
            simp only [Option.some.injEq] at h
            exact Or.inl h.symm
          · rw [if_neg hskip] at h
            rcases ite_some_cases _ _ _ _ h with h2 | h2
            · exact Or.inr ⟨ClosedNode, _, _, _, _, _, rfl, h2⟩
            · exact Or.inl h2

theorem evaluateSpecial_plain (E : Engine) (C : SearchContext) (S : FLevelGenerationSettings)
    (OPEN CLOSED OPEN2 : List (FIntVector × FAdvancedPathNode))
    (Inaccessible : List FIntVector) (PGD : List FPathGenerationData)
    (D : FGeneratedLevelData) (c : FIntVector) (d : EDirections) (Start End : FIntVector)
    (hNone : TMapFind S.AllowedSpecialPathTypes ESpecialPathType.None ≠ some true)
    (hCL : ∀ e ∈ CLOSED, PlainEntryOK C e)
    (hOP : ∀ e ∈ OPEN, PlainEntryOK C e)
    (h : EvaluateSpecialCorridorStructures E OPEN CLOSED Inaccessible PGD S D c d Start End =
      some OPEN2) : ∀ e ∈ OPEN2, PlainEntryOK C e := by
  unfold EvaluateSpecialCorridorStructures at h
  split at h
  · rename_i v r _ _
    simp only at h
    by_cases hc : (TSetContains Inaccessible (c + v) || TMapContains CLOSED (c + v)) = true
    · rw [if_pos hc] at h
      simp only [Option.some.injEq] at h
      exact h ▸ hOP
    · rw [if_neg hc] at h
      refine foldl_option_invariant
        (fun Open => ∀ e ∈ Open, PlainEntryOK C e)
        _ (TMapKeys S.AllowedSpecialPathTypes) (fun _ => rfl) ?_ OPEN OPEN2 hOP h
      intro Open hOpen T _ Open2 hstep
      simp only at hstep
      cases hf : TMapFind S.AllowedSpecialPathTypes T with
      | none => rw [hf] at hstep; simp at hstep
      | some b =>
        rw [hf] at hstep
        cases b with
        | false =>
          simp only [Option.some.injEq] at hstep
          exact hstep ▸ hOpen
        | true =>
          have hT : T = ESpecialPathType.None → False := fun hz => hNone (hz ▸ hf)
          simp only at hstep
          cases hdata : S.SpecialPathData with
          | none => rw [hdata] at hstep; simp at hstep
          | some Settings =>
            rw [hdata] at hstep
            simp only at hstep
            cases hinfo : TMapFind Settings T with
            | none =>
              rw [hinfo] at hstep
              simp only [Option.some.injEq] at hstep
              exact hstep ▸ hOpen
            | some Info =>
              rw [hinfo] at hstep
              simp only at hstep
              cases hfirst : EvaluateStructureFirst E Open CLOSED Inaccessible PGD S D c (c + v)
                  r T Info Start End with
              | none => rw [hfirst] at hstep; simp at hstep
              | some Open1 =>
                rw [hfirst] at hstep
                simp only at hstep
                have h1 : ∀ e ∈ Open1, PlainEntryOK C e := by
                  rcases evaluateStructureFirst_shape E Open CLOSED Open1 Inaccessible PGD S D
                    c (c + v) r T Info Start End hfirst with h2 | ⟨n, A, O, Cur, X, Rot, hn, h2⟩
                  · exact h2 ▸ hOpen
                  · rw [h2]
                    exact tmapAdd_plain C Open X _ hOpen
                      (newNode_plainEntryOK E C A S D O Cur X T Info Rot _ Start End
                        (previousNodePath_plain C CLOSED c n hCL hn) (fun hz => (hT hz).elim))
                rcases evaluateStructureSecond_shape E Open1 CLOSED Open2 Inaccessible PGD S D
                  c (c + v) v r _ T Info Start End hstep with h2 | ⟨n, A, O, Cur, X, Rot, hn, h2⟩
                · exact h2 ▸ h1
                · rw [h2]
                  exact tmapAdd_plain C Open1 X _ h1
                    (newNode_plainEntryOK E C A S D O Cur X T Info Rot _ Start End
                      (previousNodePath_plain C CLOSED c n hCL hn) (fun hz => (hT hz).elim))
  · simp at h

theorem newPlainNode_plain (E : Engine) (C : SearchContext)
    (CLOSED : List (FIntVector × FAdvancedPathNode)) (c x : FIntVector)
    (ClosedNode : FAdvancedPathNode) (hCL : ∀ e ∈ CLOSED, PlainEntryOK C e)
    (hfind : TMapFind CLOSED c = some ClosedNode) (hx : GoodPlainCell C x) :
    PlainEntryOK C (x, NewPlainNode E C c ClosedNode x) := by
  unfold NewPlainNode
  exact newNode_plainEntryOK E C _ _ _ _ _ _ _ _ _ _ _ _
    (previousNodePath_plain C CLOSED c ClosedNode hCL hfind) (fun _ => hx)

theorem expandClosedDirection_plain (E : Engine) (C : SearchContext)
    (hNone : TMapFind C.LevelGenerationSettings.AllowedSpecialPathTypes ESpecialPathType.None
      ≠ some true)
    (CLOSED OPEN OPEN2 : List (FIntVector × FAdvancedPathNode)) (c : FIntVector)
    (d : EDirections) (hCL : ∀ e ∈ CLOSED, PlainEntryOK C e)
    (hOP : ∀ e ∈ OPEN, PlainEntryOK C e)
    (h : ExpandClosedDirection E C CLOSED c OPEN d = some OPEN2) :
    ∀ e ∈ OPEN2, PlainEntryOK C e := by
  unfold ExpandClosedDirection at h
  by_cases hab : d = EDirections.Above ∨ d = EDirections.Below
  · rw [if_pos hab] at h
    simp only [Option.some.injEq] at h
    exact h ▸ hOP
  · rw [if_neg hab] at h
    split at h
    · rename_i v n hv hn
      simp only at h
      by_cases hprev : TMapContains n.PreviousPath (c + v) = true
      · rw [if_pos hprev] at h
        simp only [Option.some.injEq] at h
        exact h ▸ hOP
      · rw [if_neg hprev] at h
        refine evaluateSpecial_plain E C _ _ CLOSED OPEN2 _ _ _ c d _ _ hNone hCL ?_ h
        split_ifs with hcond
        · apply tmapAdd_plain C _ _ _ hOP
          apply newPlainNode_plain E C CLOSED c (c + v) n hCL hn
          simp only [Bool.and_eq_true, Bool.not_eq_eq_eq_not, Bool.not_true] at hcond
          exact ⟨hcond.1.1.1, hcond.2⟩
        · exact hOP
    · simp at h

theorem expandClosed_plain (E : Engine) (C : SearchContext)
    (hNone : TMapFind C.LevelGenerationSettings.AllowedSpecialPathTypes ESpecialPathType.None
      ≠ some true)
    (CLOSED OPEN OPEN2 : List (FIntVector × FAdvancedPathNode))
    (hCL : ∀ e ∈ CLOSED, PlainEntryOK C e) (hOP : ∀ e ∈ OPEN, PlainEntryOK C e)
    (h : ExpandClosed E C OPEN CLOSED = some OPEN2) : ∀ e ∈ OPEN2, PlainEntryOK C e := by
  unfold ExpandClosed at h
  refine foldl_option_invariant (fun Open => ∀ e ∈ Open, PlainEntryOK C e)
    _ (TMapKeys CLOSED) (fun _ => rfl) ?_ OPEN OPEN2 hOP h
  intro Open hOpen c _ Open2 hstep
  simp only at hstep
  unfold ExpandClosedNode at hstep
  split at hstep
  · simp at hstep
  · split_ifs at hstep with hsec
    · simp only [Option.some.injEq] at hstep
      exact hstep ▸ hOpen
    · exact foldl_option_invariant (fun Open => ∀ e ∈ Open, PlainEntryOK C e)
        _ DirectionEvaluationOrder (fun _ => rfl)
        (fun a ha d _ a2 h2 => expandClosedDirection_plain E C hNone CLOSED a a2 c d hCL ha h2)
        Open Open2 hOpen hstep

theorem relaxNeighbour_plain (E : Engine) (C : SearchContext)
    (CLOSED OPEN OPEN2 : List (FIntVector × FAdvancedPathNode)) (cur : FIntVector)
    (CurrentNode : FAdvancedPathNode) (d : EDirections)
    (hCL : ∀ e ∈ CLOSED, PlainEntryOK C e) (hOP : ∀ e ∈ OPEN, PlainEntryOK C e)
    (h : RelaxNeighbour E C CLOSED cur CurrentNode OPEN d = some OPEN2) :
    ∀ e ∈ OPEN2, PlainEntryOK C e := by
  unfold RelaxNeighbour at h
  by_cases hab : d = EDirections.Above ∨ d = EDirections.Below
  · rw [if_pos hab] at h
    simp only [Option.some.injEq] at h
    exact h ▸ hOP
  · rw [if_neg hab] at h
    split at h
    · simp at h
    · rename_i v hv
      simp only at h
      split_ifs at h with h1 h2 h3 h4 h5
      · simp only [Option.some.injEq] at h; exact h ▸ hOP
      · simp only [Option.some.injEq] at h; exact h ▸ hOP
      · simp only [Option.some.injEq] at h; exact h ▸ hOP
      · simp only [Option.some.injEq] at h; exact h ▸ hOP
      · cases hfind : TMapFind CLOSED cur with
        | none => rw [hfind] at h; simp at h
        | some ClosedNode =>
          rw [hfind] at h
          simp only [Option.some.injEq] at h
          subst h
          apply tmapAdd_plain C _ _ _ hOP
          apply newPlainNode_plain E C CLOSED cur (cur + v) ClosedNode hCL hfind
          simp only [Bool.or_eq_true, not_or] at h2
          exact ⟨by simpa using h2.1, by simpa using h4⟩
      · simp only [Option.some.injEq] at h; exact h ▸ hOP

/-- Every record of `SearchStates` holds plain nodes only at cells that are no room
cell and carry no tile of a special structure, when the maps it starts from do and
the type `None` is not enabled as a special path type. -/
theorem searchStates_plain (E : Engine) (C : SearchContext) (hsort : ValueSortPermutes E)
    (hNone : TMapFind C.LevelGenerationSettings.AllowedSpecialPathTypes ESpecialPathType.None
      ≠ some true) :
    ∀ (Steps : Nat) (OPEN CLOSED : List (FIntVector × FAdvancedPathNode)),
      (∀ e ∈ OPEN, PlainEntryOK C e) → (∀ e ∈ CLOSED, PlainEntryOK C e) →
      ∀ State ∈ SearchStates E C Steps OPEN CLOSED,
        (∀ e ∈ State.1, PlainEntryOK C e) ∧ (∀ e ∈ State.2, PlainEntryOK C e) := by
  intro Steps
  induction Steps with
  | zero => intro OPEN CLOSED _ _ State h; simp [SearchStates] at h
  | succ k ih =>
    intro OPEN CLOSED hOP hCL State h
    unfold SearchStates at h
    rcases List.mem_cons.1 h with h | h
    · subst h
      exact ⟨hOP, hCL⟩
    split at h
    · simp at h
    · rename_i Expanded hexp
      have hExp := expandClosed_plain E C hNone CLOSED OPEN Expanded hCL hOP hexp
      rcases List.mem_cons.1 h with h | h
      · subst h
        exact ⟨hExp, hCL⟩
      have hSorted : ∀ e ∈ E.ValueSort OpenNodeLess Expanded, PlainEntryOK C e :=
        fun e he => hExp e ((hsort OpenNodeLess Expanded).mem_iff.1 he)
      split at h
      · simp at h
      · rename_i cur CurrentNode SortedRest hs
        rw [hs] at hSorted
        have hCur := hSorted _ (List.mem_cons_self _ _)
        simp only at h
        rw [commit_eq] at h
        split at h
        · simp at h
        · rename_i OPEN1 CLOSED1 hcommit
          obtain ⟨c1, c2, _, _, _⟩ := commitStructure_spec CurrentNode _ _ _ _ _ hcommit
          have hCL2 : ∀ e ∈ TMapAdd CLOSED1 cur CurrentNode, PlainEntryOK C e := by
            intro e he
            rcases mem_tmapAdd _ _ _ _ he with h1 | h1
            · rcases c2 e h1 with h2 | h2
              · exact hCL e h2
              · exact ⟨(hCur.2 1 e h2).1, fun d => (hCur.2 (d + 1) e h2).2⟩
            · exact h1 ▸ hCur
          have hOP2 : ∀ e ∈ TMapRemove OPEN1 cur, PlainEntryOK C e := by
            intro e he
            exact hSorted e (c1 e (List.mem_of_mem_filter he))
          rcases List.mem_cons.1 h with h | h
          · subst h
            exact ⟨hOP2, hCL2⟩
          split_ifs at h with hend
          · simp at h
          · split at h
            · simp at h
            · rename_i OPEN3 hrelax
              have hOP3 : ∀ e ∈ OPEN3, PlainEntryOK C e :=
                foldl_option_invariant (fun Open => ∀ e ∈ Open, PlainEntryOK C e)
                  _ AllDirections (fun _ => rfl)
                  (fun a ha d _ a2 h2 => relaxNeighbour_plain E C _ a a2 cur CurrentNode d
                    hCL2 ha h2)
                  _ OPEN3 hOP2 hrelax
              rcases List.mem_cons.1 h with h | h
              · subst h
                exact ⟨hOP3, hCL2⟩
              · exact ih OPEN3 (TMapAdd CLOSED1 cur CurrentNode) hOP3 hCL2 State h

theorem initialClosed_plain (E : Engine) (C : SearchContext) (Start End : FIntVector)
    (S : FLevelGenerationSettings) (D : FGeneratedLevelData) (hStart : GoodPlainCell C Start) :
    ∀ e ∈ InitialClosed E Start End S D, PlainEntryOK C e := by
  intro e he
  unfold InitialClosed at he
  simp only at he
  rcases mem_tmapAdd _ _ _ _ he with h | h
  · cases h
  · rw [h]
    obtain ⟨hP, _⟩ := updateAdvancedNode_plain E FAdvancedPathNode.Default S D Start Start Start
      ESpecialPathType.None FSpecialPathInfo.Default ⟨0, 0, 0⟩ [] Start End rfl
    refine ⟨fun _ => hStart, ?_⟩
    intro d
    cases d with
    | zero => trivial
    | succ d =>
      intro x hx
      have hx2 : x ∈ (UpdateAdvancedNode E FAdvancedPathNode.Default S D Start Start Start
        ESpecialPathType.None FSpecialPathInfo.Default ⟨0, 0, 0⟩ [] Start End).PreviousPath := hx
      rw [hP] at hx2
      cases hx2

theorem mem_plainKeys (Map : List (FIntVector × FAdvancedPathNode)) (c : FIntVector) :
    c ∈ PlainKeys Map ↔
      ∃ n, (c, n) ∈ Map ∧ n.SpecialPathType = ESpecialPathType.None := by
  unfold PlainKeys
  simp only [List.mem_map, List.mem_filter, decide_eq_true_eq]
  constructor
  · rintro ⟨⟨k, n⟩, ⟨hm, ht⟩, rfl⟩
    exact ⟨n, hm, ht⟩
  · rintro ⟨n, hm, ht⟩
    exact ⟨(c, n), ⟨hm, ht⟩, rfl⟩

/-- C31 (amended): in every record of the maps OPEN and CLOSED of a search of
`AdvancedAStarPathfinding` whose start holds no tile of a special structure, with
settings that do not enable the type `None` as a special path type, no plain node
sits at a coordinate that holds a room tile or whose existing path tile belongs to
a special structure. -/
theorem C31_plain_nodes_avoid_rooms_and_structures (E : Engine) (hsort : ValueSortPermutes E)
    (Steps : Nat) (Start End : FIntVector) (PGD : List FPathGenerationData)
    (S : FLevelGenerationSettings) (D : FGeneratedLevelData)
    (hStart : IsSpecialPathAt D Start = false)
    (hNone : TMapFind S.AllowedSpecialPathTypes ESpecialPathType.None ≠ some true) :
    ∀ State ∈ StatePlainKeys (AdvancedAStarStates E Steps Start End PGD S D),
      ∀ c ∈ State.1 ++ State.2, ¬ HoldsRoom D.LevelTileData c ∧ IsSpecialPathAt D c = false := by
  intro State hState c hc
  unfold StatePlainKeys at hState
  obtain ⟨Maps, hMaps, rfl⟩ := List.mem_map.1 hState
  unfold AdvancedAStarStates at hMaps
  simp only at hMaps
  split_ifs at hMaps with hguard
  · cases hMaps
  · have hs : TSetContains (InaccessibleNodesOf D.LevelTileData) Start = false := by
      simp only [Bool.or_eq_true, not_or] at hguard
      simpa using hguard.1
    have hinit := initialClosed_plain E (SearchContextOf Start End PGD S D) Start End S D
      ⟨hs, hStart⟩
    obtain ⟨hO, hC⟩ := searchStates_plain E (SearchContextOf Start End PGD S D) hsort hNone
      Steps [] _ (fun e he => by cases he) hinit Maps hMaps
    have hgood : ∀ e ∈ Maps.1 ++ Maps.2, PlainEntryOK (SearchContextOf Start End PGD S D) e := by
      intro e he
      rcases List.mem_append.1 he with h | h
      · exact hO e h
      · exact hC e h
    have hmem : ∃ n, (c, n) ∈ Maps.1 ++ Maps.2 ∧ n.SpecialPathType = ESpecialPathType.None := by
      rcases List.mem_append.1 hc with h | h
      · obtain ⟨n, hn, ht⟩ := (mem_plainKeys _ _).1 h
        exact ⟨n, List.mem_append.2 (Or.inl hn), ht⟩
      · obtain ⟨n, hn, ht⟩ := (mem_plainKeys _ _).1 h
        exact ⟨n, List.mem_append.2 (Or.inr hn), ht⟩
    obtain ⟨n, hn, ht⟩ := hmem
    obtain ⟨hroom, hspecial⟩ := (hgood _ hn).1 ht
    refine ⟨?_, hspecial⟩
    intro hholds
    have hin : c ∈ InaccessibleNodesOf D.LevelTileData := (mem_inaccessibleNodesOf _ _).2 hholds
    have hcontains : TSetContains (InaccessibleNodesOf D.LevelTileData) c = true := by
      simpa [TSetContains] using hin
    have hroom2 : TSetContains (InaccessibleNodesOf D.LevelTileData) c = false := hroom
    rw [hcontains] at hroom2
    cases hroom2

theorem C31_witness :
    (StatePlainKeys (AdvancedAStarStates (ScenarioEngine []) 1 ⟨0, 0, 0⟩ ⟨3, 0, 0⟩ []
        (ReuseSettings ⟨5, 5, 2⟩) ReuseScenario))[1]? =
      some ([⟨0, -1, 0⟩, ⟨0, 1, 0⟩, ⟨-1, 0, 0⟩], [⟨0, 0, 0⟩]) ∧
    IsSpecialPathAt ReuseScenario ⟨1, 0, 0⟩ = true ∧
    ∀ State ∈ StatePlainKeys (AdvancedAStarStates (ScenarioEngine []) 1 ⟨0, 0, 0⟩ ⟨3, 0, 0⟩ []
        (ReuseSettings ⟨5, 5, 2⟩) ReuseScenario),
      ∀ c ∈ State.1 ++ State.2,
        ¬ HoldsRoom ReuseScenario.LevelTileData c ∧ IsSpecialPathAt ReuseScenario c = false :=
  ⟨by decide!, by decide!,
   C31_plain_nodes_avoid_rooms_and_structures (ScenarioEngine [])
     (scenarioEngine_valueSortPermutes []) 1 ⟨0, 0, 0⟩ ⟨3, 0, 0⟩ [] (ReuseSettings ⟨5, 5, 2⟩)
     ReuseScenario (by decide!) (by decide!)⟩

/-- C31, as stated, fails in two ways.  A search that starts on a tile of an existing
special structure puts its plain starting node into `CLOSED` there; and with the type
`None` enabled as a special path type, the exit of its template is added to `OPEN`
as a node of type `None` without the checks of the plain neighbours, here on the
room cell (2,0,0). -/
theorem C31_counterexample :
    (¬ HoldsRoom ReuseScenario.LevelTileData ⟨1, 0, 0⟩ ∧
      ¬ HoldsRoom ReuseScenario.LevelTileData ⟨3, 0, 0⟩ ∧
      IsSpecialPathAt ReuseScenario ⟨1, 0, 0⟩ = true ∧
      (StatePlainKeys (AdvancedAStarStates (ScenarioEngine []) 1 ⟨1, 0, 0⟩ ⟨3, 0, 0⟩ []
        (PlainSettings ⟨5, 5, 1⟩) ReuseScenario)).head? = some ([], [⟨1, 0, 0⟩])) ∧
    (¬ HoldsRoom RoomBehindCorridor.LevelTileData ⟨0, 0, 0⟩ ∧
      ¬ HoldsRoom RoomBehindCorridor.LevelTileData ⟨4, 4, 0⟩ ∧
      HoldsRoom RoomBehindCorridor.LevelTileData ⟨2, 0, 0⟩ ∧
      (StatePlainKeys (AdvancedAStarStates (ScenarioEngine []) 1 ⟨0, 0, 0⟩ ⟨4, 4, 0⟩ []
        (NoneEnabledSettings ⟨5, 5, 1⟩) RoomBehindCorridor))[1]? =
        some ([⟨0, -1, 0⟩, ⟨0, -2, 0⟩, ⟨1, 0, 0⟩, ⟨2, 0, 0⟩, ⟨0, 1, 0⟩, ⟨0, 2, 0⟩, ⟨-1, 0, 0⟩,
          ⟨-2, 0, 0⟩], [⟨0, 0, 0⟩])) := by
  refine ⟨⟨?_, ?_, ?_, ?_⟩, ?_, ?_, ?_, ?_⟩ <;> decide!

end LevelGen

namespace LevelGen

/-! ## The quad-edge heap -/

theorem setNext_length (Heap : List FQuarterEdge) (Edge Value : Nat) :
    (SetNext Heap Edge Value).length = Heap.length := by
  simp [SetNext]

theorem setData_length (Heap : List FQuarterEdge) (Edge : Nat) (Value : FVector) :
    (SetData Heap Edge Value).length = Heap.length := by
  simp [SetData]

theorem quarterEdgeAt_set (Heap : List FQuarterEdge) (Edge : Nat) (q : FQuarterEdge)
    (hEdge : Edge < Heap.length) (x : Nat) :
    QuarterEdgeAt (Heap.set Edge q) x = if x = Edge then q else QuarterEdgeAt Heap x := by
  unfold QuarterEdgeAt
  by_cases hx : x = Edge
  · subst hx
    simp [List.getD_eq_getElem?_getD, hEdge]
  · simp [List.getD_eq_getElem?_getD, hx, List.getElem?_set, Ne.symm hx]

theorem nextOf_setNext (Heap : List FQuarterEdge) (Edge Value : Nat)
    (hEdge : Edge < Heap.length) (x : Nat) :
    NextOf (SetNext Heap Edge Value) x = if x = Edge then Value else NextOf Heap x := by
  unfold NextOf SetNext
  rw [quarterEdgeAt_set Heap Edge _ hEdge]
  split_ifs <;> rfl

theorem rotOf_setNext (Heap : List FQuarterEdge) (Edge Value : Nat)
    (hEdge : Edge < Heap.length) (x : Nat) :
    RotOf (SetNext Heap Edge Value) x = RotOf Heap x := by
  unfold RotOf SetNext
  rw [quarterEdgeAt_set Heap Edge _ hEdge]
  split_ifs with h
  · subst h; rfl
  · rfl

theorem dataOf_setNext (Heap : List FQuarterEdge) (Edge Value : Nat)
    (hEdge : Edge < Heap.length) (x : Nat) :
    DataOf (SetNext Heap Edge Value) x = DataOf Heap x := by
  unfold DataOf SetNext
  rw [quarterEdgeAt_set Heap Edge _ hEdge]
  split_ifs with h
  · subst h; rfl
  · rfl

theorem nextOf_setData (Heap : List FQuarterEdge) (Edge : Nat) (Value : FVector)
    (hEdge : Edge < Heap.length) (x : Nat) :
    NextOf (SetData Heap Edge Value) x = NextOf Heap x := by
  unfold NextOf SetData
  rw [quarterEdgeAt_set Heap Edge _ hEdge]
  split_ifs with h
  · subst h; rfl
  · rfl

theorem rotOf_setData (Heap : List FQuarterEdge) (Edge : Nat) (Value : FVector)
    (hEdge : Edge < Heap.length) (x : Nat) :
    RotOf (SetData Heap Edge Value) x = RotOf Heap x := by
  unfold RotOf SetData
  rw [quarterEdgeAt_set Heap Edge _ hEdge]
  split_ifs with h
  · subst h; rfl
  · rfl

theorem dataOf_setData (Heap : List FQuarterEdge) (Edge : Nat) (Value : FVector)
    (hEdge : Edge < Heap.length) (x : Nat) :
    DataOf (SetData Heap Edge Value) x = if x = Edge then Value else DataOf Heap x := by
  unfold DataOf SetData
  rw [quarterEdgeAt_set Heap Edge _ hEdge]
  split_ifs <;> rfl

/-- Two heaps of the same size are the same heap when every read gives the same. -/
theorem heap_ext (Heap1 Heap2 : List FQuarterEdge) (hlen : Heap1.length = Heap2.length)
    (hNext : ∀ x, x < Heap1.length → NextOf Heap1 x = NextOf Heap2 x)
    (hRot : ∀ x, x < Heap1.length → RotOf Heap1 x = RotOf Heap2 x)
    (hData : ∀ x, x < Heap1.length → DataOf Heap1 x = DataOf Heap2 x) : Heap1 = Heap2 := by
  apply List.ext_getElem hlen
  intro x h1 h2
  have e1 : QuarterEdgeAt Heap1 x = Heap1[x] := by
    simp [QuarterEdgeAt, List.getD_eq_getElem?_getD, h1]
  have e2 : QuarterEdgeAt Heap2 x = Heap2[x] := by
    simp [QuarterEdgeAt, List.getD_eq_getElem?_getD, h2]
  have hn := hNext x h1
  have hr := hRot x h1
  have hd := hData x h1
  unfold NextOf at hn
  unfold RotOf at hr
  unfold DataOf at hd
  rw [e1, e2] at hn hr hd
  cases hq1 : Heap1[x] with
  | mk d1 n1 r1 =>
    cases hq2 : Heap2[x] with
    | mk d2 n2 r2 =>
      rw [hq1, hq2] at hn hr hd
      simp only at hn hr hd
      rw [hn, hr, hd]

theorem swapNexts_length (Heap : List FQuarterEdge) (a b : Nat) :
    (SwapNexts Heap a b).length = Heap.length := by
  simp [SwapNexts, setNext_length]

theorem nextOf_swapNexts (Heap : List FQuarterEdge) (a b : Nat) (ha : a < Heap.length)
    (hb : b < Heap.length) (x : Nat) :
    NextOf (SwapNexts Heap a b) x = NextOf Heap (Equiv.swap a b x) := by
  unfold SwapNexts
  simp only
  rw [nextOf_setNext _ _ _ (by rw [setNext_length]; exact hb), nextOf_setNext _ _ _ ha]
  rw [Equiv.swap_apply_def]
  by_cases hxb : x = b
  · subst hxb
    by_cases hxa : x = a
    · subst hxa; simp
    · simp [hxa]
  · by_cases hxa : x = a
    · subst hxa; simp [hxb]
    · simp [hxa, hxb]

theorem rotOf_swapNexts (Heap : List FQuarterEdge) (a b : Nat) (ha : a < Heap.length)
    (hb : b < Heap.length) (x : Nat) : RotOf (SwapNexts Heap a b) x = RotOf Heap x := by
  unfold SwapNexts
  simp only
  rw [rotOf_setNext _ _ _ (by rw [setNext_length]; exact hb), rotOf_setNext _ _ _ ha]

theorem dataOf_swapNexts (Heap : List FQuarterEdge) (a b : Nat) (ha : a < Heap.length)
    (hb : b < Heap.length) (x : Nat) : DataOf (SwapNexts Heap a b) x = DataOf Heap x := by
  unfold SwapNexts
  simp only
  rw [dataOf_setNext _ _ _ (by rw [setNext_length]; exact hb), dataOf_setNext _ _ _ ha]

theorem splice_length (Heap : List FQuarterEdge) (a b : Nat) :
    (Splice Heap a b).length = Heap.length := by
  simp [Splice, swapNexts_length]

/-- The pointers `Next` after `Splice`, when the four quarter edges it writes to are
in the heap. -/
theorem nextOf_splice (Heap : List FQuarterEdge) (a b : Nat) (ha : a < Heap.length)
    (hb : b < Heap.length) (hα : RotOf Heap (NextOf Heap a) < Heap.length)
    (hβ : RotOf Heap (NextOf Heap b) < Heap.length) (x : Nat) :
    NextOf (Splice Heap a b) x =
      NextOf Heap (Equiv.swap (RotOf Heap (NextOf Heap a)) (RotOf Heap (NextOf Heap b))
        (Equiv.swap a b x)) := by
  unfold Splice
  simp only
  rw [nextOf_swapNexts _ _ _ (by rw [swapNexts_length]; exact ha)
    (by rw [swapNexts_length]; exact hb), nextOf_swapNexts _ _ _ hα hβ]

theorem rotOf_splice (Heap : List FQuarterEdge) (a b : Nat) (ha : a < Heap.length)
    (hb : b < Heap.length) (hα : RotOf Heap (NextOf Heap a) < Heap.length)
    (hβ : RotOf Heap (NextOf Heap b) < Heap.length) (x : Nat) :
    RotOf (Splice Heap a b) x = RotOf Heap x := by
  unfold Splice
  simp only
  rw [rotOf_swapNexts _ _ _ (by rw [swapNexts_length]; exact ha)
    (by rw [swapNexts_length]; exact hb), rotOf_swapNexts _ _ _ hα hβ]

theorem dataOf_splice (Heap : List FQuarterEdge) (a b : Nat) (ha : a < Heap.length)
    (hb : b < Heap.length) (hα : RotOf Heap (NextOf Heap a) < Heap.length)
    (hβ : RotOf Heap (NextOf Heap b) < Heap.length) (x : Nat) :
    DataOf (Splice Heap a b) x = DataOf Heap x := by
  unfold Splice
  simp only
  rw [dataOf_swapNexts _ _ _ (by rw [swapNexts_length]; exact ha)
    (by rw [swapNexts_length]; exact hb), dataOf_swapNexts _ _ _ hα hβ]

theorem quarterEdgeAt_append_left (Heap Tail : List FQuarterEdge) (x : Nat)
    (hx : x < Heap.length) : QuarterEdgeAt (Heap ++ Tail) x = QuarterEdgeAt Heap x := by
  unfold QuarterEdgeAt
  simp [List.getD_eq_getElem?_getD, List.getElem?_append_left hx]

theorem quarterEdgeAt_append_right (Heap Tail : List FQuarterEdge) (i : Nat) :
    QuarterEdgeAt (Heap ++ Tail) (Heap.length + i) = QuarterEdgeAt Tail i := by
  unfold QuarterEdgeAt
  simp [List.getD_eq_getElem?_getD, List.getElem?_append_right]

theorem makeQuadEdge_length (Heap : List FQuarterEdge) (Start End : FVector) :
    (MakeQuadEdge Heap Start End).1.length = Heap.length + 4 := by
  simp [MakeQuadEdge]

theorem makeQuadEdge_old (Heap : List FQuarterEdge) (Start End : FVector) (x : Nat)
    (hx : x < Heap.length) :
    QuarterEdgeAt (MakeQuadEdge Heap Start End).1 x = QuarterEdgeAt Heap x := by
  unfold MakeQuadEdge
  exact quarterEdgeAt_append_left _ _ x hx

/-- What `MakeQuadEdge` writes into the four objects it allocates. -/
theorem makeQuadEdge_new (Heap : List FQuarterEdge) (Start End : FVector) :
    QuarterEdgeAt (MakeQuadEdge Heap Start End).1 Heap.length =
        ⟨Start, Heap.length, Heap.length + 1⟩ ∧
      QuarterEdgeAt (MakeQuadEdge Heap Start End).1 (Heap.length + 1) =
        ⟨⟨0, 0, 0⟩, Heap.length + 3, Heap.length + 2⟩ ∧
      QuarterEdgeAt (MakeQuadEdge Heap Start End).1 (Heap.length + 2) =
        ⟨End, Heap.length + 2, Heap.length + 3⟩ ∧
      QuarterEdgeAt (MakeQuadEdge Heap Start End).1 (Heap.length + 3) =
        ⟨⟨0, 0, 0⟩, Heap.length + 1, Heap.length⟩ := by
  unfold MakeQuadEdge
  refine ⟨?_, ?_, ?_, ?_⟩
  · have := quarterEdgeAt_append_right Heap
      [⟨Start, Heap.length, Heap.length + 1⟩, ⟨⟨0, 0, 0⟩, Heap.length + 3, Heap.length + 2⟩,
       ⟨End, Heap.length + 2, Heap.length + 3⟩, ⟨⟨0, 0, 0⟩, Heap.length + 1, Heap.length⟩] 0
    simpa [QuarterEdgeAt] using this
  · rw [quarterEdgeAt_append_right]; rfl
  · rw [quarterEdgeAt_append_right]; rfl
  · rw [quarterEdgeAt_append_right]; rfl

theorem swap_lt {n a b x : Nat} (ha : a < n) (hb : b < n) (hx : x < n) :
    Equiv.swap a b x < n := by
  rw [Equiv.swap_apply_def]
  split_ifs <;> assumption

theorem swap_parity {a b : Nat} (hab : a % 2 = b % 2) (x : Nat) :
    Equiv.swap a b x % 2 = x % 2 := by
  rw [Equiv.swap_apply_def]
  split_ifs with h1 h2
  · rw [h1, hab]
  · rw [h2, hab]
  · rfl

theorem swap_of_parity {a b x : Nat} (hab : a % 2 = b % 2) (hx : x % 2 ≠ a % 2) :
    Equiv.swap a b x = x := by
  apply Equiv.swap_apply_of_ne_of_ne
  · intro h; exact hx (by rw [h])
  · intro h; exact hx (by rw [h, hab])

theorem parity_succ_ne (x : Nat) : (x + 1) % 2 ≠ x % 2 := by omega

/-! ## The edge algebra that `Splice` keeps -/

theorem HasEdgeAlgebra.rot_mem {Heap : List FQuarterEdge} (h : HasEdgeAlgebra Heap) {x : Nat}
    (hx : x < Heap.length) : RotOf Heap x < Heap.length := (h x hx).1

theorem HasEdgeAlgebra.next_mem {Heap : List FQuarterEdge} (h : HasEdgeAlgebra Heap) {x : Nat}
    (hx : x < Heap.length) : NextOf Heap x < Heap.length := (h x hx).2.1

theorem HasEdgeAlgebra.rot_cycle {Heap : List FQuarterEdge} (h : HasEdgeAlgebra Heap) {x : Nat}
    (hx : x < Heap.length) : RotOf Heap (RotOf Heap (RotOf Heap (RotOf Heap x))) = x :=
  (h x hx).2.2.1

theorem HasEdgeAlgebra.next_rot_loop {Heap : List FQuarterEdge} (h : HasEdgeAlgebra Heap)
    {x : Nat} (hx : x < Heap.length) :
    NextOf Heap (RotOf Heap (NextOf Heap (RotOf Heap x))) = x :=
  (h x hx).2.2.2

/-- The step `Next` then `Rot`, twice, leads back. -/
theorem HasEdgeAlgebra.step_step {Heap : List FQuarterEdge} (h : HasEdgeAlgebra Heap) {x : Nat}
    (hx : x < Heap.length) : RotOf Heap (NextOf Heap (RotOf Heap (NextOf Heap x))) = x := by
  have h3 : RotOf Heap (RotOf Heap (RotOf Heap x)) < Heap.length :=
    h.rot_mem (h.rot_mem (h.rot_mem hx))
  have h1 := h.next_rot_loop h3
  rw [h.rot_cycle hx] at h1
  rw [h1]
  exact h.rot_cycle hx

theorem HasEdgeAlgebra.step_mem {Heap : List FQuarterEdge} (h : HasEdgeAlgebra Heap) {x : Nat}
    (hx : x < Heap.length) : RotOf Heap (NextOf Heap x) < Heap.length :=
  h.rot_mem (h.next_mem hx)

theorem HasEdgeAlgebra.step_inj {Heap : List FQuarterEdge} (h : HasEdgeAlgebra Heap) {x y : Nat}
    (hx : x < Heap.length) (hy : y < Heap.length)
    (hxy : RotOf Heap (NextOf Heap x) = RotOf Heap (NextOf Heap y)) : x = y := by
  rw [← h.step_step hx, ← h.step_step hy, hxy]

/-- The swap of the quarter edges `Splice` reaches over `Next` and `Rot` is the swap
of its arguments, seen through the step `Next` then `Rot`. -/
theorem HasEdgeAlgebra.swap_step {Heap : List FQuarterEdge} (h : HasEdgeAlgebra Heap)
    {a b y : Nat} (ha : a < Heap.length) (hb : b < Heap.length) (hy : y < Heap.length) :
    Equiv.swap (RotOf Heap (NextOf Heap a)) (RotOf Heap (NextOf Heap b)) y =
      RotOf Heap (NextOf Heap (Equiv.swap a b (RotOf Heap (NextOf Heap y)))) := by
  have hyy := h.step_step hy
  by_cases h1 : RotOf Heap (NextOf Heap y) = a
  · rw [h1, Equiv.swap_apply_left]
    have : y = RotOf Heap (NextOf Heap a) := by rw [← h1, hyy]
    rw [this, Equiv.swap_apply_left]
  · by_cases h2 : RotOf Heap (NextOf Heap y) = b
    · rw [h2, Equiv.swap_apply_right]
      have : y = RotOf Heap (NextOf Heap b) := by rw [← h2, hyy]
      rw [this, Equiv.swap_apply_right]
    · rw [Equiv.swap_apply_of_ne_of_ne h1 h2, hyy]
      apply Equiv.swap_apply_of_ne_of_ne
      · intro hc
        apply h1
        rw [hc, h.step_step ha]
      · intro hc
        apply h2
        rw [hc, h.step_step hb]

theorem HasEdgeAlgebra.splice_next_eq {Heap : List FQuarterEdge} (h : HasEdgeAlgebra Heap)
    {a b : Nat} (ha : a < Heap.length) (hb : b < Heap.length) (x : Nat) :
    NextOf (Splice Heap a b) x =
      NextOf Heap (Equiv.swap (RotOf Heap (NextOf Heap a)) (RotOf Heap (NextOf Heap b))
        (Equiv.swap a b x)) :=
  nextOf_splice Heap a b ha hb (h.step_mem ha) (h.step_mem hb) x

theorem HasEdgeAlgebra.splice_rot_eq {Heap : List FQuarterEdge} (h : HasEdgeAlgebra Heap)
    {a b : Nat} (ha : a < Heap.length) (hb : b < Heap.length) (x : Nat) :
    RotOf (Splice Heap a b) x = RotOf Heap x :=
  rotOf_splice Heap a b ha hb (h.step_mem ha) (h.step_mem hb) x

theorem HasEdgeAlgebra.splice_data_eq {Heap : List FQuarterEdge} (h : HasEdgeAlgebra Heap)
    {a b : Nat} (ha : a < Heap.length) (hb : b < Heap.length) (x : Nat) :
    DataOf (Splice Heap a b) x = DataOf Heap x :=
  dataOf_splice Heap a b ha hb (h.step_mem ha) (h.step_mem hb) x

/-- After `Splice(a, b)` the step `Next` then `Rot` is the old step between two
swaps of `a` and `b`. -/
theorem HasEdgeAlgebra.splice_step {Heap : List FQuarterEdge} (h : HasEdgeAlgebra Heap)
    {a b x : Nat} (ha : a < Heap.length) (hb : b < Heap.length) (hx : x < Heap.length) :
    RotOf (Splice Heap a b) (NextOf (Splice Heap a b) x) =
      Equiv.swap a b (RotOf Heap (NextOf Heap (Equiv.swap a b x))) := by
  have hu : Equiv.swap a b x < Heap.length := swap_lt ha hb hx
  rw [h.splice_rot_eq ha hb, h.splice_next_eq ha hb, h.swap_step ha hb hu]
  exact h.step_step (swap_lt ha hb (h.step_mem hu))

/-- `Splice` on two quarter edges of the heap keeps this part of the edge algebra. -/
theorem HasEdgeAlgebra.splice_keeps {Heap : List FQuarterEdge} (h : HasEdgeAlgebra Heap)
    {a b : Nat} (ha : a < Heap.length) (hb : b < Heap.length) :
    HasEdgeAlgebra (Splice Heap a b) := by
  intro x hx
  rw [splice_length] at hx
  rw [splice_length]
  have hR : ∀ z, RotOf (Splice Heap a b) z = RotOf Heap z := fun z => h.splice_rot_eq ha hb z
  have hN : NextOf (Splice Heap a b) x < Heap.length := by
    rw [h.splice_next_eq ha hb]
    exact h.next_mem (swap_lt (h.step_mem ha) (h.step_mem hb) (swap_lt ha hb hx))
  have r1 := h.rot_mem hx
  have r2 := h.rot_mem r1
  have r3 := h.rot_mem r2
  refine ⟨by rw [hR]; exact r1, hN, by simp only [hR]; exact h.rot_cycle hx, ?_⟩
  -- the step, twice, leads back; turn the loop by one `Rot`
  have hstep : ∀ y, y < Heap.length →
      RotOf (Splice Heap a b) (NextOf (Splice Heap a b)
        (RotOf (Splice Heap a b) (NextOf (Splice Heap a b) y))) = y := by
    intro y hy
    rw [h.splice_step ha hb hy,
      h.splice_step ha hb (swap_lt ha hb (h.step_mem (swap_lt ha hb hy))),
      Equiv.swap_apply_self, h.step_step (swap_lt ha hb hy), Equiv.swap_apply_self]
  have hloop := hstep (RotOf Heap x) r1
  have hin : NextOf (Splice Heap a b) (RotOf (Splice Heap a b)
      (NextOf (Splice Heap a b) (RotOf Heap x))) < Heap.length := by
    rw [h.splice_next_eq ha hb]
    apply h.next_mem
    apply swap_lt (h.step_mem ha) (h.step_mem hb)
    apply swap_lt ha hb
    rw [hR, h.splice_next_eq ha hb]
    exact h.step_mem (swap_lt (h.step_mem ha) (h.step_mem hb) (swap_lt ha hb r1))
  have hcycle := h.rot_cycle hin
  rw [hR] at hloop
  rw [hloop] at hcycle
  rw [hR x, ← hcycle]
  exact h.rot_cycle hx

/-- `MakeQuadEdge` keeps this part of the edge algebra. -/
theorem HasEdgeAlgebra.makeQuadEdge_keeps {Heap : List FQuarterEdge} (h : HasEdgeAlgebra Heap)
    (Start End : FVector) : HasEdgeAlgebra (MakeQuadEdge Heap Start End).1 := by
  obtain ⟨n0, n1, n2, n3⟩ := makeQuadEdge_new Heap Start End
  have hold := makeQuadEdge_old Heap Start End
  intro x hx
  rw [makeQuadEdge_length] at hx
  rw [makeQuadEdge_length]
  by_cases hlt : x < Heap.length
  · have hR : ∀ z, z < Heap.length →
        RotOf (MakeQuadEdge Heap Start End).1 z = RotOf Heap z := by
      intro z hz; unfold RotOf; rw [hold z hz]
    have hN : ∀ z, z < Heap.length →
        NextOf (MakeQuadEdge Heap Start End).1 z = NextOf Heap z := by
      intro z hz; unfold NextOf; rw [hold z hz]
    have r1 := h.rot_mem hlt
    have r2 := h.rot_mem r1
    have r3 := h.rot_mem r2
    have m1 := h.next_mem r1
    have m2 := h.rot_mem m1
    rw [hR x hlt, hR _ r1, hR _ r2, hR _ r3, hN x hlt, hN _ r1, hR _ m1, hN _ m2]
    exact ⟨by omega, by have := h.next_mem hlt; omega, h.rot_cycle hlt, h.next_rot_loop hlt⟩
  · have hcases : x = Heap.length ∨ x = Heap.length + 1 ∨ x = Heap.length + 2 ∨
        x = Heap.length + 3 := by omega
    rcases hcases with rfl | rfl | rfl | rfl <;>
      simp only [RotOf, NextOf, n0, n1, n2, n3] <;>
      refine ⟨?_, ?_, ?_, ?_⟩ <;> first | trivial | omega

/-- Every heap built with `MakeQuadEdge` and `Splice` has this part of the edge
algebra. -/
theorem IsQuadEdgeMesh.edgeAlgebra {Heap : List FQuarterEdge} (h : IsQuadEdgeMesh Heap) :
    HasEdgeAlgebra Heap := by
  induction h with
  | empty => intro x hx; cases hx
  | make Heap Start End _ ih => exact ih.makeQuadEdge_keeps Start End
  | splice Heap a b _ ha hb ih => exact ih.splice_keeps ha hb

theorem swap_swap_apply (a b u v x : Nat) :
    Equiv.swap (Equiv.swap a b u) (Equiv.swap a b v) (Equiv.swap a b x) =
      Equiv.swap a b (Equiv.swap u v x) :=
  (Equiv.swap a b).injective.swap_apply u v x

/-- `Splice` twice on the same two quarter edges gives the heap back. -/
theorem HasEdgeAlgebra.splice_twice {Heap : List FQuarterEdge} (h : HasEdgeAlgebra Heap)
    {a b : Nat} (ha : a < Heap.length) (hb : b < Heap.length) :
    Splice (Splice Heap a b) a b = Heap := by
  have h1 := h.splice_keeps ha hb
  have ha1 : a < (Splice Heap a b).length := by rw [splice_length]; exact ha
  have hb1 : b < (Splice Heap a b).length := by rw [splice_length]; exact hb
  apply heap_ext
  · rw [splice_length, splice_length]
  · intro x hx
    rw [h1.splice_next_eq ha1 hb1, h.splice_step ha hb ha, h.splice_step ha hb hb,
      Equiv.swap_apply_left, Equiv.swap_apply_right, swap_swap_apply,
      h.splice_next_eq ha hb, Equiv.swap_apply_self,
      Equiv.swap_comm (RotOf Heap (NextOf Heap a)), Equiv.swap_apply_self]
  · intro x _
    rw [h1.splice_rot_eq ha1 hb1, h.splice_rot_eq ha hb]
  · intro x _
    rw [h1.splice_data_eq ha1 hb1, h.splice_data_eq ha hb]

/-- C39: on every heap built with `MakeQuadEdge` and `Splice`, and for every two
quarter edges `a` and `b` of it, primal or not, `Splice(a, b)` called twice gives
back the heap it started from, so every pointer `Next` is restored; and one call of
`Splice(a, b)` changes no pointer `Rot` and no `Data`. -/
theorem C39_splice_is_its_own_inverse (Heap : List FQuarterEdge) (a b : Nat)
    (hMesh : IsQuadEdgeMesh Heap) (ha : a < Heap.length) (hb : b < Heap.length) :
    Splice (Splice Heap a b) a b = Heap ∧
    (∀ x, NextOf (Splice (Splice Heap a b) a b) x = NextOf Heap x) ∧
    (∀ x, RotOf (Splice Heap a b) x = RotOf Heap x) ∧
    (∀ x, DataOf (Splice Heap a b) x = DataOf Heap x) := by
  have h := hMesh.edgeAlgebra
  have hback := h.splice_twice ha hb
  refine ⟨hback, ?_, ?_, ?_⟩
  · intro x
    rw [hback]
  · intro x
    exact h.splice_rot_eq ha hb x
  · intro x
    exact h.splice_data_eq ha hb x

theorem HasEdgeAlgebra.sym_mem {Heap : List FQuarterEdge} (h : HasEdgeAlgebra Heap) {x : Nat}
    (hx : x < Heap.length) : SymmetricEdge Heap x < Heap.length :=
  h.rot_mem (h.rot_mem hx)

theorem makeTriangle_isQuadEdgeMesh (Heap : List FQuarterEdge) (A B C : FVector)
    (h : IsQuadEdgeMesh Heap) : IsQuadEdgeMesh (MakeTriangle Heap A B C).1 := by
  have h1 := IsQuadEdgeMesh.make Heap A B h
  have h2 := IsQuadEdgeMesh.make _ B C h1
  have h3 := IsQuadEdgeMesh.make _ C A h2
  have l1 := makeQuadEdge_length Heap A B
  have l2 := makeQuadEdge_length (MakeQuadEdge Heap A B).1 B C
  have l3 := makeQuadEdge_length (MakeQuadEdge (MakeQuadEdge Heap A B).1 B C).1 C A
  have pab : (MakeQuadEdge Heap A B).2 <
      (MakeQuadEdge (MakeQuadEdge (MakeQuadEdge Heap A B).1 B C).1 C A).1.length := by
    rw [l3, l2, l1]; show Heap.length < _; omega
  have pbc : (MakeQuadEdge (MakeQuadEdge Heap A B).1 B C).2 <
      (MakeQuadEdge (MakeQuadEdge (MakeQuadEdge Heap A B).1 B C).1 C A).1.length := by
    rw [l3, l2]; show (MakeQuadEdge Heap A B).1.length < _; omega
  have pca : (MakeQuadEdge (MakeQuadEdge (MakeQuadEdge Heap A B).1 B C).1 C A).2 <
      (MakeQuadEdge (MakeQuadEdge (MakeQuadEdge Heap A B).1 B C).1 C A).1.length := by
    rw [l3]; show (MakeQuadEdge (MakeQuadEdge Heap A B).1 B C).1.length < _; omega
  have keep : ∀ (H : List FQuarterEdge) (a b x : Nat), x < H.length →
      x < (Splice H a b).length := by
    intro H a b x hx
    rw [splice_length]; exact hx
  have h4 := IsQuadEdgeMesh.splice _ _ _ h3 (h3.edgeAlgebra.sym_mem pab) pbc
  have h5 := IsQuadEdgeMesh.splice _ _ _ h4
    (h4.edgeAlgebra.sym_mem (keep _ _ _ _ pbc)) (keep _ _ _ _ pca)
  have h6 := IsQuadEdgeMesh.splice _ _ _ h5
    (h5.edgeAlgebra.sym_mem (keep _ _ _ _ (keep _ _ _ _ pca)))
    (keep _ _ _ _ (keep _ _ _ _ pab))
  exact h6

theorem singleTriangle_isQuadEdgeMesh : IsQuadEdgeMesh SingleTriangle :=
  makeTriangle_isQuadEdgeMesh [] _ _ _ IsQuadEdgeMesh.empty

theorem C39_witness :
    IsQuadEdgeMesh SingleTriangle ∧ 0 < SingleTriangle.length ∧ 6 < SingleTriangle.length ∧
    (List.range 12).map (NextOf SingleTriangle) = [10, 9, 4, 7, 2, 1, 8, 11, 6, 5, 0, 3] ∧
    (List.range 12).map (NextOf (Splice SingleTriangle 0 6)) =
      [8, 9, 4, 7, 2, 1, 10, 11, 6, 3, 0, 5] ∧
    Splice (Splice SingleTriangle 0 6) 0 6 = SingleTriangle ∧
    (∀ x, NextOf (Splice (Splice SingleTriangle 0 6) 0 6) x = NextOf SingleTriangle x) ∧
    (∀ x, RotOf (Splice SingleTriangle 0 6) x = RotOf SingleTriangle x) ∧
    (∀ x, DataOf (Splice SingleTriangle 0 6) x = DataOf SingleTriangle x) :=
  ⟨singleTriangle_isQuadEdgeMesh, by decide, by decide, by decide!, by decide!,
   C39_splice_is_its_own_inverse SingleTriangle 0 6 singleTriangle_isQuadEdgeMesh
     (by decide) (by decide)⟩

/-! ## Well formed heaps -/

theorem WellFormed.rot_lt {Heap : List FQuarterEdge} (h : WellFormed Heap) {x : Nat}
    (hx : x < Heap.length) : RotOf Heap x < Heap.length := (h x hx).1

theorem WellFormed.next_lt {Heap : List FQuarterEdge} (h : WellFormed Heap) {x : Nat}
    (hx : x < Heap.length) : NextOf Heap x < Heap.length := (h x hx).2.1

theorem WellFormed.rot_parity {Heap : List FQuarterEdge} (h : WellFormed Heap) {x : Nat}
    (hx : x < Heap.length) : RotOf Heap x % 2 = (x + 1) % 2 := (h x hx).2.2.1

theorem WellFormed.next_parity {Heap : List FQuarterEdge} (h : WellFormed Heap) {x : Nat}
    (hx : x < Heap.length) : NextOf Heap x % 2 = x % 2 := (h x hx).2.2.2.1

theorem WellFormed.rot_four {Heap : List FQuarterEdge} (h : WellFormed Heap) {x : Nat}
    (hx : x < Heap.length) : RotOf Heap (RotOf Heap (RotOf Heap (RotOf Heap x))) = x :=
  (h x hx).2.2.2.2.1

theorem WellFormed.next_rot_next_rot {Heap : List FQuarterEdge} (h : WellFormed Heap) {x : Nat}
    (hx : x < Heap.length) : NextOf Heap (RotOf Heap (NextOf Heap (RotOf Heap x))) = x :=
  (h x hx).2.2.2.2.2

/-- The step `Next` then `Rot`, twice, leads back. -/
theorem WellFormed.rot_next_rot_next {Heap : List FQuarterEdge} (h : WellFormed Heap) {x : Nat}
    (hx : x < Heap.length) : RotOf Heap (NextOf Heap (RotOf Heap (NextOf Heap x))) = x := by
  have h3 : RotOf Heap (RotOf Heap (RotOf Heap x)) < Heap.length :=
    h.rot_lt (h.rot_lt (h.rot_lt hx))
  have h1 := h.next_rot_next_rot h3
  rw [h.rot_four hx] at h1
  rw [h1]
  exact h.rot_four hx

theorem WellFormed.rot_injective {Heap : List FQuarterEdge} (h : WellFormed Heap) {x y : Nat}
    (hx : x < Heap.length) (hy : y < Heap.length) (hxy : RotOf Heap x = RotOf Heap y) :
    x = y := by
  rw [← h.rot_four hx, ← h.rot_four hy, hxy]

theorem WellFormed.next_injective {Heap : List FQuarterEdge} (h : WellFormed Heap) {x y : Nat}
    (hx : x < Heap.length) (hy : y < Heap.length) (hxy : NextOf Heap x = NextOf Heap y) :
    x = y := by
  rw [← h.rot_next_rot_next hx, ← h.rot_next_rot_next hy, hxy]

/-- The swap of the quarter edges `Splice` reaches over `Next` and `Rot` is the swap
of its arguments, seen through the step `Next` then `Rot`. -/
theorem WellFormed.swap_conj {Heap : List FQuarterEdge} (h : WellFormed Heap) {a b y : Nat}
    (ha : a < Heap.length) (hb : b < Heap.length) (hy : y < Heap.length) :
    Equiv.swap (RotOf Heap (NextOf Heap a)) (RotOf Heap (NextOf Heap b)) y =
      RotOf Heap (NextOf Heap (Equiv.swap a b (RotOf Heap (NextOf Heap y)))) := by
  have hgy : RotOf Heap (NextOf Heap y) < Heap.length := h.rot_lt (h.next_lt hy)
  have hinj : ∀ u v, u < Heap.length → v < Heap.length →
      RotOf Heap (NextOf Heap u) = RotOf Heap (NextOf Heap v) → u = v := by
    intro u v hu hv huv
    exact h.next_injective hu hv (h.rot_injective (h.next_lt hu) (h.next_lt hv) huv)
  have hyy := h.rot_next_rot_next hy
  by_cases h1 : RotOf Heap (NextOf Heap y) = a
  · rw [h1, Equiv.swap_apply_left]
    have : y = RotOf Heap (NextOf Heap a) := by rw [← h1, hyy]
    rw [this, Equiv.swap_apply_left]
  · by_cases h2 : RotOf Heap (NextOf Heap y) = b
    · rw [h2, Equiv.swap_apply_right]
      have : y = RotOf Heap (NextOf Heap b) := by rw [← h2, hyy]
      rw [this, Equiv.swap_apply_right]
    · rw [Equiv.swap_apply_of_ne_of_ne h1 h2, hyy]
      apply Equiv.swap_apply_of_ne_of_ne
      · intro hc
        apply h1
        rw [hc, h.rot_next_rot_next ha]
      · intro hc
        apply h2
        rw [hc, h.rot_next_rot_next hb]

/-- The pointers `Next` after `Splice` on two quarter edges of a well formed heap. -/
theorem WellFormed.splice_next {Heap : List FQuarterEdge} (h : WellFormed Heap) {a b : Nat}
    (ha : a < Heap.length) (hb : b < Heap.length) (x : Nat) :
    NextOf (Splice Heap a b) x =
      NextOf Heap (Equiv.swap (RotOf Heap (NextOf Heap a)) (RotOf Heap (NextOf Heap b))
        (Equiv.swap a b x)) :=
  LevelGen.nextOf_splice Heap a b ha hb (h.rot_lt (h.next_lt ha)) (h.rot_lt (h.next_lt hb)) x

theorem WellFormed.splice_rot {Heap : List FQuarterEdge} (h : WellFormed Heap) {a b : Nat}
    (ha : a < Heap.length) (hb : b < Heap.length) (x : Nat) :
    RotOf (Splice Heap a b) x = RotOf Heap x :=
  LevelGen.rotOf_splice Heap a b ha hb (h.rot_lt (h.next_lt ha)) (h.rot_lt (h.next_lt hb)) x

theorem WellFormed.splice_data {Heap : List FQuarterEdge} (h : WellFormed Heap) {a b : Nat}
    (ha : a < Heap.length) (hb : b < Heap.length) (x : Nat) :
    DataOf (Splice Heap a b) x = DataOf Heap x :=
  LevelGen.dataOf_splice Heap a b ha hb (h.rot_lt (h.next_lt ha)) (h.rot_lt (h.next_lt hb)) x

/-- After `Splice` on two quarter edges of the same kind, `Next` at a quarter edge
of that kind reads the old `Next` at the swapped quarter edge. -/
theorem WellFormed.splice_next_same {Heap : List FQuarterEdge} (h : WellFormed Heap)
    {a b x : Nat} (ha : a < Heap.length) (hb : b < Heap.length) (hab : a % 2 = b % 2)
    (hx : x % 2 = a % 2) :
    NextOf (Splice Heap a b) x = NextOf Heap (Equiv.swap a b x) := by
  rw [h.splice_next ha hb]
  congr 1
  apply swap_of_parity
  · rw [h.rot_parity (h.next_lt ha), h.rot_parity (h.next_lt hb), Nat.add_mod,
      h.next_parity ha, ← Nat.add_mod, Nat.add_mod (NextOf Heap b), h.next_parity hb,
      ← Nat.add_mod]
    omega
  · rw [swap_parity hab, h.rot_parity (h.next_lt ha)]
    have := h.next_parity ha
    omega

/-- After `Splice` on two quarter edges of the same kind, `Next` at a quarter edge
of the other kind reads the old `Next` behind the swap of the two quarter edges
reached over `Next` and `Rot`. -/
theorem WellFormed.splice_next_other {Heap : List FQuarterEdge} (h : WellFormed Heap)
    {a b x : Nat} (ha : a < Heap.length) (hb : b < Heap.length) (hab : a % 2 = b % 2)
    (hx : x % 2 ≠ a % 2) :
    NextOf (Splice Heap a b) x =
      NextOf Heap (Equiv.swap (RotOf Heap (NextOf Heap a)) (RotOf Heap (NextOf Heap b)) x) := by
  rw [h.splice_next ha hb, swap_of_parity hab hx]

theorem WellFormed.step_parity {Heap : List FQuarterEdge} (h : WellFormed Heap) {x : Nat}
    (hx : x < Heap.length) : RotOf Heap (NextOf Heap x) % 2 = (x + 1) % 2 := by
  rw [h.rot_parity (h.next_lt hx)]
  have := h.next_parity hx
  omega

/-- `Splice` on two quarter edges of the same kind keeps the edge algebra. -/
theorem WellFormed.splice {Heap : List FQuarterEdge} (h : WellFormed Heap) {a b : Nat}
    (ha : a < Heap.length) (hb : b < Heap.length) (hab : a % 2 = b % 2) :
    WellFormed (Splice Heap a b) := by
  have hα := h.rot_lt (h.next_lt ha)
  have hβ := h.rot_lt (h.next_lt hb)
  have hαβ : RotOf Heap (NextOf Heap a) % 2 = RotOf Heap (NextOf Heap b) % 2 := by
    rw [h.step_parity ha, h.step_parity hb]
    omega
  intro x hx
  rw [splice_length] at hx
  have hR : ∀ z, RotOf (Splice Heap a b) z = RotOf Heap z := fun z => h.splice_rot ha hb z
  rw [splice_length]
  simp only [hR]
  refine ⟨h.rot_lt hx, ?_, h.rot_parity hx, ?_, h.rot_four hx, ?_⟩
  · rw [h.splice_next ha hb]
    exact h.next_lt (swap_lt hα hβ (swap_lt ha hb hx))
  · rw [h.splice_next ha hb, h.next_parity (swap_lt hα hβ (swap_lt ha hb hx)),
      swap_parity hαβ, swap_parity hab]
  · have hRx := h.rot_lt hx
    by_cases hp : x % 2 = a % 2
    · have hRp : RotOf Heap x % 2 ≠ a % 2 := by
        rw [h.rot_parity hx]
        omega
      rw [h.splice_next_other ha hb hab hRp, h.swap_conj ha hb hRx]
      have hu : Equiv.swap a b (RotOf Heap (NextOf Heap (RotOf Heap x))) < Heap.length :=
        swap_lt ha hb (h.rot_lt (h.next_lt hRx))
      rw [h.rot_next_rot_next hu]
      have hup : Equiv.swap a b (RotOf Heap (NextOf Heap (RotOf Heap x))) % 2 = a % 2 := by
        rw [swap_parity hab, h.step_parity hRx]
        have := h.rot_parity hx
        omega
      rw [h.splice_next_same ha hb hab hup, Equiv.swap_apply_self]
      exact h.next_rot_next_rot hx
    · have hRp : RotOf Heap x % 2 = a % 2 := by
        rw [h.rot_parity hx]
        omega
      rw [h.splice_next_same ha hb hab hRp]
      have hu : Equiv.swap a b (RotOf Heap x) < Heap.length := swap_lt ha hb hRx
      have hgu : RotOf Heap (NextOf Heap (Equiv.swap a b (RotOf Heap x))) < Heap.length :=
        h.rot_lt (h.next_lt hu)
      have hgp : RotOf Heap (NextOf Heap (Equiv.swap a b (RotOf Heap x))) % 2 ≠ a % 2 := by
        rw [h.step_parity hu]
        have := swap_parity hab (RotOf Heap x)
        omega
      rw [h.splice_next_other ha hb hab hgp, h.swap_conj ha hb hgu,
        h.rot_next_rot_next hu, Equiv.swap_apply_self]
      exact h.next_rot_next_rot hx

/-- `MakeQuadEdge` keeps the edge algebra. -/
theorem WellFormed.makeQuadEdge {Heap : List FQuarterEdge} (h : WellFormed Heap)
    (Start End : FVector) : WellFormed (MakeQuadEdge Heap Start End).1 := by
  obtain ⟨n0, n1, n2, n3⟩ := makeQuadEdge_new Heap Start End
  have hold := makeQuadEdge_old Heap Start End
  intro x hx
  rw [makeQuadEdge_length] at hx
  rw [makeQuadEdge_length]
  by_cases hlt : x < Heap.length
  · have hR : ∀ z, z < Heap.length →
        RotOf (MakeQuadEdge Heap Start End).1 z = RotOf Heap z := by
      intro z hz; unfold RotOf; rw [hold z hz]
    have hN : ∀ z, z < Heap.length →
        NextOf (MakeQuadEdge Heap Start End).1 z = NextOf Heap z := by
      intro z hz; unfold NextOf; rw [hold z hz]
    have r1 := h.rot_lt hlt
    have r2 := h.rot_lt r1
    have r3 := h.rot_lt r2
    have m1 := h.next_lt r1
    have m2 := h.rot_lt m1
    rw [hR x hlt, hR _ r1, hR _ r2, hR _ r3, hN x hlt, hN _ r1, hR _ m1, hN _ m2]
    exact ⟨by omega, by have := h.next_lt hlt; omega, h.rot_parity hlt, h.next_parity hlt,
      h.rot_four hlt, h.next_rot_next_rot hlt⟩
  · have hcases : x = Heap.length ∨ x = Heap.length + 1 ∨ x = Heap.length + 2 ∨
        x = Heap.length + 3 := by omega
    rcases hcases with rfl | rfl | rfl | rfl <;>
      simp only [RotOf, NextOf, n0, n1, n2, n3] <;>
      refine ⟨?_, ?_, ?_, ?_, ?_, ?_⟩ <;> first | trivial | omega

theorem wellFormed_nil : WellFormed [] := by
  intro x hx
  cases hx

end LevelGen

namespace LevelGen

/-! ## Flipping an edge between two triangles -/

theorem WellFormed.sym_lt {Heap : List FQuarterEdge} (h : WellFormed Heap) {x : Nat}
    (hx : x < Heap.length) : SymmetricEdge Heap x < Heap.length :=
  h.rot_lt (h.rot_lt hx)

theorem WellFormed.sym_parity {Heap : List FQuarterEdge} (h : WellFormed Heap) {x : Nat}
    (hx : x < Heap.length) : SymmetricEdge Heap x % 2 = x % 2 := by
  unfold SymmetricEdge
  rw [h.rot_parity (h.rot_lt hx)]
  have := h.rot_parity hx
  omega

theorem WellFormed.sym_sym {Heap : List FQuarterEdge} (h : WellFormed Heap) {x : Nat}
    (hx : x < Heap.length) : SymmetricEdge Heap (SymmetricEdge Heap x) = x :=
  h.rot_four hx

theorem WellFormed.lnext_lt {Heap : List FQuarterEdge} (h : WellFormed Heap) {x : Nat}
    (hx : x < Heap.length) : LNext Heap x < Heap.length :=
  h.rot_lt (h.next_lt (h.rot_lt (h.rot_lt (h.rot_lt hx))))

theorem WellFormed.lnext_parity {Heap : List FQuarterEdge} (h : WellFormed Heap) {x : Nat}
    (hx : x < Heap.length) : LNext Heap x % 2 = x % 2 := by
  unfold LNext ReverseRotate
  have r1 := h.rot_lt hx
  have r2 := h.rot_lt r1
  have r3 := h.rot_lt r2
  rw [h.step_parity r3, Nat.add_mod, h.rot_parity r2, ← Nat.add_mod]
  have p1 := h.rot_parity hx
  have p2 := h.rot_parity r1
  omega

/-- In a well formed heap `Previous` is `LNext` of the symmetric edge. -/
theorem WellFormed.previous_eq {Heap : List FQuarterEdge} (h : WellFormed Heap) {x : Nat}
    (hx : x < Heap.length) : Previous Heap x = LNext Heap (SymmetricEdge Heap x) := by
  unfold Previous LNext ReverseRotate SymmetricEdge
  rw [h.rot_four (h.rot_lt hx)]

/-- `Splice` on two quarter edges of one kind swaps the two in the values of `LNext`
at the quarter edges of that kind. -/
theorem WellFormed.lnext_splice {Heap : List FQuarterEdge} (h : WellFormed Heap)
    {a b z : Nat} (ha : a < Heap.length) (hb : b < Heap.length) (hab : a % 2 = b % 2)
    (hz : z < Heap.length) (hp : z % 2 = a % 2) :
    LNext (Splice Heap a b) z = Equiv.swap a b (LNext Heap z) := by
  unfold LNext ReverseRotate
  simp only [h.splice_rot ha hb]
  have r1 := h.rot_lt hz
  have r2 := h.rot_lt r1
  have r3 := h.rot_lt r2
  have hw : RotOf Heap (RotOf Heap (RotOf Heap z)) % 2 ≠ a % 2 := by
    rw [h.rot_parity r2]
    have p1 := h.rot_parity hz
    have p2 := h.rot_parity r1
    omega
  rw [h.splice_next_other ha hb hab hw, h.swap_conj ha hb r3]
  exact h.rot_next_rot_next (swap_lt ha hb (h.rot_lt (h.next_lt r3)))

theorem WellFormed.setData {Heap : List FQuarterEdge} (h : WellFormed Heap) {x : Nat}
    (hx : x < Heap.length) (v : FVector) : WellFormed (SetData Heap x v) := by
  intro y hy
  rw [setData_length] at hy
  rw [setData_length]
  simp only [rotOf_setData _ _ _ hx, nextOf_setData _ _ _ hx]
  exact h y hy

theorem lnext_setData (Heap : List FQuarterEdge) (x : Nat) (hx : x < Heap.length)
    (v : FVector) (z : Nat) : LNext (SetData Heap x v) z = LNext Heap z := by
  unfold LNext ReverseRotate
  simp only [rotOf_setData _ _ _ hx, nextOf_setData _ _ _ hx]

theorem symmetricEdge_of_rot (Heap1 Heap2 : List FQuarterEdge)
    (hRot : ∀ x, RotOf Heap1 x = RotOf Heap2 x) (x : Nat) :
    SymmetricEdge Heap1 x = SymmetricEdge Heap2 x := by
  unfold SymmetricEdge
  rw [hRot, hRot]

/-- Two well formed heaps of the same size with the same pointers `Rot` and the same
`LNext` at the quarter edges of one kind have the same pointers `Next`. -/
theorem WellFormed.next_of_lnext {Heap1 Heap2 : List FQuarterEdge} (h1 : WellFormed Heap1)
    (h2 : WellFormed Heap2) (hlen : Heap1.length = Heap2.length)
    (hRot : ∀ x, RotOf Heap1 x = RotOf Heap2 x) (p : Nat)
    (hL : ∀ z, z < Heap1.length → z % 2 = p % 2 → LNext Heap1 z = LNext Heap2 z) :
    ∀ x, x < Heap1.length → NextOf Heap1 x = NextOf Heap2 x := by
  have hother : ∀ x, x < Heap1.length → x % 2 ≠ p % 2 → NextOf Heap1 x = NextOf Heap2 x := by
    intro x hx hxp
    have hz : RotOf Heap1 x < Heap1.length := h1.rot_lt hx
    have hzp : RotOf Heap1 x % 2 = p % 2 := by
      rw [h1.rot_parity hx]
      omega
    have hl := hL _ hz hzp
    unfold LNext ReverseRotate at hl
    simp only [← hRot] at hl
    rw [h1.rot_four hx] at hl
    have hx2 : x < Heap2.length := hlen ▸ hx
    exact h1.rot_injective (h1.next_lt hx) (hlen ▸ h2.next_lt hx2) hl
  intro x hx
  by_cases hxp : x % 2 = p % 2
  · have hN := h2.next_lt (hlen ▸ hx : x < Heap2.length)
    have hN1 : NextOf Heap2 x < Heap1.length := hlen ▸ hN
    have hR1 : RotOf Heap1 (NextOf Heap2 x) < Heap1.length := h1.rot_lt hN1
    have hRp : RotOf Heap1 (NextOf Heap2 x) % 2 ≠ p % 2 := by
      rw [h1.rot_parity hN1]
      have := h2.next_parity (hlen ▸ hx : x < Heap2.length)
      omega
    have hprev : RotOf Heap1 (NextOf Heap1 (RotOf Heap1 (NextOf Heap2 x))) = x := by
      rw [hother _ hR1 hRp, hRot, hRot]
      exact h2.rot_next_rot_next (hlen ▸ hx)
    have := h1.next_rot_next_rot hN1
    rw [hprev] at this
    exact this
  · exact hother x hx hxp

/-- An edge `e` between two triangles: `s` is its symmetric edge, `b` and `c`
follow `e` around the face on its left, `a` and `d` follow `s` around the face on
its right, and the six are different quarter edges. -/
structure FlipConfig (Heap : List FQuarterEdge) (e s a b c d : Nat) : Prop where
  wf : WellFormed Heap
  he : e < Heap.length
  sym : SymmetricEdge Heap e = s
  fs : LNext Heap s = a
  fa : LNext Heap a = d
  fd : LNext Heap d = s
  fe : LNext Heap e = b
  fb : LNext Heap b = c
  fc : LNext Heap c = e
  distinct : [e, b, c, s, a, d].Nodup

theorem FlipConfig.of_faces {Heap : List FQuarterEdge} {e : Nat} (h : WellFormed Heap)
    (he : e < Heap.length) (hf : FacesAreTriangles Heap e) :
    FlipConfig Heap e (SymmetricEdge Heap e) (LNext Heap (SymmetricEdge Heap e))
      (LNext Heap e) (LNext Heap (LNext Heap e))
      (LNext Heap (LNext Heap (SymmetricEdge Heap e))) :=
  { wf := h, he := he, sym := rfl, fs := rfl, fa := rfl, fd := hf.2.1, fe := rfl, fb := rfl,
    fc := hf.1, distinct := hf.2.2 }


theorem FlipConfig.bounds {Heap : List FQuarterEdge} {e s a b c d : Nat}
    (k : FlipConfig Heap e s a b c d) :
    (s < Heap.length ∧ a < Heap.length ∧ b < Heap.length ∧ c < Heap.length ∧
      d < Heap.length) ∧
    (s % 2 = e % 2 ∧ a % 2 = e % 2 ∧ b % 2 = e % 2 ∧ c % 2 = e % 2 ∧ d % 2 = e % 2) := by
  have h := k.wf
  have hs : s < Heap.length := k.sym ▸ h.sym_lt k.he
  have ha : a < Heap.length := k.fs ▸ h.lnext_lt hs
  have hd : d < Heap.length := k.fa ▸ h.lnext_lt ha
  have hb : b < Heap.length := k.fe ▸ h.lnext_lt k.he
  have hc : c < Heap.length := k.fb ▸ h.lnext_lt hb
  have ps : s % 2 = e % 2 := k.sym ▸ h.sym_parity k.he
  have pa : a % 2 = e % 2 := by rw [← k.fs, h.lnext_parity hs, ps]
  have pd : d % 2 = e % 2 := by rw [← k.fa, h.lnext_parity ha, pa]
  have pb : b % 2 = e % 2 := by rw [← k.fe, h.lnext_parity k.he]
  have pc : c % 2 = e % 2 := by rw [← k.fb, h.lnext_parity hb, pb]
  exact ⟨⟨hs, ha, hb, hc, hd⟩, ps, pa, pb, pc, pd⟩

set_option maxHeartbeats 2000000 in
/-- What `Flip` does to an edge between two triangles: the edge turns inside the
quadrilateral of the two, so that the quarter edges around it move on by one place;
`LNext` changes by four swaps, the edge and its symmetric edge get the far corners
as `Data`, and no pointer `Rot` changes. -/
theorem FlipConfig.flip {Heap : List FQuarterEdge} {e s a b c d : Nat}
    (k : FlipConfig Heap e s a b c d) :
    FlipConfig (Flip Heap e) e s d c a b ∧
    (Flip Heap e).length = Heap.length ∧
    (∀ x, RotOf (Flip Heap e) x = RotOf Heap x) ∧
    (∀ z, z < Heap.length → z % 2 = e % 2 →
      LNext (Flip Heap e) z =
        Equiv.swap s c (Equiv.swap e d (Equiv.swap s b (Equiv.swap e a (LNext Heap z))))) ∧
    (∀ x, DataOf (Flip Heap e) x =
      if x = s then DataOf Heap (SymmetricEdge Heap b)
      else if x = e then DataOf Heap (SymmetricEdge Heap a) else DataOf Heap x) := by
  have h := k.wf
  have he := k.he
  obtain ⟨⟨hs, ha, hb, hc, hd⟩, ps, pa, pb, pc, pd⟩ := k.bounds
  have hdist := k.distinct
  simp only [List.nodup_cons, List.mem_cons, List.mem_singleton, not_or, List.not_mem_nil,
    not_false_eq_true, List.nodup_nil, and_true] at hdist
  obtain ⟨⟨n_eb, n_ec, n_es, n_ea, n_ed⟩, ⟨n_bc, n_bs, n_ba, n_bd⟩, ⟨n_cs, n_ca, n_cd⟩,
    ⟨n_sa, n_sd⟩, n_ad⟩ := hdist
  have hse : SymmetricEdge Heap s = e := by rw [← k.sym]; exact h.sym_sym he
  have hA : Previous Heap e = a := by rw [h.previous_eq he, k.sym, k.fs]
  have hB : Previous Heap (SymmetricEdge Heap e) = b := by
    rw [k.sym, h.previous_eq hs, hse, k.fe]
  -- the four calls of `Splice`
  obtain ⟨H1, hH1⟩ : ∃ H1, H1 = Splice Heap e a := ⟨_, rfl⟩
  have w1 : WellFormed H1 := hH1 ▸ h.splice he ha pa.symm
  have l1 : H1.length = Heap.length := by rw [hH1, splice_length]
  have r1 : ∀ x, RotOf H1 x = RotOf Heap x := fun x => by rw [hH1]; exact h.splice_rot he ha x
  have d1 : ∀ x, DataOf H1 x = DataOf Heap x := fun x => by
    rw [hH1]; exact h.splice_data he ha x
  have f1 : ∀ z, z < Heap.length → z % 2 = e % 2 →
      LNext H1 z = Equiv.swap e a (LNext Heap z) := fun z hz hp => by
    rw [hH1]; exact h.lnext_splice he ha pa.symm hz hp
  have s1 : SymmetricEdge H1 e = s := by rw [symmetricEdge_of_rot H1 Heap r1, k.sym]
  obtain ⟨H2, hH2⟩ : ∃ H2, H2 = Splice H1 s b := ⟨_, rfl⟩
  have hs1 : s < H1.length := l1 ▸ hs
  have hb1 : b < H1.length := l1 ▸ hb
  have w2 : WellFormed H2 := hH2 ▸ w1.splice hs1 hb1 (by rw [ps, pb])
  have l2 : H2.length = Heap.length := by rw [hH2, splice_length, l1]
  have r2 : ∀ x, RotOf H2 x = RotOf Heap x := fun x => by
    rw [hH2, w1.splice_rot hs1 hb1, r1]
  have d2 : ∀ x, DataOf H2 x = DataOf Heap x := fun x => by
    rw [hH2, w1.splice_data hs1 hb1, d1]
  have f2 : ∀ z, z < Heap.length → z % 2 = e % 2 →
      LNext H2 z = Equiv.swap s b (Equiv.swap e a (LNext Heap z)) := fun z hz hp => by
    rw [hH2, w1.lnext_splice hs1 hb1 (by rw [ps, pb]) (l1 ▸ hz) (by rw [hp, ps]), f1 z hz hp]
  have hLa : LNext H2 a = d := by
    rw [f2 a ha pa, k.fa, Equiv.swap_apply_of_ne_of_ne (Ne.symm n_ed) (Ne.symm n_ad),
      Equiv.swap_apply_of_ne_of_ne (Ne.symm n_sd) (Ne.symm n_bd)]
  obtain ⟨H3, hH3⟩ : ∃ H3, H3 = Splice H2 e d := ⟨_, rfl⟩
  have he2 : e < H2.length := l2 ▸ he
  have hd2 : d < H2.length := l2 ▸ hd
  have w3 : WellFormed H3 := hH3 ▸ w2.splice he2 hd2 pd.symm
  have l3 : H3.length = Heap.length := by rw [hH3, splice_length, l2]
  have r3 : ∀ x, RotOf H3 x = RotOf Heap x := fun x => by
    rw [hH3, w2.splice_rot he2 hd2, r2]
  have d3 : ∀ x, DataOf H3 x = DataOf Heap x := fun x => by
    rw [hH3, w2.splice_data he2 hd2, d2]
  have f3 : ∀ z, z < Heap.length → z % 2 = e % 2 →
      LNext H3 z = Equiv.swap e d (Equiv.swap s b (Equiv.swap e a (LNext Heap z))) :=
    fun z hz hp => by
      rw [hH3, w2.lnext_splice he2 hd2 pd.symm (l2 ▸ hz) hp, f2 z hz hp]
  have s3 : SymmetricEdge H3 e = s := by rw [symmetricEdge_of_rot H3 Heap r3, k.sym]
  have hLb : LNext H3 b = c := by
    rw [f3 b hb pb, k.fb, Equiv.swap_apply_of_ne_of_ne (Ne.symm n_ec) n_ca,
      Equiv.swap_apply_of_ne_of_ne n_cs (Ne.symm n_bc),
      Equiv.swap_apply_of_ne_of_ne (Ne.symm n_ec) n_cd]
  obtain ⟨H4, hH4⟩ : ∃ H4, H4 = Splice H3 s c := ⟨_, rfl⟩
  have hs3 : s < H3.length := l3 ▸ hs
  have hc3 : c < H3.length := l3 ▸ hc
  have w4 : WellFormed H4 := hH4 ▸ w3.splice hs3 hc3 (by rw [ps, pc])
  have l4 : H4.length = Heap.length := by rw [hH4, splice_length, l3]
  have r4 : ∀ x, RotOf H4 x = RotOf Heap x := fun x => by
    rw [hH4, w3.splice_rot hs3 hc3, r3]
  have d4 : ∀ x, DataOf H4 x = DataOf Heap x := fun x => by
    rw [hH4, w3.splice_data hs3 hc3, d3]
  have f4 : ∀ z, z < Heap.length → z % 2 = e % 2 →
      LNext H4 z =
        Equiv.swap s c (Equiv.swap e d (Equiv.swap s b (Equiv.swap e a (LNext Heap z)))) :=
    fun z hz hp => by
      rw [hH4, w3.lnext_splice hs3 hc3 (by rw [ps, pc]) (l3 ▸ hz) (by rw [hp, ps]), f3 z hz hp]
  -- the two writes of `Data`
  obtain ⟨H5, hH5⟩ : ∃ H5, H5 = SetData H4 e (Destination H4 a) := ⟨_, rfl⟩
  have he4 : e < H4.length := l4 ▸ he
  have l5 : H5.length = Heap.length := by rw [hH5, setData_length, l4]
  have r5 : ∀ x, RotOf H5 x = RotOf Heap x := fun x => by
    rw [hH5, rotOf_setData _ _ _ he4, r4]
  have s5 : SymmetricEdge H5 e = s := by rw [symmetricEdge_of_rot H5 Heap r5, k.sym]
  have hs5 : s < H5.length := l5 ▸ hs
  have hflip : Flip Heap e = SetData H5 s (Destination H5 b) := by
    unfold Flip
    simp only
    rw [hA, hB, ← hH1, s1, ← hH2, hLa, ← hH3, s3, hLb, ← hH4, ← hH5, s5]
  have hDa : Destination H4 a = DataOf Heap (SymmetricEdge Heap a) := by
    unfold Destination
    rw [symmetricEdge_of_rot H4 Heap r4, d4]
  have hDb : Destination H5 b = DataOf Heap (SymmetricEdge Heap b) := by
    unfold Destination
    rw [symmetricEdge_of_rot H5 Heap r5, hH5, dataOf_setData _ _ _ he4, d4]
    have hne : SymmetricEdge Heap b ≠ e := by
      intro hc2
      have := h.sym_sym hb
      rw [hc2, k.sym] at this
      exact n_bs this.symm
    rw [if_neg hne]
  have w6 : WellFormed (Flip Heap e) := by
    rw [hflip]
    exact (hH5 ▸ w4.setData he4 _ : WellFormed H5).setData hs5 _
  have l6 : (Flip Heap e).length = Heap.length := by rw [hflip, setData_length, l5]
  have r6 : ∀ x, RotOf (Flip Heap e) x = RotOf Heap x := fun x => by
    rw [hflip, rotOf_setData _ _ _ hs5, r5]
  have f6 : ∀ z, z < Heap.length → z % 2 = e % 2 →
      LNext (Flip Heap e) z =
        Equiv.swap s c (Equiv.swap e d (Equiv.swap s b (Equiv.swap e a (LNext Heap z)))) :=
    fun z hz hp => by
      rw [hflip, lnext_setData _ _ hs5, hH5, lnext_setData _ _ he4, f4 z hz hp]
  refine ⟨?_, l6, r6, f6, ?_⟩
  · refine { wf := w6, he := by rw [l6]; exact he, sym := ?_, fs := ?_, fa := ?_, fd := ?_, fe := ?_,
             fb := ?_, fc := ?_, distinct := ?_ }
    · rw [symmetricEdge_of_rot _ Heap r6, k.sym]
    · rw [f6 s hs ps, k.fs]
      simp [Equiv.swap_apply_def, n_eb, n_ec, n_es, n_ea, n_ed, n_bc, n_bs, n_ba, n_bd, n_cs,
        n_ca, n_cd, n_sa, n_sd, n_ad, Ne.symm n_eb, Ne.symm n_ec, Ne.symm n_es, Ne.symm n_ea,
        Ne.symm n_ed, Ne.symm n_bc, Ne.symm n_bs, Ne.symm n_ba, Ne.symm n_bd, Ne.symm n_cs,
        Ne.symm n_ca, Ne.symm n_cd, Ne.symm n_sa, Ne.symm n_sd, Ne.symm n_ad]
    · rw [f6 d hd pd, k.fd]
      simp [Equiv.swap_apply_def, n_eb, n_ec, n_es, n_ea, n_ed, n_bc, n_bs, n_ba, n_bd, n_cs,
        n_ca, n_cd, n_sa, n_sd, n_ad, Ne.symm n_eb, Ne.symm n_ec, Ne.symm n_es, Ne.symm n_ea,
        Ne.symm n_ed, Ne.symm n_bc, Ne.symm n_bs, Ne.symm n_ba, Ne.symm n_bd, Ne.symm n_cs,
        Ne.symm n_ca, Ne.symm n_cd, Ne.symm n_sa, Ne.symm n_sd, Ne.symm n_ad]
    · rw [f6 b hb pb, k.fb]
      simp [Equiv.swap_apply_def, n_eb, n_ec, n_es, n_ea, n_ed, n_bc, n_bs, n_ba, n_bd, n_cs,
        n_ca, n_cd, n_sa, n_sd, n_ad, Ne.symm n_eb, Ne.symm n_ec, Ne.symm n_es, Ne.symm n_ea,
        Ne.symm n_ed, Ne.symm n_bc, Ne.symm n_bs, Ne.symm n_ba, Ne.symm n_bd, Ne.symm n_cs,
        Ne.symm n_ca, Ne.symm n_cd, Ne.symm n_sa, Ne.symm n_sd, Ne.symm n_ad]
    · rw [f6 e he rfl, k.fe]
      simp [Equiv.swap_apply_def, n_eb, n_ec, n_es, n_ea, n_ed, n_bc, n_bs, n_ba, n_bd, n_cs,
        n_ca, n_cd, n_sa, n_sd, n_ad, Ne.symm n_eb, Ne.symm n_ec, Ne.symm n_es, Ne.symm n_ea,
        Ne.symm n_ed, Ne.symm n_bc, Ne.symm n_bs, Ne.symm n_ba, Ne.symm n_bd, Ne.symm n_cs,
        Ne.symm n_ca, Ne.symm n_cd, Ne.symm n_sa, Ne.symm n_sd, Ne.symm n_ad]
    · rw [f6 c hc pc, k.fc]
      simp [Equiv.swap_apply_def, n_eb, n_ec, n_es, n_ea, n_ed, n_bc, n_bs, n_ba, n_bd, n_cs,
        n_ca, n_cd, n_sa, n_sd, n_ad, Ne.symm n_eb, Ne.symm n_ec, Ne.symm n_es, Ne.symm n_ea,
        Ne.symm n_ed, Ne.symm n_bc, Ne.symm n_bs, Ne.symm n_ba, Ne.symm n_bd, Ne.symm n_cs,
        Ne.symm n_ca, Ne.symm n_cd, Ne.symm n_sa, Ne.symm n_sd, Ne.symm n_ad]
    · rw [f6 a ha pa, k.fa]
      simp [Equiv.swap_apply_def, n_eb, n_ec, n_es, n_ea, n_ed, n_bc, n_bs, n_ba, n_bd, n_cs,
        n_ca, n_cd, n_sa, n_sd, n_ad, Ne.symm n_eb, Ne.symm n_ec, Ne.symm n_es, Ne.symm n_ea,
        Ne.symm n_ed, Ne.symm n_bc, Ne.symm n_bs, Ne.symm n_ba, Ne.symm n_bd, Ne.symm n_cs,
        Ne.symm n_ca, Ne.symm n_cd, Ne.symm n_sa, Ne.symm n_sd, Ne.symm n_ad]
    · simp only [List.nodup_cons, List.mem_cons, List.mem_singleton, not_or, List.not_mem_nil,
        not_false_eq_true, List.nodup_nil, and_true]
      exact ⟨⟨n_ec, n_ea, n_es, n_ed, n_eb⟩, ⟨n_ca, n_cs, n_cd, Ne.symm n_bc⟩,
        ⟨Ne.symm n_sa, n_ad, Ne.symm n_ba⟩, ⟨n_sd, Ne.symm n_bs⟩, Ne.symm n_bd⟩
  · intro x
    rw [hflip, dataOf_setData _ _ _ hs5, hDb, hH5, dataOf_setData _ _ _ he4, hDa, d4]


/-- In a well formed heap, `Next` of the quarter edge that `LNext` reaches from `x` is
the symmetric edge of `x`. -/
theorem WellFormed.next_lnext {Heap : List FQuarterEdge} (h : WellFormed Heap) {x : Nat}
    (hx : x < Heap.length) : NextOf Heap (LNext Heap x) = SymmetricEdge Heap x := by
  have hs := h.sym_lt hx
  have h1 := h.previous_eq hs
  rw [h.sym_sym hx] at h1
  rw [← h1]
  exact h.next_rot_next_rot hs

theorem swap_swap_comm {x y u v : Nat} (hxu : x ≠ u) (hxv : x ≠ v) (hyu : y ≠ u) (hyv : y ≠ v)
    (w : Nat) : Equiv.swap x y (Equiv.swap u v w) = Equiv.swap u v (Equiv.swap x y w) := by
  by_cases h1 : w = u
  · subst h1
    rw [Equiv.swap_apply_left, Equiv.swap_apply_of_ne_of_ne hxv.symm hyv.symm,
      Equiv.swap_apply_of_ne_of_ne hxu.symm hyu.symm, Equiv.swap_apply_left]
  · by_cases h2 : w = v
    · subst h2
      rw [Equiv.swap_apply_right, Equiv.swap_apply_of_ne_of_ne hxu.symm hyu.symm,
        Equiv.swap_apply_of_ne_of_ne hxv.symm hyv.symm, Equiv.swap_apply_right]
    · rw [Equiv.swap_apply_of_ne_of_ne h1 h2]
      by_cases h3 : w = x
      · subst h3
        rw [Equiv.swap_apply_left, Equiv.swap_apply_of_ne_of_ne hyu hyv]
      · by_cases h4 : w = y
        · subst h4
          rw [Equiv.swap_apply_right, Equiv.swap_apply_of_ne_of_ne hxu hxv]
        · rw [Equiv.swap_apply_of_ne_of_ne h3 h4, Equiv.swap_apply_of_ne_of_ne h1 h2]

theorem swap_pair_cancel {x y u v : Nat} (hxu : x ≠ u) (hxv : x ≠ v) (hyu : y ≠ u)
    (hyv : y ≠ v) (w : Nat) :
    Equiv.swap x y (Equiv.swap u v (Equiv.swap x y (Equiv.swap u v w))) = w := by
  rw [swap_swap_comm hxu hxv hyu hyv, Equiv.swap_apply_self, Equiv.swap_apply_self]

/-- The sixteen swaps of four calls of `Flip` cancel. -/
theorem sixteen_swaps (e s a b c d w : Nat) (hd : [e, b, c, s, a, d].Nodup) :
    Equiv.swap s b (Equiv.swap e a (Equiv.swap s d (Equiv.swap e c
      (Equiv.swap s d (Equiv.swap e c (Equiv.swap s a (Equiv.swap e b
        (Equiv.swap s a (Equiv.swap e b (Equiv.swap s c (Equiv.swap e d
          (Equiv.swap s c (Equiv.swap e d (Equiv.swap s b (Equiv.swap e a w)))))))))))))))
      = w := by
  simp only [List.nodup_cons, List.mem_cons, List.mem_singleton, not_or, List.not_mem_nil,
    not_false_eq_true, List.nodup_nil, and_true] at hd
  obtain ⟨⟨n_eb, n_ec, n_es, n_ea, n_ed⟩, ⟨n_bc, n_bs, n_ba, n_bd⟩, ⟨n_cs, n_ca, n_cd⟩,
    ⟨n_sa, n_sd⟩, n_ad⟩ := hd
  rw [swap_pair_cancel (Ne.symm n_es) n_sd (Ne.symm n_ec) n_cd,
    swap_pair_cancel (Ne.symm n_es) (Ne.symm n_bs) (Ne.symm n_ea) (Ne.symm n_ba),
    swap_pair_cancel (Ne.symm n_es) (Ne.symm n_cs) (Ne.symm n_ed) (Ne.symm n_cd),
    swap_pair_cancel (Ne.symm n_es) n_sa (Ne.symm n_eb) n_ba]

/-- C40: for every primal edge `e` of a well formed quad-edge heap whose vertices
agree and whose two faces next to `e` are triangles, `Flip` applied to `e` four
times gives back the heap it started from: every pointer `Next` and every `Data`,
those of `e` and of its symmetric edge among them.  `MakeQuadEdge`, and `Splice`
on two quarter edges of the same kind, keep a heap well formed. -/
theorem C40_four_flips_restore_the_mesh (Heap : List FQuarterEdge) (e : Nat)
    (hMesh : WellFormed Heap) (hVertices : VerticesAgree Heap) (he : IsPrimal Heap e)
    (hFaces : FacesAreTriangles Heap e) :
    Flip (Flip (Flip (Flip Heap e) e) e) e = Heap := by
  have k0 := FlipConfig.of_faces hMesh he.1 hFaces
  obtain ⟨⟨hs, ha, hb, hc, hd⟩, ps, pa, pb, pc, pd⟩ := k0.bounds
  obtain ⟨k1, l1, r1, f1, D1⟩ := k0.flip
  obtain ⟨k2, l2, r2, f2, D2⟩ := k1.flip
  obtain ⟨k3, l3, r3, f3, D3⟩ := k2.flip
  obtain ⟨k4, l4, r4, f4, D4⟩ := k3.flip
  have hlen : (Flip (Flip (Flip (Flip Heap e) e) e) e).length = Heap.length := by
    rw [l4, l3, l2, l1]
  have hRot : ∀ x, RotOf (Flip (Flip (Flip (Flip Heap e) e) e) e) x = RotOf Heap x := by
    intro x
    rw [r4, r3, r2, r1]
  have hsym1 := symmetricEdge_of_rot _ Heap r1
  have hsym2 := symmetricEdge_of_rot _ Heap (fun x => (r2 x).trans (r1 x))
  have hsym3 := symmetricEdge_of_rot _ Heap (fun x => (r3 x).trans ((r2 x).trans (r1 x)))
  have hdist := k0.distinct
  have hdist2 := hdist
  simp only [List.nodup_cons, List.mem_cons, List.mem_singleton, not_or, List.not_mem_nil,
    not_false_eq_true, List.nodup_nil, and_true] at hdist2
  obtain ⟨⟨n_eb, n_ec, n_es, n_ea, n_ed⟩, ⟨n_bc, n_bs, n_ba, n_bd⟩, ⟨n_cs, n_ca, n_cd⟩,
    ⟨n_sa, n_sd⟩, n_ad⟩ := hdist2
  have hse : SymmetricEdge Heap (SymmetricEdge Heap e) = e := hMesh.sym_sym he.1
  -- the symmetric edges of the two far quarter edges are neither `e` nor its symmetric edge
  have far : ∀ y, y < Heap.length → y ≠ e → y ≠ SymmetricEdge Heap e →
      SymmetricEdge Heap y ≠ e ∧ SymmetricEdge Heap y ≠ SymmetricEdge Heap e := by
    intro y hy h1 h2
    constructor
    · intro hc2
      apply h2
      rw [← hc2, hMesh.sym_sym hy]
    · intro hc2
      apply h1
      rw [← hMesh.sym_sym hy, hc2, hse]
  have keep : ∀ y, y ≠ e → y ≠ SymmetricEdge Heap e →
      DataOf (Flip (Flip (Flip Heap e) e) e) y = DataOf Heap y := by
    intro y h1 h2
    rw [D3, if_neg h2, if_neg h1, D2, if_neg h2, if_neg h1, D1, if_neg h2, if_neg h1]
  apply heap_ext _ _ hlen
  · apply WellFormed.next_of_lnext k4.wf hMesh hlen hRot e
    intro z hz hp
    rw [hlen] at hz
    rw [f4 z (by rw [l3, l2, l1]; exact hz) hp, f3 z (by rw [l2, l1]; exact hz) hp,
      f2 z (by rw [l1]; exact hz) hp, f1 z hz hp]
    exact sixteen_swaps _ _ _ _ _ _ _ hdist
  · intro x _
    exact hRot x
  · intro x _
    rw [D4, hsym3, hsym3]
    by_cases hxs : x = SymmetricEdge Heap e
    · rw [if_pos hxs]
      obtain ⟨q1, q2⟩ := far _ hd (Ne.symm n_ed) (Ne.symm n_sd)
      rw [keep _ q1 q2, ← hMesh.next_lnext hd, hFaces.2.1, hxs]
      exact hVertices _ hs ((hMesh.sym_parity he.1).trans he.2)
    · rw [if_neg hxs]
      by_cases hxe : x = e
      · rw [if_pos hxe]
        obtain ⟨q1, q2⟩ := far _ hc (Ne.symm n_ec) n_cs
        rw [keep _ q1 q2, ← hMesh.next_lnext hc, hFaces.1, hxe]
        exact hVertices _ he.1 he.2
      · rw [if_neg hxe]
        exact keep x hxe hxs

theorem C40_witness :
    WellFormed TwoTriangles ∧ VerticesAgree TwoTriangles ∧ IsPrimal TwoTriangles 0 ∧
    FacesAreTriangles TwoTriangles 0 ∧
    (DataOf TwoTriangles 0 = ⟨0, 0, 0⟩ ∧ Destination TwoTriangles 0 = ⟨4, 0, 0⟩) ∧
    (DataOf (Flip TwoTriangles 0) 0 = ⟨4, -4, 0⟩ ∧
      Destination (Flip TwoTriangles 0) 0 = ⟨0, 4, 0⟩) ∧
    Flip (Flip TwoTriangles 0) 0 ≠ TwoTriangles ∧
    Flip (Flip (Flip (Flip TwoTriangles 0) 0) 0) 0 = TwoTriangles :=
  ⟨by decide!, by decide!, by decide, by decide!, by decide!, by decide!, by decide!,
   C40_four_flips_restore_the_mesh TwoTriangles 0 (by decide!) (by decide!) (by decide)
     (by decide!)⟩

end LevelGen

namespace LevelGen

/-! ## The triangulation of six points -/

set_option maxRecDepth 100000 in
/-- C24 fails on six points of a grid of 10 by 10: whichever way the ties of the
tests of the plane go, of which this run meets none, `GuibasStolfi` returns the
three sides of the triangle (2,3), (2,8), (8,8), in which no other input point lies,
and the input point (7,4) is strictly inside the circle through its corners.  The
walk around the last point (2,8) flips the edge from (1,3) to (8,8) into the edge
from (2,8) to (2,3) and ends before the edge from (2,3) to (8,8), which the flip
put across from the new point, is tested. -/
theorem C24_triangulation_is_not_delaunay :
    (∀ bTies : Bool,
      TriangulationEdges (ExactPlaneTools bTies) 100 ⟨10, 10, 2⟩ SixGridPoints true =
        some [(⟨7, 4, 0⟩, ⟨0, 2, 0⟩), (⟨2, 8, 0⟩, ⟨8, 8, 0⟩), (⟨8, 8, 0⟩, ⟨2, 3, 0⟩),
          (⟨2, 3, 0⟩, ⟨7, 4, 0⟩), (⟨7, 4, 0⟩, ⟨8, 8, 0⟩), (⟨0, 2, 0⟩, ⟨2, 8, 0⟩),
          (⟨1, 3, 0⟩, ⟨0, 2, 0⟩), (⟨0, 2, 0⟩, ⟨2, 3, 0⟩), (⟨2, 3, 0⟩, ⟨1, 3, 0⟩),
          (⟨2, 8, 0⟩, ⟨2, 3, 0⟩), (⟨1, 3, 0⟩, ⟨2, 8, 0⟩)]) ∧
    (∀ P ∈ SixGridPoints, InClosedTriangle P.toFVector ⟨2, 3, 0⟩ ⟨2, 8, 0⟩ ⟨8, 8, 0⟩ = true →
      P ∈ [(⟨2, 3, 0⟩ : FIntVector), ⟨2, 8, 0⟩, ⟨8, 8, 0⟩]) ∧
    (⟨7, 4, 0⟩ : FIntVector) ∈ SixGridPoints ∧
    StrictlyInCircumcircle ⟨2, 3, 0⟩ ⟨2, 8, 0⟩ ⟨8, 8, 0⟩ ⟨7, 4, 0⟩ := by
  refine ⟨?_, by decide!, by decide, by decide!⟩
  intro bTies
  cases bTies
  · decide!
  · decide!

end LevelGen

namespace LevelGen

/-! ## The walk along the parents of a returned path -/

end LevelGen

namespace LevelGen

/-! ## Rotations with the products taken as floats -/

theorem negateAsFloat_of_isFloat (x : ℤ) (h : IsFloatInt32 x) (hne : x ≠ -2147483648) :
    NegateAsFloat x = -x := by
  obtain ⟨⟨h1, h2⟩, h3⟩ := h
  unfold NegateAsFloat
  rw [h3]
  have h4 : (x : ℚ) * -1 = ((-x : ℤ) : ℚ) := by push_cast; ring
  rw [h4]
  exact floatToInt32_intCast (-x) (by omega) (by omega)

/-- Every integer of absolute value up to 2^24 is an `int32` that a float
represents. -/
theorem isFloatInt32_of_small (x : ℤ) (h : |x| ≤ 16777216) : IsFloatInt32 x := by
  have hb := abs_le.1 h
  refine ⟨⟨by omega, by omega⟩, ?_⟩
  have hn : x.natAbs ≤ 16777216 := by omega
  have hr : RoundToSpacing x.natAbs (Binary32Spacing x.natAbs) = x.natAbs := by
    rcases Nat.lt_or_ge x.natAbs 16777216 with hlt | hge
    · have hs : Binary32Spacing x.natAbs = 1 := by
        unfold Binary32Spacing
        rw [if_pos hlt]
      rw [hs]
      simp [RoundToSpacing, Nat.mod_one]
    · have he : x.natAbs = 16777216 := by omega
      rw [he]
      decide
  have hc : ((x.natAbs : ℕ) : ℚ) = (((x.natAbs : ℕ) : ℤ) : ℚ) := (Int.cast_natCast _).symm
  unfold Int32ToFloat
  simp only [hr]
  split_ifs with hneg
  · have : (x.natAbs : ℤ) = -x := by omega
    rw [hc, this]
    push_cast
    ring
  · have : (x.natAbs : ℤ) = x := by omega
    rw [hc, this]

/-- For coordinates that a float represents, other than the smallest `int32`, the
function with the products taken as floats is the function with the products taken
exactly. -/
theorem rotate_binary32_eq_exact (v : FIntVector) (r : FRotator)
    (hX : IsFloatInt32 v.X) (hY : IsFloatInt32 v.Y)
    (hXm : v.X ≠ -2147483648) (hYm : v.Y ≠ -2147483648) :
    Binary32.RotateIntVectorCoordinatefromOrigin v r =
      RotateIntVectorCoordinatefromOrigin v r := by
  unfold Binary32.RotateIntVectorCoordinatefromOrigin RotateIntVectorCoordinatefromOrigin
  rw [negateAsFloat_of_isFloat _ hX hXm, negateAsFloat_of_isFloat _ hY hYm]
  simp only [mul_neg, mul_one]

end LevelGen

namespace LevelGen

/-! ## Seeded runs and the unassigned direction -/

/-- C13: with `bUsePlayerSeed` set, two runs of `GenerateLevel` on the same settings
(seed 42, grid of 5 by 5 by 2, the staircase template of `StairsSettings` enabled)
and the same layout (rooms at (0,0,1) and (4,0,0)) return different `LevelTileData`
when the local `DirectionToPreviousPath`, which `GenerateNormalPathData` reads
without having assigned it, holds North in one run and West in the other.  Both runs
compute the same tree, the edge from (0,0,1) to (4,0,0), and the same path: the
corridor (3,0,0), the staircase at (2,0,0) and the corridor (1,0,1), committed in that
order.  At (1,0,1), the start of the path, the previous path cell is the section
(2,0,0); the difference (1,0,-1) is no key of `DirectionCoordinates`, so line 1599
assigns nothing and line 1620 adds the adjacent access point under the value the local
happens to hold.  With North the tile at (1,0,1) is a straight corridor of yaw 0, with
West a corner of yaw 180. -/
theorem C13_seeded_runs_differ_in_unassigned_direction :
    (SeededStairsSettings ⟨5, 5, 2⟩).bUsePlayerSeed = true ∧
    (TreeAfter (TwoStoreyRun EDirections.North)).map EdgeEnds =
      some [(⟨0, 0, 1⟩, ⟨4, 0, 0⟩)] ∧
    TreeAfter (TwoStoreyRun EDirections.North) = TreeAfter (TwoStoreyRun EDirections.West) ∧
    TMapFindKey DirectionCoordinates ((⟨2, 0, 0⟩ : FIntVector) - ⟨1, 0, 1⟩) = none ∧
    (TwoStoreyRun EDirections.North).value.map CorridorCells =
      some [(⟨3, 0, 0⟩, [EDirections.North, EDirections.South]), (⟨2, 0, 0⟩, []),
            (⟨1, 0, 1⟩, [EDirections.North, EDirections.South])] ∧
    (TwoStoreyRun EDirections.West).value.map CorridorCells =
      some [(⟨3, 0, 0⟩, [EDirections.North, EDirections.South]), (⟨2, 0, 0⟩, []),
            (⟨1, 0, 1⟩, [EDirections.West, EDirections.South])] ∧
    TileYaws (TwoStoreyRun EDirections.North) =
      some [(⟨0, 0, 1⟩, ETileType.Room_Basic, 0), (⟨4, 0, 0⟩, ETileType.Room_Basic, 0),
            (⟨3, 0, 0⟩, ETileType.Corridor, 0), (⟨2, 0, 0⟩, ETileType.Corridor_Special, 180),
            (⟨1, 0, 1⟩, ETileType.Corridor, 0)] ∧
    TileYaws (TwoStoreyRun EDirections.West) =
      some [(⟨0, 0, 1⟩, ETileType.Room_Basic, 0), (⟨4, 0, 0⟩, ETileType.Room_Basic, 0),
            (⟨3, 0, 0⟩, ETileType.Corridor, 0), (⟨2, 0, 0⟩, ETileType.Corridor_Special, 180),
            (⟨1, 0, 1⟩, ETileType.Corridor, 180)] ∧
    TilesAfter (TwoStoreyRun EDirections.North) ≠ TilesAfter (TwoStoreyRun EDirections.West) := by
  refine ⟨by decide!, by decide!, by decide!, by decide!, by decide!, by decide!, by decide!,
    by decide!, by decide!⟩

end LevelGen
